import Mathlib

/-!
# SMART+ identification library: design of experiments and input readers

Shallow embedding of `src/Libraries/Identification/doe.cpp` and
`src/Libraries/Identification/read.cpp`, followed by the tensor functions of
`src/Libraries/Continuum_Mechanics/contimech.cpp` and `kinematics.cpp` and by
the stress update of
`src/Umat/Mechanical/Elasticity/elastic_transverse_isotropic.cpp`.

Conventions of the embedding
* `double` values are exact rationals (`ℚ`): the formulas are the ones of the
  source, evaluated without rounding. The grid samplers are embedded a second
  time in the arithmetic of `double` (names ending in `_double`), every
  operation rounded to binary64 by `round64`; the claims on the exact
  endpoints and on the bounds of the samples are settled on that embedding.
* The `int` arguments `spop` and `n_param` are counts (the code raises `spop`
  to the power `n_param` and allocates that many rows); they are natural
  numbers here and `(int)pow(spop, n_param)` is the exact power, taken to fit
  in an `int`. The loop counters `pinc`, `z`, `pcol` are `Int`, as `pinc`
  takes the value `-1`.
* An armadillo `mat` is its shape together with its column-major storage.
* `params` is expected to hold at least `n_param` entries, as the loops read
  `params[j]` for every `j < n_param`; a read past the end of the vector
  (undefined in the source) yields the default bounds.
-/

namespace smart

/-- Bounds of one identification parameter: the fields `min_value` and
`max_value` of class `parameters`, the only ones read by the samplers. -/
structure parameters where
  min_value : ℚ
  max_value : ℚ
deriving DecidableEq, Inhabited

/-- Dense matrix of doubles, stored column by column as armadillo does:
entry `(i, j)` lives at position `i + j * n_rows` of `mem`. -/
structure mat where
  n_rows : Nat
  n_cols : Nat
  mem : List ℚ
deriving DecidableEq

/-- Matrix of the given shape filled with zeros (`arma::zeros`). -/
def zeros (n_rows n_cols : Nat) : mat :=
  ⟨n_rows, n_cols, List.replicate (n_rows * n_cols) 0⟩

/-- Read access `doe(i,j)`. -/
def mat.elem (m : mat) (i j : Nat) : ℚ :=
  m.mem.getD (i + j * m.n_rows) 0

/-- Write access `doe(i,j) = v`. -/
def mat.set (m : mat) (i j : Nat) (v : ℚ) : mat :=
  { m with mem := m.mem.set (i + j * m.n_rows) v }

/-- Entry `params[j]` of the parameter vector. -/
def param_at (params : List parameters) (j : Nat) : parameters :=
  params.getD j default

/-- The value written by `doe_uniform` at one row of column `j`
(source lines 56 and 58), for the current counter `pinc`. -/
def doe_uniform_value (spop : Nat) (p : parameters) (pinc : Int) : ℚ :=
  let pfactor : ℚ := (pinc : ℚ) / (((spop : Int) + 1 : Int) : ℚ)
  p.min_value + pfactor * (p.max_value - p.min_value)

/-- Counter update closing one iteration of the row loop of `doe_uniform`
(source lines 60 to 67); the state is `(pinc, z)`. -/
def doe_uniform_next (spop : Nat) (pcol : Int) (c : Int × Int) : Int × Int :=
  let pinc := c.1
  let z := c.2
  if z = pcol then
    let pinc := if pinc = (spop : Int) then 0 else pinc
    let pinc := pinc + 1
    let z := 0
    (pinc, z + 1)
  else
    (pinc, z + 1)

/-- One iteration `i` of the row loop of `doe_uniform` in column `j`. -/
def doe_uniform_row (spop : Nat) (pcol : Int) (j : Nat) (p : parameters)
    (st : mat × Int × Int) (i : Nat) : mat × Int × Int :=
  (st.1.set i j (doe_uniform_value spop p st.2.1), doe_uniform_next spop pcol st.2)

/-- One iteration `j` of the column loop of `doe_uniform`: the counters are
reset (`pcol = pow(spop,j)`, `pinc = 1`, `z = 1`) and the rows are filled. -/
def doe_uniform_col (spop n_samples : Nat) (params : List parameters)
    (doe : mat) (j : Nat) : mat :=
  let pcol : Int := ((spop ^ j : Nat) : Int)
  ((List.range n_samples).foldl
    (doe_uniform_row spop pcol j (param_at params j)) (doe, 1, 1)).1

/-- Sampler `doe_uniform` (GridInterior). -/
def doe_uniform (spop n_param : Nat) (params : List parameters) : mat :=
  let n_samples := spop ^ n_param
  let doe := zeros n_samples n_param
  (List.range n_param).foldl (doe_uniform_col spop n_samples params) doe

/-- The value written by `doe_uniform_limit` at one row of column `j`
(source lines 95 and 97), for the current counter `pinc`. -/
def doe_uniform_limit_value (spop : Nat) (p : parameters) (pinc : Int) : ℚ :=
  let pfactor : ℚ := (pinc : ℚ) / (((spop : Int) - 1 : Int) : ℚ)
  p.min_value + pfactor * (p.max_value - p.min_value)

/-- Counter update closing one iteration of the row loop of
`doe_uniform_limit` (source lines 99 to 106); the state is `(pinc, z)`. -/
def doe_uniform_limit_next (spop : Nat) (pcol : Int) (c : Int × Int) : Int × Int :=
  let pinc := c.1
  let z := c.2
  if z = pcol then
    let pinc := if pinc = (spop : Int) - 1 then -1 else pinc
    let pinc := pinc + 1
    let z := 0
    (pinc, z + 1)
  else
    (pinc, z + 1)

/-- One iteration `i` of the row loop of `doe_uniform_limit` in column `j`. -/
def doe_uniform_limit_row (spop : Nat) (pcol : Int) (j : Nat) (p : parameters)
    (st : mat × Int × Int) (i : Nat) : mat × Int × Int :=
  (st.1.set i j (doe_uniform_limit_value spop p st.2.1),
    doe_uniform_limit_next spop pcol st.2)

/-- One iteration `j` of the column loop of `doe_uniform_limit`: the counters
are reset (`pcol = pow(spop,j)`, `pinc = 0`, `z = 1`) and the rows are filled. -/
def doe_uniform_limit_col (spop n_samples : Nat) (params : List parameters)
    (doe : mat) (j : Nat) : mat :=
  let pcol : Int := ((spop ^ j : Nat) : Int)
  ((List.range n_samples).foldl
    (doe_uniform_limit_row spop pcol j (param_at params j)) (doe, 0, 1)).1

/-- Sampler `doe_uniform_limit` (GridInclusive). The result is `none` when
`assert(spop >= 2)` fails. -/
def doe_uniform_limit (spop n_param : Nat) (params : List parameters) : Option mat :=
  if 2 ≤ spop then
    let n_samples := spop ^ n_param
    let doe := zeros n_samples n_param
    some ((List.range n_param).foldl (doe_uniform_limit_col spop n_samples params) doe)
  else
    none

/-- Value of the counter `pinc` of `doe_uniform` when row `i` of column `j` is
written: the counters after `i` iterations of the row loop. -/
def doe_uniform_pinc (spop j i : Nat) : Int :=
  ((doe_uniform_next spop ((spop ^ j : Nat) : Int))^[i] (1, 1)).1

/-- Value of the counter `pinc` of `doe_uniform_limit` when row `i` of column
`j` is written: the counters after `i` iterations of the row loop. -/
def doe_uniform_limit_pinc (spop j i : Nat) : Int :=
  ((doe_uniform_limit_next spop ((spop ^ j : Nat) : Int))^[i] (0, 1)).1


/-- Rows `0 .. n-1` of column `j` overwritten with the values `v i`, in
increasing order of `i`: the writes of one pass of a row loop. -/
def fill_col (j n : Nat) (v : Nat → ℚ) (d : mat) : mat :=
  (List.range n).foldl (fun d i => d.set i j (v i)) d

/-! ## The samplers in the arithmetic of `double`

The definitions above evaluate the formulas of the samplers without rounding.
The definitions of this section round the result of every floating-point
operation of the same source lines to binary64, as the compiled code does
when no operation is fused; they decide the claims on exact endpoints and on
the bounds, where the rounding of the top level matters. The counters are the
ones of the exact definitions. -/

/-- Rounding of a rational to the nearest integer, a tie going to the even
neighbour (the rounding mode of the arithmetic of `double`). -/
def round_even (q : ℚ) : Int :=
  let n := Int.floor q
  if q - n < 1 / 2 then n
  else if 1 / 2 < q - n then n + 1
  else if n % 2 = 0 then n else n + 1

/-- Exponent of the binade of a `double` near `q`: the `e` with
`2 ^ e ≤ |q| < 2 ^ (e + 1)`, and `-1022` throughout the subnormal range. -/
def exponent64 (q : ℚ) : Int :=
  max (Int.log 2 |q|) (-1022)

/-- Value of type `double` (binary64) nearest to the rational `q`: the
multiple of `2 ^ (e - 52)` nearest to `q`, with `e` the exponent of the binade
of `q`, hence a significand of 53 bits and gradual underflow below
`2 ^ (-1022)`; ties go to the even significand. Overflow is outside the
model: a result of magnitude `2 ^ 1024` or more stands for an infinity. -/
def round64 (q : ℚ) : ℚ :=
  let ulp : ℚ := 2 ^ (exponent64 q - 52)
  (round_even (q / ulp) : ℚ) * ulp

/-- The value written by `doe_uniform` at one row of column `j` (source lines
56 and 58) in the arithmetic of `double`: the quotient, the difference, the
product and the sum are rounded in turn; the conversions of the `int` values
`pinc` and `spop+1` to `double` are exact. -/
def doe_uniform_value_double (spop : Nat) (p : parameters) (pinc : Int) : ℚ :=
  let pfactor : ℚ := round64 ((pinc : ℚ) / (((spop : Int) + 1 : Int) : ℚ))
  round64 (p.min_value + round64 (pfactor * round64 (p.max_value - p.min_value)))

/-- One iteration `i` of the row loop of `doe_uniform` in column `j`, in the
arithmetic of `double`. -/
def doe_uniform_row_double (spop : Nat) (pcol : Int) (j : Nat) (p : parameters)
    (st : mat × Int × Int) (i : Nat) : mat × Int × Int :=
  (st.1.set i j (doe_uniform_value_double spop p st.2.1), doe_uniform_next spop pcol st.2)

/-- One iteration `j` of the column loop of `doe_uniform`, in the arithmetic
of `double`. -/
def doe_uniform_col_double (spop n_samples : Nat) (params : List parameters)
    (doe : mat) (j : Nat) : mat :=
  let pcol : Int := ((spop ^ j : Nat) : Int)
  ((List.range n_samples).foldl
    (doe_uniform_row_double spop pcol j (param_at params j)) (doe, 1, 1)).1

/-- Sampler `doe_uniform` (GridInterior) in the arithmetic of `double`. -/
def doe_uniform_double (spop n_param : Nat) (params : List parameters) : mat :=
  let n_samples := spop ^ n_param
  let doe := zeros n_samples n_param
  (List.range n_param).foldl (doe_uniform_col_double spop n_samples params) doe

/-- The value written by `doe_uniform_limit` at one row of column `j` (source
lines 95 and 97) in the arithmetic of `double`: the quotient, the difference,
the product and the sum are rounded in turn; the conversions of the `int`
values `pinc` and `spop-1` to `double` are exact. -/
def doe_uniform_limit_value_double (spop : Nat) (p : parameters) (pinc : Int) : ℚ :=
  let pfactor : ℚ := round64 ((pinc : ℚ) / (((spop : Int) - 1 : Int) : ℚ))
  round64 (p.min_value + round64 (pfactor * round64 (p.max_value - p.min_value)))

/-- One iteration `i` of the row loop of `doe_uniform_limit` in column `j`, in
the arithmetic of `double`. -/
def doe_uniform_limit_row_double (spop : Nat) (pcol : Int) (j : Nat) (p : parameters)
    (st : mat × Int × Int) (i : Nat) : mat × Int × Int :=
  (st.1.set i j (doe_uniform_limit_value_double spop p st.2.1),
    doe_uniform_limit_next spop pcol st.2)

/-- One iteration `j` of the column loop of `doe_uniform_limit`, in the
arithmetic of `double`. -/
def doe_uniform_limit_col_double (spop n_samples : Nat) (params : List parameters)
    (doe : mat) (j : Nat) : mat :=
  let pcol : Int := ((spop ^ j : Nat) : Int)
  ((List.range n_samples).foldl
    (doe_uniform_limit_row_double spop pcol j (param_at params j)) (doe, 0, 1)).1

/-- Sampler `doe_uniform_limit` (GridInclusive) in the arithmetic of `double`.
The result is `none` when `assert(spop >= 2)` fails. -/
def doe_uniform_limit_double (spop n_param : Nat) (params : List parameters) : Option mat :=
  if 2 ≤ spop then
    let n_samples := spop ^ n_param
    let doe := zeros n_samples n_param
    some ((List.range n_param).foldl (doe_uniform_limit_col_double spop n_samples params) doe)
  else
    none

/-! ## Random sampler

`alead(min, max)` (library `Maths/random`) draws one number and advances a
hidden generator. It is a parameter of the embedding: a function from the
two bounds and the generator state to the draw and the next state. -/

/-- One iteration `i` of the row loop of `doe_random` in column `j`
(source line 118): one draw with the bounds of parameter `j`. -/
def doe_random_row {σ : Type} (alead : ℚ → ℚ → σ → ℚ × σ) (j : Nat) (p : parameters)
    (st : mat × σ) (i : Nat) : mat × σ :=
  let r := alead p.min_value p.max_value st.2
  (st.1.set i j r.1, r.2)

/-- One iteration `j` of the column loop of `doe_random`. -/
def doe_random_col {σ : Type} (alead : ℚ → ℚ → σ → ℚ × σ) (n_samples : Nat)
    (params : List parameters) (st : mat × σ) (j : Nat) : mat × σ :=
  (List.range n_samples).foldl (doe_random_row alead j (param_at params j)) st

/-- Sampler `doe_random` (Random): the matrix and the generator state left
behind, from the generator state `g` on entry. -/
def doe_random {σ : Type} (alead : ℚ → ℚ → σ → ℚ × σ) (g : σ) (n_samples n_param : Nat)
    (params : List parameters) : mat × σ :=
  let doe := zeros n_samples n_param
  (List.range n_param).foldl (doe_random_col alead n_samples params) (doe, g)

/-- Generator state of `doe_random` when the column loop reaches column `j`:
every earlier column `c` has made `n_samples` draws with the bounds of `c`. -/
def doe_random_seed {σ : Type} (alead : ℚ → ℚ → σ → ℚ × σ) (g : σ) (n_samples : Nat)
    (params : List parameters) : Nat → σ
  | 0 => g
  | j + 1 =>
    (fun s => (alead (param_at params j).min_value (param_at params j).max_value s).2)^[n_samples]
      (doe_random_seed alead g n_samples params j)

/-- Generator state of `doe_random` just before entry `(i, j)` is drawn. -/
def doe_random_state {σ : Type} (alead : ℚ → ℚ → σ → ℚ × σ) (g : σ) (n_samples : Nat)
    (params : List parameters) (i j : Nat) : σ :=
  (fun s => (alead (param_at params j).min_value (param_at params j).max_value s).2)^[i]
    (doe_random_seed alead g n_samples params j)


/-! ## Input files

The readers of `read.cpp` use `std::ifstream`: `getline` for whole lines and
formatted extraction `>>` for white-space separated tokens. A file is the
list of its lines; a token is classified by what extraction makes of it.
Extraction consumes a token whole; an `int` is extracted from integer
literals only (a partial match such as `1` out of `1.5` is not modelled).
String values are not recorded, only the position in the stream. -/

/-- A white-space delimited token of an input file. -/
inductive token where
  | int (n : Int)
  | real (v : ℚ)
  | word
deriving DecidableEq

/-- One line of a text file: its tokens, and whether it holds white space
characters (which matters only for a line without tokens). -/
structure line where
  tokens : List token
  spaces : Bool
deriving DecidableEq

/-- The line is the empty string (`buffer == ""` after `getline`). -/
def line.is_empty (l : line) : Bool :=
  l.tokens.isEmpty && !l.spaces

/-- The tokens of a file, in reading order. -/
def file_tokens (f : List line) : List token :=
  (f.map line.tokens).flatten

/-- State of an input stream: the tokens not yet read and the fail bit. -/
structure ifstream where
  rest : List token
  failbit : Bool
deriving DecidableEq

/-- A freshly opened stream on a file. -/
def ifstream_open (f : List line) : ifstream :=
  ⟨file_tokens f, false⟩

/-- Extraction `paraminit >> buffer` of a string. -/
def ifstream.get_string (s : ifstream) : ifstream :=
  if s.failbit then s
  else
    match s.rest with
    | [] => { s with failbit := true }
    | _ :: ts => { s with rest := ts }

/-- Extraction `paraminit >> x` of a `double` variable holding `old`: the new
value of the variable and the stream. A failed stream leaves the variable
alone; a token that is not a number stores zero and sets the fail bit. -/
def ifstream.get_double (s : ifstream) (old : ℚ) : ℚ × ifstream :=
  if s.failbit then (old, s)
  else
    match s.rest with
    | [] => (old, { s with failbit := true })
    | token.int n :: ts => ((n : ℚ), { s with rest := ts })
    | token.real v :: ts => (v, { s with rest := ts })
    | token.word :: _ => (0, { s with failbit := true })

/-- Extraction `paraminit >> x` of an `int` variable holding `old`. -/
def ifstream.get_int (s : ifstream) (old : Int) : Int × ifstream :=
  if s.failbit then (old, s)
  else
    match s.rest with
    | [] => (old, { s with failbit := true })
    | token.int n :: ts => (n, { s with rest := ts })
    | _ :: _ => (0, { s with failbit := true })

/-- Ways in which a call stops the program instead of returning. -/
inductive abort where
  | exited
  | assert_failed
  | bad_alloc
deriving DecidableEq

/-- Armadillo `resize`: the new shape, the elements common to both shapes
kept in place, zeros elsewhere. -/
def mat.resize (m : mat) (n_rows n_cols : Nat) : mat :=
  ⟨n_rows, n_cols, (List.range (n_rows * n_cols)).map (fun idx =>
    if idx % n_rows < m.n_rows ∧ idx / n_rows < m.n_cols
    then m.elem (idx % n_rows) (idx / n_rows) else 0)⟩

/-- One iteration `j` of the value loop of `read_gen` (source line 356). -/
def read_gen_value (i : Nat) (st : mat × ifstream) (j : Nat) : mat × ifstream :=
  let r := st.2.get_double (st.1.elem i j)
  (st.1.set i j r.1, r.2)

/-- One iteration `i` of the row loop of `read_gen` (source lines 354 to 357):
three tokens are skipped, then `n_param` values are read. -/
def read_gen_row (n_param : Nat) (st : mat × ifstream) (i : Nat) : mat × ifstream :=
  let s := st.2.get_string.get_string.get_string
  (List.range n_param).foldl (read_gen_value i) (st.1, s)

/-- Number of non-empty lines of the file, as counted by the `getline` loop
of `read_gen` (source lines 334 to 342). -/
def read_gen_count (f : List line) : Nat :=
  f.foldl (fun apop l => if l.is_empty then apop else apop + 1) 0

/-- The stream of `read_gen` after the header (source lines 347 to 351). -/
def read_gen_header (f : List line) (n_param : Nat) : ifstream :=
  let s := (ifstream_open f).get_string.get_string.get_string
  (List.range n_param).foldl (fun s _ => s.get_string) s

/-- Reader `read_gen` of `data/gen0.inp` (`gen0 = none` when the file cannot be
opened): the new `apop` and the matrix `samples`. The count of non-empty lines
minus one is the number of rows; without any non-empty line this is `-1` and
the matrix cannot be allocated. -/
def read_gen (gen0 : Option (List line)) (samples : mat) (n_param : Nat) :
    Except abort (Nat × mat) :=
  match gen0 with
  | none => Except.error abort.exited
  | some f =>
    let apop := read_gen_count f
    if apop = 0 then Except.error abort.bad_alloc
    else
      let apop := apop - 1
      let samples := samples.resize apop n_param
      let s := read_gen_header f n_param
      Except.ok (apop, ((List.range apop).foldl (read_gen_row n_param) (samples, s)).1)

/-! ## Generations -/

/-- Modelled from the spec: class `individual` (its header is not among the
sources), a candidate with its parameter vector `p`, its cost `cout` and its
identifier `id`. -/
structure individual where
  p : List ℚ
  cout : ℚ
  id : Int
deriving DecidableEq, Inhabited

/-- Class `generation`: the fields `nindividuals` and `pop`. -/
structure generation where
  nindividuals : Nat
  pop : List individual
deriving DecidableEq

/-- Read access `pop[i].p(j)`. -/
def generation.p_at (g : generation) (i j : Nat) : ℚ :=
  (g.pop.getD i default).p.getD j 0

/-- Write access `pop[i].p(j) = v`. -/
def generation.set_p (g : generation) (i j : Nat) (v : ℚ) : generation :=
  let ind := g.pop.getD i default
  { g with pop := g.pop.set i { ind with p := ind.p.set j v } }

/-- Modelled from the spec: `generation::construct(n_param, idnumber)` (its
body is not among the sources) allocates `nindividuals` candidates and
assigns each a fresh id from the shared counter, which it advances. -/
def generation.construct (g : generation) (n_param : Nat) (idnumber : Int) :
    generation × Int :=
  let pop := (List.range g.nindividuals).map
    (fun (k : Nat) => individual.mk (List.replicate n_param 0) 0 (idnumber + (k : Int)))
  ({ g with pop := pop }, idnumber + (g.nindividuals : Int))

/-- The copy loops closing each branch of `gen_initialize` (for instance
source lines 136 to 140): `pop[i].p(j) = samples(i,j)`. -/
def gen_fill (n_param : Nat) (samples : mat) (geninit : generation) : generation :=
  (List.range n_param).foldl (fun g j =>
    (List.range g.nindividuals).foldl (fun g i => g.set_p i j (samples.elem i j)) g) geninit

/-- The variables that `gen_initialize` receives by reference, together with
the state of the random generator. -/
structure gen_vars (σ : Type) where
  geninit : generation
  spop : Nat
  apop : Nat
  idnumber : Int
  rng : σ

/-- Branch `aleaspace == 0` of `gen_initialize` (source lines 129 to 140). -/
def gen_branch_uniform {σ : Type} (construct : generation → Nat → Int → generation × Int)
    (v : gen_vars σ) (n_param : Nat) (params : List parameters) : gen_vars σ :=
  let geninit := { v.geninit with nindividuals := v.spop ^ n_param }
  let c := construct geninit n_param v.idnumber
  let samples := doe_uniform v.spop n_param params
  { v with geninit := gen_fill n_param samples c.1, idnumber := c.2 }

/-- Branch `aleaspace == 1` of `gen_initialize` (source lines 145 to 156). -/
def gen_branch_limit {σ : Type} (construct : generation → Nat → Int → generation × Int)
    (v : gen_vars σ) (n_param : Nat) (params : List parameters) : Except abort (gen_vars σ) :=
  let geninit := { v.geninit with nindividuals := v.spop ^ n_param }
  let c := construct geninit n_param v.idnumber
  match doe_uniform_limit v.spop n_param params with
  | none => Except.error abort.assert_failed
  | some samples =>
    Except.ok { v with geninit := gen_fill n_param samples c.1, idnumber := c.2 }

/-- Branch `aleaspace == 2` of `gen_initialize` (source lines 160 to 171). -/
def gen_branch_random {σ : Type} (construct : generation → Nat → Int → generation × Int)
    (alead : ℚ → ℚ → σ → ℚ × σ)
    (v : gen_vars σ) (n_param : Nat) (params : List parameters) : gen_vars σ :=
  let geninit := { v.geninit with nindividuals := v.apop }
  let c := construct geninit n_param v.idnumber
  let r := doe_random alead v.rng c.1.nindividuals n_param params
  { v with geninit := gen_fill n_param r.1 c.1, idnumber := c.2, rng := r.2 }

/-- Branch `aleaspace == 3` of `gen_initialize` (source lines 175 to 184);
`samples` starts as an empty matrix. -/
def gen_branch_file {σ : Type} (construct : generation → Nat → Int → generation × Int)
    (gen0 : Option (List line))
    (v : gen_vars σ) (n_param : Nat) : Except abort (gen_vars σ) :=
  match read_gen gen0 ⟨0, 0, []⟩ n_param with
  | Except.error e => Except.error e
  | Except.ok r =>
    let geninit := { v.geninit with nindividuals := r.1 }
    let c := construct geninit n_param v.idnumber
    Except.ok { v with apop := r.1, geninit := gen_fill n_param r.2 c.1, idnumber := c.2 }

/-- Function `gen_initialize`: a first `if (aleaspace == 0)` statement, followed
by the chain `if (aleaspace == 1) .. else if (aleaspace == 2) .. else if
(aleaspace == 3)`. `construct` stands for `generation::construct`, `alead` for
the random draw and `gen0` for the contents of `data/gen0.inp`. -/
def gen_initialize {σ : Type} (construct : generation → Nat → Int → generation × Int)
    (alead : ℚ → ℚ → σ → ℚ × σ) (gen0 : Option (List line))
    (v : gen_vars σ) (aleaspace : Int) (n_param : Nat) (params : List parameters) :
    Except abort (gen_vars σ) :=
  let v1 := if aleaspace = 0 then gen_branch_uniform construct v n_param params else v
  if aleaspace = 1 then gen_branch_limit construct v1 n_param params
  else if aleaspace = 2 then Except.ok (gen_branch_random construct alead v1 n_param params)
  else if aleaspace = 3 then gen_branch_file construct gen0 v1 n_param
  else Except.ok v1

/-- The dispatch of `gen_initialize` as the spec words it: a clean four-way
discriminated choice on the mode, any other value leaving everything as it is. -/
def gen_initialize_switch {σ : Type} (construct : generation → Nat → Int → generation × Int)
    (alead : ℚ → ℚ → σ → ℚ × σ) (gen0 : Option (List line))
    (v : gen_vars σ) (aleaspace : Int) (n_param : Nat) (params : List parameters) :
    Except abort (gen_vars σ) :=
  match aleaspace with
  | 0 => Except.ok (gen_branch_uniform construct v n_param params)
  | 1 => gen_branch_limit construct v n_param params
  | 2 => Except.ok (gen_branch_random construct alead v n_param params)
  | 3 => gen_branch_file construct gen0 v n_param
  | _ => Except.ok v


/-- The population is allocated: `pop` holds `nindividuals` candidates, each
with a parameter vector of length `n_param`. -/
def generation.allocated (g : generation) (n_param : Nat) : Prop :=
  g.pop.length = g.nindividuals ∧
    ∀ i, i < g.nindividuals → (g.pop.getD i default).p.length = n_param


/-- The number a token stands for, if it is a numeric literal. -/
def token.value : token → Option ℚ
  | token.int n => some (n : ℚ)
  | token.real v => some v
  | token.word => none

/-- The matrix has as many stored entries as its shape says. -/
def mat.wf (m : mat) : Prop :=
  m.mem.length = m.n_rows * m.n_cols


/-- A data row in the layout that `read_gen` reads: three leading tokens
followed by `n_param` numeric literals. -/
def row_layout (n_param : Nat) (l : line) : Prop :=
  l.tokens.length = 3 + n_param ∧ ∀ t ∈ l.tokens.drop 3, t.value ≠ none


/-! ## Descriptors of the data files -/

/-- Modelled from the spec: class `opti_data` (its header is not among the
sources), the descriptor of one data file with its total column count
`ncolumns`, the number `ninfo` of selected columns and their indices `c_data`.
The name of the file is a string and is not recorded. -/
structure opti_data where
  number : Int
  ndata : Int
  ninfo : Int
  ncolumns : Int
  c_data : List Int
deriving DecidableEq, Inhabited

/-- Read access `datas[i].c_data(j)`. -/
def c_data_at (datas : List opti_data) (i j : Nat) : Int :=
  (datas.getD i default).c_data.getD j 0

/-- Write access `datas[i].c_data(j) = x`. -/
def c_data_set (datas : List opti_data) (i j : Nat) (x : Int) : List opti_data :=
  let d := datas.getD i default
  datas.set i { d with c_data := d.c_data.set j x }

/-- Resizing of a `std::vector`: the first `n` elements are kept, new elements
are default-constructed. -/
def vector_resize {α : Type} [Inhabited α] (v : List α) (n : Nat) : List α :=
  v.take n ++ List.replicate (n - v.length) default

/-- One selected column index is read and checked (`read_data_exp`, source
lines 148 to 150; the same three lines close `read_data_weights`). -/
def read_c_data (st : List opti_data × ifstream) (i j : Nat) :
    Except abort (List opti_data × ifstream) :=
  let r := st.2.get_int (c_data_at st.1 i j)
  let datas := c_data_set st.1 i j r.1
  if ¬ (c_data_at datas i j > 0) then Except.error abort.assert_failed
  else if ¬ (c_data_at datas i j ≤ (datas.getD i default).ncolumns) then
    Except.error abort.assert_failed
  else Except.ok (datas, r.2)

/-- The loops reading the selected columns of every file (`read_data_exp`,
source lines 146 to 152). -/
def read_c_data_all (nfiles : Nat) (st : List opti_data × ifstream) :
    Except abort (List opti_data × ifstream) :=
  (List.range nfiles).foldlM (fun st i =>
    (List.range (st.1.getD i default).ninfo.toNat).foldlM (fun st j => read_c_data st i j) st) st

/-- Reader `read_data_exp` of `data/files_exp.inp` (`file = none` when it
cannot be opened). `constructc_data` stands for the member function of that
name, whose body is not among the sources. -/
def read_data_exp (constructc_data : opti_data → opti_data) (file : Option (List line))
    (nfiles : Nat) (datas : List opti_data) : Except abort (List opti_data) :=
  match file with
  | none => Except.error abort.exited
  | some f =>
    let s := ifstream_open f
    let datas := vector_resize datas nfiles
    let s := s.get_string
    let s := (List.range nfiles).foldl (fun s _ => s.get_string) s
    let s := s.get_string
    let st := (List.range nfiles).foldl (fun (st : List opti_data × ifstream) i =>
      let d := st.1.getD i default
      let r := st.2.get_int d.ncolumns
      (st.1.set i { d with ncolumns := r.1 }, r.2)) (datas, s)
    let s := st.2.get_string
    let st := (List.range nfiles).foldl (fun (st : List opti_data × ifstream) i =>
      let d := st.1.getD i default
      let r := st.2.get_int d.ninfo
      (st.1.set i (constructc_data { d with ninfo := r.1 }), r.2)) (st.1, s)
    let s := st.2.get_string
    (read_c_data_all nfiles (st.1, s)).map Prod.fst


/-- Armadillo `resize` of a vector: the first `n` entries are kept, new
entries are zero. -/
def vec_resize (v : List ℚ) (n : Nat) : List ℚ :=
  v.take n ++ List.replicate (n - v.length) 0

/-- The variables that `read_data_weights` fills, together with its stream. -/
structure weights_vars where
  weight_types : List Int
  weights_file : List ℚ
  weights_cols : List (List ℚ)
  weights : List opti_data
  paraminit : ifstream

/-- The descriptors `weights` after the copy loop of `read_data_weights`
(source lines 166 to 174). -/
def read_weights_init (constructc_data : opti_data → opti_data) (nfiles : Nat)
    (weights data_exp : List opti_data) : List opti_data :=
  (List.range nfiles).foldl (fun w i =>
    let e := data_exp.getD i default
    let d := w.getD i default
    w.set i (constructc_data
      { d with number := e.number, ndata := e.ndata, ninfo := e.ninfo, ncolumns := e.ncolumns }))
    (vector_resize weights nfiles)

/-- Value of the selector `weight_types(k)` right after its extraction
(`paraminit >> buffer >> buffer >> weight_types(k)`), from the variables at
the start of the block. -/
def read_weights_selector (k : Nat) (v : weights_vars) : Int :=
  (v.weight_types.set k
    (v.paraminit.get_string.get_string.get_int (v.weight_types.getD k 0)).1).getD k 0

/-- Weight type 1, one weight per data file (source lines 177 to 191). -/
def read_weights_type1 (nfiles : Nat) (v : weights_vars) : Except abort weights_vars :=
  let r := v.paraminit.get_string.get_string.get_int (v.weight_types.getD 0 0)
  let weight_types := v.weight_types.set 0 r.1
  if weight_types.getD 0 0 = 0 then
    Except.ok { v with weight_types := weight_types, paraminit := r.2.get_string }
  else if weight_types.getD 0 0 = 1 then
    let s := r.2.get_string
    let weights_file := vec_resize v.weights_file nfiles
    let st := (List.range nfiles).foldl (fun (st : List ℚ × ifstream) i =>
      let q := st.2.get_double (st.1.getD i 0)
      (st.1.set i q.1, q.2)) (weights_file, s)
    Except.ok { v with weight_types := weight_types, weights_file := st.1, paraminit := st.2 }
  else Except.error abort.exited

/-- The weights of the selected columns of file `i` (source lines 205 to 208);
a negative `ninfo` cannot be allocated. -/
def read_weights_cols (weights : List opti_data) (st : List (List ℚ) × ifstream) (i : Nat) :
    Except abort (List (List ℚ) × ifstream) :=
  let ninfo := (weights.getD i default).ninfo
  if ninfo < 0 then Except.error abort.bad_alloc
  else
    let cols := vec_resize (st.1.getD i []) ninfo.toNat
    let r := (List.range ninfo.toNat).foldl (fun (c : List ℚ × ifstream) j =>
      let q := c.2.get_double (c.1.getD j 0)
      (c.1.set j q.1, q.2)) (cols, st.2)
    Except.ok (st.1.set i r.1, r.2)

/-- Weight type 2, one weight per data column (source lines 194 to 214). -/
def read_weights_type2 (nfiles : Nat) (v : weights_vars) : Except abort weights_vars :=
  let r := v.paraminit.get_string.get_string.get_int (v.weight_types.getD 1 0)
  let weight_types := v.weight_types.set 1 r.1
  if weight_types.getD 1 0 = 0 then
    Except.ok { v with weight_types := weight_types, paraminit := r.2.get_string }
  else if weight_types.getD 1 0 = 1 then
    Except.ok { v with weight_types := weight_types, paraminit := r.2.get_string }
  else if weight_types.getD 1 0 = 2 ∨ weight_types.getD 1 0 = 3 then
    match (List.range nfiles).foldlM (read_weights_cols v.weights)
        (v.weights_cols, r.2.get_string) with
    | Except.error e => Except.error e
    | Except.ok st =>
      Except.ok { v with weight_types := weight_types, weights_cols := st.1, paraminit := st.2 }
  else Except.error abort.exited

/-- Weight type 3, one weight per data point (source lines 217 to 234). -/
def read_weights_type3 (nfiles : Nat) (v : weights_vars) : Except abort weights_vars :=
  let r := v.paraminit.get_string.get_string.get_int (v.weight_types.getD 2 0)
  let weight_types := v.weight_types.set 2 r.1
  if weight_types.getD 2 0 = 0 then
    Except.ok { v with weight_types := weight_types, paraminit := r.2.get_string }
  else if weight_types.getD 2 0 = 1 then
    match read_c_data_all nfiles (v.weights, r.2.get_string) with
    | Except.error e => Except.error e
    | Except.ok st =>
      Except.ok { v with weight_types := weight_types, weights := st.1, paraminit := st.2 }
  else Except.error abort.exited

/-- The variables of `read_data_weights` once the file is opened and the
descriptors are copied (source lines 160 to 174). -/
def read_weights_start (constructc_data : opti_data → opti_data) (f : List line)
    (nfiles : Nat) (weight_types : List Int) (weights_file : List ℚ)
    (weights_cols : List (List ℚ)) (weights data_exp : List opti_data) : weights_vars :=
  ⟨weight_types, weights_file, weights_cols,
    read_weights_init constructc_data nfiles weights data_exp, ifstream_open f⟩

/-- Reader `read_data_weights` of `data/files_weights.inp` (`file = none` when
it cannot be opened). -/
def read_data_weights (constructc_data : opti_data → opti_data) (file : Option (List line))
    (nfiles : Nat) (weight_types : List Int) (weights_file : List ℚ)
    (weights_cols : List (List ℚ)) (weights data_exp : List opti_data) :
    Except abort weights_vars :=
  match file with
  | none => Except.error abort.exited
  | some f =>
    let v := read_weights_start constructc_data f nfiles weight_types weights_file
      weights_cols weights data_exp
    match read_weights_type1 nfiles v with
    | Except.error e => Except.error e
    | Except.ok v1 =>
      match read_weights_type2 nfiles v1 with
      | Except.error e => Except.error e
      | Except.ok v2 => read_weights_type3 nfiles v2


/-! ## The registry of parameters -/

/-- Class `parameters` as `read_parameters` fills it: the bounds, the
identification number and the number of input files. The key and the names of
the input files are strings and are not recorded. -/
structure parameters_record extends parameters where
  number : Int
  ninput_files : Int
deriving DecidableEq, Inhabited

/-- First pass of `read_parameters` over entry `i` (source lines 48 to 52):
the number of input files is read and the file names are skipped. A negative
number of files cannot be allocated by `input_files.resize`. -/
def read_parameters_count (st : List parameters_record × ifstream) (i : Nat) :
    Except abort (List parameters_record × ifstream) :=
  let p := st.1.getD i default
  let r := st.2.get_string.get_string.get_string.get_string.get_int p.ninput_files
  if r.1 < 0 then Except.error abort.bad_alloc
  else
    let s := (List.range r.1.toNat).foldl (fun (s : ifstream) _ => s.get_string) r.2
    Except.ok (st.1.set i { p with ninput_files := r.1 }, s)

/-- Second pass of `read_parameters` over entry `i` (source lines 65 to 68):
number, lower bound and upper bound are read, the key, the file count and the
file names are skipped. -/
def read_parameters_values (st : List parameters_record × ifstream) (i : Nat) :
    List parameters_record × ifstream :=
  let p := st.1.getD i default
  let r1 := st.2.get_int p.number
  let r2 := r1.2.get_double p.min_value
  let r3 := r2.2.get_double p.max_value
  let s := r3.2.get_string.get_string
  let s := (List.range p.ninput_files.toNat).foldl (fun (s : ifstream) _ => s.get_string) s
  (st.1.set i { p with number := r1.1, min_value := r2.1, max_value := r3.1 }, s)

/-- The stream of `read_parameters` after the six tokens of the header line
(source lines 46 and 63). -/
def read_parameters_header (f : List line) : ifstream :=
  (ifstream_open f).get_string.get_string.get_string.get_string.get_string.get_string

/-- Reader `read_parameters` of `data/parameters.inp` (`file = none` when it
cannot be opened): the vector `params` after the two passes. -/
def read_parameters (file : Option (List line)) (n_param : Nat)
    (params : List parameters_record) : Except abort (List parameters_record) :=
  match file with
  | none => Except.error abort.exited
  | some f =>
    match (List.range n_param).foldlM read_parameters_count
        (params, read_parameters_header f) with
    | Except.error e => Except.error e
    | Except.ok st =>
      Except.ok ((List.range n_param).foldl read_parameters_values
        (st.1, read_parameters_header f)).1

/-- An entry of `parameters.inp` in the layout that `read_parameters` reads:
number, lower bound `mn`, upper bound `mx`, key, number `k` of input files and
the `k` file names. -/
def entry_layout (e : List token) (mn mx : ℚ) (k : Nat) : Prop :=
  ∃ number tmin tmax key files,
    e = token.int number :: tmin :: tmax :: key :: token.int (k : Int) :: files ∧
    tmin.value = some mn ∧ tmax.value = some mx ∧ files.length = k


/-! ## Continuum mechanics: Voigt vectors, deviators and invariants

Shallow embedding of `src/Libraries/Continuum_Mechanics/contimech.cpp` and of
`Inv_X` of `src/Libraries/Continuum_Mechanics/kinematics.cpp`.

* An armadillo `vec` is the list of its entries; `v(i)` is `v.getD i 0`.
* A function that begins with `assert(v.size()==6)` returns `none` when the
  assertion fails.
* `1./3.`, `3./2.`, `2./3.` and `0.5` are the exact fractions.
* `sqrt`, `cos` and `sin` of the C library are parameters of the models, with
  values in an ordered field `K`, as their values are not rational in
  general; the theorems take `sqrt` under the contract `is_sqrt` and their
  instances take the functions of the real numbers.
* The arithmetic is exact; `normal_ellipsoid` is embedded a second time in the
  arithmetic of `double`, where the square of a small semi-axis underflows. -/

/-- Armadillo `sum(v)`: the sum of the entries of a vector. -/
def arma_sum (v : List ℚ) : ℚ := v.sum

/-- Armadillo `a % b` on vectors: the entry-wise product. -/
def vec_schur (a b : List ℚ) : List ℚ := List.zipWith (fun x y => x * y) a b

/-- Armadillo `A % B` on matrices: the entry-wise product. -/
def mat.schur (a b : mat) : mat :=
  ⟨a.n_rows, a.n_cols, List.zipWith (fun x y => x * y) a.mem b.mem⟩

/-- Armadillo `A * B`: entry `(i, j)` is the sum over `k` of `A(i,k) * B(k,j)`. -/
def mat.mul (a b : mat) : mat :=
  ⟨a.n_rows, b.n_cols,
    (List.range (a.n_rows * b.n_cols)).map (fun t =>
      ((List.range a.n_cols).map
        (fun k => a.elem (t % a.n_rows) k * b.elem k (t / a.n_rows))).sum)⟩

/-- Armadillo `accu(A)`: the sum of all the entries of a matrix. -/
def accu (a : mat) : ℚ := a.mem.sum

/-- Armadillo `trace(A)`: the sum of the diagonal entries. -/
def trace (a : mat) : ℚ := ((List.range a.n_rows).map (fun i => a.elem i i)).sum

/-- Armadillo `det(A)` for a 3x3 matrix, the shape of the tensors of the
library: the expansion along the first row. -/
def det (a : mat) : ℚ :=
  a.elem 0 0 * (a.elem 1 1 * a.elem 2 2 - a.elem 1 2 * a.elem 2 1)
    - a.elem 0 1 * (a.elem 1 0 * a.elem 2 2 - a.elem 1 2 * a.elem 2 0)
    + a.elem 0 2 * (a.elem 1 0 * a.elem 2 1 - a.elem 1 1 * a.elem 2 0)

/-- Trace `tr(v)` of a tensor written as a Voigt vector. -/
def tr (v : List ℚ) : Option ℚ :=
  if v.length = 6 then some (v.getD 0 0 + v.getD 1 0 + v.getD 2 0) else none

/-- Deviatoric part `dev(v)` of a Voigt vector: the two loops write the six
entries of the fresh vector `vdev(6)`. -/
def dev (v : List ℚ) : Option (List ℚ) :=
  if v.length = 6 then
    let vdev : List ℚ := List.replicate 6 0
    let sph : ℚ := (1 / 3) * (v.getD 0 0 + v.getD 1 0 + v.getD 2 0)
    let vdev := (List.range' 0 3).foldl (fun w i => w.set i (v.getD i 0 - sph)) vdev
    let vdev := (List.range' 3 3).foldl (fun w i => w.set i (v.getD i 0)) vdev
    some vdev
  else none

/-- The loop `for (int i=3; i<6; i++) vdev2(i) = c*vdev2(i);` found in
`Mises_stress`, `Mises_strain`, `J2_stress`, `J2_strain` and the flow
directions, with `c = 2.` for stresses and `c = 0.5` for strains. -/
def scale_shear (c : ℚ) (vdev2 : List ℚ) : List ℚ :=
  (List.range' 3 3).foldl (fun w i => w.set i (c * w.getD i 0)) vdev2

/-- Contract of the C library's `sqrt`, for a function on an ordered field `K`
in which the square roots exist (the real numbers): the value at a
non-negative argument is its non-negative square root. -/
def is_sqrt {K : Type} [LinearOrderedField K] (sqrt : K → K) : Prop :=
  ∀ x, 0 ≤ x → 0 ≤ sqrt x ∧ sqrt x * sqrt x = x

/-- Division `a / b` as a partial operation: there is no result when the
divisor is zero (the division of doubles then yields an infinity or a NaN). -/
def div_checked {K : Type} [LinearOrderedField K] (a b : K) : Option K :=
  if b = 0 then none else some (a / b)

/-- Mises equivalent `Mises_stress(v)` of a stress Voigt vector. The radicand
is a rational number; its square root lives in `K`. -/
def Mises_stress {K : Type} [LinearOrderedField K] (sqrt : K → K) (v : List ℚ) : Option K :=
  if v.length = 6 then
    (dev v).map (fun vdev =>
      let vdev2 := scale_shear 2 vdev
      sqrt ((3 / 2 * arma_sum (vec_schur vdev vdev2) : ℚ) : K))
  else none

/-- Mises equivalent `Mises_strain(v)` of a strain Voigt vector. -/
def Mises_strain {K : Type} [LinearOrderedField K] (sqrt : K → K) (v : List ℚ) : Option K :=
  if v.length = 6 then
    (dev v).map (fun vdev =>
      let vdev2 := scale_shear (1 / 2) vdev
      sqrt ((2 / 3 * arma_sum (vec_schur vdev vdev2) : ℚ) : K))
  else none

/-- Strain Voigt vector to 3x3 strain matrix, `v2t_strain(v)`. -/
def v2t_strain (v : List ℚ) : Option mat :=
  if v.length = 6 then
    some ((List.range' 0 3).foldl (fun strain i =>
      (List.range' (i + 1) (3 - (i + 1))).foldl (fun strain j =>
        (strain.set i j (1 / 2 * v.getD (i + j + 2) 0)).set j i
          (1 / 2 * v.getD (i + j + 2) 0))
        (strain.set i i (v.getD i 0))) (zeros 3 3))
  else none

/-- Stress Voigt vector to 3x3 stress matrix, `v2t_stress(v)`. -/
def v2t_stress (v : List ℚ) : Option mat :=
  if v.length = 6 then
    some ((List.range' 0 3).foldl (fun stress i =>
      (List.range' (i + 1) (3 - (i + 1))).foldl (fun stress j =>
        (stress.set i j (v.getD (i + j + 2) 0)).set j i (v.getD (i + j + 2) 0))
        (stress.set i i (v.getD i 0))) (zeros 3 3))
  else none

/-- Second invariant `J2_stress(v)` of the deviatoric part of a stress. -/
def J2_stress (v : List ℚ) : Option ℚ :=
  if v.length = 6 then
    (dev v).map (fun vdev =>
      let vdev2 := scale_shear 2 vdev
      1 / 2 * arma_sum (vec_schur vdev vdev2))
  else none

/-- Second invariant `J2_strain(v)` of the deviatoric part of a strain. -/
def J2_strain (v : List ℚ) : Option ℚ :=
  if v.length = 6 then
    (dev v).map (fun vdev =>
      let vdev2 := scale_shear (1 / 2) vdev
      1 / 2 * arma_sum (vec_schur vdev vdev2))
  else none

/-- Third invariant `J3_stress(v)` of the deviatoric part of a stress. -/
def J3_stress (v : List ℚ) : Option ℚ :=
  (dev v).bind (fun vdev =>
    (v2t_stress vdev).map (fun mat1 => (1 / 3) * accu (mat1.schur (mat1.mul mat1))))

/-- Third invariant `J3_strain(v)` of the deviatoric part of a strain. -/
def J3_strain (v : List ℚ) : Option ℚ :=
  (dev v).bind (fun vdev =>
    (v2t_strain vdev).map (fun mat1 => (1 / 3) * accu (mat1.schur (mat1.mul mat1))))

/-- Armadillo `norm(x, 2)`: the square root of the sum of the squares. -/
def norm2 {K : Type} [LinearOrderedField K] (sqrt : K → K) (x : List K) : K :=
  sqrt (x.map (fun c => c * c)).sum

/-- Unit normal `normal_ellipsoid(u, v, a1, a2, a3)` to an ellipsoid, over an
ordered field `K` that holds the values of `sqrt`, `cos` and `sin`. The three
divisions by the squares of the semi-axes and the three divisions by the norm
are partial: the call has no result (`none`) when a divisor is zero. -/
def normal_ellipsoid {K : Type} [LinearOrderedField K] (sqrt cos sin : K → K)
    (u v a1 a2 a3 : K) : Option (List K) :=
  let normal : List K := List.replicate 3 0
  let x0 := a1 * cos u * sin v
  let y0 := a2 * sin u * sin v
  let z0 := a3 * cos v
  (div_checked x0 (a1 * a1)).bind (fun n0 =>
    (div_checked y0 (a2 * a2)).bind (fun n1 =>
      (div_checked z0 (a3 * a3)).bind (fun n2 =>
        let normal := ((normal.set 0 n0).set 1 n1).set 2 n2
        let norme := norm2 sqrt normal
        (List.range' 0 3).foldlM
          (fun w i => (div_checked (w.getD i 0) norme).map (fun q => w.set i q)) normal)))

/-- Unit normal `normal_ellipsoid(u, v, a1, a2, a3)` in the arithmetic of
`double`: every product and quotient of the source is rounded to binary64.
`cos`, `sin` and armadillo's `norm(normal, 2)` are parameters, functions on
`double` values. A division by zero, which yields an infinity or a NaN in
the source, leaves the call without a vector (`none`). -/
def normal_ellipsoid_double (cos sin : ℚ → ℚ) (norm : List ℚ → ℚ) (u v a1 a2 a3 : ℚ) :
    Option (List ℚ) :=
  let normal : List ℚ := List.replicate 3 0
  let x0 := round64 (round64 (a1 * cos u) * sin v)
  let y0 := round64 (round64 (a2 * sin u) * sin v)
  let z0 := round64 (a3 * cos v)
  (div_checked x0 (round64 (a1 * a1))).bind (fun n0 =>
    (div_checked y0 (round64 (a2 * a2))).bind (fun n1 =>
      (div_checked z0 (round64 (a3 * a3))).bind (fun n2 =>
        let normal := ((normal.set 0 (round64 n0)).set 1 (round64 n1)).set 2 (round64 n2)
        let norme := norm normal
        (List.range' 0 3).foldlM
          (fun w i => (div_checked (w.getD i 0) norme).map (fun q => w.set i (round64 q)))
          normal)))

/-- Invariants `Inv_X(X)` of a square tensor `X`. The eigenvalues
`lambda = eig_sym(X)` computed first are not used afterwards and are left
out. -/
def Inv_X (X : mat) : List ℚ :=
  let I : List ℚ := List.replicate 3 0
  let I := I.set 0 (trace X)
  let I := I.set 1 (trace X ^ 2 + trace (X.mul X))
  I.set 2 (det X)


/-! ## Ranking, cost and refinement step

The bodies of `generation::classify` (declared in `generation.hpp`) and of
`checkS`, `calcC` and `calcDp` (declared in `optimize.hpp`) are not among the
sources: the definitions of this section follow the specification. -/

/-- Modelled from the spec: `generation::classify()` sorts the candidates by
ascending cost, stable with respect to the original order for ties. The sort
inserts each candidate, from the last to the first, before the first
candidate of the sorted tail whose cost is not smaller. -/
def generation.classify (g : generation) : generation :=
  { g with pop := g.pop.insertionSort (fun a b => a.cout ≤ b.cout) }

/-- Modelled from the spec: `checkS(S)` returns one usability flag per column
of the sensitivity matrix: `0` (degenerate) when every entry of the column
has a magnitude below the tolerance, `1` otherwise. The tolerance is a fixed
constant whose value the sources do not give; it is a parameter here. Only
the flags are modelled, not a change of the matrix passed by reference. -/
def checkS (tol : ℚ) (S : mat) : List Int :=
  (List.range S.n_cols).map (fun k =>
    if (List.range S.n_rows).all (fun i => decide (|S.elem i k| < tol)) then 0 else 1)

/-- Modelled from the spec: one term of the cost, the weighted squared
deviation `numerical - experimental` scaled by the squared experimental
reference, floored by `eps`. -/
def calcC_term (eps vexp vnum W : ℚ) : ℚ :=
  W * (vnum - vexp) ^ 2 / max (vexp ^ 2) eps

/-- Modelled from the spec: `calcC(vexp, vnum, W)` is the sum over the
comparison points of `W_i * deviation_i^2 / max(reference_i^2, eps)`. The
floor `eps` is a small constant whose value the sources do not give; it is a
parameter here. -/
def calcC (eps : ℚ) (vexp vnum W : List ℚ) : ℚ :=
  ((List.range vexp.length).map
    (fun i => calcC_term eps (vexp.getD i 0) (vnum.getD i 0) (W.getD i 0))).sum

/-- Modelled from the spec: Gauss-Newton approximation of the Hessian,
`H = S^t diag(W) S`, a square matrix with one row per parameter. -/
def Hessian (n_param : Nat) (S : mat) (W : List ℚ) : mat :=
  ⟨n_param, n_param,
    (List.range (n_param * n_param)).map (fun t =>
      ((List.range S.n_rows).map
        (fun i => S.elem i (t % n_param) * W.getD i 0 * S.elem i (t / n_param))).sum)⟩

/-- Modelled from the spec: gradient `g = S^t diag(W) d` of the cost. The
bound terms `L_min` and `L_max` of the declaration, which the specification
does not describe, are left out. -/
def G_cost (n_param : Nat) (S : mat) (W Dv : List ℚ) : List ℚ :=
  (List.range n_param).map (fun k =>
    ((List.range S.n_rows).map (fun i => S.elem i k * W.getD i 0 * Dv.getD i 0)).sum)

/-- Modelled from the spec: matrix of the damped system,
`H + lambdaLM * diag(diag(H))`. The bound terms `L_min` and `L_max` of the
declaration, which the specification does not describe, are left out. -/
def LevMarq (H : mat) (lambdaLM : ℚ) : mat :=
  ⟨H.n_rows, H.n_cols,
    (List.range (H.n_rows * H.n_cols)).map (fun t =>
      if t % H.n_rows = t / H.n_rows
      then H.elem (t % H.n_rows) (t / H.n_rows)
        + lambdaLM * H.elem (t % H.n_rows) (t / H.n_rows)
      else H.elem (t % H.n_rows) (t / H.n_rows))⟩

/-- Modelled from the spec: projection of a value on the interval of a
parameter. -/
def clip (p : parameters) (x : ℚ) : ℚ := max p.min_value (min p.max_value x)

/-- Modelled from the spec: `calcDp` builds the damped system
`(H + lambdaLM diag(diag H)) Dp = -g`, solves it, and before finalizing the
increment projects `p + Dp` on the interval of each parameter. The linear
solver of armadillo is the parameter `solve`; the arguments `c`, `p0` and the
column flags of the declaration, which the specification does not describe,
are left out. -/
def calcDp (solve : mat → List ℚ → List ℚ) (S : mat) (W Dv p : List ℚ)
    (params : List parameters) (lambdaLM : ℚ) (n_param : Nat) : List ℚ :=
  let H := Hessian n_param S W
  let G := G_cost n_param S W Dv
  let LM := LevMarq H lambdaLM
  let Dp := solve LM (G.map (fun x => -x))
  (List.range n_param).map (fun k =>
    clip (param_at params k) (p.getD k 0 + Dp.getD k 0) - p.getD k 0)


/-! ## Continuum mechanics: Voigt round trips, flow direction, Hill operator

Further functions of `contimech.cpp`. An element access `A(i,j)` of armadillo
is checked against the shape of the matrix; where an index is computed at run
time the models use the checked accesses `mat.get` and `mat.put`, and a call
that reaches an access out of bounds has no result (`none`). -/

/-- 3x3 strain matrix to strain Voigt vector, `t2v_strain(strain)`. -/
def t2v_strain (strain : mat) : Option (List ℚ) :=
  if strain.n_cols = 3 ∧ strain.n_rows = 3 then
    some ((List.range' 0 3).foldl (fun v i =>
      (List.range' (i + 1) (3 - (i + 1))).foldl (fun v j =>
        v.set (i + j + 2) (strain.elem i j + strain.elem j i))
        (v.set i (strain.elem i i))) (List.replicate 6 0))
  else none

/-- 3x3 stress matrix to stress Voigt vector, `t2v_stress(stress)`. -/
def t2v_stress (stress : mat) : Option (List ℚ) :=
  if stress.n_cols = 3 ∧ stress.n_rows = 3 then
    some ((List.range' 0 3).foldl (fun v i =>
      (List.range' (i + 1) (3 - (i + 1))).foldl (fun v j =>
        v.set (i + j + 2) (1 / 2 * (stress.elem i j + stress.elem j i)))
        (v.set i (stress.elem i i))) (List.replicate 6 0))
  else none

/-- Conversion of a `double` to an integer type: the fractional part is
discarded. -/
def trunc (q : ℚ) : Int := if 0 ≤ q then Int.floor q else -Int.floor (-q)

/-- Checked read access `A(i,j)`: `none` when an index is out of bounds. -/
def mat.get (m : mat) (i j : Int) : Option ℚ :=
  if 0 ≤ i ∧ i < (m.n_rows : Int) ∧ 0 ≤ j ∧ j < (m.n_cols : Int)
  then some (m.elem i.toNat j.toNat) else none

/-- Checked write access `A(i,j) = v`: `none` when an index is out of bounds. -/
def mat.put (m : mat) (i j : Int) (v : ℚ) : Option mat :=
  if 0 ≤ i ∧ i < (m.n_rows : Int) ∧ 0 ≤ j ∧ j < (m.n_cols : Int)
  then some (m.set i.toNat j.toNat v) else none

/-- Armadillo `a * trans(a)` for a column vector `a`: the square matrix of the
products `a(i) * a(j)`. -/
def outer (a : List ℚ) : mat :=
  ⟨a.length, a.length,
    (List.range (a.length * a.length)).map
      (fun t => a.getD (t % a.length) 0 * a.getD (t / a.length) 0)⟩

/-- The table `Id` of `p_ikjl`: the Voigt index of a pair of tensor indices. -/
def p_ikjl_Id : mat :=
  ((((((((((zeros 3 3).set 0 0 0).set 0 1 3).set 0 2 4).set 1 0 3).set 1 1 1).set 1 2 5).set
    2 0 4).set 2 1 5).set 2 2 2)

/-- Body of the innermost loop of `p_ikjl`:
`F(ij,kl) += 0.5*(A(ik,jl)+A(jk,il))`. -/
def p_ikjl_step (A Id : mat) (i j k l : Nat) (F : mat) : Option mat :=
  let ij := trunc (Id.elem i j)
  let kl := trunc (Id.elem k l)
  let ik := trunc (Id.elem i k)
  let jl := trunc (Id.elem j l)
  let il := trunc (Id.elem i l)
  let jk := trunc (Id.elem j k)
  (A.get ik jl).bind (fun x =>
    (A.get jk il).bind (fun y =>
      (F.get ij kl).bind (fun f => F.put ij kl (f + 1 / 2 * (x + y)))))

/-- Hill interfacial operator `p_ikjl(a)`. -/
def p_ikjl (a : List ℚ) : Option mat :=
  let A := outer a
  let F := zeros 6 6
  let Id := p_ikjl_Id
  (List.range' 0 3).foldlM (fun F i =>
    (List.range' i (3 - i)).foldlM (fun F j =>
      (List.range' 0 3).foldlM (fun F k =>
        (List.range' k (3 - k)).foldlM (fun F l => p_ikjl_step A Id i j k l F) F) F) F) F

/-! ## Transversely isotropic thermoelastic law

Shallow embedding of `umat_elasticity_trans_iso`
(`src/Umat/Mechanical/Elasticity/elastic_transverse_isotropic.cpp`). The
helpers `L_isotrans` and `Ith` belong to `constitutive.cpp`, which is not
among the sources: they are parameters of the model. Armadillo checks the
sizes of the operands of a sum, a difference, a product and an entry-wise
product, and the bounds of an access to a single element: a call that fails
one of these checks has no result (`none`). The unused arguments of the
function are left out. -/

/-- Checked read access `v(i)` of a vector. -/
def vec_get (v : List ℚ) (i : Int) : Option ℚ :=
  if 0 ≤ i ∧ i < (v.length : Int) then some (v.getD i.toNat 0) else none

/-- Checked write access `v(i) = x` of a vector. -/
def vec_put (v : List ℚ) (i : Int) (x : ℚ) : Option (List ℚ) :=
  if 0 ≤ i ∧ i < (v.length : Int) then some (v.set i.toNat x) else none

/-- Armadillo `a + b` on vectors, which must have the same size. -/
def vec_add (a b : List ℚ) : Option (List ℚ) :=
  if a.length = b.length then some (List.zipWith (fun x y => x + y) a b) else none

/-- Armadillo `a - b` on vectors, which must have the same size. -/
def vec_sub (a b : List ℚ) : Option (List ℚ) :=
  if a.length = b.length then some (List.zipWith (fun x y => x - y) a b) else none

/-- Armadillo `a % b` on vectors, which must have the same size. -/
def vec_mul (a b : List ℚ) : Option (List ℚ) :=
  if a.length = b.length then some (List.zipWith (fun x y => x * y) a b) else none

/-- Armadillo `A * x` for a matrix and a column vector, which must have as
many entries as the matrix has columns. -/
def mat.mul_vec (A : mat) (x : List ℚ) : Option (List ℚ) :=
  if A.n_cols = x.length then
    some ((List.range A.n_rows).map (fun i =>
      ((List.range A.n_cols).map (fun k => A.elem i k * x.getD k 0)).sum))
  else none

/-- The variables that `umat_elasticity_trans_iso` updates: the stress, the
tangent modulus and the four work quantities. -/
structure umat_vars where
  sigma : List ℚ
  Lt : mat
  Wm : ℚ
  Wm_r : ℚ
  Wm_ir : ℚ
  Wm_d : ℚ
deriving DecidableEq

/-- Branch `ndi == 2` of `umat_elasticity_trans_iso` (source lines 94 to 106):
the plane-stress stiffness and the three stress components it updates. The
accesses reach the index 3 of `Lt`, `DEel`, `sigma_start` and `sigma`: they
are all within bounds exactly when the guard holds. -/
def umat_plane_stress (Lt : mat) (sigma sigma_start DEel : List ℚ) : Option (List ℚ) :=
  if 3 < Lt.n_rows ∧ 3 < Lt.n_cols ∧ 3 < DEel.length ∧ 3 < sigma_start.length
      ∧ 3 < sigma.length then
    let Q11 := Lt.elem 0 0 - Lt.elem 0 2 * Lt.elem 2 0 / Lt.elem 2 2
    let Q12 := Lt.elem 0 1 - Lt.elem 0 2 * Lt.elem 2 1 / Lt.elem 2 2
    let Q14 := Lt.elem 0 3 - Lt.elem 0 2 * Lt.elem 2 3 / Lt.elem 2 2
    let Q21 := Lt.elem 1 0 - Lt.elem 1 2 * Lt.elem 2 0 / Lt.elem 2 2
    let Q22 := Lt.elem 1 1 - Lt.elem 1 2 * Lt.elem 2 1 / Lt.elem 2 2
    let Q24 := Lt.elem 1 3 - Lt.elem 1 2 * Lt.elem 2 3 / Lt.elem 2 2
    let Q41 := Lt.elem 3 0 - Lt.elem 3 2 * Lt.elem 2 0 / Lt.elem 2 2
    let Q42 := Lt.elem 3 1 - Lt.elem 3 2 * Lt.elem 2 1 / Lt.elem 2 2
    let Q44 := Lt.elem 3 3 - Lt.elem 3 2 * Lt.elem 2 3 / Lt.elem 2 2
    let sigma := sigma.set 0
      (sigma_start.getD 0 0 + Q11 * DEel.getD 0 0 + Q12 * DEel.getD 1 0 + Q14 * DEel.getD 3 0)
    let sigma := sigma.set 1
      (sigma_start.getD 1 0 + Q21 * DEel.getD 0 0 + Q22 * DEel.getD 1 0 + Q24 * DEel.getD 3 0)
    some (sigma.set 3
      (sigma_start.getD 3 0 + Q41 * DEel.getD 0 0 + Q42 * DEel.getD 1 0 + Q44 * DEel.getD 3 0))
  else none

/-- Branch `ndi == 1` of `umat_elasticity_trans_iso` (source line 90). -/
def umat_uniaxial (Lt : mat) (sigma sigma_start DEel : List ℚ) : Option (List ℚ) :=
  (Lt.get 0 0).bind (fun l00 =>
    (vec_get DEel 0).bind (fun e0 =>
      (vec_get sigma_start 0).bind (fun s0 => vec_put sigma 0 (s0 + l00 * e0))))

/-- Stress update `umat_elasticity_trans_iso`. The reads `props(0)` to
`props(7)` are within bounds exactly when `props` has at least eight entries.
The index `axis-1`, a `double`, is converted to an integer by the access
`alpha(axis-1)`. -/
def umat_elasticity_trans_iso (L_isotrans : ℚ → ℚ → ℚ → ℚ → ℚ → ℚ → mat) (Ith : List ℚ)
    (DEtot props : List ℚ) (DT : ℚ) (ndi : Int) (start : Bool) (s : umat_vars) :
    Option umat_vars :=
  if 7 < props.length then
    let axis := props.getD 0 0
    let EL := props.getD 1 0
    let ET := props.getD 2 0
    let nuTL := props.getD 3 0
    let nuTT := props.getD 4 0
    let GLT := props.getD 5 0
    let alphaL := props.getD 6 0
    let alphaT := props.getD 7 0
    let Lt := L_isotrans EL ET nuTL nuTT GLT axis
    let sigma := if start then List.replicate 6 0 else s.sigma
    let sigma_start := sigma
    let alpha := Ith.map (fun x => alphaT * x)
    (vec_get alpha (trunc (axis - 1))).bind (fun a =>
      (vec_put alpha (trunc (axis - 1)) (a + (alphaL - alphaT))).bind (fun alpha =>
        (vec_sub DEtot (alpha.map (fun x => x * DT))).bind (fun DEel =>
          (if ndi = 1 then umat_uniaxial Lt sigma sigma_start DEel
            else if ndi = 2 then umat_plane_stress Lt sigma sigma_start DEel
            else (Lt.mul_vec DEel).bind (fun t => vec_add sigma_start t)).bind (fun sigma =>
              (vec_add sigma_start sigma).bind (fun ss =>
                (vec_mul ss DEtot).map (fun prod =>
                  let w := 1 / 2 * arma_sum prod
                  ⟨sigma, Lt, s.Wm + w, s.Wm_r + w, s.Wm_ir + 0, s.Wm_d + 0⟩))))))
  else none

/-- The thermal expansion vector that the law is meant to use: `alphaL` on the
normal component of the axis, `alphaT` on the two other normal components and
zero on the shear components. -/
def cte_vector (axis : Nat) (alphaL alphaT : ℚ) : List ℚ :=
  (List.range 6).map (fun i => if i + 1 = axis then alphaL else if i < 3 then alphaT else 0)

/-- A stand-in for `L_isotrans` in the instance of C32: whatever the constants,
twice the identity with the additional entry `L(0,1) = 1`. -/
def stiffness_example : ℚ → ℚ → ℚ → ℚ → ℚ → ℚ → mat :=
  fun _ _ _ _ _ _ => ⟨6, 6, [2, 0, 0, 0, 0, 0, 1, 2, 0, 0, 0, 0, 0, 0, 2, 0, 0, 0,
    0, 0, 0, 2, 0, 0, 0, 0, 0, 0, 2, 0, 0, 0, 0, 0, 0, 2]⟩

/-! ## Control file of the identification -/

/-- The variables that `ident_control` receives by reference. -/
structure ident_vars where
  n_param : Int
  n_consts : Int
  n_files : Int
  ngen : Int
  aleaspace : Int
  apop : Int
  spop : Int
  ngboys : Int
  maxpop : Int
  probaMut : ℚ
  pertu : ℚ
  c : ℚ
  p0 : ℚ
  lambdaLM : ℚ
  phiEps : ℚ
deriving DecidableEq

/-- First reads of `ident_control` (source lines 277 to 281): a label and an
integer for `n_param`, `n_consts`, `n_files`, `ngen` and `aleaspace`. -/
def ident_control_head (v : ident_vars) (s : ifstream) : ident_vars × ifstream :=
  let r := s.get_string.get_int v.n_param
  let v := { v with n_param := r.1 }
  let r := r.2.get_string.get_int v.n_consts
  let v := { v with n_consts := r.1 }
  let r := r.2.get_string.get_int v.n_files
  let v := { v with n_files := r.1 }
  let r := r.2.get_string.get_int v.ngen
  let v := { v with ngen := r.1 }
  let r := r.2.get_string.get_int v.aleaspace
  ({ v with aleaspace := r.1 }, r.2)

/-- Read of the size of the first population (source lines 283 to 290):
`spop` in the modes 0 and 1, `apop` in the modes 2 and 3, and an exit for any
other mode. -/
def ident_control_space (v : ident_vars) (s : ifstream) :
    Except abort (ident_vars × ifstream) :=
  if v.aleaspace = 0 ∨ v.aleaspace = 1 then
    let r := s.get_string.get_int v.spop
    Except.ok ({ v with spop := r.1 }, r.2)
  else if v.aleaspace = 2 ∨ v.aleaspace = 3 then
    let r := s.get_string.get_int v.apop
    Except.ok ({ v with apop := r.1 }, r.2)
  else Except.error abort.exited

/-- Reads of `ngboys` and `maxpop` and the checks on them (source lines 292 to
311). The product `spop*n_param` is taken to fit in an `int`. -/
def ident_control_sizes (v : ident_vars) (s : ifstream) :
    Except abort (ident_vars × ifstream) :=
  let r := s.get_string.get_int v.ngboys
  let v := { v with ngboys := r.1 }
  let r := r.2.get_string.get_int v.maxpop
  let v := { v with maxpop := r.1 }
  if (v.aleaspace = 0 ∨ v.aleaspace = 1) ∧ v.maxpop > v.spop * v.n_param then
    Except.error abort.exited
  else if ¬ (v.aleaspace = 0 ∨ v.aleaspace = 1) ∧ (v.aleaspace = 2 ∨ v.aleaspace = 3)
      ∧ v.maxpop > v.apop then
    Except.error abort.exited
  else if v.ngboys > v.maxpop then Except.error abort.exited
  else Except.ok (v, r.2)

/-- Last reads of `ident_control` (source lines 314 to 319). -/
def ident_control_tail (v : ident_vars) (s : ifstream) : ident_vars :=
  let r := s.get_string.get_double v.probaMut
  let v := { v with probaMut := r.1 }
  let r := r.2.get_string.get_double v.pertu
  let v := { v with pertu := r.1 }
  let r := r.2.get_string.get_double v.c
  let v := { v with c := r.1 }
  let r := r.2.get_double v.p0
  let v := { v with p0 := r.1 }
  let r := r.2.get_string.get_double v.lambdaLM
  let v := { v with lambdaLM := r.1 }
  let r := r.2.get_string.get_double v.phiEps
  { v with phiEps := r.1 }

/-- Reader `ident_control` of `data/ident_control.inp` (`file = none` when it
cannot be opened). -/
def ident_control (file : Option (List line)) (v : ident_vars) : Except abort ident_vars :=
  match file with
  | none => Except.error abort.exited
  | some f =>
    let h := ident_control_head v (ifstream_open f)
    match ident_control_space h.1 h.2 with
    | Except.error e => Except.error e
    | Except.ok sp =>
      match ident_control_sizes sp.1 sp.2 with
      | Except.error e => Except.error e
      | Except.ok sz => Except.ok (ident_control_tail sz.1 sz.2)


/-! ## Arithmetic of the mixed-radix counters -/

theorem succ_mod_ite (q s : Nat) (hs : 0 < s) :
    (q + 1) % s = if q % s + 1 = s then 0 else q % s + 1 := by
  have hlt : q % s < s := Nat.mod_lt q hs
  have hq : q + 1 = (q % s + 1) + s * (q / s) := by
    have := Nat.mod_add_div q s
    omega
  split_ifs with h
  · rw [hq, h, Nat.add_mul_mod_self_left, Nat.mod_self]
  · rw [hq, Nat.add_mul_mod_self_left, Nat.mod_eq_of_lt (by omega)]

theorem succ_div_ite (i P : Nat) (hP : 0 < P) :
    (i + 1) / P = if i % P + 1 = P then i / P + 1 else i / P := by
  have hlt : i % P < P := Nat.mod_lt i hP
  have hi : i + 1 = (i % P + 1) + P * (i / P) := by
    have := Nat.mod_add_div i P
    omega
  split_ifs with h
  · rw [hi, h, Nat.add_mul_div_left _ _ hP, Nat.div_self hP]; omega
  · rw [hi, Nat.add_mul_div_left _ _ hP, Nat.div_eq_of_lt (by omega)]; omega

/-- Closed form of the counters of `doe_uniform` after `i` rows. -/
theorem doe_uniform_next_iterate (spop P : Nat) (hs : 0 < spop) (hP : 0 < P) (i : Nat) :
    (doe_uniform_next spop (P : Int))^[i] (1, 1)
      = (((i / P % spop : Nat) : Int) + 1, ((i % P : Nat) : Int) + 1) := by
  induction i with
  | zero => simp [Nat.div_eq_of_lt hP, Nat.mod_eq_of_lt hP]
  | succ i ih =>
    rw [Function.iterate_succ_apply', ih]
    have hlt : i % P < P := Nat.mod_lt i hP
    have hlt2 : i / P % spop < spop := Nat.mod_lt _ hs
    have hm := succ_mod_ite i P hP
    have hd := succ_div_ite i P hP
    have hq := succ_mod_ite (i / P) spop hs
    by_cases hz : i % P + 1 = P
    · rw [if_pos hz] at hm hd
      rw [hm, hd, hq]
      generalize i / P % spop = a at *
      generalize i % P = b at *
      simp only [doe_uniform_next]
      split_ifs <;> simp <;> omega
    · rw [if_neg hz] at hm hd
      rw [hm, hd]
      generalize i / P % spop = a at *
      generalize i % P = b at *
      simp only [doe_uniform_next]
      split_ifs <;> simp <;> omega

/-- Closed form of the counters of `doe_uniform_limit` after `i` rows. -/
theorem doe_uniform_limit_next_iterate (spop P : Nat) (hs : 0 < spop) (hP : 0 < P) (i : Nat) :
    (doe_uniform_limit_next spop (P : Int))^[i] (0, 1)
      = (((i / P % spop : Nat) : Int), ((i % P : Nat) : Int) + 1) := by
  induction i with
  | zero => simp [Nat.div_eq_of_lt hP, Nat.mod_eq_of_lt hP]
  | succ i ih =>
    rw [Function.iterate_succ_apply', ih]
    have hlt : i % P < P := Nat.mod_lt i hP
    have hlt2 : i / P % spop < spop := Nat.mod_lt _ hs
    have hm := succ_mod_ite i P hP
    have hd := succ_div_ite i P hP
    have hq := succ_mod_ite (i / P) spop hs
    by_cases hz : i % P + 1 = P
    · rw [if_pos hz] at hm hd
      rw [hm, hd, hq]
      generalize i / P % spop = a at *
      generalize i % P = b at *
      simp only [doe_uniform_limit_next]
      split_ifs <;> simp <;> omega
    · rw [if_neg hz] at hm hd
      rw [hm, hd]
      generalize i / P % spop = a at *
      generalize i % P = b at *
      simp only [doe_uniform_limit_next]
      split_ifs <;> simp <;> omega

/-! ## Writes into the matrix -/

theorem fill_col_succ (j n : Nat) (v : Nat → ℚ) (d : mat) :
    fill_col j (n + 1) v d = (fill_col j n v d).set n j (v n) := by
  simp [fill_col, List.range_succ, List.foldl_append]

theorem fill_col_shape (j n : Nat) (v : Nat → ℚ) (d : mat) :
    (fill_col j n v d).n_rows = d.n_rows ∧ (fill_col j n v d).n_cols = d.n_cols ∧
      (fill_col j n v d).mem.length = d.mem.length := by
  induction n with
  | zero => simp [fill_col]
  | succ n ih =>
    rw [fill_col_succ]
    obtain ⟨h1, h2, h3⟩ := ih
    simp [mat.set, h1, h2, h3]

theorem fill_col_getD (j n : Nat) (v : Nat → ℚ) (d : mat) (idx : Nat)
    (h : j * d.n_rows + n ≤ d.mem.length) :
    (fill_col j n v d).mem.getD idx 0
      = if j * d.n_rows ≤ idx ∧ idx < j * d.n_rows + n then v (idx - j * d.n_rows)
        else d.mem.getD idx 0 := by
  induction n with
  | zero =>
    have : ¬ (j * d.n_rows ≤ idx ∧ idx < j * d.n_rows) := by omega
    simp [fill_col, this]
  | succ n ih =>
    have ih := ih (by omega)
    obtain ⟨h1, _, h3⟩ := fill_col_shape j n v d
    rw [fill_col_succ]
    simp only [mat.set, h1, List.getD_eq_getElem?_getD, List.getElem?_set, h3] at ih ⊢
    by_cases hidx : n + j * d.n_rows = idx
    · have hlt : n + j * d.n_rows < d.mem.length := by omega
      have hc : j * d.n_rows ≤ idx ∧ idx < j * d.n_rows + (n + 1) := by omega
      have hv : idx - j * d.n_rows = n := by omega
      simp [hidx, hc, hv, hidx ▸ hlt]
    · rw [if_neg hidx, ih]
      have hc : (j * d.n_rows ≤ idx ∧ idx < j * d.n_rows + (n + 1))
          ↔ (j * d.n_rows ≤ idx ∧ idx < j * d.n_rows + n) := by omega
      simp only [hc]

theorem fill_col_elem (j n : Nat) (v : Nat → ℚ) (d : mat) (i' j' : Nat)
    (hi : i' < d.n_rows) (hn : n ≤ d.n_rows) (hj : j < d.n_cols)
    (hlen : d.mem.length = d.n_rows * d.n_cols) :
    (fill_col j n v d).elem i' j' = if j' = j ∧ i' < n then v i' else d.elem i' j' := by
  have hb : j * d.n_rows + n ≤ d.mem.length := by
    have : (j + 1) * d.n_rows ≤ d.n_cols * d.n_rows := Nat.mul_le_mul_right _ hj
    rw [hlen, Nat.mul_comm d.n_rows]
    rw [Nat.add_mul] at this
    omega
  obtain ⟨h1, _, _⟩ := fill_col_shape j n v d
  unfold mat.elem
  rw [h1, fill_col_getD j n v d _ hb]
  by_cases hjj : j' = j
  · subst hjj
    have hc : (j' * d.n_rows ≤ i' + j' * d.n_rows ∧ i' + j' * d.n_rows < j' * d.n_rows + n)
        ↔ (j' = j' ∧ i' < n) := by omega
    have hv : i' + j' * d.n_rows - j' * d.n_rows = i' := by omega
    simp only [hc, hv]
  · have hc : ¬ (j * d.n_rows ≤ i' + j' * d.n_rows ∧ i' + j' * d.n_rows < j * d.n_rows + n) := by
      rcases Nat.lt_or_gt_of_ne hjj with hlt | hgt
      · have : (j' + 1) * d.n_rows ≤ j * d.n_rows := Nat.mul_le_mul_right _ hlt
        rw [Nat.add_mul] at this
        omega
      · have : (j + 1) * d.n_rows ≤ j' * d.n_rows := Nat.mul_le_mul_right _ hgt
        rw [Nat.add_mul] at this
        omega
    have hc2 : ¬ (j' = j ∧ i' < n) := fun h => hjj h.1
    rw [if_neg hc, if_neg hc2]

/-- A row loop that writes `val pinc` and then updates the counters with
`next` writes, row by row, the values of the iterated counters. -/
theorem foldl_row_eq (next : Int × Int → Int × Int) (val : Int → ℚ) (j n : Nat)
    (d : mat) (c : Int × Int) :
    (List.range n).foldl (fun st i => (st.1.set i j (val st.2.1), next st.2)) (d, c)
      = (fill_col j n (fun i => val (next^[i] c).1) d, next^[n] c) := by
  induction n with
  | zero => simp [fill_col]
  | succ n ih =>
    rw [List.range_succ, List.foldl_append, ih, fill_col_succ]
    simp [Function.iterate_succ_apply']

/-- Shape and entries after the first `J` passes of a column loop whose pass
`j` fills column `j` with `v j`. -/
theorem foldl_fill_col (S N : Nat) (v : Nat → Nat → ℚ) (J : Nat) (hJ : J ≤ N) :
    let D := (List.range J).foldl (fun d j => fill_col j S (v j) d) (zeros S N)
    D.n_rows = S ∧ D.n_cols = N ∧ D.mem.length = S * N ∧
      ∀ i j, i < S → j < N → D.elem i j = if j < J then v j i else 0 := by
  induction J with
  | zero =>
    refine ⟨rfl, rfl, by simp [zeros], ?_⟩
    intro i j hi hj
    simp [mat.elem, zeros, List.getElem?_replicate]
    split_ifs <;> rfl
  | succ J ih =>
    obtain ⟨h1, h2, h3, h4⟩ := ih (by omega)
    simp only [List.range_succ, List.foldl_append, List.foldl_cons, List.foldl_nil]
    obtain ⟨g1, g2, g3⟩ := fill_col_shape J S (v J)
      ((List.range J).foldl (fun d j => fill_col j S (v j) d) (zeros S N))
    refine ⟨g1.trans h1, g2.trans h2, g3.trans h3, ?_⟩
    intro i j hi hj
    rw [fill_col_elem J S (v J) _ i j (by omega) (by omega) (by omega) (by rw [h3, h1, h2]),
      h4 i j hi hj]
    by_cases hjJ : j = J
    · subst hjJ; simp [hi]
    · have : ¬ (j = J ∧ i < S) := fun h => hjJ h.1
      rw [if_neg this]
      by_cases hlt : j < J
      · rw [if_pos hlt, if_pos (by omega)]
      · rw [if_neg hlt, if_neg (by omega)]

/-! ## The samplers as filled matrices -/

theorem doe_uniform_col_eq (spop S : Nat) (params : List parameters) (d : mat) (j : Nat) :
    doe_uniform_col spop S params d j
      = fill_col j S (fun i => doe_uniform_value spop (param_at params j)
          (doe_uniform_pinc spop j i)) d := by
  exact congrArg Prod.fst (foldl_row_eq (doe_uniform_next spop ((spop ^ j : Nat) : Int))
    (doe_uniform_value spop (param_at params j)) j S d (1, 1))

theorem doe_uniform_limit_col_eq (spop S : Nat) (params : List parameters) (d : mat) (j : Nat) :
    doe_uniform_limit_col spop S params d j
      = fill_col j S (fun i => doe_uniform_limit_value spop (param_at params j)
          (doe_uniform_limit_pinc spop j i)) d := by
  exact congrArg Prod.fst (foldl_row_eq (doe_uniform_limit_next spop ((spop ^ j : Nat) : Int))
    (doe_uniform_limit_value spop (param_at params j)) j S d (0, 1))

/-- Shape of `doe_uniform` and the counter behind each of its entries. -/
theorem doe_uniform_spec (spop n_param : Nat) (params : List parameters) :
    (doe_uniform spop n_param params).n_rows = spop ^ n_param ∧
    (doe_uniform spop n_param params).n_cols = n_param ∧
    (doe_uniform spop n_param params).mem.length = spop ^ n_param * n_param ∧
    ∀ i j, i < spop ^ n_param → j < n_param →
      (doe_uniform spop n_param params).elem i j
        = doe_uniform_value spop (param_at params j) (doe_uniform_pinc spop j i) := by
  have h := foldl_fill_col (spop ^ n_param) n_param
    (fun j i => doe_uniform_value spop (param_at params j) (doe_uniform_pinc spop j i))
    n_param le_rfl
  have e : doe_uniform spop n_param params
      = (List.range n_param).foldl (fun d j => fill_col j (spop ^ n_param)
          (fun i => doe_uniform_value spop (param_at params j) (doe_uniform_pinc spop j i)) d)
          (zeros (spop ^ n_param) n_param) := by
    show List.foldl (doe_uniform_col spop (spop ^ n_param) params) _ _ = _
    congr 1
    funext d j
    exact doe_uniform_col_eq spop (spop ^ n_param) params d j
  rw [e]
  obtain ⟨h1, h2, h3, h4⟩ := h
  refine ⟨h1, h2, h3, ?_⟩
  intro i j hi hj
  rw [h4 i j hi hj, if_pos hj]

/-- Shape of the matrix returned by `doe_uniform_limit` and the counter behind
each of its entries. -/
theorem doe_uniform_limit_spec (spop n_param : Nat) (params : List parameters)
    (hs : 2 ≤ spop) :
    ∃ m, doe_uniform_limit spop n_param params = some m ∧
      m.n_rows = spop ^ n_param ∧ m.n_cols = n_param ∧
      m.mem.length = spop ^ n_param * n_param ∧
      ∀ i j, i < spop ^ n_param → j < n_param →
        m.elem i j
          = doe_uniform_limit_value spop (param_at params j) (doe_uniform_limit_pinc spop j i) := by
  have h := foldl_fill_col (spop ^ n_param) n_param
    (fun j i => doe_uniform_limit_value spop (param_at params j)
      (doe_uniform_limit_pinc spop j i)) n_param le_rfl
  have e : doe_uniform_limit spop n_param params
      = some ((List.range n_param).foldl (fun d j => fill_col j (spop ^ n_param)
          (fun i => doe_uniform_limit_value spop (param_at params j)
            (doe_uniform_limit_pinc spop j i)) d)
          (zeros (spop ^ n_param) n_param)) := by
    unfold doe_uniform_limit
    rw [if_pos hs]
    show some (List.foldl (doe_uniform_limit_col spop (spop ^ n_param) params) _ _) = _
    congr 2
    funext d j
    exact doe_uniform_limit_col_eq spop (spop ^ n_param) params d j
  obtain ⟨h1, h2, h3, h4⟩ := h
  refine ⟨_, e, h1, h2, h3, ?_⟩
  intro i j hi hj
  rw [h4 i j hi hj, if_pos hj]

/-- The counter of `doe_uniform` is the mixed-radix digit of the row, plus one. -/
theorem doe_uniform_pinc_eq (spop j i : Nat) (hs : 1 ≤ spop) :
    doe_uniform_pinc spop j i = ((i / spop ^ j % spop : Nat) : Int) + 1 := by
  unfold doe_uniform_pinc
  rw [doe_uniform_next_iterate spop (spop ^ j) hs (Nat.pos_pow_of_pos j hs) i]

/-- The counter of `doe_uniform_limit` is the mixed-radix digit of the row. -/
theorem doe_uniform_limit_pinc_eq (spop j i : Nat) (hs : 1 ≤ spop) :
    doe_uniform_limit_pinc spop j i = ((i / spop ^ j % spop : Nat) : Int) := by
  unfold doe_uniform_limit_pinc
  rw [doe_uniform_limit_next_iterate spop (spop ^ j) hs (Nat.pos_pow_of_pos j hs) i]

/-- The value formula of `doe_uniform` at a counter `k + 1`. -/
theorem doe_uniform_value_nat (spop : Nat) (p : parameters) (k : Nat) :
    doe_uniform_value spop p ((k : Int) + 1)
      = p.min_value + ((k + 1 : Nat) : ℚ) / ((spop : ℚ) + 1) * (p.max_value - p.min_value) := by
  simp [doe_uniform_value]

/-- Mixed-radix digits: every tuple of `n` digits below `spop` is the digit
tuple of exactly one number below `spop ^ n`. -/
theorem digits_existsUnique (spop n : Nat) (k : Fin n → Fin spop) :
    ∃! i : Fin (spop ^ n), ∀ j : Fin n, (i : Nat) / spop ^ (j : Nat) % spop = (k j : Nat) := by
  refine ⟨finFunctionFinEquiv k, ?_, ?_⟩
  · intro j
    have h := congrFun (finFunctionFinEquiv.symm_apply_apply k) j
    rw [← finFunctionFinEquiv_symm_apply_val, h]
  · intro i h
    apply finFunctionFinEquiv.symm.injective
    funext j
    apply Fin.ext
    rw [finFunctionFinEquiv_symm_apply_val, h j, Equiv.symm_apply_apply]

/-- The factor `d / (spop - 1)` of `doe_uniform_limit` lies between 0 and 1. -/
theorem pfactor_limit_range (spop d : Nat) (hs : 2 ≤ spop) (hd : d < spop) :
    0 ≤ (d : ℚ) / ((spop : ℚ) - 1) ∧ (d : ℚ) / ((spop : ℚ) - 1) ≤ 1 := by
  have h2 : (2 : ℚ) ≤ (spop : ℚ) := by exact_mod_cast hs
  have hpos : (0 : ℚ) < (spop : ℚ) - 1 := by linarith
  have hd1 : (d : ℚ) ≤ (spop : ℚ) - 1 := by
    have : ((d + 1 : Nat) : ℚ) ≤ (spop : ℚ) := by exact_mod_cast hd
    push_cast at this
    linarith
  constructor
  · apply div_nonneg _ hpos.le
    positivity
  · rw [div_le_one hpos]
    exact hd1

/-- Counting is insensitive to the predicate outside the counted range. -/
theorem count_congr_lt (p q : Nat → Prop) [DecidablePred p] [DecidablePred q] (n : Nat)
    (h : ∀ i, i < n → (p i ↔ q i)) : Nat.count p n = Nat.count q n := by
  induction n with
  | zero => simp
  | succ n ih =>
    rw [Nat.count_succ, Nat.count_succ, ih (fun i hi => h i (by omega))]
    by_cases hp : p n
    · rw [if_pos hp, if_pos ((h n (by omega)).mp hp)]
    · rw [if_neg hp, if_neg (fun hq => hp ((h n (by omega)).mpr hq))]

/-- Among the first `2 ^ j + 2 ^ j` numbers, `2 ^ j` have binary digit `j` equal to `b`. -/
theorem count_bit_block (j b : Nat) (hb : b < 2) :
    Nat.count (fun i => i / 2 ^ j % 2 = b) (2 ^ j + 2 ^ j) = 2 ^ j := by
  have hpos : 0 < 2 ^ j := Nat.pos_pow_of_pos j (by decide)
  rw [Nat.count_add]
  have hlow : ∀ k, k < 2 ^ j → k / 2 ^ j % 2 = 0 := by
    intro k hk
    rw [Nat.div_eq_of_lt hk]
  have hhigh : ∀ k, k < 2 ^ j → (2 ^ j + k) / 2 ^ j % 2 = 1 := by
    intro k hk
    rw [Nat.add_div_left _ hpos, Nat.div_eq_of_lt hk]
  interval_cases b
  · have h1 : Nat.count (fun i => i / 2 ^ j % 2 = 0) (2 ^ j) = 2 ^ j :=
      Nat.count_iff_forall.mpr (fun k hk => hlow k hk)
    have h2 : Nat.count (fun k => (2 ^ j + k) / 2 ^ j % 2 = 0) (2 ^ j) = 0 :=
      Nat.count_iff_forall_not.mpr (fun k hk => by rw [hhigh k hk]; decide)
    rw [h1, h2, Nat.add_zero]
  · have h1 : Nat.count (fun i => i / 2 ^ j % 2 = 1) (2 ^ j) = 0 :=
      Nat.count_iff_forall_not.mpr (fun k hk => by rw [hlow k hk]; decide)
    have h2 : Nat.count (fun k => (2 ^ j + k) / 2 ^ j % 2 = 1) (2 ^ j) = 2 ^ j :=
      Nat.count_iff_forall.mpr (fun k hk => hhigh k hk)
    rw [h1, h2, Nat.zero_add]

/-- Among the first `(2 ^ j + 2 ^ j) * m` numbers, `2 ^ j * m` have binary digit
`j` equal to `b`. -/
theorem count_bit (j b : Nat) (hb : b < 2) (m : Nat) :
    Nat.count (fun i => i / 2 ^ j % 2 = b) ((2 ^ j + 2 ^ j) * m) = 2 ^ j * m := by
  have hpos : 0 < 2 ^ j := Nat.pos_pow_of_pos j (by decide)
  induction m with
  | zero => simp
  | succ m ih =>
    rw [Nat.mul_succ, Nat.count_add, ih, Nat.mul_succ]
    congr 1
    refine Eq.trans ?_ (count_bit_block j b hb)
    apply count_congr_lt
    intro k _
    have e : (2 ^ j + 2 ^ j) * m + k = k + 2 ^ j * (2 * m) := by ring
    rw [e, Nat.add_mul_div_left _ _ hpos, Nat.add_mul_mod_self_left]

/-- Adding `spop ^ (j + 1)` to a row index does not change its digit `j`. -/
theorem digit_add_period (spop j i : Nat) (hs : 0 < spop) :
    (i + spop ^ (j + 1)) / spop ^ j % spop = i / spop ^ j % spop := by
  rw [pow_succ, Nat.add_mul_div_left _ _ (Nat.pos_pow_of_pos j hs), Nat.add_mod_right]

/-! ## Claims on the grid samplers -/

/-- C1 (GridInterior value formula). For `spop ≥ 1`, a row `i < spop ^ n_param`
and a column `j < n_param` (so `n_param ≥ 1`), entry `(i, j)` of `doe_uniform`
is `min_j + k / (spop + 1) * (max_j - min_j)` where
`k = (i / spop ^ j) % spop + 1` is the `j`-th mixed-radix digit of `i` moved
into `1 .. spop`. -/
theorem C1_doe_uniform_value_formula (spop n_param : Nat) (params : List parameters)
    (i j : Nat) (hs : 1 ≤ spop) (_hn : 1 ≤ n_param) (hi : i < spop ^ n_param)
    (hj : j < n_param) :
    (doe_uniform spop n_param params).elem i j
        = (param_at params j).min_value
          + ((i / spop ^ j % spop + 1 : Nat) : ℚ) / ((spop : ℚ) + 1)
            * ((param_at params j).max_value - (param_at params j).min_value)
      ∧ 1 ≤ i / spop ^ j % spop + 1 ∧ i / spop ^ j % spop + 1 ≤ spop := by
  refine ⟨?_, by omega, Nat.mod_lt _ hs⟩
  rw [(doe_uniform_spec spop n_param params).2.2.2 i j hi hj, doe_uniform_pinc_eq spop j i hs,
    doe_uniform_value_nat]

/-- Instance of C1: `spop = 3`, two parameters, row 4, column 1. -/
theorem C1_doe_uniform_value_formula_witness :
    (1 ≤ 3 ∧ 1 ≤ 2 ∧ 4 < 3 ^ 2 ∧ 1 < 2) ∧
    ((doe_uniform 3 2 [⟨0, 10⟩, ⟨1, 5⟩]).elem 4 1
        = (param_at [⟨0, 10⟩, ⟨1, 5⟩] 1).min_value
          + ((4 / 3 ^ 1 % 3 + 1 : Nat) : ℚ) / (((3 : Nat) : ℚ) + 1)
            * ((param_at [⟨0, 10⟩, ⟨1, 5⟩] 1).max_value
                - (param_at [⟨0, 10⟩, ⟨1, 5⟩] 1).min_value)
      ∧ 1 ≤ 4 / 3 ^ 1 % 3 + 1 ∧ 4 / 3 ^ 1 % 3 + 1 ≤ 3) :=
  ⟨by decide, C1_doe_uniform_value_formula 3 2 [⟨0, 10⟩, ⟨1, 5⟩] 4 1
    (by decide) (by decide) (by decide) (by decide)⟩

/-- C3 (grid sample count and shape). `doe_uniform` returns a matrix with
exactly `spop ^ n_param` rows and `n_param` columns, and so does
`doe_uniform_limit` when `spop ≥ 2`; the storage holds rows times columns
entries. -/
theorem C3_grid_shape (spop n_param : Nat) (params : List parameters) :
    ((doe_uniform spop n_param params).n_rows = spop ^ n_param ∧
      (doe_uniform spop n_param params).n_cols = n_param ∧
      (doe_uniform spop n_param params).mem.length = spop ^ n_param * n_param) ∧
    (2 ≤ spop → ∃ m, doe_uniform_limit spop n_param params = some m ∧
      m.n_rows = spop ^ n_param ∧ m.n_cols = n_param ∧
      m.mem.length = spop ^ n_param * n_param) := by
  obtain ⟨h1, h2, h3, _⟩ := doe_uniform_spec spop n_param params
  refine ⟨⟨h1, h2, h3⟩, ?_⟩
  intro hs
  obtain ⟨m, hm, g1, g2, g3, _⟩ := doe_uniform_limit_spec spop n_param params hs
  exact ⟨m, hm, g1, g2, g3⟩

/-- Instance of C3: `spop = 2`, three parameters, eight rows. -/
theorem C3_grid_shape_witness :
    2 ≤ 2 ∧
    ((doe_uniform 2 3 []).n_rows = 2 ^ 3 ∧ (doe_uniform 2 3 []).n_cols = 3 ∧
      (doe_uniform 2 3 []).mem.length = 2 ^ 3 * 3) ∧
    ∃ m, doe_uniform_limit 2 3 [] = some m ∧
      m.n_rows = 2 ^ 3 ∧ m.n_cols = 3 ∧ m.mem.length = 2 ^ 3 * 3 :=
  ⟨by decide, (C3_grid_shape 2 3 []).1, (C3_grid_shape 2 3 []).2 (by decide)⟩

/-- C4 (the grid is the full Cartesian product). The level index of entry
`(i, j)` is the counter `pinc` with which the entry is written. For
`doe_uniform` (`spop ≥ 1`) it lies in `1 .. spop`, for `doe_uniform_limit`
(`spop ≥ 2`) in `0 .. spop - 1`, and in both samplers every tuple of levels
`(k_0, ..., k_{n_param-1})` is the level tuple of exactly one row
`i < spop ^ n_param`: the map from rows to level tuples is a bijection. -/
theorem C4_grid_cartesian_product (spop n_param : Nat) (params : List parameters) :
    (1 ≤ spop →
      (∀ i j, i < spop ^ n_param → j < n_param →
        (doe_uniform spop n_param params).elem i j
            = doe_uniform_value spop (param_at params j) (doe_uniform_pinc spop j i)
          ∧ 1 ≤ doe_uniform_pinc spop j i ∧ doe_uniform_pinc spop j i ≤ (spop : Int)) ∧
      (∀ k : Fin n_param → Fin spop, ∃! i : Fin (spop ^ n_param), ∀ j : Fin n_param,
        doe_uniform_pinc spop j i = (((k j : Nat) : Int) + 1))) ∧
    (2 ≤ spop → ∃ m, doe_uniform_limit spop n_param params = some m ∧
      (∀ i j, i < spop ^ n_param → j < n_param →
        m.elem i j
            = doe_uniform_limit_value spop (param_at params j) (doe_uniform_limit_pinc spop j i)
          ∧ 0 ≤ doe_uniform_limit_pinc spop j i
          ∧ doe_uniform_limit_pinc spop j i ≤ (spop : Int) - 1) ∧
      (∀ k : Fin n_param → Fin spop, ∃! i : Fin (spop ^ n_param), ∀ j : Fin n_param,
        doe_uniform_limit_pinc spop j i = ((k j : Nat) : Int))) := by
  constructor
  · intro hs
    constructor
    · intro i j hi hj
      refine ⟨(doe_uniform_spec spop n_param params).2.2.2 i j hi hj, ?_, ?_⟩
      · rw [doe_uniform_pinc_eq spop j i hs]; omega
      · rw [doe_uniform_pinc_eq spop j i hs]
        have : i / spop ^ j % spop < spop := Nat.mod_lt _ hs
        omega
    · intro k
      obtain ⟨i, hi, huniq⟩ := digits_existsUnique spop n_param k
      refine ⟨i, ?_, ?_⟩
      · intro j
        rw [doe_uniform_pinc_eq spop j i hs, hi j]
      · intro i' h
        apply huniq
        intro j
        have := h j
        rw [doe_uniform_pinc_eq spop j i' hs] at this
        omega
  · intro hs
    have hs1 : 1 ≤ spop := by omega
    obtain ⟨m, hm, _, _, _, hel⟩ := doe_uniform_limit_spec spop n_param params hs
    refine ⟨m, hm, ?_, ?_⟩
    · intro i j hi hj
      refine ⟨hel i j hi hj, ?_, ?_⟩
      · rw [doe_uniform_limit_pinc_eq spop j i hs1]; omega
      · rw [doe_uniform_limit_pinc_eq spop j i hs1]
        have : i / spop ^ j % spop < spop := Nat.mod_lt _ hs1
        omega
    · intro k
      obtain ⟨i, hi, huniq⟩ := digits_existsUnique spop n_param k
      refine ⟨i, ?_, ?_⟩
      · intro j
        rw [doe_uniform_limit_pinc_eq spop j i hs1, hi j]
      · intro i' h
        apply huniq
        intro j
        have := h j
        rw [doe_uniform_limit_pinc_eq spop j i' hs1] at this
        omega

/-- Instance of C4: with `spop = 2` and two parameters, the level tuple
`(2, 1)` of `doe_uniform` and the level tuple `(1, 0)` of `doe_uniform_limit`
each belong to exactly one of the four rows. -/
theorem C4_grid_cartesian_product_witness :
    (1 ≤ 2 ∧ 2 ≤ 2) ∧
    (∃! i : Fin (2 ^ 2), ∀ j : Fin 2,
      doe_uniform_pinc 2 j i = ((((![1, 0] : Fin 2 → Fin 2) j : Nat) : Int) + 1)) ∧
    (∃ m, doe_uniform_limit 2 2 [⟨0, 1⟩, ⟨0, 1⟩] = some m ∧
      ∃! i : Fin (2 ^ 2), ∀ j : Fin 2,
        doe_uniform_limit_pinc 2 j i = (((![1, 0] : Fin 2 → Fin 2) j : Nat) : Int)) :=
  ⟨by decide,
    ((C4_grid_cartesian_product 2 2 [⟨0, 1⟩, ⟨0, 1⟩]).1 (by decide)).2 ![1, 0],
    (((C4_grid_cartesian_product 2 2 [⟨0, 1⟩, ⟨0, 1⟩]).2 (by decide)).imp
      (fun _ h => ⟨h.1, h.2.2 ![1, 0]⟩))⟩

/-- C7 (worked example). With one parameter bounded by `[0, 10]` and
`spop = 3`, `doe_uniform` returns the 3x1 matrix with rows 2.5, 5, 7.5 in that
order and `doe_uniform_limit` returns the 3x1 matrix with rows 0, 5, 10 in that
order. -/
theorem C7_worked_example :
    doe_uniform 3 1 [⟨0, 10⟩] = ⟨3, 1, [5 / 2, 5, 15 / 2]⟩ ∧
    doe_uniform_limit 3 1 [⟨0, 10⟩] = some ⟨3, 1, [0, 5, 10]⟩ := by
  constructor
  · simp [doe_uniform, doe_uniform_col, doe_uniform_row, doe_uniform_next, doe_uniform_value,
      zeros, mat.set, param_at, List.range_succ]
    norm_num
  · simp [doe_uniform_limit, doe_uniform_limit_col, doe_uniform_limit_row,
      doe_uniform_limit_next, doe_uniform_limit_value, zeros, mat.set, param_at,
      List.range_succ]
    norm_num

/-- C9, as stated, fails: with `spop = 2`, one parameter bounded by `[0, 3]`,
`j = 0` and `i = 0`, the row `i + spop ^ j = 1` is inside the matrix but
`doe(1, 0) = 2` differs from `doe(0, 0) = 1` in `doe_uniform`, and
`doe(1, 0) = 3` differs from `doe(0, 0) = 0` in `doe_uniform_limit`. -/
theorem C9_counterexample :
    (0 < 1 ∧ 0 + 2 ^ 0 < 2 ^ 1) ∧
    (doe_uniform 2 1 [⟨0, 3⟩]).elem (0 + 2 ^ 0) 0 = 2 ∧
    (doe_uniform 2 1 [⟨0, 3⟩]).elem 0 0 = 1 ∧
    (doe_uniform 2 1 [⟨0, 3⟩]).elem (0 + 2 ^ 0) 0 ≠ (doe_uniform 2 1 [⟨0, 3⟩]).elem 0 0 ∧
    ∃ m, doe_uniform_limit 2 1 [⟨0, 3⟩] = some m ∧ m.elem (0 + 2 ^ 0) 0 ≠ m.elem 0 0 := by
  have e : doe_uniform 2 1 [⟨0, 3⟩] = ⟨2, 1, [1, 2]⟩ := by
    simp [doe_uniform, doe_uniform_col, doe_uniform_row, doe_uniform_next, doe_uniform_value,
      zeros, mat.set, param_at, List.range_succ]
  have e2 : doe_uniform_limit 2 1 [⟨0, 3⟩] = some ⟨2, 1, [0, 3]⟩ := by
    simp [doe_uniform_limit, doe_uniform_limit_col, doe_uniform_limit_row,
      doe_uniform_limit_next, doe_uniform_limit_value, zeros, mat.set, param_at,
      List.range_succ]
  have g1 : (⟨2, 1, [1, 2]⟩ : mat).elem (0 + 2 ^ 0) 0 = 2 := rfl
  have g0 : (⟨2, 1, [1, 2]⟩ : mat).elem 0 0 = 1 := rfl
  have k1 : (⟨2, 1, [0, 3]⟩ : mat).elem (0 + 2 ^ 0) 0 = 3 := rfl
  have k0 : (⟨2, 1, [0, 3]⟩ : mat).elem 0 0 = 0 := rfl
  refine ⟨by decide, ?_, ?_, ?_, ⟨_, e2, ?_⟩⟩
  · rw [e, g1]
  · rw [e, g0]
  · rw [e, g1, g0]; norm_num
  · rw [k1, k0]; norm_num

/-- C9 (amended). In both grid samplers the coordinate of parameter `j` is
constant on each block of `spop ^ j` consecutive rows (rows with the same
quotient by `spop ^ j`) and cycles with period `spop ^ (j + 1)` in the row
index: `doe(i + spop ^ (j + 1), j) = doe(i, j)` whenever both rows exist.
Parameter 0 has blocks of one row and the shortest period, `spop`. -/
theorem C9_grid_period (spop n_param : Nat) (params : List parameters) :
    ((∀ i j, j < n_param → i + spop ^ (j + 1) < spop ^ n_param →
        (doe_uniform spop n_param params).elem (i + spop ^ (j + 1)) j
          = (doe_uniform spop n_param params).elem i j) ∧
      (∀ i i' j, j < n_param → i < spop ^ n_param → i' < spop ^ n_param →
        i / spop ^ j = i' / spop ^ j →
        (doe_uniform spop n_param params).elem i j
          = (doe_uniform spop n_param params).elem i' j)) ∧
    (2 ≤ spop → ∃ m, doe_uniform_limit spop n_param params = some m ∧
      (∀ i j, j < n_param → i + spop ^ (j + 1) < spop ^ n_param →
        m.elem (i + spop ^ (j + 1)) j = m.elem i j) ∧
      (∀ i i' j, j < n_param → i < spop ^ n_param → i' < spop ^ n_param →
        i / spop ^ j = i' / spop ^ j → m.elem i j = m.elem i' j)) := by
  refine ⟨?_, ?_⟩
  · rcases Nat.eq_zero_or_pos spop with h0 | hs
    · subst h0
      constructor
      · intro i j hj hi
        have h0 : (0 : Nat) ^ n_param = 0 := zero_pow (by omega)
        rw [h0] at hi
        omega
      · intro i i' j hj hi
        have h0 : (0 : Nat) ^ n_param = 0 := zero_pow (by omega)
        rw [h0] at hi
        omega
    · obtain ⟨_, _, _, hel⟩ := doe_uniform_spec spop n_param params
      constructor
      · intro i j hj hi
        rw [hel _ j hi hj, hel i j (by omega) hj, doe_uniform_pinc_eq spop j _ hs,
          doe_uniform_pinc_eq spop j i hs, digit_add_period spop j i hs]
      · intro i i' j hj hi hi' hq
        rw [hel i j hi hj, hel i' j hi' hj, doe_uniform_pinc_eq spop j i hs,
          doe_uniform_pinc_eq spop j i' hs, hq]
  · intro hs2
    have hs : 0 < spop := by omega
    obtain ⟨m, hm, _, _, _, hel⟩ := doe_uniform_limit_spec spop n_param params hs2
    refine ⟨m, hm, ?_, ?_⟩
    · intro i j hj hi
      rw [hel _ j hi hj, hel i j (by omega) hj, doe_uniform_limit_pinc_eq spop j _ hs,
        doe_uniform_limit_pinc_eq spop j i hs, digit_add_period spop j i hs]
    · intro i i' j hj hi hi' hq
      rw [hel i j hi hj, hel i' j hi' hj, doe_uniform_limit_pinc_eq spop j i hs,
        doe_uniform_limit_pinc_eq spop j i' hs, hq]

/-- Instance of the amended C9: `spop = 2`, three parameters, column 1 has
period 4 (rows 1 and 5 agree) and blocks of two rows (rows 2 and 3 agree). -/
theorem C9_grid_period_witness :
    (1 < 3 ∧ 1 + 2 ^ (1 + 1) < 2 ^ 3 ∧ 2 < 2 ^ 3 ∧ 3 < 2 ^ 3 ∧ 2 / 2 ^ 1 = 3 / 2 ^ 1 ∧ 2 ≤ 2) ∧
    (doe_uniform 2 3 [⟨0, 1⟩, ⟨2, 5⟩, ⟨0, 1⟩]).elem (1 + 2 ^ (1 + 1)) 1
      = (doe_uniform 2 3 [⟨0, 1⟩, ⟨2, 5⟩, ⟨0, 1⟩]).elem 1 1 ∧
    (doe_uniform 2 3 [⟨0, 1⟩, ⟨2, 5⟩, ⟨0, 1⟩]).elem 2 1
      = (doe_uniform 2 3 [⟨0, 1⟩, ⟨2, 5⟩, ⟨0, 1⟩]).elem 3 1 ∧
    ∃ m, doe_uniform_limit 2 3 [⟨0, 1⟩, ⟨2, 5⟩, ⟨0, 1⟩] = some m ∧
      m.elem (1 + 2 ^ (1 + 1)) 1 = m.elem 1 1 ∧ m.elem 2 1 = m.elem 3 1 :=
  ⟨by decide,
    (C9_grid_period 2 3 [⟨0, 1⟩, ⟨2, 5⟩, ⟨0, 1⟩]).1.1 1 1 (by decide) (by decide),
    (C9_grid_period 2 3 [⟨0, 1⟩, ⟨2, 5⟩, ⟨0, 1⟩]).1.2 2 3 1 (by decide) (by decide)
      (by decide) (by decide),
    ((C9_grid_period 2 3 [⟨0, 1⟩, ⟨2, 5⟩, ⟨0, 1⟩]).2 (by decide)).imp
      (fun _ h => ⟨h.1, h.2.1 1 1 (by decide) (by decide),
        h.2.2 2 3 1 (by decide) (by decide) (by decide) (by decide)⟩)⟩

/-- C10 (GridInclusive precondition). `doe_uniform_limit` fails on its
assertion exactly when `spop < 2`; when `spop ≥ 2` the divisor `spop - 1` of
the spacing factor is not zero and a sample matrix (of `spop ^ n_param` rows
and `n_param` columns) is returned. -/
theorem C10_doe_uniform_limit_precondition (spop n_param : Nat) (params : List parameters) :
    (doe_uniform_limit spop n_param params = none ↔ spop < 2) ∧
    (2 ≤ spop → ((((spop : Int) - 1 : Int) : ℚ) ≠ 0) ∧
      ∃ m, doe_uniform_limit spop n_param params = some m ∧
        m.n_rows = spop ^ n_param ∧ m.n_cols = n_param) := by
  constructor
  · constructor
    · intro h
      by_contra hlt
      obtain ⟨m, hm, _⟩ := doe_uniform_limit_spec spop n_param params (by omega)
      rw [hm] at h
      exact Option.noConfusion h
    · intro h
      unfold doe_uniform_limit
      rw [if_neg (by omega)]
  · intro hs
    constructor
    · have : ((spop : Int) - 1 : Int) ≠ 0 := by omega
      exact_mod_cast this
    · obtain ⟨m, hm, h1, h2, _⟩ := doe_uniform_limit_spec spop n_param params hs
      exact ⟨m, hm, h1, h2⟩

/-- Instance of C10: `spop = 2` with three parameters returns a matrix. -/
theorem C10_doe_uniform_limit_precondition_witness :
    2 ≤ 2 ∧ ((((2 : Nat) : Int) - 1 : Int) : ℚ) ≠ 0 ∧
    ∃ m, doe_uniform_limit 2 3 [⟨0, 1⟩, ⟨2, 5⟩, ⟨0, 1⟩] = some m ∧
      m.n_rows = 2 ^ 3 ∧ m.n_cols = 3 :=
  ⟨by decide,
    (C10_doe_uniform_limit_precondition 2 3 [⟨0, 1⟩, ⟨2, 5⟩, ⟨0, 1⟩]).2 (by decide)⟩

/-! ## Rounding to binary64 -/

theorem round_even_intCast (n : Int) : round_even (n : ℚ) = n := by
  simp [round_even]

theorem round_even_floor_le (q : ℚ) : Int.floor q ≤ round_even q := by
  unfold round_even
  simp only
  split_ifs <;> omega

theorem round_even_le_floor_succ (q : ℚ) : round_even q ≤ Int.floor q + 1 := by
  unfold round_even
  simp only
  split_ifs <;> omega

/-- Rounding to the nearest integer is monotone. -/
theorem round_even_mono {a b : ℚ} (h : a ≤ b) : round_even a ≤ round_even b := by
  rcases lt_or_eq_of_le (Int.floor_mono h) with hlt | heq
  · calc round_even a ≤ Int.floor a + 1 := round_even_le_floor_succ a
      _ ≤ Int.floor b := hlt
      _ ≤ round_even b := round_even_floor_le b
  · unfold round_even
    simp only
    rw [← heq]
    have h' : a - (Int.floor a : ℚ) ≤ b - (Int.floor a : ℚ) := by linarith
    split_ifs <;> first | omega | (exfalso; linarith)

/-- The rounded integer is at most one half away. -/
theorem round_even_error (q : ℚ) : |(round_even q : ℚ) - q| ≤ 1 / 2 := by
  have h1 := Int.floor_le q
  have h2 := Int.lt_floor_add_one q
  unfold round_even
  simp only
  rw [abs_le]
  split_ifs <;> push_cast <;> constructor <;> linarith

/-- A rational closer than one half to an integer rounds to it. -/
theorem round_even_close (q : ℚ) (n : Int) (h : |q - n| < 1 / 2) : round_even q = n := by
  rw [abs_lt] at h
  obtain ⟨h1, h2⟩ := h
  rcases le_or_lt (n : ℚ) q with hq | hq
  · have hf : Int.floor q = n := Int.floor_eq_iff.2 ⟨hq, by linarith⟩
    unfold round_even
    simp only
    rw [hf, if_pos (by linarith)]
  · have hf : Int.floor q = n - 1 := Int.floor_eq_iff.2 ⟨by push_cast; linarith, by push_cast; linarith⟩
    unfold round_even
    simp only
    rw [hf, if_neg (by push_cast; linarith), if_pos (by push_cast; linarith)]
    omega

theorem round_even_neg (q : ℚ) : round_even (-q) = - round_even q := by
  by_cases hq : (Int.floor q : ℚ) = q
  · rw [← hq, ← Int.cast_neg, round_even_intCast, round_even_intCast]
  · have h1 := Int.floor_le q
    have h2 := Int.lt_floor_add_one q
    have h3 : (Int.floor q : ℚ) < q := lt_of_le_of_ne h1 hq
    have hf : Int.floor (-q) = - Int.floor q - 1 :=
      Int.floor_eq_iff.2 ⟨by push_cast; linarith, by push_cast; linarith⟩
    unfold round_even
    simp only
    rw [hf]
    push_cast
    split_ifs <;> first | omega | (exfalso; linarith)

theorem ulp_pos (e : Int) : (0 : ℚ) < 2 ^ e := zpow_pos (by norm_num) e

theorem zpow_log_le (x : ℚ) (hx : 0 < x) : (2 : ℚ) ^ Int.log 2 x ≤ x := by
  have h : ((2 : Nat) : ℚ) ^ Int.log 2 x ≤ x := Int.zpow_log_le_self (by norm_num) hx
  simpa using h

theorem lt_zpow_log_succ (x : ℚ) : x < (2 : ℚ) ^ (Int.log 2 x + 1) := by
  have h : x < ((2 : Nat) : ℚ) ^ (Int.log 2 x + 1) := Int.lt_zpow_succ_log_self (by norm_num) x
  simpa using h

/-- The exponent of a positive rational is the only `e` with
`2 ^ e ≤ x < 2 ^ (e + 1)`. -/
theorem log_eq_of_bounds (x : ℚ) (e : Int) (h1 : (2 : ℚ) ^ e ≤ x) (h2 : x < (2 : ℚ) ^ (e + 1)) :
    Int.log 2 x = e := by
  have hx : 0 < x := lt_of_lt_of_le (ulp_pos e) h1
  have a : e ≤ Int.log 2 x :=
    (Int.zpow_le_iff_le_log (by norm_num) hx).1 (by simpa using h1)
  have b : Int.log 2 x < e + 1 :=
    (Int.lt_zpow_iff_log_lt (by norm_num) hx).1 (by simpa using h2)
  omega

theorem log_lt_of_lt (x : ℚ) (e : Int) (hx : 0 < x) (h : x < (2 : ℚ) ^ e) : Int.log 2 x < e :=
  (Int.lt_zpow_iff_log_lt (by norm_num) hx).1 (by simpa using h)

theorem zpow_split (e : Int) (k : Nat) :
    (2 : ℚ) ^ (e + (k : Int) - 52) = 2 ^ k * 2 ^ (e - 52) := by
  rw [← zpow_natCast, ← zpow_add₀ (by norm_num)]
  congr 1
  ring

theorem zpow_52 (e : Int) : (2 : ℚ) ^ e = 2 ^ (52 : Nat) * 2 ^ (e - 52) := by
  rw [← zpow_split]; congr 1; push_cast; ring

theorem zpow_53 (e : Int) : (2 : ℚ) ^ (e + 1) = 2 ^ (53 : Nat) * 2 ^ (e - 52) := by
  rw [← zpow_split]; congr 1; push_cast; ring

theorem exponent64_neg (q : ℚ) : exponent64 (-q) = exponent64 q := by
  simp [exponent64]

theorem exponent64_ge (q : ℚ) : -1022 ≤ exponent64 q := le_max_right _ _

theorem log_le_exponent64 (q : ℚ) : Int.log 2 |q| ≤ exponent64 q := le_max_left _ _

theorem exponent64_normal (q : ℚ) (h : -1022 ≤ Int.log 2 |q|) :
    exponent64 q = Int.log 2 |q| := max_eq_left h

theorem exponent64_mono {x y : ℚ} (hx : 0 < x) (h : x ≤ y) : exponent64 x ≤ exponent64 y := by
  have hy : 0 < y := lt_of_lt_of_le hx h
  unfold exponent64
  rw [abs_of_pos hx, abs_of_pos hy]
  exact max_le_max (Int.log_mono_right hx h) le_rfl

theorem round64_zero : round64 0 = 0 := by
  simp [round64, round_even]

theorem round64_neg (q : ℚ) : round64 (-q) = - round64 q := by
  unfold round64
  simp only [exponent64_neg, neg_div, round_even_neg]
  push_cast
  ring

/-- The scaled significand of a positive rational is below `2 ^ 53`, and at
least `2 ^ 52` in the normal range. -/
theorem scaled_bounds (x : ℚ) (hx : 0 < x) :
    0 < x / 2 ^ (exponent64 x - 52) ∧ x / 2 ^ (exponent64 x - 52) < (2 : ℚ) ^ (53 : Nat) ∧
      (-1022 ≤ Int.log 2 x → (2 : ℚ) ^ (52 : Nat) ≤ x / 2 ^ (exponent64 x - 52)) := by
  have hu := ulp_pos (exponent64 x - 52)
  have h1 := zpow_log_le x hx
  have h2 := lt_zpow_log_succ x
  have hl := log_le_exponent64 x
  rw [abs_of_pos hx] at hl
  refine ⟨div_pos hx hu, ?_, ?_⟩
  · rw [div_lt_iff₀ hu, ← zpow_53]
    exact lt_of_lt_of_le h2 (zpow_le_zpow_right₀ (by norm_num) (by omega))
  · intro hn
    have he : exponent64 x = Int.log 2 x := by
      have := exponent64_normal x (by rw [abs_of_pos hx]; exact hn)
      rwa [abs_of_pos hx] at this
    rw [le_div_iff₀ hu, he, ← zpow_52]
    exact h1

/-- A positive rational rounds to at most the top of its binade, and to at
least the bottom of it in the normal range. -/
theorem round64_pos_bounds (x : ℚ) (hx : 0 < x) :
    0 ≤ round64 x ∧ round64 x ≤ (2 : ℚ) ^ (exponent64 x + 1) ∧
      (-1022 ≤ Int.log 2 x → (2 : ℚ) ^ Int.log 2 x ≤ round64 x) := by
  obtain ⟨h0, h2, h1⟩ := scaled_bounds x hx
  have hu := ulp_pos (exponent64 x - 52)
  have a0 : ((0 : Int) : ℚ) ≤ x / 2 ^ (exponent64 x - 52) := by push_cast; exact h0.le
  have a2 : x / 2 ^ (exponent64 x - 52) ≤ ((2 ^ 53 : Int) : ℚ) := by push_cast; exact h2.le
  have b0 := round_even_mono a0
  have b2 := round_even_mono a2
  rw [round_even_intCast] at b0 b2
  have c0 : (0 : ℚ) ≤ (round_even (x / 2 ^ (exponent64 x - 52)) : ℚ) := by exact_mod_cast b0
  have c2 : (round_even (x / 2 ^ (exponent64 x - 52)) : ℚ) ≤ ((2 : ℚ) ^ (53 : Nat)) := by
    exact_mod_cast b2
  refine ⟨mul_nonneg c0 hu.le, ?_, ?_⟩
  · rw [zpow_53]
    exact mul_le_mul_of_nonneg_right c2 hu.le
  · intro hn
    have he : exponent64 x = Int.log 2 x := by
      have := exponent64_normal x (by rw [abs_of_pos hx]; exact hn)
      rwa [abs_of_pos hx] at this
    have a1 : ((2 ^ 52 : Int) : ℚ) ≤ x / 2 ^ (exponent64 x - 52) := by push_cast; exact h1 hn
    have b1 := round_even_mono a1
    rw [round_even_intCast] at b1
    have c1 : ((2 : ℚ) ^ (52 : Nat)) ≤ (round_even (x / 2 ^ (exponent64 x - 52)) : ℚ) := by
      exact_mod_cast b1
    unfold round64
    simp only
    rw [zpow_52 (Int.log 2 x), ← he]
    exact mul_le_mul_of_nonneg_right c1 hu.le

theorem round64_nonneg (x : ℚ) (hx : 0 ≤ x) : 0 ≤ round64 x := by
  rcases eq_or_lt_of_le hx with h | h
  · rw [← h, round64_zero]
  · exact (round64_pos_bounds x h).1

theorem round64_mono_pos {x y : ℚ} (hx : 0 < x) (h : x ≤ y) : round64 x ≤ round64 y := by
  have hy : 0 < y := lt_of_lt_of_le hx h
  rcases lt_or_eq_of_le (exponent64_mono hx h) with hlt | heq
  · have hny : -1022 ≤ Int.log 2 y := by
      have h1 := exponent64_ge x
      by_contra hc
      have : exponent64 y = -1022 := by
        unfold exponent64
        rw [abs_of_pos hy]
        exact max_eq_right (by omega)
      omega
    have hey : exponent64 y = Int.log 2 y := by
      have := exponent64_normal y (by rw [abs_of_pos hy]; exact hny)
      rwa [abs_of_pos hy] at this
    calc round64 x ≤ (2 : ℚ) ^ (exponent64 x + 1) := (round64_pos_bounds x hx).2.1
      _ ≤ (2 : ℚ) ^ Int.log 2 y := zpow_le_zpow_right₀ (by norm_num) (by omega)
      _ ≤ round64 y := (round64_pos_bounds y hy).2.2 hny
  · unfold round64
    simp only
    rw [heq]
    have hu := ulp_pos (exponent64 y - 52)
    apply mul_le_mul_of_nonneg_right _ hu.le
    exact_mod_cast round_even_mono (div_le_div_of_nonneg_right h hu.le)

/-- Rounding to binary64 is monotone. -/
theorem round64_mono {x y : ℚ} (h : x ≤ y) : round64 x ≤ round64 y := by
  rcases lt_trichotomy 0 x with hx | hx | hx
  · exact round64_mono_pos hx h
  · rw [← hx, round64_zero]
    exact round64_nonneg y (hx ▸ h)
  · rcases le_or_lt 0 y with hy | hy
    · have := round64_nonneg (-x) (by linarith)
      rw [round64_neg] at this
      exact le_trans (by linarith) (round64_nonneg y hy)
    · have := round64_mono_pos (x := -y) (y := -x) (by linarith) (by linarith)
      rw [round64_neg, round64_neg] at this
      linarith

/-- A rational whose scaled significand is an integer is a `double`. -/
theorem round64_of_scaled (x : ℚ) (n : Int) (h : x / 2 ^ (exponent64 x - 52) = n) :
    round64 x = x := by
  unfold round64
  simp only
  rw [h, round_even_intCast, ← h]
  exact div_mul_cancel₀ x (ulp_pos _).ne'

theorem round64_fixed_lt (m k : Int) (hm : |m| < 2 ^ 53) (hk : -1074 ≤ k) :
    round64 ((m : ℚ) * 2 ^ k) = (m : ℚ) * 2 ^ k := by
  rcases eq_or_ne m 0 with h0 | h0
  · simp [h0, round64_zero]
  · have hpos : (0 : ℚ) < |(m : ℚ) * 2 ^ k| := abs_pos.2 (mul_ne_zero (by exact_mod_cast h0)
      (ulp_pos k).ne')
    have hm' : |(m : ℚ)| < 2 ^ (53 : Int) := by
      have : |(m : ℚ)| < ((2 ^ 53 : Int) : ℚ) := by exact_mod_cast hm
      have e : ((2 ^ 53 : Int) : ℚ) = 2 ^ (53 : Int) := by norm_num
      rwa [e] at this
    have habs : |(m : ℚ) * 2 ^ k| = |(m : ℚ)| * 2 ^ k := by
      rw [abs_mul, abs_of_pos (ulp_pos k)]
    have hub : |(m : ℚ) * 2 ^ k| < (2 : ℚ) ^ ((53 : Int) + k) := by
      rw [habs, zpow_add₀ (by norm_num)]
      exact mul_lt_mul_of_pos_right hm' (ulp_pos k)
    have hlog : Int.log 2 |(m : ℚ) * 2 ^ k| < 53 + k := log_lt_of_lt _ _ hpos hub
    have hexp : exponent64 ((m : ℚ) * 2 ^ k) - 52 ≤ k := by
      unfold exponent64
      rcases max_cases (Int.log 2 |(m : ℚ) * 2 ^ k|) (-1022) with ⟨h, _⟩ | ⟨h, _⟩ <;> rw [h] <;> omega
    obtain ⟨d, hd⟩ : ∃ d : Nat, k = (exponent64 ((m : ℚ) * 2 ^ k) - 52) + (d : Int) :=
      ⟨(k - (exponent64 ((m : ℚ) * 2 ^ k) - 52)).toNat, by omega⟩
    apply round64_of_scaled _ (m * 2 ^ d)
    generalize exponent64 ((m : ℚ) * 2 ^ k) - 52 = a at hd
    rw [hd, zpow_add₀ (by norm_num), zpow_natCast]
    have ha := (ulp_pos a).ne'
    field_simp
    ring

/-- Integers of at most 53 bits scaled by a power of two, not below
`2 ^ (-1074)`, are `double` values. -/
theorem round64_fixed (m k : Int) (hm : |m| ≤ 2 ^ 53) (hk : -1074 ≤ k) :
    round64 ((m : ℚ) * 2 ^ k) = (m : ℚ) * 2 ^ k := by
  rcases lt_or_eq_of_le hm with h | h
  · exact round64_fixed_lt m k h hk
  · have e : (m : ℚ) * 2 ^ k = ((m / 2 : Int) : ℚ) * 2 ^ (k + 1) := by
      have h2 : m = 2 * (m / 2) := by
        rcases abs_eq (by norm_num : (0 : Int) ≤ 2 ^ 53) |>.1 h with h | h <;> rw [h] <;> norm_num
      rw [zpow_add₀ (by norm_num), zpow_one]
      conv_lhs => rw [h2]
      push_cast
      ring
    rw [e]
    apply round64_fixed_lt _ _ _ (by omega)
    rcases abs_eq (by norm_num : (0 : Int) ≤ 2 ^ 53) |>.1 h with h | h <;> rw [h] <;> norm_num

theorem round64_one : round64 1 = 1 := by
  have := round64_fixed 1 0 (by norm_num) (by norm_num)
  simpa using this

theorem round64_intCast (n : Int) (hn : |n| ≤ 2 ^ 53) : round64 (n : ℚ) = n := by
  have := round64_fixed n 0 hn (by norm_num)
  simpa using this

/-- Rounding twice is rounding once: the values of `round64` are `double`
values. -/
theorem round64_idem (x : ℚ) : round64 (round64 x) = round64 x := by
  have key : ∀ y : ℚ, 0 < y → round64 (round64 y) = round64 y := by
    intro y hy
    obtain ⟨h0, h2, _⟩ := scaled_bounds y hy
    have a2 : y / 2 ^ (exponent64 y - 52) ≤ ((2 ^ 53 : Int) : ℚ) := by push_cast; exact h2.le
    have a1 : ((0 : Int) : ℚ) ≤ y / 2 ^ (exponent64 y - 52) := by push_cast; exact h0.le
    have b1 := round_even_mono a1
    have b2 := round_even_mono a2
    rw [round_even_intCast] at b1 b2
    have hk := exponent64_ge y
    unfold round64
    simp only
    exact round64_fixed _ _ (by rw [abs_of_nonneg b1]; exact b2) (by omega)
  rcases lt_trichotomy 0 x with hx | hx | hx
  · exact key x hx
  · rw [← hx, round64_zero, round64_zero]
  · have := key (-x) (by linarith)
    rw [round64_neg, round64_neg] at this
    linarith

/-- Evaluation of `round64` in the normal range, from the binade and the
nearest significand. -/
theorem round64_eval (x : ℚ) (e n : Int) (he : -1022 ≤ e) (h1 : (2 : ℚ) ^ e ≤ |x|)
    (h2 : |x| < (2 : ℚ) ^ (e + 1)) (hn : |x / 2 ^ (e - 52) - n| < 1 / 2) :
    round64 x = (n : ℚ) * 2 ^ (e - 52) := by
  have hl := log_eq_of_bounds |x| e h1 h2
  have hx : exponent64 x = e := by
    unfold exponent64
    rw [hl]
    exact max_eq_left he
  unfold round64
  simp only
  rw [hx, round_even_close _ n hn]

/-- Evaluation of `round64` in the subnormal range: the nearest multiple of
`2 ^ (-1074)`. -/
theorem round64_eval_subnormal (x : ℚ) (n : Int) (h0 : x ≠ 0) (h2 : |x| < (2 : ℚ) ^ (-1022 : Int))
    (hn : |x / 2 ^ (-1074 : Int) - n| < 1 / 2) :
    round64 x = (n : ℚ) * 2 ^ (-1074 : Int) := by
  have hl := log_lt_of_lt |x| (-1022) (abs_pos.2 h0) h2
  have hx : exponent64 x = -1022 := by
    unfold exponent64
    exact max_eq_right hl.le
  unfold round64
  simp only
  rw [hx]
  have e : ((-1022 : Int) - 52) = -1074 := by norm_num
  rw [e, round_even_close _ n hn]

/-- In the normal range the relative error of one rounding is at most
`2 ^ (-53)`. -/
theorem round64_error (x : ℚ) (hn : -1022 ≤ Int.log 2 |x|) (h0 : x ≠ 0) :
    |round64 x - x| ≤ |x| / 2 ^ (53 : Nat) := by
  have hpos : 0 < |x| := abs_pos.2 h0
  have hle := zpow_log_le |x| hpos
  have hx := exponent64_normal x hn
  have hu := ulp_pos (exponent64 x - 52)
  have he := round_even_error (x / 2 ^ (exponent64 x - 52))
  have e1 : round64 x - x
      = ((round_even (x / 2 ^ (exponent64 x - 52)) : ℚ) - x / 2 ^ (exponent64 x - 52))
        * 2 ^ (exponent64 x - 52) := by
    unfold round64
    simp only
    rw [sub_mul, div_mul_cancel₀ x hu.ne']
  rw [e1, abs_mul, abs_of_pos hu]
  rw [zpow_52, ← hx] at hle
  have : |(round_even (x / 2 ^ (exponent64 x - 52)) : ℚ) - x / 2 ^ (exponent64 x - 52)|
      * 2 ^ (exponent64 x - 52) ≤ 1 / 2 * 2 ^ (exponent64 x - 52) :=
    mul_le_mul_of_nonneg_right he hu.le
  rw [le_div_iff₀ (by positivity)]
  nlinarith

theorem le_log_of_le (x : ℚ) (e : Int) (h : (2 : ℚ) ^ e ≤ x) : e ≤ Int.log 2 x :=
  (Int.zpow_le_iff_le_log (by norm_num) (lt_of_lt_of_le (ulp_pos e) h)).1 (by simpa using h)

/-- One rounding raises a rational of the normal range by at most the factor
`1 + 2 ^ (-53)`. -/
theorem round64_le_rel (x : ℚ) (hx : (2 : ℚ) ^ (-1022 : Int) ≤ x) :
    round64 x ≤ x * (1 + 1 / 2 ^ (53 : Nat)) := by
  have hpos : 0 < x := lt_of_lt_of_le (ulp_pos _) hx
  have hl := le_log_of_le x (-1022) hx
  have h := round64_error x (by rw [abs_of_pos hpos]; exact hl) hpos.ne'
  rw [abs_of_pos hpos] at h
  have := (abs_le.1 h).2
  have e : x * (1 + 1 / 2 ^ (53 : Nat)) = x + x / 2 ^ (53 : Nat) := by ring
  rw [e]
  linarith

/-- A positive `double` is a positive integer of at most 53 bits times the
unit of its binade; the integer has exactly 53 bits in the normal range. -/
theorem double_repr (x : ℚ) (hx : 0 < x) (h : round64 x = x) :
    ∃ n : Int, x = (n : ℚ) * 2 ^ (exponent64 x - 52) ∧ 0 < n ∧ n < 2 ^ 53 ∧
      (-1022 ≤ Int.log 2 x → 2 ^ 52 ≤ n) := by
  obtain ⟨h0, h2, h1⟩ := scaled_bounds x hx
  have hu := ulp_pos (exponent64 x - 52)
  have hr : (round_even (x / 2 ^ (exponent64 x - 52)) : ℚ) = x / 2 ^ (exponent64 x - 52) := by
    have h' := h
    unfold round64 at h'
    simp only at h'
    rw [eq_div_iff hu.ne']
    exact h'
  refine ⟨round_even (x / 2 ^ (exponent64 x - 52)), ?_, ?_, ?_, ?_⟩
  · rw [hr, div_mul_cancel₀ x hu.ne']
  · rw [← hr] at h0
    exact_mod_cast h0
  · rw [← hr] at h2
    exact_mod_cast h2
  · intro hn
    have := h1 hn
    rw [← hr] at this
    exact_mod_cast this

/-- Every `double` is an integer multiple of `2 ^ (-1074)`. -/
theorem double_grid (x : ℚ) (h : round64 x = x) : ∃ N : Int, x = (N : ℚ) * 2 ^ (-1074 : Int) := by
  have key : ∀ y : ℚ, 0 < y → round64 y = y → ∃ N : Int, y = (N : ℚ) * 2 ^ (-1074 : Int) := by
    intro y hy hfix
    obtain ⟨n, hn, _, _, _⟩ := double_repr y hy hfix
    have hk := exponent64_ge y
    obtain ⟨d, hd⟩ : ∃ d : Nat, exponent64 y - 52 = (-1074 : Int) + (d : Int) :=
      ⟨(exponent64 y - 52 + 1074).toNat, by omega⟩
    refine ⟨n * 2 ^ d, ?_⟩
    rw [hn, hd, zpow_add₀ (by norm_num), zpow_natCast]
    push_cast
    ring
  rcases lt_trichotomy 0 x with hx | hx | hx
  · exact key x hx h
  · exact ⟨0, by simp [← hx]⟩
  · obtain ⟨N, hN⟩ := key (-x) (by linarith) (by rw [round64_neg, h])
    refine ⟨-N, ?_⟩
    push_cast
    linarith

/-- The difference of two `double` values is a `double` when it is below
`2 ^ (-1021)`. -/
theorem round64_sub_small (a b : ℚ) (ha : round64 a = a) (hb : round64 b = b) (hab : a ≤ b)
    (hs : b - a < (2 : ℚ) ^ (-1021 : Int)) : round64 (b - a) = b - a := by
  obtain ⟨A, hA⟩ := double_grid a ha
  obtain ⟨B, hB⟩ := double_grid b hb
  have hu := ulp_pos (-1074)
  have e : b - a = ((B - A : Int) : ℚ) * 2 ^ (-1074 : Int) := by
    push_cast
    rw [sub_mul, ← hA, ← hB]
  have h0 : (0 : ℚ) ≤ ((B - A : Int) : ℚ) := by
    have : (0 : ℚ) ≤ ((B - A : Int) : ℚ) * 2 ^ (-1074 : Int) := by rw [← e]; linarith
    exact nonneg_of_mul_nonneg_left this hu
  have h1 : ((B - A : Int) : ℚ) < 2 ^ (53 : Nat) := by
    have e2 : (2 : ℚ) ^ (-1021 : Int) = 2 ^ (53 : Nat) * 2 ^ (-1074 : Int) := by
      rw [← zpow_natCast, ← zpow_add₀ (by norm_num)]
      norm_num
    rw [e, e2] at hs
    exact lt_of_mul_lt_mul_right hs hu.le
  rw [e]
  apply round64_fixed_lt _ _ _ (by norm_num)
  have h0' : (0 : Int) ≤ B - A := by exact_mod_cast h0
  have h1' : B - A < 2 ^ 53 := by exact_mod_cast h1
  rw [abs_of_nonneg h0']
  exact h1'

/-- Above a positive `double` the next multiple of its unit is a `double`, and
no `double` lies strictly between the two. -/
theorem double_gap_above (x y : ℚ) (hx : 0 < x) (hxy : x < y) (h1 : round64 x = x)
    (h2 : round64 y = y) :
    ∃ g : ℚ, round64 g = g ∧ 0 < g ∧ g ≤ y - x ∧ round64 (x + g) = x + g := by
  obtain ⟨n, hn, n0, n2, _⟩ := double_repr x hx h1
  obtain ⟨n', hn', _, _, _⟩ := double_repr y (lt_trans hx hxy) h2
  have hu := ulp_pos (exponent64 x - 52)
  have hk := exponent64_ge x
  have hL : exponent64 x ≤ exponent64 y := exponent64_mono hx hxy.le
  obtain ⟨t, ht⟩ : ∃ t : Nat, exponent64 y - 52 = (exponent64 x - 52) + (t : Int) :=
    ⟨(exponent64 y - exponent64 x).toNat, by omega⟩
  refine ⟨2 ^ (exponent64 x - 52), ?_, hu, ?_, ?_⟩
  · have := round64_fixed 1 (exponent64 x - 52) (by norm_num) (by omega)
    simpa using this
  · rw [ht, zpow_add₀ (by norm_num), zpow_natCast] at hn'
    have e : y - x = ((n' * 2 ^ t - n : Int) : ℚ) * 2 ^ (exponent64 x - 52) := by
      push_cast
      rw [sub_mul, ← hn]
      rw [hn']
      ring
    have hpos : (0 : ℚ) < ((n' * 2 ^ t - n : Int) : ℚ) * 2 ^ (exponent64 x - 52) := by
      rw [← e]; linarith
    have hi : (0 : ℚ) < ((n' * 2 ^ t - n : Int) : ℚ) := pos_of_mul_pos_left hpos hu.le
    have hi' : (1 : Int) ≤ n' * 2 ^ t - n := by
      have : (0 : Int) < n' * 2 ^ t - n := by exact_mod_cast hi
      omega
    have hq : (1 : ℚ) ≤ ((n' * 2 ^ t - n : Int) : ℚ) := by exact_mod_cast hi'
    rw [e]
    calc (2 : ℚ) ^ (exponent64 x - 52) = 1 * 2 ^ (exponent64 x - 52) := (one_mul _).symm
      _ ≤ _ := mul_le_mul_of_nonneg_right hq hu.le
  · have e : x + 2 ^ (exponent64 x - 52) = ((n + 1 : Int) : ℚ) * 2 ^ (exponent64 x - 52) := by
      push_cast
      rw [add_mul, ← hn, one_mul]
    rw [e]
    exact round64_fixed _ _ (by rw [abs_of_nonneg (by omega)]; omega) (by omega)

/-- Below a positive `double` there is a `double` at a distance that is itself
a `double`, and no `double` lies strictly between the two. -/
theorem double_gap_below (x y : ℚ) (hx : 0 < x) (hxy : x < y) (h1 : round64 x = x)
    (h2 : round64 y = y) :
    ∃ g : ℚ, round64 g = g ∧ 0 < g ∧ g ≤ y - x ∧ round64 (y - g) = y - g := by
  have hy : 0 < y := lt_trans hx hxy
  obtain ⟨n, hn, n0, n2, n1⟩ := double_repr y hy h2
  obtain ⟨n', hn', n0', n2', _⟩ := double_repr x hx h1
  have hu := ulp_pos (exponent64 y - 52)
  have hky := exponent64_ge y
  have hkx := exponent64_ge x
  have hL : exponent64 x ≤ exponent64 y := exponent64_mono hx hxy.le
  have hnorm : -1022 < exponent64 y → exponent64 y = Int.log 2 y := by
    intro h
    unfold exponent64 at h ⊢
    rw [abs_of_pos hy] at h ⊢
    rcases max_cases (Int.log 2 y) (-1022) with ⟨h', _⟩ | ⟨h', _⟩
    · exact h'
    · rw [h'] at h; omega
  by_cases hc : n = 2 ^ 52 ∧ -1022 < exponent64 y
  · obtain ⟨heq, hE⟩ := hc
    have hv := ulp_pos (exponent64 y - 53)
    have euv : (2 : ℚ) ^ (exponent64 y - 52) = 2 * 2 ^ (exponent64 y - 53) := by
      have : exponent64 y - 52 = 1 + (exponent64 y - 53) := by ring
      rw [this, zpow_add₀ (by norm_num), zpow_one]
    have ey : y = 2 ^ exponent64 y := by
      rw [zpow_52 (exponent64 y)]
      conv_lhs => rw [hn, heq]
      push_cast
      rfl
    have eyv : y = (2 : ℚ) ^ (53 : Nat) * 2 ^ (exponent64 y - 53) := by
      conv_lhs => rw [ey, zpow_52 (exponent64 y), euv]
      ring
    refine ⟨2 ^ (exponent64 y - 53), ?_, hv, ?_, ?_⟩
    · have := round64_fixed 1 (exponent64 y - 53) (by norm_num) (by omega)
      simpa using this
    · have hlog : Int.log 2 x < exponent64 y := log_lt_of_lt x _ hx (by rw [← ey]; exact hxy)
      have hlt : exponent64 x < exponent64 y := by
        unfold exponent64
        rw [abs_of_pos hx]
        rcases max_cases (Int.log 2 x) (-1022) with ⟨h', _⟩ | ⟨h', _⟩ <;> rw [h']
        · exact hlog
        · exact hE
      have a1 : (2 : ℚ) ^ (exponent64 x - 52) ≤ 2 ^ (exponent64 y - 53) :=
        zpow_le_zpow_right₀ (by norm_num) (by omega)
      have a2 : (n' : ℚ) ≤ 2 ^ (53 : Nat) - 1 := by
        have : n' ≤ 2 ^ 53 - 1 := by omega
        exact_mod_cast this
      have a4 : x ≤ (2 ^ (53 : Nat) - 1) * 2 ^ (exponent64 y - 53) := by
        rw [hn']
        exact mul_le_mul a2 a1 (ulp_pos _).le (by norm_num)
      rw [sub_mul, one_mul, ← eyv] at a4
      linarith
    · have e : y - 2 ^ (exponent64 y - 53)
          = ((2 ^ 53 - 1 : Int) : ℚ) * 2 ^ (exponent64 y - 53) := by
        have h53 : ((2 ^ 53 - 1 : Int) : ℚ) = 2 ^ (53 : Nat) - 1 := by norm_num
        rw [h53, sub_mul, one_mul, ← eyv]
      rw [e]
      exact round64_fixed _ _ (by norm_num) (by omega)
  · refine ⟨2 ^ (exponent64 y - 52), ?_, hu, ?_, ?_⟩
    · have := round64_fixed 1 (exponent64 y - 52) (by norm_num) (by omega)
      simpa using this
    · rcases lt_or_eq_of_le hL with hlt | hE
      · have hE : -1022 < exponent64 y := by omega
        have hlogy := hnorm hE
        have hn52 : 2 ^ 52 ≤ n := n1 (by omega)
        have hne : n ≠ 2 ^ 52 := fun h => hc ⟨h, hE⟩
        have a0 : Int.log 2 x ≤ exponent64 x := by
          have := log_le_exponent64 x
          rwa [abs_of_pos hx] at this
        have a1 : x < (2 : ℚ) ^ (Int.log 2 x + 1) := lt_zpow_log_succ x
        have a2 : (2 : ℚ) ^ (Int.log 2 x + 1) ≤ 2 ^ exponent64 y :=
          zpow_le_zpow_right₀ (by norm_num) (by omega)
        have a3 : (2 : ℚ) ^ (52 : Nat) * 2 ^ (exponent64 y - 52)
            ≤ ((n - 1 : Int) : ℚ) * 2 ^ (exponent64 y - 52) := by
          apply mul_le_mul_of_nonneg_right _ hu.le
          have : (2 : Int) ^ 52 ≤ n - 1 := by omega
          exact_mod_cast this
        have a4 : ((n - 1 : Int) : ℚ) * 2 ^ (exponent64 y - 52)
            = y - 2 ^ (exponent64 y - 52) := by
          push_cast
          rw [sub_mul, ← hn, one_mul]
        rw [zpow_52 (exponent64 y)] at a2
        linarith
      · rw [hE] at hn'
        have e : y - x = ((n - n' : Int) : ℚ) * 2 ^ (exponent64 y - 52) := by
          push_cast
          rw [sub_mul, ← hn, ← hn']
        have hpos : (0 : ℚ) < ((n - n' : Int) : ℚ) * 2 ^ (exponent64 y - 52) := by
          rw [← e]; linarith
        have hi : (0 : ℚ) < ((n - n' : Int) : ℚ) := pos_of_mul_pos_left hpos hu.le
        have hi' : (1 : Int) ≤ n - n' := by
          have : (0 : Int) < n - n' := by exact_mod_cast hi
          omega
        have hq : (1 : ℚ) ≤ ((n - n' : Int) : ℚ) := by exact_mod_cast hi'
        rw [e]
        calc (2 : ℚ) ^ (exponent64 y - 52) = 1 * 2 ^ (exponent64 y - 52) := (one_mul _).symm
          _ ≤ _ := mul_le_mul_of_nonneg_right hq hu.le
    · have e : y - 2 ^ (exponent64 y - 52) = ((n - 1 : Int) : ℚ) * 2 ^ (exponent64 y - 52) := by
        push_cast
        rw [sub_mul, ← hn, one_mul]
      rw [e]
      exact round64_fixed _ _ (by rw [abs_of_nonneg (by omega)]; omega) (by omega)

/-- The top level of `doe_uniform_limit` is above the lower bound: for
`double` values `a < b`, the rounded sum of `a` and the rounded difference
`b - a` is greater than `a`. -/
theorem top_above_min (a b : ℚ) (hab : a < b) (ha : round64 a = a) (hb : round64 b = b) :
    a < round64 (a + round64 (b - a)) := by
  have key : ∃ g : ℚ, round64 g = g ∧ 0 < g ∧ g ≤ b - a ∧ round64 (a + g) = a + g := by
    rcases lt_trichotomy 0 a with h | h | h
    · exact double_gap_above a b h hab ha hb
    · subst h
      exact ⟨b, hb, hab, by simp, by simpa using hb⟩
    · rcases le_or_lt 0 b with h' | h'
      · refine ⟨-a, by rw [round64_neg, ha], by linarith, by linarith, ?_⟩
        rw [add_neg_cancel, round64_zero]
      · obtain ⟨g, g1, g2, g3, g4⟩ := double_gap_below (-b) (-a) (by linarith) (by linarith)
          (by rw [round64_neg, hb]) (by rw [round64_neg, ha])
        refine ⟨g, g1, g2, by linarith, ?_⟩
        have e : a + g = -(-a - g) := by ring
        rw [e, round64_neg, g4]
  obtain ⟨g, g1, g2, g3, g4⟩ := key
  have d1 : g ≤ round64 (b - a) := by
    have := round64_mono g3
    rwa [g1] at this
  have d2 : a + g ≤ round64 (a + round64 (b - a)) := by
    have := round64_mono (by linarith : a + g ≤ a + round64 (b - a))
    rwa [g4] at this
  linarith

/-- A product of a rounded factor of at most `1 - 2 ^ (-31)` with the rounded
difference of two `double` values rounds to at most the difference. -/
theorem scaled_diff_le (a b r : ℚ) (ha : round64 a = a) (hb : round64 b = b) (hab : a ≤ b)
    (hr0 : (1 : ℚ) / 2 ^ (31 : Nat) ≤ r) (hr1 : r ≤ 1 - 1 / 2 ^ (31 : Nat)) :
    round64 (round64 r * round64 (b - a)) ≤ b - a := by
  have hD : 0 ≤ b - a := by linarith
  have hP0 : 0 ≤ round64 r := round64_nonneg r (le_trans (by positivity) hr0)
  have hP1 : round64 r ≤ 1 := by
    have := round64_mono (by linarith [show (0 : ℚ) ≤ 1 / 2 ^ (31 : Nat) by positivity] : r ≤ 1)
    rwa [round64_one] at this
  have hd0 : 0 ≤ round64 (b - a) := round64_nonneg _ hD
  rcases le_or_lt (round64 (b - a)) (b - a) with hle | hgt
  · have := round64_mono (mul_le_of_le_one_left hd0 hP1)
    rw [round64_idem] at this
    exact le_trans this hle
  · have hbig : (2 : ℚ) ^ (-1021 : Int) ≤ b - a := by
      by_contra hc
      have := round64_sub_small a b ha hb hab (not_le.1 hc)
      rw [this] at hgt
      exact lt_irrefl _ hgt
    have e21 : (2 : ℚ) ^ (-1021 : Int) = 2 * 2 ^ (-1022 : Int) := by
      rw [show (-1021 : Int) = 1 + (-1022) by norm_num, zpow_add₀ (by norm_num), zpow_one]
    have hw := ulp_pos (-1022)
    generalize hDD : b - a = D at hD hd0 hgt hbig
    have hd1 := round64_le_rel D (by linarith)
    have hrn : (2 : ℚ) ^ (-1022 : Int) ≤ r := by
      refine le_trans ?_ hr0
      rw [show (1 : ℚ) / 2 ^ (31 : Nat) = 2 ^ (-31 : Int) by
        rw [zpow_neg, one_div]; norm_num]
      exact zpow_le_zpow_right₀ (by norm_num) (by norm_num)
    have hPr := round64_le_rel r hrn
    have hu : (0 : ℚ) ≤ 1 + 1 / 2 ^ (53 : Nat) := by norm_num
    have hr0' : 0 ≤ r := le_trans (by positivity) hr0
    have h1 : round64 r * round64 D
        ≤ (r * (1 + 1 / 2 ^ (53 : Nat))) * (D * (1 + 1 / 2 ^ (53 : Nat))) :=
      mul_le_mul hPr hd1 hd0 (mul_nonneg hr0' hu)
    have h3 : r * ((1 + 1 / 2 ^ (53 : Nat)) * (1 + 1 / 2 ^ (53 : Nat))
        * (1 + 1 / 2 ^ (53 : Nat))) ≤ 1 := by
      calc r * ((1 + 1 / 2 ^ (53 : Nat)) * (1 + 1 / 2 ^ (53 : Nat)) * (1 + 1 / 2 ^ (53 : Nat)))
          ≤ (1 - 1 / 2 ^ (31 : Nat)) * (((1 : ℚ) + 1 / 2 ^ (53 : Nat))
              * (1 + 1 / 2 ^ (53 : Nat)) * (1 + 1 / 2 ^ (53 : Nat))) :=
            mul_le_mul_of_nonneg_right hr1 (by norm_num)
        _ ≤ 1 := by norm_num
    have hX : round64 r * round64 D ≤ max (round64 r * round64 D) (2 ^ (-1022 : Int)) :=
      le_max_left _ _
    have hX2 := round64_le_rel (max (round64 r * round64 D) (2 ^ (-1022 : Int)))
      (le_max_right _ _)
    have hX3 : max (round64 r * round64 D) (2 ^ (-1022 : Int)) * (1 + 1 / 2 ^ (53 : Nat))
        ≤ D := by
      rcases max_cases (round64 r * round64 D) ((2 : ℚ) ^ (-1022 : Int)) with ⟨h, _⟩ | ⟨h, _⟩
      · rw [h]
        calc round64 r * round64 D * (1 + 1 / 2 ^ (53 : Nat))
            ≤ (r * (1 + 1 / 2 ^ (53 : Nat))) * (D * (1 + 1 / 2 ^ (53 : Nat)))
                * (1 + 1 / 2 ^ (53 : Nat)) := mul_le_mul_of_nonneg_right h1 hu
          _ = D * (r * ((1 + 1 / 2 ^ (53 : Nat)) * (1 + 1 / 2 ^ (53 : Nat))
                * (1 + 1 / 2 ^ (53 : Nat)))) := by ring
          _ ≤ D := mul_le_of_le_one_right hD h3
      · rw [h]
        have : (2 : ℚ) ^ (-1022 : Int) * (1 + 1 / 2 ^ (53 : Nat)) ≤ 2 * 2 ^ (-1022 : Int) := by
          have : (1 : ℚ) + 1 / 2 ^ (53 : Nat) ≤ 2 := by norm_num
          nlinarith
        rw [e21] at hbig
        exact le_trans this hbig
    exact le_trans (round64_mono hX) (le_trans hX2 hX3)

/-! ## The samplers in the arithmetic of `double`: entries -/

theorem doe_uniform_col_double_eq (spop S : Nat) (params : List parameters) (d : mat)
    (j : Nat) :
    doe_uniform_col_double spop S params d j
      = fill_col j S (fun i => doe_uniform_value_double spop (param_at params j)
          (doe_uniform_pinc spop j i)) d := by
  exact congrArg Prod.fst (foldl_row_eq (doe_uniform_next spop ((spop ^ j : Nat) : Int))
    (doe_uniform_value_double spop (param_at params j)) j S d (1, 1))

theorem doe_uniform_limit_col_double_eq (spop S : Nat) (params : List parameters) (d : mat)
    (j : Nat) :
    doe_uniform_limit_col_double spop S params d j
      = fill_col j S (fun i => doe_uniform_limit_value_double spop (param_at params j)
          (doe_uniform_limit_pinc spop j i)) d := by
  exact congrArg Prod.fst (foldl_row_eq (doe_uniform_limit_next spop ((spop ^ j : Nat) : Int))
    (doe_uniform_limit_value_double spop (param_at params j)) j S d (0, 1))

/-- Shape of `doe_uniform_double` and the counter behind each of its entries. -/
theorem doe_uniform_double_spec (spop n_param : Nat) (params : List parameters) :
    (doe_uniform_double spop n_param params).n_rows = spop ^ n_param ∧
    (doe_uniform_double spop n_param params).n_cols = n_param ∧
    (doe_uniform_double spop n_param params).mem.length = spop ^ n_param * n_param ∧
    ∀ i j, i < spop ^ n_param → j < n_param →
      (doe_uniform_double spop n_param params).elem i j
        = doe_uniform_value_double spop (param_at params j) (doe_uniform_pinc spop j i) := by
  have h := foldl_fill_col (spop ^ n_param) n_param
    (fun j i => doe_uniform_value_double spop (param_at params j) (doe_uniform_pinc spop j i))
    n_param le_rfl
  have e : doe_uniform_double spop n_param params
      = (List.range n_param).foldl (fun d j => fill_col j (spop ^ n_param)
          (fun i => doe_uniform_value_double spop (param_at params j)
            (doe_uniform_pinc spop j i)) d)
          (zeros (spop ^ n_param) n_param) := by
    show List.foldl (doe_uniform_col_double spop (spop ^ n_param) params) _ _ = _
    congr 1
    funext d j
    exact doe_uniform_col_double_eq spop (spop ^ n_param) params d j
  rw [e]
  obtain ⟨h1, h2, h3, h4⟩ := h
  refine ⟨h1, h2, h3, ?_⟩
  intro i j hi hj
  rw [h4 i j hi hj, if_pos hj]

/-- Shape of the matrix returned by `doe_uniform_limit_double` and the counter
behind each of its entries. -/
theorem doe_uniform_limit_double_spec (spop n_param : Nat) (params : List parameters)
    (hs : 2 ≤ spop) :
    ∃ m, doe_uniform_limit_double spop n_param params = some m ∧
      m.n_rows = spop ^ n_param ∧ m.n_cols = n_param ∧
      m.mem.length = spop ^ n_param * n_param ∧
      ∀ i j, i < spop ^ n_param → j < n_param →
        m.elem i j = doe_uniform_limit_value_double spop (param_at params j)
          (doe_uniform_limit_pinc spop j i) := by
  have h := foldl_fill_col (spop ^ n_param) n_param
    (fun j i => doe_uniform_limit_value_double spop (param_at params j)
      (doe_uniform_limit_pinc spop j i)) n_param le_rfl
  have e : doe_uniform_limit_double spop n_param params
      = some ((List.range n_param).foldl (fun d j => fill_col j (spop ^ n_param)
          (fun i => doe_uniform_limit_value_double spop (param_at params j)
            (doe_uniform_limit_pinc spop j i)) d)
          (zeros (spop ^ n_param) n_param)) := by
    unfold doe_uniform_limit_double
    rw [if_pos hs]
    show some (List.foldl (doe_uniform_limit_col_double spop (spop ^ n_param) params) _ _) = _
    congr 2
    funext d j
    exact doe_uniform_limit_col_double_eq spop (spop ^ n_param) params d j
  obtain ⟨h1, h2, h3, h4⟩ := h
  refine ⟨_, e, h1, h2, h3, ?_⟩
  intro i j hi hj
  rw [h4 i j hi hj, if_pos hj]

/-- The value of `doe_uniform_limit` in the arithmetic of `double` at a
counter `k`. -/
theorem doe_uniform_limit_value_double_nat (spop : Nat) (p : parameters) (k : Nat) :
    doe_uniform_limit_value_double spop p (k : Int)
      = round64 (p.min_value
          + round64 (round64 ((k : ℚ) / ((spop : ℚ) - 1)) * round64 (p.max_value - p.min_value)))
      := by
  simp [doe_uniform_limit_value_double]

/-- The value of `doe_uniform` in the arithmetic of `double` at a counter
`k + 1`. -/
theorem doe_uniform_value_double_nat (spop : Nat) (p : parameters) (k : Nat) :
    doe_uniform_value_double spop p ((k : Int) + 1)
      = round64 (p.min_value
          + round64 (round64 (((k + 1 : Nat) : ℚ) / ((spop : ℚ) + 1))
              * round64 (p.max_value - p.min_value))) := by
  simp [doe_uniform_value_double]

/-- Level 0 of `doe_uniform_limit` is the lower bound itself when that bound
is a `double`. -/
theorem limit_level_zero (spop : Nat) (p : parameters) (hmin : round64 p.min_value = p.min_value) :
    doe_uniform_limit_value_double spop p ((0 : Nat) : Int) = p.min_value := by
  rw [doe_uniform_limit_value_double_nat]
  simp [round64_zero, hmin]

/-- The top level of `doe_uniform_limit`: `pfactor` is exactly 1 and the
product is the rounded difference of the bounds. -/
theorem limit_level_top (spop : Nat) (p : parameters) (hs : 2 ≤ spop) :
    doe_uniform_limit_value_double spop p ((spop - 1 : Nat) : Int)
      = round64 (p.min_value + round64 (p.max_value - p.min_value)) := by
  rw [doe_uniform_limit_value_double_nat]
  have hne : (spop : ℚ) - 1 ≠ 0 := by
    have : (2 : ℚ) ≤ (spop : ℚ) := by exact_mod_cast hs
    linarith
  have hc : ((spop - 1 : Nat) : ℚ) = (spop : ℚ) - 1 := by
    rw [Nat.cast_sub (by omega)]; simp
  rw [hc, div_self hne, round64_one, one_mul, round64_idem]

/-- The rounded factor `pfactor` of `doe_uniform_limit` lies in `[0, 1]`. -/
theorem pfactor_limit_double_range (spop d : Nat) (hs : 2 ≤ spop) (hd : d < spop) :
    0 ≤ round64 ((d : ℚ) / ((spop : ℚ) - 1)) ∧ round64 ((d : ℚ) / ((spop : ℚ) - 1)) ≤ 1 := by
  obtain ⟨h0, h1⟩ := pfactor_limit_range spop d hs hd
  refine ⟨round64_nonneg _ h0, ?_⟩
  have := round64_mono h1
  rwa [round64_one] at this

/-- Every level of `doe_uniform_limit` in the arithmetic of `double` lies
between the lower bound and the value of the top level. -/
theorem limit_double_bounds (spop d : Nat) (p : parameters) (hs : 2 ≤ spop) (hd : d < spop)
    (hb : p.min_value ≤ p.max_value) (hmin : round64 p.min_value = p.min_value) :
    p.min_value ≤ doe_uniform_limit_value_double spop p (d : Int) ∧
      doe_uniform_limit_value_double spop p (d : Int)
        ≤ round64 (p.min_value + round64 (p.max_value - p.min_value)) := by
  rw [doe_uniform_limit_value_double_nat]
  obtain ⟨h0, h1⟩ := pfactor_limit_double_range spop d hs hd
  have hD : 0 ≤ round64 (p.max_value - p.min_value) := round64_nonneg _ (by linarith)
  have ht0 : 0 ≤ round64 (round64 ((d : ℚ) / ((spop : ℚ) - 1))
      * round64 (p.max_value - p.min_value)) := round64_nonneg _ (mul_nonneg h0 hD)
  have ht1 : round64 (round64 ((d : ℚ) / ((spop : ℚ) - 1))
      * round64 (p.max_value - p.min_value)) ≤ round64 (p.max_value - p.min_value) := by
    have := round64_mono (mul_le_of_le_one_left hD h1)
    rwa [round64_idem] at this
  constructor
  · have := round64_mono (le_add_of_nonneg_right ht0 : p.min_value ≤ _)
    rwa [hmin] at this
  · exact round64_mono (by linarith)

/-- Every level of `doe_uniform` in the arithmetic of `double` lies between
the bounds, when these are `double` values and `spop + 1` fits in an `int`. -/
theorem uniform_double_bounds (spop d : Nat) (p : parameters) (hS : spop + 1 ≤ 2 ^ 31)
    (hd : d < spop) (hb : p.min_value ≤ p.max_value)
    (hmin : round64 p.min_value = p.min_value) (hmax : round64 p.max_value = p.max_value) :
    p.min_value ≤ doe_uniform_value_double spop p ((d : Int) + 1) ∧
      doe_uniform_value_double spop p ((d : Int) + 1) ≤ p.max_value := by
  rw [doe_uniform_value_double_nat]
  have hsp : (0 : ℚ) < (spop : ℚ) + 1 := by positivity
  have h1 : ((d + 1 : Nat) : ℚ) ≤ (spop : ℚ) := by exact_mod_cast hd
  have h2 : (spop : ℚ) + 1 ≤ 2 ^ (31 : Nat) := by exact_mod_cast hS
  have h3 : (1 : ℚ) / 2 ^ (31 : Nat) * ((spop : ℚ) + 1) ≤ 1 := by
    rw [div_mul_eq_mul_div, one_mul, div_le_one (by positivity)]
    exact h2
  have hr1 : ((d + 1 : Nat) : ℚ) / ((spop : ℚ) + 1) ≤ 1 - 1 / 2 ^ (31 : Nat) := by
    rw [div_le_iff₀ hsp]
    linarith
  have hr0 : (1 : ℚ) / 2 ^ (31 : Nat) ≤ ((d + 1 : Nat) : ℚ) / ((spop : ℚ) + 1) := by
    rw [le_div_iff₀ hsp]
    have : (1 : ℚ) ≤ ((d + 1 : Nat) : ℚ) := by exact_mod_cast Nat.succ_le_succ (Nat.zero_le d)
    linarith
  generalize ((d + 1 : Nat) : ℚ) / ((spop : ℚ) + 1) = r at hr0 hr1
  have hr0' : 0 ≤ r := le_trans (by positivity) hr0
  have hD : 0 ≤ p.max_value - p.min_value := by linarith
  have ht0 : 0 ≤ round64 (round64 r * round64 (p.max_value - p.min_value)) :=
    round64_nonneg _ (mul_nonneg (round64_nonneg r hr0') (round64_nonneg _ hD))
  have h4 := scaled_diff_le p.min_value p.max_value r hmin hmax hb hr0 hr1
  constructor
  · have := round64_mono (le_add_of_nonneg_right ht0 : p.min_value ≤ _)
    rwa [hmin] at this
  · have := round64_mono (by linarith : p.min_value
      + round64 (round64 r * round64 (p.max_value - p.min_value)) ≤ p.max_value)
    rwa [hmax] at this

/-! ## The bounds `-5` and `0.2` in the arithmetic of `double` -/

/-- The `double` nearest to `5.2`, the rounded difference of the bounds
`-5` and `0.2`. -/
theorem round64_diff_example :
    round64 (3602879701896397 / 18014398509481984 + 5)
      = 5854679515581645 / 1125899906842624 := by
  have h := round64_eval (3602879701896397 / 18014398509481984 + 5) 2 5854679515581645
    (by norm_num)
    (by rw [abs_of_pos (by norm_num)]; norm_num)
    (by rw [abs_of_pos (by norm_num)]; norm_num)
    (by
      have e : (2 : ℚ) ^ ((2 : Int) - 52) = 1 / 1125899906842624 := by
        rw [show ((2 : Int) - 52) = -((50 : Nat) : Int) by norm_num, zpow_neg, zpow_natCast]
        norm_num
      rw [e, abs_lt]
      constructor <;> norm_num)
  rw [h]
  rw [show ((2 : Int) - 52) = -((50 : Nat) : Int) by norm_num, zpow_neg, zpow_natCast]
  norm_num

theorem round64_of_pow50 (m : Int) (hm : |m| ≤ 2 ^ 53) :
    round64 ((m : ℚ) / 1125899906842624) = (m : ℚ) / 1125899906842624 := by
  have h := round64_fixed m (-((50 : Nat) : Int)) hm (by norm_num)
  rw [zpow_neg, zpow_natCast] at h
  have e : (m : ℚ) * ((2 : ℚ) ^ 50)⁻¹ = (m : ℚ) / 1125899906842624 := by norm_num [div_eq_mul_inv]
  rwa [e] at h

/-- The bound `-5` is a `double`. -/
theorem round64_minus_five : round64 (-5) = -5 := by
  have := round64_intCast (-5) (by norm_num)
  simpa using this

/-- The `double` written `0.2` in a source or a data file: the multiple of
`2 ^ (-54)` nearest to one fifth. -/
theorem round64_fifth :
    round64 (3602879701896397 / 18014398509481984) = 3602879701896397 / 18014398509481984 := by
  have h := round64_fixed 3602879701896397 (-((54 : Nat) : Int)) (by norm_num) (by norm_num)
  rw [zpow_neg, zpow_natCast] at h
  have e : ((3602879701896397 : Int) : ℚ) * ((2 : ℚ) ^ 54)⁻¹
      = 3602879701896397 / 18014398509481984 := by norm_num [div_eq_mul_inv]
  rwa [e] at h

/-- The run of `doe_uniform_limit` with two levels on the bounds `-5` and
`0.2`: the top sample is `225179981368525 / 2 ^ 50`, that is
`0.20000000000000018`. -/
theorem limit_double_example :
    doe_uniform_limit_double 2 1 [⟨-5, 3602879701896397 / 18014398509481984⟩]
      = some ⟨2, 1, [-5, 225179981368525 / 1125899906842624]⟩ := by
  have r1 : List.range 1 = [0] := rfl
  have e3 : round64 (5854679515581645 / 1125899906842624)
      = 5854679515581645 / 1125899906842624 := by
    have := round64_of_pow50 5854679515581645 (by norm_num)
    simpa using this
  have e4 : round64 (-5 + 5854679515581645 / 1125899906842624)
      = 225179981368525 / 1125899906842624 := by
    have := round64_of_pow50 225179981368525 (by norm_num)
    have e : (-5 + 5854679515581645 / 1125899906842624 : ℚ)
        = ((225179981368525 : Int) : ℚ) / 1125899906842624 := by norm_num
    rw [e, this]
    norm_num
  simp [doe_uniform_limit_double, doe_uniform_limit_col_double, doe_uniform_limit_row_double,
      doe_uniform_limit_next, doe_uniform_limit_value_double, zeros, mat.set, param_at,
      List.range_succ, r1, round64_zero, round64_one, round64_minus_five,
      round64_diff_example, e3, e4]

/-- The top sample of that run is above the upper bound. -/
theorem limit_double_example_top :
    (⟨2, 1, [-5, 225179981368525 / 1125899906842624]⟩ : mat).elem 1 0
        = 225179981368525 / 1125899906842624 ∧
      (param_at [⟨-5, 3602879701896397 / 18014398509481984⟩] 0).max_value
        < (⟨2, 1, [-5, 225179981368525 / 1125899906842624]⟩ : mat).elem 1 0 := by
  have h : (⟨2, 1, [-5, 225179981368525 / 1125899906842624]⟩ : mat).elem 1 0
      = 225179981368525 / 1125899906842624 := rfl
  refine ⟨h, ?_⟩
  rw [h]
  norm_num [param_at]

/-! ## Claims on the inclusive grid in the arithmetic of `double` -/

/-- C2, as stated, fails: with `spop = 2` and one parameter bounded by the
`double` values `-5` and `0.2`, row 1 is at the level `k = spop - 1`, and the
entry computed by `doe_uniform_limit` in the arithmetic of `double` is
`225179981368525 / 2 ^ 50` (`0.20000000000000018`), which is neither `max_j`
nor the value of `min_j + k / (spop - 1) * (max_j - min_j)`. -/
theorem C2_counterexample :
    (2 ≤ 2 ∧ 1 ≤ 1 ∧ 1 < 2 ^ 1 ∧ 0 < 1 ∧ 1 / 2 ^ 0 % 2 = 2 - 1) ∧
    (round64 (param_at [⟨-5, 3602879701896397 / 18014398509481984⟩] 0).min_value
        = (param_at [⟨-5, 3602879701896397 / 18014398509481984⟩] 0).min_value ∧
      round64 (param_at [⟨-5, 3602879701896397 / 18014398509481984⟩] 0).max_value
        = (param_at [⟨-5, 3602879701896397 / 18014398509481984⟩] 0).max_value) ∧
    doe_uniform_limit_double 2 1 [⟨-5, 3602879701896397 / 18014398509481984⟩]
      = some ⟨2, 1, [-5, 225179981368525 / 1125899906842624]⟩ ∧
    (⟨2, 1, [-5, 225179981368525 / 1125899906842624]⟩ : mat).elem 1 0
      = 225179981368525 / 1125899906842624 ∧
    (⟨2, 1, [-5, 225179981368525 / 1125899906842624]⟩ : mat).elem 1 0
      ≠ (param_at [⟨-5, 3602879701896397 / 18014398509481984⟩] 0).max_value ∧
    (⟨2, 1, [-5, 225179981368525 / 1125899906842624]⟩ : mat).elem 1 0
      ≠ (param_at [⟨-5, 3602879701896397 / 18014398509481984⟩] 0).min_value
        + ((1 / 2 ^ 0 % 2 : Nat) : ℚ) / (((2 : Nat) : ℚ) - 1)
          * ((param_at [⟨-5, 3602879701896397 / 18014398509481984⟩] 0).max_value
              - (param_at [⟨-5, 3602879701896397 / 18014398509481984⟩] 0).min_value) := by
  refine ⟨by decide, ⟨round64_minus_five, round64_fifth⟩, limit_double_example,
    limit_double_example_top.1, ne_of_gt limit_double_example_top.2, ?_⟩
  rw [limit_double_example_top.1]
  norm_num [param_at]

/-- C2 (amended). For `spop ≥ 2`, a row `i < spop ^ n_param`, a column
`j < n_param` and bounds that are `double` values, `doe_uniform_limit` returns
a matrix whose entry `(i, j)` is the formula
`min_j + k / (spop - 1) * (max_j - min_j)` evaluated in the arithmetic of
`double`, each of the four operations rounded to binary64, with
`k = (i / spop ^ j) % spop` in `0 .. spop - 1`; the entry is exactly `min_j`
when `k = 0`; when `k = spop - 1` it is the rounded sum of `min_j` and the
rounded difference `max_j - min_j`, which is exactly `max_j` when that
difference is itself a `double`. -/
theorem C2_doe_uniform_limit_value_formula (spop n_param : Nat) (params : List parameters)
    (i j : Nat) (hs : 2 ≤ spop) (_hn : 1 ≤ n_param) (hi : i < spop ^ n_param)
    (hj : j < n_param)
    (hmin : round64 (param_at params j).min_value = (param_at params j).min_value)
    (hmax : round64 (param_at params j).max_value = (param_at params j).max_value) :
    ∃ m, doe_uniform_limit_double spop n_param params = some m ∧
      m.elem i j
        = round64 ((param_at params j).min_value
            + round64 (round64 (((i / spop ^ j % spop : Nat) : ℚ) / ((spop : ℚ) - 1))
                * round64 ((param_at params j).max_value - (param_at params j).min_value)))
      ∧ i / spop ^ j % spop ≤ spop - 1
      ∧ (i / spop ^ j % spop = 0 → m.elem i j = (param_at params j).min_value)
      ∧ (i / spop ^ j % spop = spop - 1 → m.elem i j
          = round64 ((param_at params j).min_value
              + round64 ((param_at params j).max_value - (param_at params j).min_value)))
      ∧ (i / spop ^ j % spop = spop - 1 →
          round64 ((param_at params j).max_value - (param_at params j).min_value)
            = (param_at params j).max_value - (param_at params j).min_value →
          m.elem i j = (param_at params j).max_value) := by
  obtain ⟨m, hm, _, _, _, hel⟩ := doe_uniform_limit_double_spec spop n_param params hs
  have hk : i / spop ^ j % spop < spop := Nat.mod_lt _ (by omega)
  have hval : m.elem i j = doe_uniform_limit_value_double spop (param_at params j)
      ((i / spop ^ j % spop : Nat) : Int) := by
    rw [hel i j hi hj, doe_uniform_limit_pinc_eq spop j i (by omega)]
  have htop : i / spop ^ j % spop = spop - 1 → m.elem i j
      = round64 ((param_at params j).min_value
          + round64 ((param_at params j).max_value - (param_at params j).min_value)) := by
    intro h1
    rw [hval, h1]
    exact limit_level_top spop _ hs
  refine ⟨m, hm, ?_, by omega, ?_, htop, ?_⟩
  · rw [hval, doe_uniform_limit_value_double_nat]
  · intro h0
    rw [hval, h0]
    exact limit_level_zero spop _ hmin
  · intro h1 hd
    rw [htop h1, hd, add_sub_cancel, hmax]

/-- Instance of the amended C2: `spop = 3`, two parameters, row 7, column 1
(the last level) with the bounds `-5` and `0.2`. -/
theorem C2_doe_uniform_limit_value_formula_witness :
    (2 ≤ 3 ∧ 1 ≤ 2 ∧ 7 < 3 ^ 2 ∧ 1 < 2 ∧
      round64 (param_at [⟨0, 10⟩, ⟨-5, 3602879701896397 / 18014398509481984⟩] 1).min_value
        = (param_at [⟨0, 10⟩, ⟨-5, 3602879701896397 / 18014398509481984⟩] 1).min_value ∧
      round64 (param_at [⟨0, 10⟩, ⟨-5, 3602879701896397 / 18014398509481984⟩] 1).max_value
        = (param_at [⟨0, 10⟩, ⟨-5, 3602879701896397 / 18014398509481984⟩] 1).max_value) ∧
    ∃ m, doe_uniform_limit_double 3 2 [⟨0, 10⟩, ⟨-5, 3602879701896397 / 18014398509481984⟩] = some m ∧
      m.elem 7 1
        = round64 ((param_at [⟨0, 10⟩, ⟨-5, 3602879701896397 / 18014398509481984⟩] 1).min_value
            + round64 (round64 (((7 / 3 ^ 1 % 3 : Nat) : ℚ) / (((3 : Nat) : ℚ) - 1))
                * round64 ((param_at [⟨0, 10⟩, ⟨-5, 3602879701896397 / 18014398509481984⟩] 1).max_value
                    - (param_at [⟨0, 10⟩, ⟨-5, 3602879701896397 / 18014398509481984⟩] 1).min_value)))
      ∧ 7 / 3 ^ 1 % 3 ≤ 3 - 1
      ∧ (7 / 3 ^ 1 % 3 = 0 → m.elem 7 1
          = (param_at [⟨0, 10⟩, ⟨-5, 3602879701896397 / 18014398509481984⟩] 1).min_value)
      ∧ (7 / 3 ^ 1 % 3 = 3 - 1 → m.elem 7 1
          = round64 ((param_at [⟨0, 10⟩, ⟨-5, 3602879701896397 / 18014398509481984⟩] 1).min_value
              + round64 ((param_at [⟨0, 10⟩, ⟨-5, 3602879701896397 / 18014398509481984⟩] 1).max_value
                  - (param_at [⟨0, 10⟩, ⟨-5, 3602879701896397 / 18014398509481984⟩] 1).min_value)))
      ∧ (7 / 3 ^ 1 % 3 = 3 - 1 →
          round64 ((param_at [⟨0, 10⟩, ⟨-5, 3602879701896397 / 18014398509481984⟩] 1).max_value
              - (param_at [⟨0, 10⟩, ⟨-5, 3602879701896397 / 18014398509481984⟩] 1).min_value)
            = (param_at [⟨0, 10⟩, ⟨-5, 3602879701896397 / 18014398509481984⟩] 1).max_value
              - (param_at [⟨0, 10⟩, ⟨-5, 3602879701896397 / 18014398509481984⟩] 1).min_value →
          m.elem 7 1 = (param_at [⟨0, 10⟩, ⟨-5, 3602879701896397 / 18014398509481984⟩] 1).max_value) :=
  ⟨⟨by decide, by decide, by decide, by decide, round64_minus_five, round64_fifth⟩,
    C2_doe_uniform_limit_value_formula 3 2 [⟨0, 10⟩, ⟨-5, 3602879701896397 / 18014398509481984⟩] 7 1
      (by decide) (by decide) (by decide) (by decide) round64_minus_five round64_fifth⟩

/-- C5, as stated, fails: with `spop = 2` and one parameter bounded by the
`double` values `-5 ≤ 0.2`, the entry of row 1 computed by `doe_uniform_limit`
in the arithmetic of `double` is `225179981368525 / 2 ^ 50`
(`0.20000000000000018`), above `max_j`. -/
theorem C5_counterexample :
    (2 ≤ 2 ∧ 1 < 2 ^ 1 ∧ 0 < 1 ∧
      (param_at [⟨-5, 3602879701896397 / 18014398509481984⟩] 0).min_value
        ≤ (param_at [⟨-5, 3602879701896397 / 18014398509481984⟩] 0).max_value) ∧
    (round64 (param_at [⟨-5, 3602879701896397 / 18014398509481984⟩] 0).min_value
        = (param_at [⟨-5, 3602879701896397 / 18014398509481984⟩] 0).min_value ∧
      round64 (param_at [⟨-5, 3602879701896397 / 18014398509481984⟩] 0).max_value
        = (param_at [⟨-5, 3602879701896397 / 18014398509481984⟩] 0).max_value) ∧
    doe_uniform_limit_double 2 1 [⟨-5, 3602879701896397 / 18014398509481984⟩]
      = some ⟨2, 1, [-5, 225179981368525 / 1125899906842624]⟩ ∧
    (param_at [⟨-5, 3602879701896397 / 18014398509481984⟩] 0).max_value
      < (⟨2, 1, [-5, 225179981368525 / 1125899906842624]⟩ : mat).elem 1 0 ∧
    ¬ ((⟨2, 1, [-5, 225179981368525 / 1125899906842624]⟩ : mat).elem 1 0
      ≤ (param_at [⟨-5, 3602879701896397 / 18014398509481984⟩] 0).max_value) :=
  ⟨⟨by decide, by decide, by decide, by norm_num [param_at]⟩,
    ⟨round64_minus_five, round64_fifth⟩, limit_double_example, limit_double_example_top.2,
    not_le.2 limit_double_example_top.2⟩

/-- C5 (amended). In the arithmetic of `double`, with bounds that are `double`
values and `min_j ≤ max_j`: every entry `(i, j)` of `doe_uniform` (`spop ≥ 1`,
`spop + 1` within the range of `int`) lies in `[min_j, max_j]`; every entry of
the matrix returned by `doe_uniform_limit` (`spop ≥ 2`) lies between `min_j`
and the value of the top level, the rounded sum of `min_j` and the rounded
difference `max_j - min_j`, hence in `[min_j, max_j]` when that difference is
itself a `double`. -/
theorem C5_grid_within_bounds (spop n_param : Nat) (params : List parameters) :
    (1 ≤ spop → spop + 1 ≤ 2 ^ 31 → ∀ i j, i < spop ^ n_param → j < n_param →
      (param_at params j).min_value ≤ (param_at params j).max_value →
      round64 (param_at params j).min_value = (param_at params j).min_value →
      round64 (param_at params j).max_value = (param_at params j).max_value →
      (param_at params j).min_value ≤ (doe_uniform_double spop n_param params).elem i j ∧
      (doe_uniform_double spop n_param params).elem i j ≤ (param_at params j).max_value) ∧
    (2 ≤ spop → ∃ m, doe_uniform_limit_double spop n_param params = some m ∧
      ∀ i j, i < spop ^ n_param → j < n_param →
        (param_at params j).min_value ≤ (param_at params j).max_value →
        round64 (param_at params j).min_value = (param_at params j).min_value →
        round64 (param_at params j).max_value = (param_at params j).max_value →
        (param_at params j).min_value ≤ m.elem i j ∧
        m.elem i j ≤ round64 ((param_at params j).min_value
          + round64 ((param_at params j).max_value - (param_at params j).min_value)) ∧
        (round64 ((param_at params j).max_value - (param_at params j).min_value)
            = (param_at params j).max_value - (param_at params j).min_value →
          m.elem i j ≤ (param_at params j).max_value)) := by
  constructor
  · intro hs hS i j hi hj hb hmin hmax
    rw [(doe_uniform_double_spec spop n_param params).2.2.2 i j hi hj,
      doe_uniform_pinc_eq spop j i hs]
    exact uniform_double_bounds spop (i / spop ^ j % spop) _ hS (Nat.mod_lt _ hs) hb hmin hmax
  · intro hs
    obtain ⟨m, hm, _, _, _, hel⟩ := doe_uniform_limit_double_spec spop n_param params hs
    refine ⟨m, hm, ?_⟩
    intro i j hi hj hb hmin hmax
    rw [hel i j hi hj, doe_uniform_limit_pinc_eq spop j i (by omega)]
    obtain ⟨h0, h1⟩ := limit_double_bounds spop (i / spop ^ j % spop) (param_at params j) hs
      (Nat.mod_lt _ (by omega)) hb hmin
    refine ⟨h0, h1, ?_⟩
    intro hd
    rw [hd, add_sub_cancel, hmax] at h1
    exact h1

/-- Instance of the amended C5: `spop = 3`, the bounds `-5` and `0.2` on the
second parameter, row 5. -/
theorem C5_grid_within_bounds_witness :
    (1 ≤ 3 ∧ 3 + 1 ≤ 2 ^ 31 ∧ 2 ≤ 3 ∧ 5 < 3 ^ 2 ∧ 1 < 2 ∧
      (param_at [⟨0, 10⟩, ⟨-5, 3602879701896397 / 18014398509481984⟩] 1).min_value ≤ (param_at [⟨0, 10⟩, ⟨-5, 3602879701896397 / 18014398509481984⟩] 1).max_value ∧
      round64 (param_at [⟨0, 10⟩, ⟨-5, 3602879701896397 / 18014398509481984⟩] 1).min_value = (param_at [⟨0, 10⟩, ⟨-5, 3602879701896397 / 18014398509481984⟩] 1).min_value ∧
      round64 (param_at [⟨0, 10⟩, ⟨-5, 3602879701896397 / 18014398509481984⟩] 1).max_value = (param_at [⟨0, 10⟩, ⟨-5, 3602879701896397 / 18014398509481984⟩] 1).max_value) ∧
    ((param_at [⟨0, 10⟩, ⟨-5, 3602879701896397 / 18014398509481984⟩] 1).min_value ≤ (doe_uniform_double 3 2 [⟨0, 10⟩, ⟨-5, 3602879701896397 / 18014398509481984⟩]).elem 5 1 ∧
      (doe_uniform_double 3 2 [⟨0, 10⟩, ⟨-5, 3602879701896397 / 18014398509481984⟩]).elem 5 1 ≤ (param_at [⟨0, 10⟩, ⟨-5, 3602879701896397 / 18014398509481984⟩] 1).max_value) ∧
    (∃ m, doe_uniform_limit_double 3 2 [⟨0, 10⟩, ⟨-5, 3602879701896397 / 18014398509481984⟩] = some m ∧
      (param_at [⟨0, 10⟩, ⟨-5, 3602879701896397 / 18014398509481984⟩] 1).min_value ≤ m.elem 5 1 ∧
      m.elem 5 1 ≤ round64 ((param_at [⟨0, 10⟩, ⟨-5, 3602879701896397 / 18014398509481984⟩] 1).min_value
        + round64 ((param_at [⟨0, 10⟩, ⟨-5, 3602879701896397 / 18014398509481984⟩] 1).max_value - (param_at [⟨0, 10⟩, ⟨-5, 3602879701896397 / 18014398509481984⟩] 1).min_value))) :=
  ⟨⟨by decide, by decide, by decide, by decide, by decide, by norm_num [param_at],
      round64_minus_five, round64_fifth⟩,
    (C5_grid_within_bounds 3 2 [⟨0, 10⟩, ⟨-5, 3602879701896397 / 18014398509481984⟩]).1 (by decide) (by decide) 5 1 (by decide) (by decide)
      (by norm_num [param_at]) round64_minus_five round64_fifth,
    ((C5_grid_within_bounds 3 2 [⟨0, 10⟩, ⟨-5, 3602879701896397 / 18014398509481984⟩]).2 (by decide)).imp
      (fun _ h => ⟨h.1, (h.2 5 1 (by decide) (by decide) (by norm_num [param_at])
        round64_minus_five round64_fifth).1,
        (h.2 5 1 (by decide) (by decide) (by norm_num [param_at])
        round64_minus_five round64_fifth).2.1⟩)⟩

/-- C8, as stated, fails: with `spop = 2` and two parameters bounded by
`[0, 1]`, column 0 of `doe_uniform_limit` is `0, 1, 0, 1`, in exact arithmetic
and in the arithmetic of `double` alike, so two samples (not one) equal the
lower bound and two equal the upper bound; and with one parameter bounded by
the `double` values `-5` and `0.2`, no sample of the run in the arithmetic of
`double` equals the upper bound. -/
theorem C8_counterexample :
    doe_uniform_limit 2 2 [⟨0, 1⟩, ⟨0, 1⟩] = some ⟨4, 2, [0, 1, 0, 1, 0, 0, 1, 1]⟩ ∧
    Nat.count (fun i => (⟨4, 2, [0, 1, 0, 1, 0, 0, 1, 1]⟩ : mat).elem i 0
      = (param_at [⟨0, 1⟩, ⟨0, 1⟩] 0).min_value) (2 ^ 2) = 2 ∧
    Nat.count (fun i => (⟨4, 2, [0, 1, 0, 1, 0, 0, 1, 1]⟩ : mat).elem i 0
      = (param_at [⟨0, 1⟩, ⟨0, 1⟩] 0).max_value) (2 ^ 2) = 2 ∧
    ¬ (Nat.count (fun i => (⟨4, 2, [0, 1, 0, 1, 0, 0, 1, 1]⟩ : mat).elem i 0
      = (param_at [⟨0, 1⟩, ⟨0, 1⟩] 0).min_value) (2 ^ 2) = 1) ∧
    doe_uniform_limit_double 2 2 [⟨0, 1⟩, ⟨0, 1⟩] = some ⟨4, 2, [0, 1, 0, 1, 0, 0, 1, 1]⟩ ∧
    doe_uniform_limit_double 2 1 [⟨-5, 3602879701896397 / 18014398509481984⟩]
      = some ⟨2, 1, [-5, 225179981368525 / 1125899906842624]⟩ ∧
    Nat.count (fun i => (⟨2, 1, [-5, 225179981368525 / 1125899906842624]⟩ : mat).elem i 0
      = (param_at [⟨-5, 3602879701896397 / 18014398509481984⟩] 0).max_value) (2 ^ 1) = 0 := by
  have hc1 : Nat.count (fun i => (⟨4, 2, [0, 1, 0, 1, 0, 0, 1, 1]⟩ : mat).elem i 0
      = (param_at [⟨0, 1⟩, ⟨0, 1⟩] 0).min_value) (2 ^ 2) = 2 := by
    simp [Nat.count_succ, mat.elem, param_at]
  have hc2 : Nat.count (fun i => (⟨4, 2, [0, 1, 0, 1, 0, 0, 1, 1]⟩ : mat).elem i 0
      = (param_at [⟨0, 1⟩, ⟨0, 1⟩] 0).max_value) (2 ^ 2) = 2 := by
    simp [Nat.count_succ, mat.elem, param_at]
  refine ⟨?_, hc1, hc2, ?_, ?_, limit_double_example, ?_⟩
  · simp [doe_uniform_limit, doe_uniform_limit_col, doe_uniform_limit_row,
      doe_uniform_limit_next, doe_uniform_limit_value, zeros, mat.set, param_at,
      List.range_succ]
  · rw [hc1]; decide
  · simp [doe_uniform_limit_double, doe_uniform_limit_col_double, doe_uniform_limit_row_double,
      doe_uniform_limit_next, doe_uniform_limit_value_double, zeros, mat.set, param_at,
      List.range_succ, round64_zero, round64_one]
  · simp [Nat.count_succ, mat.elem, param_at]
    norm_num

/-- C8 (amended). With `spop = 2`, `n_param ≥ 1`, bounds that are `double`
values and `min_j < max_j`, in the arithmetic of `double`: every sample of
column `j` of `doe_uniform_limit` is `min_j` or the value of the top level,
the rounded sum of `min_j` and the rounded difference `max_j - min_j`; each of
the two values is taken by exactly `2 ^ (n_param - 1)` of the `2 ^ n_param`
rows (hence exactly once when `n_param = 1`); the number of samples equal to
`max_j` is `2 ^ (n_param - 1)` when the top level is `max_j`, as it is when the
difference `max_j - min_j` is itself a `double`, and `0` otherwise. -/
theorem C8_limit_two_levels_endpoints (n_param : Nat) (params : List parameters) (j : Nat)
    (_hn : 1 ≤ n_param) (hj : j < n_param)
    (hb : (param_at params j).min_value < (param_at params j).max_value)
    (hmin : round64 (param_at params j).min_value = (param_at params j).min_value)
    (hmax : round64 (param_at params j).max_value = (param_at params j).max_value) :
    ∃ m, doe_uniform_limit_double 2 n_param params = some m ∧
      (∀ i, i < 2 ^ n_param → m.elem i j = (param_at params j).min_value ∨
        m.elem i j = round64 ((param_at params j).min_value
          + round64 ((param_at params j).max_value - (param_at params j).min_value))) ∧
      Nat.count (fun i => m.elem i j = (param_at params j).min_value) (2 ^ n_param)
        = 2 ^ (n_param - 1) ∧
      Nat.count (fun i => m.elem i j = round64 ((param_at params j).min_value
          + round64 ((param_at params j).max_value - (param_at params j).min_value))) (2 ^ n_param)
        = 2 ^ (n_param - 1) ∧
      Nat.count (fun i => m.elem i j = (param_at params j).max_value) (2 ^ n_param)
        = (if round64 ((param_at params j).min_value
          + round64 ((param_at params j).max_value - (param_at params j).min_value))
            = (param_at params j).max_value then 2 ^ (n_param - 1) else 0) ∧
      (round64 ((param_at params j).max_value - (param_at params j).min_value)
          = (param_at params j).max_value - (param_at params j).min_value →
        round64 ((param_at params j).min_value
          + round64 ((param_at params j).max_value - (param_at params j).min_value))
          = (param_at params j).max_value) := by
  obtain ⟨m, hm, _, _, _, hel⟩ := doe_uniform_limit_double_spec 2 n_param params (le_refl 2)
  have hT := top_above_min _ _ hb hmin hmax
  generalize hTT : round64 ((param_at params j).min_value
      + round64 ((param_at params j).max_value - (param_at params j).min_value)) = T at hT
  have hval : ∀ i, i < 2 ^ n_param →
      (i / 2 ^ j % 2 = 0 ∧ m.elem i j = (param_at params j).min_value) ∨
      (i / 2 ^ j % 2 = 1 ∧ m.elem i j = T) := by
    intro i hi
    have e := hel i j hi hj
    rw [doe_uniform_limit_pinc_eq 2 j i (by decide)] at e
    have hd : i / 2 ^ j % 2 < 2 := Nat.mod_lt _ (by decide)
    have h01 : i / 2 ^ j % 2 = 0 ∨ i / 2 ^ j % 2 = 1 := by omega
    rcases h01 with h0 | h1
    · left
      refine ⟨h0, ?_⟩
      rw [e, h0]
      exact limit_level_zero 2 _ hmin
    · right
      refine ⟨h1, ?_⟩
      rw [e, h1, ← hTT]
      exact limit_level_top 2 _ (le_refl 2)
  have hmin' : ∀ i, i < 2 ^ n_param →
      (m.elem i j = (param_at params j).min_value ↔ i / 2 ^ j % 2 = 0) := by
    intro i hi
    rcases hval i hi with ⟨h0, hv⟩ | ⟨h1, hv⟩
    · exact ⟨fun _ => h0, fun _ => hv⟩
    · constructor
      · intro h; rw [hv] at h; exact absurd h (ne_of_gt hT)
      · intro h; omega
  have htop' : ∀ i, i < 2 ^ n_param → (m.elem i j = T ↔ i / 2 ^ j % 2 = 1) := by
    intro i hi
    rcases hval i hi with ⟨h0, hv⟩ | ⟨h1, hv⟩
    · constructor
      · intro h; rw [hv] at h; exact absurd h (ne_of_lt hT)
      · intro h; omega
    · exact ⟨fun _ => h1, fun _ => hv⟩
  obtain ⟨t, rfl⟩ : ∃ t, n_param = j + 1 + t := ⟨n_param - (j + 1), by omega⟩
  have hpow : 2 ^ (j + 1 + t) = (2 ^ j + 2 ^ j) * 2 ^ t := by ring
  have hpow1 : 2 ^ (j + 1 + t - 1) = 2 ^ j * 2 ^ t := by
    have : j + 1 + t - 1 = j + t := by omega
    rw [this, pow_add]
  have hcmin : Nat.count (fun i => m.elem i j = (param_at params j).min_value)
      (2 ^ (j + 1 + t)) = 2 ^ (j + 1 + t - 1) := by
    rw [count_congr_lt _ (fun i => i / 2 ^ j % 2 = 0) _ hmin', hpow, hpow1]
    exact count_bit j 0 (by decide) (2 ^ t)
  have hctop : Nat.count (fun i => m.elem i j = T) (2 ^ (j + 1 + t)) = 2 ^ (j + 1 + t - 1) := by
    rw [count_congr_lt _ (fun i => i / 2 ^ j % 2 = 1) _ htop', hpow, hpow1]
    exact count_bit j 1 (by decide) (2 ^ t)
  refine ⟨m, hm, ?_, hcmin, hctop, ?_, ?_⟩
  · intro i hi
    rcases hval i hi with ⟨_, hv⟩ | ⟨_, hv⟩
    · exact Or.inl hv
    · exact Or.inr hv
  · by_cases hTm : T = (param_at params j).max_value
    · rw [if_pos hTm, ← hTm]
      exact hctop
    · rw [if_neg hTm]
      rw [count_congr_lt _ (fun _ => False) _ (by
        intro i hi
        rcases hval i hi with ⟨_, hv⟩ | ⟨_, hv⟩
        · rw [hv]; exact ⟨fun h => absurd h (ne_of_lt hb), False.elim⟩
        · rw [hv]; exact ⟨fun h => absurd h hTm, False.elim⟩)]
      simp
  · intro hd
    rw [← hTT, hd, add_sub_cancel, hmax]

/-- Instance of the amended C8: three parameters, column 1 with the bounds
`-5` and `0.2`, four rows at each level. -/
theorem C8_limit_two_levels_endpoints_witness :
    (1 ≤ 3 ∧ 1 < 3 ∧
      (param_at [⟨0, 1⟩, ⟨-5, 3602879701896397 / 18014398509481984⟩, ⟨0, 1⟩] 1).min_value
        < (param_at [⟨0, 1⟩, ⟨-5, 3602879701896397 / 18014398509481984⟩, ⟨0, 1⟩] 1).max_value ∧
      round64 (param_at [⟨0, 1⟩, ⟨-5, 3602879701896397 / 18014398509481984⟩, ⟨0, 1⟩] 1).min_value
        = (param_at [⟨0, 1⟩, ⟨-5, 3602879701896397 / 18014398509481984⟩, ⟨0, 1⟩] 1).min_value ∧
      round64 (param_at [⟨0, 1⟩, ⟨-5, 3602879701896397 / 18014398509481984⟩, ⟨0, 1⟩] 1).max_value
        = (param_at [⟨0, 1⟩, ⟨-5, 3602879701896397 / 18014398509481984⟩, ⟨0, 1⟩] 1).max_value) ∧
    ∃ m, doe_uniform_limit_double 2 3 [⟨0, 1⟩, ⟨-5, 3602879701896397 / 18014398509481984⟩, ⟨0, 1⟩] = some m ∧
      (∀ i, i < 2 ^ 3 → m.elem i 1 = (param_at [⟨0, 1⟩, ⟨-5, 3602879701896397 / 18014398509481984⟩, ⟨0, 1⟩] 1).min_value ∨
        m.elem i 1 = round64 ((param_at [⟨0, 1⟩, ⟨-5, 3602879701896397 / 18014398509481984⟩, ⟨0, 1⟩] 1).min_value
          + round64 ((param_at [⟨0, 1⟩, ⟨-5, 3602879701896397 / 18014398509481984⟩, ⟨0, 1⟩] 1).max_value - (param_at [⟨0, 1⟩, ⟨-5, 3602879701896397 / 18014398509481984⟩, ⟨0, 1⟩] 1).min_value))) ∧
      Nat.count (fun i => m.elem i 1 = (param_at [⟨0, 1⟩, ⟨-5, 3602879701896397 / 18014398509481984⟩, ⟨0, 1⟩] 1).min_value) (2 ^ 3)
        = 2 ^ (3 - 1) ∧
      Nat.count (fun i => m.elem i 1 = round64 ((param_at [⟨0, 1⟩, ⟨-5, 3602879701896397 / 18014398509481984⟩, ⟨0, 1⟩] 1).min_value
          + round64 ((param_at [⟨0, 1⟩, ⟨-5, 3602879701896397 / 18014398509481984⟩, ⟨0, 1⟩] 1).max_value - (param_at [⟨0, 1⟩, ⟨-5, 3602879701896397 / 18014398509481984⟩, ⟨0, 1⟩] 1).min_value))) (2 ^ 3)
        = 2 ^ (3 - 1) ∧
      Nat.count (fun i => m.elem i 1 = (param_at [⟨0, 1⟩, ⟨-5, 3602879701896397 / 18014398509481984⟩, ⟨0, 1⟩] 1).max_value) (2 ^ 3)
        = (if round64 ((param_at [⟨0, 1⟩, ⟨-5, 3602879701896397 / 18014398509481984⟩, ⟨0, 1⟩] 1).min_value
          + round64 ((param_at [⟨0, 1⟩, ⟨-5, 3602879701896397 / 18014398509481984⟩, ⟨0, 1⟩] 1).max_value - (param_at [⟨0, 1⟩, ⟨-5, 3602879701896397 / 18014398509481984⟩, ⟨0, 1⟩] 1).min_value))
            = (param_at [⟨0, 1⟩, ⟨-5, 3602879701896397 / 18014398509481984⟩, ⟨0, 1⟩] 1).max_value then 2 ^ (3 - 1) else 0) ∧
      (round64 ((param_at [⟨0, 1⟩, ⟨-5, 3602879701896397 / 18014398509481984⟩, ⟨0, 1⟩] 1).max_value - (param_at [⟨0, 1⟩, ⟨-5, 3602879701896397 / 18014398509481984⟩, ⟨0, 1⟩] 1).min_value)
          = (param_at [⟨0, 1⟩, ⟨-5, 3602879701896397 / 18014398509481984⟩, ⟨0, 1⟩] 1).max_value - (param_at [⟨0, 1⟩, ⟨-5, 3602879701896397 / 18014398509481984⟩, ⟨0, 1⟩] 1).min_value →
        round64 ((param_at [⟨0, 1⟩, ⟨-5, 3602879701896397 / 18014398509481984⟩, ⟨0, 1⟩] 1).min_value
          + round64 ((param_at [⟨0, 1⟩, ⟨-5, 3602879701896397 / 18014398509481984⟩, ⟨0, 1⟩] 1).max_value - (param_at [⟨0, 1⟩, ⟨-5, 3602879701896397 / 18014398509481984⟩, ⟨0, 1⟩] 1).min_value))
          = (param_at [⟨0, 1⟩, ⟨-5, 3602879701896397 / 18014398509481984⟩, ⟨0, 1⟩] 1).max_value) :=
  ⟨⟨by decide, by decide, by norm_num [param_at], round64_minus_five, round64_fifth⟩,
    C8_limit_two_levels_endpoints 3 [⟨0, 1⟩, ⟨-5, 3602879701896397 / 18014398509481984⟩, ⟨0, 1⟩] 1 (by decide) (by decide)
      (by norm_num [param_at]) round64_minus_five round64_fifth⟩

/-! ## Random sampler: entries and shape -/

/-- A row loop over a state of any type: it writes `val s` and moves the state
with `next`, so row `i` receives the value at the `i`-th iterate. -/
theorem foldl_row_state {τ : Type} (next : τ → τ) (val : τ → ℚ) (j n : Nat)
    (d : mat) (c : τ) :
    (List.range n).foldl (fun (st : mat × τ) i => (st.1.set i j (val st.2), next st.2)) (d, c)
      = (fill_col j n (fun i => val (next^[i] c)) d, next^[n] c) := by
  induction n with
  | zero => simp [fill_col]
  | succ n ih =>
    rw [List.range_succ, List.foldl_append, ih, fill_col_succ]
    simp [Function.iterate_succ_apply']

theorem doe_random_col_eq {σ : Type} (alead : ℚ → ℚ → σ → ℚ × σ) (S : Nat)
    (params : List parameters) (d : mat) (s : σ) (j : Nat) :
    doe_random_col alead S params (d, s) j
      = (fill_col j S (fun i =>
          (alead (param_at params j).min_value (param_at params j).max_value
            ((fun s => (alead (param_at params j).min_value
              (param_at params j).max_value s).2)^[i] s)).1) d,
        (fun s => (alead (param_at params j).min_value
          (param_at params j).max_value s).2)^[S] s) :=
  foldl_row_state
    (fun s => (alead (param_at params j).min_value (param_at params j).max_value s).2)
    (fun s => (alead (param_at params j).min_value (param_at params j).max_value s).1)
    j S d s

/-- The column loop of `doe_random` after `J` columns. -/
theorem doe_random_foldl {σ : Type} (alead : ℚ → ℚ → σ → ℚ × σ) (g : σ) (S N : Nat)
    (params : List parameters) (J : Nat) :
    (List.range J).foldl (doe_random_col alead S params) (zeros S N, g)
      = ((List.range J).foldl (fun d j => fill_col j S (fun i =>
            (alead (param_at params j).min_value (param_at params j).max_value
              (doe_random_state alead g S params i j)).1) d) (zeros S N),
          doe_random_seed alead g S params J) := by
  induction J with
  | zero => simp [doe_random_seed]
  | succ J ih =>
    rw [List.range_succ, List.foldl_append, List.foldl_append, ih]
    simp only [List.foldl_cons, List.foldl_nil]
    rw [doe_random_col_eq]
    rfl

/-- Shape of `doe_random` and the draw behind each of its entries. -/
theorem doe_random_spec {σ : Type} (alead : ℚ → ℚ → σ → ℚ × σ) (g : σ)
    (n_samples n_param : Nat) (params : List parameters) :
    (doe_random alead g n_samples n_param params).1.n_rows = n_samples ∧
    (doe_random alead g n_samples n_param params).1.n_cols = n_param ∧
    (doe_random alead g n_samples n_param params).1.mem.length = n_samples * n_param ∧
    (doe_random alead g n_samples n_param params).2
      = doe_random_seed alead g n_samples params n_param ∧
    ∀ i j, i < n_samples → j < n_param →
      (doe_random alead g n_samples n_param params).1.elem i j
        = (alead (param_at params j).min_value (param_at params j).max_value
            (doe_random_state alead g n_samples params i j)).1 := by
  have e : doe_random alead g n_samples n_param params
      = ((List.range n_param).foldl (fun d j => fill_col j n_samples (fun i =>
            (alead (param_at params j).min_value (param_at params j).max_value
              (doe_random_state alead g n_samples params i j)).1) d) (zeros n_samples n_param),
          doe_random_seed alead g n_samples params n_param) :=
    doe_random_foldl alead g n_samples n_param params n_param
  obtain ⟨h1, h2, h3, h4⟩ := foldl_fill_col n_samples n_param
    (fun j i => (alead (param_at params j).min_value (param_at params j).max_value
      (doe_random_state alead g n_samples params i j)).1) n_param le_rfl
  rw [e]
  refine ⟨h1, h2, h3, rfl, ?_⟩
  intro i j hi hj
  rw [h4 i j hi hj, if_pos hj]


/-! ## Claims on the random sampler and the first generation -/

/-- C11 (random sampling shape and range). For all `n_samples` and `n_param`,
`doe_random` returns a matrix with exactly `n_samples` rows and `n_param`
columns; entry `(i, j)` is the draw `alead(min_j, max_j)` made in the generator
state `doe_random_state .. i j`, with the bounds of parameter `j` only; hence,
if `alead(a, b)` always lies in `[a, b]` when `a ≤ b`, every coordinate of a
parameter with `min_j ≤ max_j` lies in `[min_j, max_j]`. -/
theorem C11_doe_random_shape_range {σ : Type} (alead : ℚ → ℚ → σ → ℚ × σ) (g : σ)
    (n_samples n_param : Nat) (params : List parameters) :
    ((doe_random alead g n_samples n_param params).1.n_rows = n_samples ∧
      (doe_random alead g n_samples n_param params).1.n_cols = n_param) ∧
    (∀ i j, i < n_samples → j < n_param →
      (doe_random alead g n_samples n_param params).1.elem i j
        = (alead (param_at params j).min_value (param_at params j).max_value
            (doe_random_state alead g n_samples params i j)).1) ∧
    ((∀ a b s, a ≤ b → a ≤ (alead a b s).1 ∧ (alead a b s).1 ≤ b) →
      ∀ i j, i < n_samples → j < n_param →
        (param_at params j).min_value ≤ (param_at params j).max_value →
        (param_at params j).min_value
            ≤ (doe_random alead g n_samples n_param params).1.elem i j ∧
          (doe_random alead g n_samples n_param params).1.elem i j
            ≤ (param_at params j).max_value) := by
  obtain ⟨h1, h2, _, _, h5⟩ := doe_random_spec alead g n_samples n_param params
  refine ⟨⟨h1, h2⟩, h5, ?_⟩
  intro hr i j hi hj hb
  rw [h5 i j hi hj]
  exact hr _ _ _ hb

/-- Instance of C11: a generator that returns the midpoint of the bounds and
counts its draws; three samples of two parameters, entry `(2, 1)`. -/
theorem C11_doe_random_shape_range_witness :
    ((∀ a b : ℚ, ∀ s : Nat, a ≤ b →
        a ≤ ((fun (a b : ℚ) (s : Nat) => ((a + b) / 2, s + 1)) a b s).1 ∧
        ((fun (a b : ℚ) (s : Nat) => ((a + b) / 2, s + 1)) a b s).1 ≤ b) ∧
      2 < 3 ∧ 1 < 2 ∧
      (param_at [⟨0, 10⟩, ⟨1, 5⟩] 1).min_value ≤ (param_at [⟨0, 10⟩, ⟨1, 5⟩] 1).max_value) ∧
    ((doe_random (fun (a b : ℚ) (s : Nat) => ((a + b) / 2, s + 1)) 0 3 2
        [⟨0, 10⟩, ⟨1, 5⟩]).1.n_rows = 3 ∧
      (doe_random (fun (a b : ℚ) (s : Nat) => ((a + b) / 2, s + 1)) 0 3 2
        [⟨0, 10⟩, ⟨1, 5⟩]).1.n_cols = 2) ∧
    ((param_at [⟨0, 10⟩, ⟨1, 5⟩] 1).min_value
        ≤ (doe_random (fun (a b : ℚ) (s : Nat) => ((a + b) / 2, s + 1)) 0 3 2
            [⟨0, 10⟩, ⟨1, 5⟩]).1.elem 2 1 ∧
      (doe_random (fun (a b : ℚ) (s : Nat) => ((a + b) / 2, s + 1)) 0 3 2
            [⟨0, 10⟩, ⟨1, 5⟩]).1.elem 2 1
        ≤ (param_at [⟨0, 10⟩, ⟨1, 5⟩] 1).max_value) :=
  ⟨⟨fun a b _ hab => ⟨by simp only; linarith, by simp only; linarith⟩,
      by decide, by decide, by norm_num [param_at]⟩,
    (C11_doe_random_shape_range (fun (a b : ℚ) (s : Nat) => ((a + b) / 2, s + 1)) 0 3 2
      [⟨0, 10⟩, ⟨1, 5⟩]).1,
    (C11_doe_random_shape_range (fun (a b : ℚ) (s : Nat) => ((a + b) / 2, s + 1)) 0 3 2
      [⟨0, 10⟩, ⟨1, 5⟩]).2.2
      (fun a b _ hab => ⟨by simp only; linarith, by simp only; linarith⟩)
      2 1 (by decide) (by decide) (by norm_num [param_at])⟩


/-! ## Writes into the population -/

theorem set_p_pop_length (g : generation) (i j : Nat) (v : ℚ) :
    (g.set_p i j v).pop.length = g.pop.length := by
  simp [generation.set_p]

theorem set_p_p_length (g : generation) (i j : Nat) (v : ℚ) (i' : Nat) :
    ((g.set_p i j v).pop.getD i' default).p.length = (g.pop.getD i' default).p.length := by
  simp only [generation.set_p, List.getD_eq_getElem?_getD, List.getElem?_set]
  by_cases h : i = i'
  · subst h
    by_cases hl : i < g.pop.length
    · simp [hl]
    · simp [hl, List.getElem?_eq_none (Nat.le_of_not_lt hl)]
  · simp [h]

theorem set_p_p_at (g : generation) (i j : Nat) (v : ℚ) (i' j' : Nat)
    (hi : i < g.pop.length) (hj : j < (g.pop.getD i default).p.length) :
    (g.set_p i j v).p_at i' j' = if i' = i ∧ j' = j then v else g.p_at i' j' := by
  simp only [generation.set_p, generation.p_at, List.getD_eq_getElem?_getD, List.getElem?_set]
    at hj ⊢
  by_cases h : i = i'
  · subst h
    simp only [hi, if_true, Option.getD_some, true_and]
    by_cases h2 : j = j'
    · subst h2
      simp [hj]
    · have h3 : ¬ j' = j := fun e => h2 e.symm
      simp [h2, h3]
  · have h3 : ¬ i' = i := fun e => h e.symm
    simp [h, h3]

theorem set_p_allocated (g : generation) (i j : Nat) (v : ℚ) (n_param : Nat)
    (hg : g.allocated n_param) : (g.set_p i j v).allocated n_param := by
  refine ⟨?_, ?_⟩
  · rw [set_p_pop_length]; exact hg.1
  · intro i' hi'
    rw [set_p_p_length]
    exact hg.2 i' hi'

/-- The inner copy loop of `gen_initialize` after `k` candidates. -/
theorem gen_fill_col_spec (samples : mat) (j n_param : Nat) (g : generation)
    (hg : g.allocated n_param) (hj : j < n_param) (k : Nat) (hk : k ≤ g.nindividuals) :
    ((List.range k).foldl (fun g i => g.set_p i j (samples.elem i j)) g).nindividuals
        = g.nindividuals ∧
      ((List.range k).foldl (fun g i => g.set_p i j (samples.elem i j)) g).allocated n_param ∧
      ∀ i' j', ((List.range k).foldl (fun g i => g.set_p i j (samples.elem i j)) g).p_at i' j'
        = if j' = j ∧ i' < k then samples.elem i' j else g.p_at i' j' := by
  induction k with
  | zero =>
    refine ⟨rfl, hg, ?_⟩
    intro i' j'
    simp
  | succ k ih =>
    obtain ⟨h1, h2, h3⟩ := ih (by omega)
    rw [List.range_succ, List.foldl_append]
    simp only [List.foldl_cons, List.foldl_nil]
    refine ⟨h1, set_p_allocated _ _ _ _ _ h2, ?_⟩
    intro i' j'
    have hlen : k < ((List.range k).foldl
        (fun g i => g.set_p i j (samples.elem i j)) g).pop.length := by
      rw [h2.1, h1]; omega
    have hpl : j < (((List.range k).foldl
        (fun g i => g.set_p i j (samples.elem i j)) g).pop.getD k default).p.length := by
      rw [h2.2 k (by rw [h1]; omega)]; exact hj
    rw [set_p_p_at _ _ _ _ _ _ hlen hpl, h3]
    by_cases hc : i' = k ∧ j' = j
    · obtain ⟨rfl, rfl⟩ := hc
      simp
    · rw [if_neg hc]
      by_cases hjj : j' = j
      · have hik : i' ≠ k := fun e => hc ⟨e, hjj⟩
        have : (i' < k + 1) ↔ (i' < k) := by omega
        simp only [hjj, true_and, this]
      · simp [hjj]

/-- The copy loops of `gen_initialize` after `J` columns. -/
theorem gen_fill_foldl_spec (samples : mat) (n_param : Nat) (g : generation)
    (hg : g.allocated n_param) (J : Nat) (hJ : J ≤ n_param) :
    ((List.range J).foldl (fun g j => (List.range g.nindividuals).foldl
        (fun g i => g.set_p i j (samples.elem i j)) g) g).nindividuals = g.nindividuals ∧
      ((List.range J).foldl (fun g j => (List.range g.nindividuals).foldl
        (fun g i => g.set_p i j (samples.elem i j)) g) g).allocated n_param ∧
      ∀ i j, i < g.nindividuals →
        ((List.range J).foldl (fun g j => (List.range g.nindividuals).foldl
          (fun g i => g.set_p i j (samples.elem i j)) g) g).p_at i j
          = if j < J then samples.elem i j else g.p_at i j := by
  induction J with
  | zero =>
    refine ⟨rfl, hg, ?_⟩
    intro i j _
    simp
  | succ J ih =>
    obtain ⟨h1, h2, h3⟩ := ih (by omega)
    rw [List.range_succ, List.foldl_append]
    simp only [List.foldl_cons, List.foldl_nil]
    obtain ⟨g1, g2, g3⟩ := gen_fill_col_spec samples J n_param _ h2 (by omega) _ le_rfl
    refine ⟨g1.trans h1, g2, ?_⟩
    intro i j hi
    rw [g3, h3 i j hi, h1]
    by_cases hjJ : j = J
    · subst hjJ
      simp [hi]
    · by_cases hlt : j < J
      · have : j < J + 1 := by omega
        simp [hjJ, hlt, this]
      · have : ¬ j < J + 1 := by omega
        simp [hjJ, hlt, this]

/-- After the copy loops of `gen_initialize` on an allocated population, the
candidates hold the sample matrix. -/
theorem gen_fill_spec (samples : mat) (n_param : Nat) (g : generation)
    (hg : g.allocated n_param) :
    (gen_fill n_param samples g).nindividuals = g.nindividuals ∧
      (gen_fill n_param samples g).allocated n_param ∧
      ∀ i j, i < g.nindividuals → j < n_param →
        (gen_fill n_param samples g).p_at i j = samples.elem i j := by
  obtain ⟨h1, h2, h3⟩ := gen_fill_foldl_spec samples n_param g hg n_param le_rfl
  refine ⟨h1, h2, ?_⟩
  intro i j hi hj
  have := h3 i j hi
  rw [if_pos hj] at this
  exact this


/-! ## The dispatch of `gen_initialize` -/

theorem gen_initialize_zero {σ : Type} (construct : generation → Nat → Int → generation × Int)
    (alead : ℚ → ℚ → σ → ℚ × σ) (gen0 : Option (List line))
    (v : gen_vars σ) (n_param : Nat) (params : List parameters) :
    gen_initialize construct alead gen0 v 0 n_param params
      = Except.ok (gen_branch_uniform construct v n_param params) := by
  simp [ gen_initialize]

theorem gen_initialize_one {σ : Type} (construct : generation → Nat → Int → generation × Int)
    (alead : ℚ → ℚ → σ → ℚ × σ) (gen0 : Option (List line))
    (v : gen_vars σ) (n_param : Nat) (params : List parameters) :
    gen_initialize construct alead gen0 v 1 n_param params
      = gen_branch_limit construct v n_param params := by
  simp [ gen_initialize]

theorem gen_initialize_two {σ : Type} (construct : generation → Nat → Int → generation × Int)
    (alead : ℚ → ℚ → σ → ℚ × σ) (gen0 : Option (List line))
    (v : gen_vars σ) (n_param : Nat) (params : List parameters) :
    gen_initialize construct alead gen0 v 2 n_param params
      = Except.ok (gen_branch_random construct alead v n_param params) := by
  simp [ gen_initialize]

theorem gen_initialize_three {σ : Type} (construct : generation → Nat → Int → generation × Int)
    (alead : ℚ → ℚ → σ → ℚ × σ) (gen0 : Option (List line))
    (v : gen_vars σ) (n_param : Nat) (params : List parameters) :
    gen_initialize construct alead gen0 v 3 n_param params
      = gen_branch_file construct gen0 v n_param := by
  simp [ gen_initialize]

theorem gen_initialize_other {σ : Type} (construct : generation → Nat → Int → generation × Int)
    (alead : ℚ → ℚ → σ → ℚ × σ) (gen0 : Option (List line))
    (v : gen_vars σ) (aleaspace : Int) (n_param : Nat) (params : List parameters)
    (h0 : aleaspace ≠ 0) (h1 : aleaspace ≠ 1) (h2 : aleaspace ≠ 2) (h3 : aleaspace ≠ 3) :
    gen_initialize construct alead gen0 v aleaspace n_param params = Except.ok v := by
  simp [ gen_initialize, h0, h1, h2, h3]

/-- The spec model of `construct` allocates the population. -/
theorem construct_allocated (g : generation) (n : Nat) (id : Int) :
    (g.construct n id).1.nindividuals = g.nindividuals ∧ (g.construct n id).1.allocated n := by
  refine ⟨rfl, ?_, ?_⟩
  · simp [generation.construct]
  · intro i hi
    have hi' : i < g.nindividuals := hi
    simp [generation.construct, List.getElem?_map, List.getElem?_range hi']

/-- C12 (the population equals the sample matrix). Let `construct` allocate
`nindividuals` candidates with parameter vectors of length `n_param`. Then
`gen_initialize` with `aleaspace = 0` returns with `nindividuals = spop ^
n_param` and `pop[i].p(j)` equal to entry `(i, j)` of `doe_uniform`; with
`aleaspace = 1` and `spop ≥ 2` it returns with the same size and the entries
of `doe_uniform_limit` (with `spop < 2` the assertion of the sampler stops the
program); with `aleaspace = 2` it returns with `nindividuals = apop` and the
entries of `doe_random`. -/
theorem C12_population_equals_samples {σ : Type}
    (construct : generation → Nat → Int → generation × Int)
    (alead : ℚ → ℚ → σ → ℚ × σ) (gen0 : Option (List line))
    (v : gen_vars σ) (n_param : Nat) (params : List parameters)
    (hc : ∀ g n id, (construct g n id).1.nindividuals = g.nindividuals ∧
      (construct g n id).1.allocated n) :
    (∃ w, gen_initialize construct alead gen0 v 0 n_param params = Except.ok w ∧
      w.geninit.nindividuals = v.spop ^ n_param ∧
      ∀ i j, i < v.spop ^ n_param → j < n_param →
        w.geninit.p_at i j = (doe_uniform v.spop n_param params).elem i j) ∧
    (2 ≤ v.spop → ∃ w m, gen_initialize construct alead gen0 v 1 n_param params = Except.ok w ∧
      doe_uniform_limit v.spop n_param params = some m ∧
      w.geninit.nindividuals = v.spop ^ n_param ∧
      ∀ i j, i < v.spop ^ n_param → j < n_param → w.geninit.p_at i j = m.elem i j) ∧
    (v.spop < 2 →
      gen_initialize construct alead gen0 v 1 n_param params
        = Except.error abort.assert_failed) ∧
    (∃ w, gen_initialize construct alead gen0 v 2 n_param params = Except.ok w ∧
      w.geninit.nindividuals = v.apop ∧
      ∀ i j, i < v.apop → j < n_param →
        w.geninit.p_at i j = (doe_random alead v.rng v.apop n_param params).1.elem i j) := by
  refine ⟨?_, ?_, ?_, ?_⟩
  · refine ⟨_, gen_initialize_zero construct alead gen0 v n_param params, ?_⟩
    obtain ⟨c1, c2⟩ := hc { v.geninit with nindividuals := v.spop ^ n_param } n_param v.idnumber
    obtain ⟨f1, _, f3⟩ := gen_fill_spec (doe_uniform v.spop n_param params) n_param _ c2
    refine ⟨f1.trans c1, ?_⟩
    intro i j hi hj
    exact f3 i j (by rw [c1]; exact hi) hj
  · intro hs
    obtain ⟨m, hm, _⟩ := doe_uniform_limit_spec v.spop n_param params hs
    obtain ⟨c1, c2⟩ := hc { v.geninit with nindividuals := v.spop ^ n_param } n_param v.idnumber
    obtain ⟨f1, _, f3⟩ := gen_fill_spec m n_param _ c2
    have hres : gen_initialize construct alead gen0 v 1 n_param params
        = Except.ok { v with
            geninit := gen_fill n_param m
              (construct { v.geninit with nindividuals := v.spop ^ n_param } n_param
                v.idnumber).1,
            idnumber := (construct { v.geninit with nindividuals := v.spop ^ n_param } n_param
                v.idnumber).2 } := by
      rw [gen_initialize_one]
      simp only [gen_branch_limit, hm]
    refine ⟨_, m, hres, hm, f1.trans c1, ?_⟩
    intro i j hi hj
    exact f3 i j (by rw [c1]; exact hi) hj
  · intro hs
    have hn : doe_uniform_limit v.spop n_param params = none := by
      unfold doe_uniform_limit
      rw [if_neg (by omega)]
    rw [gen_initialize_one]
    simp only [gen_branch_limit, hn]
  · refine ⟨_, gen_initialize_two construct alead gen0 v n_param params, ?_⟩
    obtain ⟨c1, c2⟩ := hc { v.geninit with nindividuals := v.apop } n_param v.idnumber
    have c1' : (construct { v.geninit with nindividuals := v.apop } n_param
        v.idnumber).1.nindividuals = v.apop := c1
    obtain ⟨f1, _, f3⟩ := gen_fill_spec
      (doe_random alead v.rng v.apop n_param params).1 n_param _ c2
    refine ⟨?_, ?_⟩
    · simp only [gen_branch_random, c1']
      exact f1.trans c1
    · intro i j hi hj
      simp only [gen_branch_random, c1']
      exact f3 i j (by rw [c1]; exact hi) hj


/-- Instance of C12: the spec model of `construct`, a generator returning the
midpoint, one parameter bounded by `[0, 1]`; `spop = 2` for the grids and
`spop = 1` for the failing assertion. -/
theorem C12_population_equals_samples_witness :
    ((∀ (g : generation) (n : Nat) (id : Int),
        (g.construct n id).1.nindividuals = g.nindividuals ∧ (g.construct n id).1.allocated n) ∧
      2 ≤ (⟨⟨0, []⟩, 2, 3, 0, 0⟩ : gen_vars Nat).spop ∧
      (⟨⟨0, []⟩, 1, 3, 0, 0⟩ : gen_vars Nat).spop < 2) ∧
    (∃ w m, gen_initialize generation.construct
        (fun (a b : ℚ) (s : Nat) => ((a + b) / 2, s + 1)) none
        (⟨⟨0, []⟩, 2, 3, 0, 0⟩ : gen_vars Nat) 1 1 [⟨0, 1⟩] = Except.ok w ∧
      doe_uniform_limit 2 1 [⟨0, 1⟩] = some m ∧
      w.geninit.nindividuals = 2 ^ 1 ∧
      ∀ i j, i < 2 ^ 1 → j < 1 → w.geninit.p_at i j = m.elem i j) ∧
    gen_initialize generation.construct
        (fun (a b : ℚ) (s : Nat) => ((a + b) / 2, s + 1)) none
        (⟨⟨0, []⟩, 1, 3, 0, 0⟩ : gen_vars Nat) 1 1 [⟨0, 1⟩]
      = Except.error abort.assert_failed :=
  ⟨⟨construct_allocated, by decide, by decide⟩,
    (C12_population_equals_samples generation.construct
      (fun (a b : ℚ) (s : Nat) => ((a + b) / 2, s + 1)) none
      (⟨⟨0, []⟩, 2, 3, 0, 0⟩ : gen_vars Nat) 1 [⟨0, 1⟩] construct_allocated).2.1 (by decide),
    (C12_population_equals_samples generation.construct
      (fun (a b : ℚ) (s : Nat) => ((a + b) / 2, s + 1)) none
      (⟨⟨0, []⟩, 1, 3, 0, 0⟩ : gen_vars Nat) 1 [⟨0, 1⟩] construct_allocated).2.2.1
      (by decide)⟩


/-- The source dispatch and the four-way choice of the spec agree on every input. -/
theorem gen_initialize_eq_switch {σ : Type}
    (construct : generation → Nat → Int → generation × Int)
    (alead : ℚ → ℚ → σ → ℚ × σ) (gen0 : Option (List line))
    (v : gen_vars σ) (aleaspace : Int) (n_param : Nat) (params : List parameters) :
    gen_initialize construct alead gen0 v aleaspace n_param params
      = gen_initialize_switch construct alead gen0 v aleaspace n_param params := by
  unfold gen_initialize_switch
  split
  · exact gen_initialize_zero construct alead gen0 v n_param params
  · exact gen_initialize_one construct alead gen0 v n_param params
  · exact gen_initialize_two construct alead gen0 v n_param params
  · exact gen_initialize_three construct alead gen0 v n_param params
  · rename_i h0 h1 h2 h3
    exact gen_initialize_other construct alead gen0 v aleaspace n_param params h0 h1 h2 h3


/-- C13 (the mode dispatch is a clean enumeration). The statement chain of
`gen_initialize` computes the same result as the four-way choice
`gen_initialize_switch` on every input; with `aleaspace = 1` the branch of the
endpoint-inclusive grid runs, on the unmodified variables (it is not dead);
for `aleaspace` in `{0, 1, 2, 3}` a returning call has called `construct`
exactly once (a `construct` that only counts its calls leaves the counter one
higher); for any other `aleaspace` the generation, `idnumber`, `spop` and
`apop` are returned unchanged. -/
theorem C13_gen_initialize_dispatch {σ : Type}
    (construct : generation → Nat → Int → generation × Int)
    (alead : ℚ → ℚ → σ → ℚ × σ) (gen0 : Option (List line))
    (v : gen_vars σ) (aleaspace : Int) (n_param : Nat) (params : List parameters) :
    gen_initialize construct alead gen0 v aleaspace n_param params
      = gen_initialize_switch construct alead gen0 v aleaspace n_param params ∧
    gen_initialize construct alead gen0 v 1 n_param params
      = gen_branch_limit construct v n_param params ∧
    (aleaspace = 0 ∨ aleaspace = 1 ∨ aleaspace = 2 ∨ aleaspace = 3 →
      ∀ w, gen_initialize (fun g _ id => (g, id + 1)) alead gen0 v aleaspace n_param params
          = Except.ok w →
        w.idnumber = v.idnumber + 1) ∧
    (aleaspace ≠ 0 → aleaspace ≠ 1 → aleaspace ≠ 2 → aleaspace ≠ 3 →
      gen_initialize construct alead gen0 v aleaspace n_param params = Except.ok v) := by
  refine ⟨gen_initialize_eq_switch construct alead gen0 v aleaspace n_param params,
    gen_initialize_one construct alead gen0 v n_param params, ?_,
    gen_initialize_other construct alead gen0 v aleaspace n_param params⟩
  rintro (h | h | h | h) w hw
  · subst h
    rw [gen_initialize_zero] at hw
    injection hw with hw
    subst hw
    rfl
  · subst h
    rw [gen_initialize_one] at hw
    unfold gen_branch_limit at hw
    cases hd : doe_uniform_limit v.spop n_param params with
    | none => simp [hd] at hw
    | some m =>
      simp only [hd] at hw
      injection hw with hw
      subst hw
      rfl
  · subst h
    rw [gen_initialize_two] at hw
    injection hw with hw
    subst hw
    rfl
  · subst h
    rw [gen_initialize_three] at hw
    unfold gen_branch_file at hw
    cases hr : read_gen gen0 ⟨0, 0, []⟩ n_param with
    | error e => simp [hr] at hw
    | ok r =>
      simp only [hr] at hw
      injection hw with hw
      subst hw
      rfl

/-- Instance of C13: `aleaspace = 1` with `spop = 2` and one parameter returns
and has called the counting `construct` once; `aleaspace = 7` returns the
variables unchanged. -/
theorem C13_gen_initialize_dispatch_witness :
    (((1 : Int) = 0 ∨ (1 : Int) = 1 ∨ (1 : Int) = 2 ∨ (1 : Int) = 3) ∧
      (7 : Int) ≠ 0 ∧ (7 : Int) ≠ 1 ∧ (7 : Int) ≠ 2 ∧ (7 : Int) ≠ 3) ∧
    (∀ w, gen_initialize (fun g _ id => (g, id + 1))
        (fun (a b : ℚ) (s : Nat) => ((a + b) / 2, s + 1)) none
        (⟨⟨0, []⟩, 2, 3, 0, 0⟩ : gen_vars Nat) 1 1 [⟨0, 1⟩] = Except.ok w →
      w.idnumber = (⟨⟨0, []⟩, 2, 3, 0, 0⟩ : gen_vars Nat).idnumber + 1) ∧
    gen_initialize generation.construct
        (fun (a b : ℚ) (s : Nat) => ((a + b) / 2, s + 1)) none
        (⟨⟨0, []⟩, 2, 3, 0, 0⟩ : gen_vars Nat) 7 1 [⟨0, 1⟩]
      = Except.ok ⟨⟨0, []⟩, 2, 3, 0, 0⟩ :=
  ⟨⟨by decide, by decide, by decide, by decide, by decide⟩,
    (C13_gen_initialize_dispatch generation.construct
      (fun (a b : ℚ) (s : Nat) => ((a + b) / 2, s + 1)) none
      (⟨⟨0, []⟩, 2, 3, 0, 0⟩ : gen_vars Nat) 1 1 [⟨0, 1⟩]).2.2.1 (by decide),
    (C13_gen_initialize_dispatch generation.construct
      (fun (a b : ℚ) (s : Nat) => ((a + b) / 2, s + 1)) none
      (⟨⟨0, []⟩, 2, 3, 0, 0⟩ : gen_vars Nat) 7 1 [⟨0, 1⟩]).2.2.2
      (by decide) (by decide) (by decide) (by decide)⟩


/-- C14 (documented mode numbering), evaluation of the code. The comment in
`ident_control` documents `1 = random individuals`, `2 = previously computed
population`, `3 = equidistant individuals with boundary ones`. With
`aleaspace = 1`, `spop = 2` and one parameter bounded by `[0, 1]`,
`gen_initialize` builds the endpoint-inclusive grid `0, 1` whatever the random
generator is, and leaves the generator untouched; with `aleaspace = 2` it runs
the random branch and never reads the file; with `aleaspace = 3` it reads
`data/gen0.inp` (and exits when that file cannot be opened). -/
theorem C14_gen_initialize_modes {σ : Type} (alead : ℚ → ℚ → σ → ℚ × σ)
    (gen0 : Option (List line)) (rng : σ) :
    gen_initialize generation.construct alead gen0
        (⟨⟨0, []⟩, 2, 3, 0, rng⟩ : gen_vars σ) 1 1 [⟨0, 1⟩]
      = Except.ok ⟨⟨2, [⟨[0], 0, 0⟩, ⟨[1], 0, 1⟩]⟩, 2, 3, 2, rng⟩ ∧
    gen_initialize generation.construct alead gen0
        (⟨⟨0, []⟩, 2, 3, 0, rng⟩ : gen_vars σ) 2 1 [⟨0, 1⟩]
      = Except.ok (gen_branch_random generation.construct alead
          (⟨⟨0, []⟩, 2, 3, 0, rng⟩ : gen_vars σ) 1 [⟨0, 1⟩]) ∧
    gen_initialize generation.construct alead gen0
        (⟨⟨0, []⟩, 2, 3, 0, rng⟩ : gen_vars σ) 3 1 [⟨0, 1⟩]
      = gen_branch_file generation.construct gen0 (⟨⟨0, []⟩, 2, 3, 0, rng⟩ : gen_vars σ) 1 ∧
    gen_initialize generation.construct alead none
        (⟨⟨0, []⟩, 2, 3, 0, rng⟩ : gen_vars σ) 3 1 [⟨0, 1⟩]
      = Except.error abort.exited := by
  refine ⟨?_, gen_initialize_two _ _ _ _ _ _, gen_initialize_three _ _ _ _ _ _, ?_⟩
  · rw [gen_initialize_one]
    have hm : doe_uniform_limit 2 1 [⟨0, 1⟩] = some ⟨2, 1, [0, 1]⟩ := by
      simp [doe_uniform_limit, doe_uniform_limit_col, doe_uniform_limit_row,
        doe_uniform_limit_next, doe_uniform_limit_value, zeros, mat.set, param_at,
        List.range_succ]
    simp only [gen_branch_limit, hm]
    simp [gen_fill, generation.construct, generation.set_p, mat.elem, List.range_succ]
  · rw [gen_initialize_three]
    rfl


/-! ## Reading the persisted generation -/

theorem foldl_invariant {α β : Type} (P : α → Prop) (f : α → β → α)
    (h : ∀ a b, P a → P (f a b)) (l : List β) (a : α) (ha : P a) : P (l.foldl f a) := by
  induction l generalizing a with
  | nil => exact ha
  | cons b l ih => exact ih (f a b) (h a b ha)

theorem mat.resize_shape (m : mat) (r c : Nat) :
    (m.resize r c).n_rows = r ∧ (m.resize r c).n_cols = c ∧ (m.resize r c).wf := by
  simp [mat.resize, mat.wf]

theorem mat.set_shape (m : mat) (i j : Nat) (v : ℚ) :
    (m.set i j v).n_rows = m.n_rows ∧ (m.set i j v).n_cols = m.n_cols ∧
      (m.set i j v).mem.length = m.mem.length := by
  simp [mat.set]

/-- Reading back after a write inside the matrix. -/
theorem mat.elem_set (m : mat) (i j : Nat) (v : ℚ) (i' j' : Nat) (hm : m.wf)
    (hi : i < m.n_rows) (hj : j < m.n_cols) (hi' : i' < m.n_rows) :
    (m.set i j v).elem i' j' = if i' = i ∧ j' = j then v else m.elem i' j' := by
  have hb : i + j * m.n_rows < m.mem.length := by
    have : (j + 1) * m.n_rows ≤ m.n_cols * m.n_rows := Nat.mul_le_mul_right _ hj
    rw [hm, Nat.mul_comm m.n_rows]
    rw [Nat.add_mul] at this
    omega
  simp only [mat.elem, mat.set, List.getD_eq_getElem?_getD, List.getElem?_set]
  by_cases hjj : j' = j
  · subst hjj
    by_cases hii : i' = i
    · subst hii
      simp [hb]
    · have hne : ¬ (i + j' * m.n_rows = i' + j' * m.n_rows) := by omega
      have hc : ¬ (i' = i ∧ j' = j') := fun h => hii h.1
      rw [if_neg hne, if_neg hc]
  · have hne : ¬ (i + j * m.n_rows = i' + j' * m.n_rows) := by
      rcases Nat.lt_or_gt_of_ne hjj with hlt | hgt
      · have : (j' + 1) * m.n_rows ≤ j * m.n_rows := Nat.mul_le_mul_right _ hlt
        rw [Nat.add_mul] at this
        omega
      · have : (j + 1) * m.n_rows ≤ j' * m.n_rows := Nat.mul_le_mul_right _ hgt
        rw [Nat.add_mul] at this
        omega
    have hc : ¬ (i' = i ∧ j' = j) := fun h => hjj h.2
    rw [if_neg hne, if_neg hc]

/-- The row loop of `read_gen` keeps the shape of the matrix. -/
theorem read_gen_rows_shape (n_param : Nat) (l : List Nat) (st : mat × ifstream) :
    (l.foldl (read_gen_row n_param) st).1.n_rows = st.1.n_rows ∧
      (l.foldl (read_gen_row n_param) st).1.n_cols = st.1.n_cols ∧
      (l.foldl (read_gen_row n_param) st).1.mem.length = st.1.mem.length := by
  apply foldl_invariant (fun (x : mat × ifstream) => x.1.n_rows = st.1.n_rows ∧
    x.1.n_cols = st.1.n_cols ∧ x.1.mem.length = st.1.mem.length)
  · intro a i ha
    unfold read_gen_row
    apply foldl_invariant (fun (x : mat × ifstream) => x.1.n_rows = st.1.n_rows ∧
      x.1.n_cols = st.1.n_cols ∧ x.1.mem.length = st.1.mem.length)
    · intro b j hb
      obtain ⟨s1, s2, s3⟩ := mat.set_shape b.1 i j (b.2.get_double (b.1.elem i j)).1
      exact ⟨s1.trans hb.1, s2.trans hb.2.1, s3.trans hb.2.2⟩
    · exact ha
  · exact ⟨rfl, rfl, rfl⟩

/-- The reader `read_gen` fails only on a file that cannot be opened or that
has no non-empty line; otherwise it returns a matrix whose shape depends on
the number of non-empty lines and on `n_param` only. -/
theorem read_gen_returns (gen0 : Option (List line)) (samples : mat) (n_param : Nat) :
    (gen0 = none → read_gen gen0 samples n_param = Except.error abort.exited) ∧
    (∀ f, gen0 = some f → read_gen_count f = 0 →
      read_gen gen0 samples n_param = Except.error abort.bad_alloc) ∧
    (∀ f, gen0 = some f → read_gen_count f ≠ 0 →
      ∃ m, read_gen gen0 samples n_param = Except.ok (read_gen_count f - 1, m) ∧
        m.n_rows = read_gen_count f - 1 ∧ m.n_cols = n_param ∧ m.wf) := by
  refine ⟨?_, ?_, ?_⟩
  · intro h; subst h; rfl
  · intro f h h0; subst h
    simp [read_gen, h0]
  · intro f h h0; subst h
    have e : read_gen (some f) samples n_param = Except.ok (read_gen_count f - 1,
        ((List.range (read_gen_count f - 1)).foldl (read_gen_row n_param)
          (samples.resize (read_gen_count f - 1) n_param, read_gen_header f n_param)).1) := by
      simp only [read_gen, if_neg h0]
    refine ⟨_, e, ?_⟩
    obtain ⟨r1, r2, r3⟩ := mat.resize_shape samples (read_gen_count f - 1) n_param
    obtain ⟨s1, s2, s3⟩ := read_gen_rows_shape n_param (List.range (read_gen_count f - 1))
      (samples.resize (read_gen_count f - 1) n_param, read_gen_header f n_param)
    refine ⟨s1.trans r1, s2.trans r2, ?_⟩
    unfold mat.wf at r3 ⊢
    rw [s3, s1, s2]
    exact r3


/-- C15, as stated, fails: with `n_param = 1` and an artifact whose header and
rows carry two parameter columns (three leading tokens, then two values),
`read_gen` does not fail: it returns `apop = 2` and a 2x1 matrix (holding the
third token of row 0 and the second token of row 1), and `gen_initialize`
with `aleaspace = 3` returns a generation of two candidates. -/
theorem C15_counterexample :
    read_gen (some [⟨[token.word, token.word, token.word, token.word, token.word], false⟩,
        ⟨[token.int 1, token.int 1, token.real (1 / 2), token.int 10, token.int 20], false⟩,
        ⟨[token.int 1, token.int 2, token.real (7 / 10), token.int 30, token.int 40], false⟩])
        ⟨0, 0, []⟩ 1
      = Except.ok (2, ⟨2, 1, [1 / 2, 2]⟩) ∧
    gen_initialize generation.construct (fun (a b : ℚ) (s : Nat) => ((a + b) / 2, s + 1))
        (some [⟨[token.word, token.word, token.word, token.word, token.word], false⟩,
        ⟨[token.int 1, token.int 1, token.real (1 / 2), token.int 10, token.int 20], false⟩,
        ⟨[token.int 1, token.int 2, token.real (7 / 10), token.int 30, token.int 40], false⟩])
        (⟨⟨0, []⟩, 2, 3, 0, 0⟩ : gen_vars Nat) 3 1 [⟨0, 1⟩]
      = Except.ok ⟨⟨2, [⟨[1 / 2], 0, 0⟩, ⟨[2], 0, 1⟩]⟩, 2, 2, 2, 0⟩ := by
  have h : read_gen (some [⟨[token.word, token.word, token.word, token.word, token.word], false⟩,
        ⟨[token.int 1, token.int 1, token.real (1 / 2), token.int 10, token.int 20], false⟩,
        ⟨[token.int 1, token.int 2, token.real (7 / 10), token.int 30, token.int 40], false⟩])
        ⟨0, 0, []⟩ 1
      = Except.ok (2, ⟨2, 1, [1 / 2, 2]⟩) := by
    simp [read_gen, read_gen_count, line.is_empty, read_gen_header, ifstream_open, file_tokens,
      ifstream.get_string, read_gen_row, read_gen_value, ifstream.get_double, mat.resize,
      mat.elem, mat.set, List.range_succ]
  refine ⟨h, ?_⟩
  rw [gen_initialize_three]
  simp only [gen_branch_file, h]
  simp [gen_fill, generation.construct, generation.set_p, mat.elem, List.range_succ]

/-- C15 (amended). The reader `read_gen` makes no column-count check: it exits
when `data/gen0.inp` cannot be opened, and for every artifact that can be
opened and holds at least one non-empty line, whatever the number of tokens of
its rows, it returns `apop` = number of non-empty lines minus one and a matrix
of `apop` rows and `n_param` columns; `gen_initialize` with `aleaspace = 3`
stops exactly when `read_gen` does and otherwise returns with that `apop`. -/
theorem C15_read_gen_no_column_check {σ : Type}
    (construct : generation → Nat → Int → generation × Int)
    (alead : ℚ → ℚ → σ → ℚ × σ) (gen0 : Option (List line)) (samples : mat)
    (v : gen_vars σ) (n_param : Nat) (params : List parameters) :
    (gen0 = none → read_gen gen0 samples n_param = Except.error abort.exited) ∧
    (∀ f, gen0 = some f → read_gen_count f ≠ 0 →
      ∃ m, read_gen gen0 samples n_param = Except.ok (read_gen_count f - 1, m) ∧
        m.n_rows = read_gen_count f - 1 ∧ m.n_cols = n_param) ∧
    (∀ e, read_gen gen0 ⟨0, 0, []⟩ n_param = Except.error e →
      gen_initialize construct alead gen0 v 3 n_param params = Except.error e) ∧
    (∀ r, read_gen gen0 ⟨0, 0, []⟩ n_param = Except.ok r →
      ∃ w, gen_initialize construct alead gen0 v 3 n_param params = Except.ok w ∧
        w.apop = r.1) := by
  obtain ⟨h1, _, h3⟩ := read_gen_returns gen0 samples n_param
  refine ⟨h1, ?_, ?_, ?_⟩
  · intro f hf hc
    obtain ⟨m, hm, g1, g2, _⟩ := h3 f hf hc
    exact ⟨m, hm, g1, g2⟩
  · intro e he
    rw [gen_initialize_three]
    simp only [gen_branch_file, he]
  · intro r hr
    rw [gen_initialize_three]
    simp only [gen_branch_file, hr]
    exact ⟨_, rfl, rfl⟩

/-- Instance of the amended C15: a missing file, and an artifact whose only
data row carries two parameter columns while `n_param = 1`. -/
theorem C15_read_gen_no_column_check_witness :
    ((none : Option (List line)) = none ∧
      ((some [⟨[token.word, token.word, token.word, token.word], false⟩,
          ⟨[token.int 1, token.int 1, token.int 5, token.int 10, token.int 20], false⟩]
          : Option (List line))
        = some [⟨[token.word, token.word, token.word, token.word], false⟩,
          ⟨[token.int 1, token.int 1, token.int 5, token.int 10, token.int 20], false⟩] ∧
        read_gen_count [⟨[token.word, token.word, token.word, token.word], false⟩,
          ⟨[token.int 1, token.int 1, token.int 5, token.int 10, token.int 20], false⟩] ≠ 0) ∧
      read_gen none ⟨0, 0, []⟩ 1 = Except.error abort.exited ∧
      read_gen (some [⟨[token.word, token.word, token.word, token.word], false⟩,
          ⟨[token.int 1, token.int 1, token.int 5, token.int 10, token.int 20], false⟩])
          ⟨0, 0, []⟩ 1 = Except.ok (1, ⟨1, 1, [10]⟩)) ∧
    read_gen none ⟨0, 0, []⟩ 1 = Except.error abort.exited ∧
    (∃ m, read_gen (some [⟨[token.word, token.word, token.word, token.word], false⟩,
          ⟨[token.int 1, token.int 1, token.int 5, token.int 10, token.int 20], false⟩])
          ⟨0, 0, []⟩ 1
        = Except.ok (read_gen_count [⟨[token.word, token.word, token.word, token.word], false⟩,
          ⟨[token.int 1, token.int 1, token.int 5, token.int 10, token.int 20], false⟩] - 1, m) ∧
      m.n_rows = read_gen_count [⟨[token.word, token.word, token.word, token.word], false⟩,
          ⟨[token.int 1, token.int 1, token.int 5, token.int 10, token.int 20], false⟩] - 1 ∧
      m.n_cols = 1) ∧
    gen_initialize generation.construct (fun (a b : ℚ) (s : Nat) => ((a + b) / 2, s + 1))
        none (⟨⟨0, []⟩, 2, 3, 0, 0⟩ : gen_vars Nat) 3 1 [⟨0, 1⟩]
      = Except.error abort.exited ∧
    (∃ w, gen_initialize generation.construct
        (fun (a b : ℚ) (s : Nat) => ((a + b) / 2, s + 1))
        (some [⟨[token.word, token.word, token.word, token.word], false⟩,
          ⟨[token.int 1, token.int 1, token.int 5, token.int 10, token.int 20], false⟩])
        (⟨⟨0, []⟩, 2, 3, 0, 0⟩ : gen_vars Nat) 3 1 [⟨0, 1⟩] = Except.ok w ∧
      w.apop = 1) :=
  have hr : read_gen (some [⟨[token.word, token.word, token.word, token.word], false⟩,
          ⟨[token.int 1, token.int 1, token.int 5, token.int 10, token.int 20], false⟩])
          ⟨0, 0, []⟩ 1 = Except.ok (1, ⟨1, 1, [10]⟩) := by
    simp [read_gen, read_gen_count, line.is_empty, read_gen_header, ifstream_open, file_tokens,
      ifstream.get_string, read_gen_row, read_gen_value, ifstream.get_double, mat.resize,
      mat.elem, mat.set, List.range_succ]
  ⟨⟨rfl, ⟨rfl, by decide⟩, rfl, hr⟩,
    (C15_read_gen_no_column_check generation.construct
      (fun (a b : ℚ) (s : Nat) => ((a + b) / 2, s + 1)) none ⟨0, 0, []⟩
      (⟨⟨0, []⟩, 2, 3, 0, 0⟩ : gen_vars Nat) 1 [⟨0, 1⟩]).1 rfl,
    (C15_read_gen_no_column_check generation.construct
      (fun (a b : ℚ) (s : Nat) => ((a + b) / 2, s + 1))
      (some [⟨[token.word, token.word, token.word, token.word], false⟩,
          ⟨[token.int 1, token.int 1, token.int 5, token.int 10, token.int 20], false⟩])
      ⟨0, 0, []⟩ (⟨⟨0, []⟩, 2, 3, 0, 0⟩ : gen_vars Nat) 1 [⟨0, 1⟩]).2.1 _ rfl (by decide),
    (C15_read_gen_no_column_check generation.construct
      (fun (a b : ℚ) (s : Nat) => ((a + b) / 2, s + 1)) none ⟨0, 0, []⟩
      (⟨⟨0, []⟩, 2, 3, 0, 0⟩ : gen_vars Nat) 1 [⟨0, 1⟩]).2.2.1 _ rfl,
    (C15_read_gen_no_column_check generation.construct
      (fun (a b : ℚ) (s : Nat) => ((a + b) / 2, s + 1))
      (some [⟨[token.word, token.word, token.word, token.word], false⟩,
          ⟨[token.int 1, token.int 1, token.int 5, token.int 10, token.int 20], false⟩])
      ⟨0, 0, []⟩ (⟨⟨0, []⟩, 2, 3, 0, 0⟩ : gen_vars Nat) 1 [⟨0, 1⟩]).2.2.2 _ hr⟩

theorem get_string_cons (t : token) (ts : List token) :
    (⟨t :: ts, false⟩ : ifstream).get_string = ⟨ts, false⟩ := by
  simp [ifstream.get_string]

/-- Extracting `k` strings from a sound stream that holds at least `k` tokens
drops `k` tokens. -/
theorem get_string_foldl (l : List Nat) (ts : List token) (h : l.length ≤ ts.length) :
    l.foldl (fun (s : ifstream) _ => s.get_string) ⟨ts, false⟩ = ⟨ts.drop l.length, false⟩ := by
  induction l generalizing ts with
  | nil => simp
  | cons a l ih =>
    cases ts with
    | nil => simp at h
    | cons t ts =>
      simp only [List.foldl_cons, get_string_cons, List.length_cons, List.drop_succ_cons]
      exact ih ts (by simpa using h)

theorem get_string_three (ts later : List token) (h : 3 ≤ ts.length) :
    (⟨ts ++ later, false⟩ : ifstream).get_string.get_string.get_string
      = ⟨ts.drop 3 ++ later, false⟩ := by
  match ts, h with
  | a :: b :: c :: ts, _ => simp [get_string_cons]

theorem get_double_numeric (t : token) (ts : List token) (old : ℚ) (ht : t.value ≠ none) :
    (⟨t :: ts, false⟩ : ifstream).get_double old = (t.value.getD 0, ⟨ts, false⟩) := by
  cases t with
  | int n => simp [ifstream.get_double, token.value]
  | real v => simp [ifstream.get_double, token.value]
  | word => simp [token.value] at ht

/-- The value loop of `read_gen` on a row whose remaining tokens `vals` are
numeric: after `k` values the stream has dropped `k` tokens and the entries
`(i, 0 .. k-1)` hold them. -/
theorem read_gen_values_spec (i : Nat) (m : mat) (vals later : List token)
    (hm : m.wf) (hi : i < m.n_rows) (hv : ∀ t ∈ vals, t.value ≠ none)
    (k : Nat) (hk : k ≤ vals.length) (hkc : k ≤ m.n_cols) :
    ∃ m', (List.range k).foldl (read_gen_value i) (m, ⟨vals ++ later, false⟩)
        = (m', ⟨vals.drop k ++ later, false⟩) ∧
      m'.n_rows = m.n_rows ∧ m'.n_cols = m.n_cols ∧ m'.wf ∧
      ∀ i' j', i' < m.n_rows →
        m'.elem i' j' = if i' = i ∧ j' < k then (vals.getD j' token.word).value.getD 0
          else m.elem i' j' := by
  induction k with
  | zero =>
    refine ⟨m, by simp, rfl, rfl, hm, ?_⟩
    intro i' j' _
    simp
  | succ k ih =>
    obtain ⟨m', e, h1, h2, h3, h4⟩ := ih (by omega) (by omega)
    have hklt : k < vals.length := by omega
    have hdrop : vals.drop k = vals[k] :: vals.drop (k + 1) := by
      rw [List.drop_eq_getElem_cons hklt]
    have hnum : (vals[k]).value ≠ none := hv _ (List.getElem_mem hklt)
    rw [List.range_succ, List.foldl_append, e]
    simp only [List.foldl_cons, List.foldl_nil, read_gen_value]
    rw [hdrop, List.cons_append, get_double_numeric _ _ _ hnum]
    obtain ⟨s1, s2, s3⟩ := mat.set_shape m' i k ((vals[k]).value.getD 0)
    refine ⟨_, rfl, s1.trans h1, s2.trans h2, ?_, ?_⟩
    · unfold mat.wf at h3 ⊢
      rw [s3, s1, s2]; exact h3
    · intro i' j' hi'
      rw [mat.elem_set m' i k _ i' j' h3 (by rw [h1]; exact hi) (by rw [h2]; omega)
        (by rw [h1]; exact hi'), h4 i' j' hi']
      by_cases hc : i' = i ∧ j' = k
      · obtain ⟨rfl, rfl⟩ := hc
        simp [List.getElem?_eq_getElem hklt]
      · rw [if_neg hc]
        by_cases hii : i' = i
        · have hjk : j' ≠ k := fun e => hc ⟨hii, e⟩
          have : (j' < k + 1) ↔ (j' < k) := by omega
          simp only [hii, true_and, this]
        · simp [hii]


theorem file_tokens_cons (l : line) (f : List line) :
    file_tokens (l :: f) = l.tokens ++ file_tokens f := by
  simp [file_tokens]

/-- One pass of the row loop of `read_gen` on a row in the expected layout:
the row is consumed and its values land in row `i` of the matrix. -/
theorem read_gen_row_spec (n_param i : Nat) (m : mat) (r : line) (later : List token)
    (hm : m.wf) (hi : i < m.n_rows) (hc : m.n_cols = n_param) (hr : row_layout n_param r) :
    ∃ m', read_gen_row n_param (m, ⟨r.tokens ++ later, false⟩) i = (m', ⟨later, false⟩) ∧
      m'.n_rows = m.n_rows ∧ m'.n_cols = m.n_cols ∧ m'.wf ∧
      ∀ i' j', i' < m.n_rows →
        m'.elem i' j' = if i' = i ∧ j' < n_param
          then (r.tokens.getD (3 + j') token.word).value.getD 0 else m.elem i' j' := by
  obtain ⟨hlen, hnum⟩ := hr
  have hvl : (r.tokens.drop 3).length = n_param := by
    rw [List.length_drop, hlen]; omega
  obtain ⟨m', e, h1, h2, h3, h4⟩ := read_gen_values_spec i m (r.tokens.drop 3) later hm hi hnum
    n_param (by omega) (by omega)
  have hd : (r.tokens.drop 3).drop n_param = [] := by
    apply List.drop_eq_nil_of_le; omega
  refine ⟨m', ?_, h1, h2, h3, ?_⟩
  · unfold read_gen_row
    simp only
    rw [get_string_three _ _ (by omega), e, hd, List.nil_append]
  · intro i' j' hi'
    rw [h4 i' j' hi']
    simp [List.getD_eq_getElem?_getD, List.getElem?_drop]

/-- The row loop of `read_gen` on rows in the expected layout: after `k` rows
the stream stands at row `k` and the first `k` rows of the matrix hold the
values of the first `k` data rows. -/
theorem read_gen_rows_spec (n_param : Nat) (rows : List line)
    (hrows : ∀ r ∈ rows, row_layout n_param r) (m : mat) (hm : m.wf)
    (hc : m.n_cols = n_param) (k : Nat) (hk : k ≤ rows.length) (hkr : k ≤ m.n_rows) :
    ∃ m', (List.range k).foldl (read_gen_row n_param) (m, ⟨file_tokens rows, false⟩)
        = (m', ⟨file_tokens (rows.drop k), false⟩) ∧
      m'.n_rows = m.n_rows ∧ m'.n_cols = m.n_cols ∧ m'.wf ∧
      ∀ i j, i < k → j < n_param →
        m'.elem i j
          = ((rows.getD i ⟨[], false⟩).tokens.getD (3 + j) token.word).value.getD 0 := by
  induction k with
  | zero =>
    refine ⟨m, by simp, rfl, rfl, hm, ?_⟩
    intro i j hi
    omega
  | succ k ih =>
    obtain ⟨m', e, h1, h2, h3, h4⟩ := ih (by omega) (by omega)
    have hklt : k < rows.length := by omega
    have hdrop : rows.drop k = rows[k] :: rows.drop (k + 1) := by
      rw [List.drop_eq_getElem_cons hklt]
    have hlay : row_layout n_param rows[k] := hrows _ (List.getElem_mem hklt)
    obtain ⟨m'', e2, g1, g2, g3, g4⟩ := read_gen_row_spec n_param k m' rows[k]
      (file_tokens (rows.drop (k + 1))) h3 (by rw [h1]; omega) (by rw [h2]; exact hc) hlay
    refine ⟨m'', ?_, g1.trans h1, g2.trans h2, g3, ?_⟩
    · rw [List.range_succ, List.foldl_append, e, hdrop, file_tokens_cons]
      simp only [List.foldl_cons, List.foldl_nil]
      exact e2
    · intro i j hi hj
      rw [g4 i j (by rw [h1]; omega)]
      by_cases hik : i = k
      · subst hik
        simp [hj, List.getElem?_eq_getElem hklt]
      · have : ¬ (i = k ∧ j < n_param) := fun h => hik h.1
        rw [if_neg this]
        exact h4 i j (by omega) hj

theorem read_gen_count_foldl (f : List line) (a : Nat) :
    f.foldl (fun apop l => if l.is_empty then apop else apop + 1) a
      = a + (f.filter (fun l => !l.is_empty)).length := by
  induction f generalizing a with
  | nil => simp
  | cons l f ih =>
    simp only [List.foldl_cons, List.filter_cons]
    rw [ih]
    cases h : l.is_empty
    · simp; omega
    · simp

/-- The `getline` loop of `read_gen` counts the non-empty lines. -/
theorem read_gen_count_eq (f : List line) :
    read_gen_count f = (f.filter (fun l => !l.is_empty)).length := by
  unfold read_gen_count
  rw [read_gen_count_foldl]
  simp

/-- Empty lines carry no token. -/
theorem file_tokens_filter (f : List line) :
    file_tokens (f.filter (fun l => !l.is_empty)) = file_tokens f := by
  induction f with
  | nil => rfl
  | cons l f ih =>
    simp only [List.filter_cons]
    cases h : l.is_empty
    · simp only [Bool.not_false, if_true, file_tokens_cons, ih]
    · have ht : l.tokens = [] := by
        simp only [line.is_empty, Bool.and_eq_true, List.isEmpty_iff] at h
        exact h.1
      simp [file_tokens_cons, ih, ht]

/-- The reader `read_gen` on an artifact in the layout it expects: one header
line of `3 + n_param` tokens, then data lines of three leading tokens and
`n_param` numbers each, empty lines anywhere. -/
theorem read_gen_layout (f : List line) (header : line) (rows : List line)
    (samples : mat) (n_param : Nat)
    (hf : f.filter (fun l => !l.is_empty) = header :: rows)
    (hh : header.tokens.length = 3 + n_param)
    (hrows : ∀ r ∈ rows, row_layout n_param r) :
    ∃ m, read_gen (some f) samples n_param = Except.ok (rows.length, m) ∧
      m.n_rows = rows.length ∧ m.n_cols = n_param ∧ m.wf ∧
      ∀ i j, i < rows.length → j < n_param →
        m.elem i j
          = ((rows.getD i ⟨[], false⟩).tokens.getD (3 + j) token.word).value.getD 0 := by
  have hcount : read_gen_count f = rows.length + 1 := by
    rw [read_gen_count_eq, hf]; simp
  have htok : file_tokens f = header.tokens ++ file_tokens rows := by
    rw [← file_tokens_filter, hf, file_tokens_cons]
  have hhead : read_gen_header f n_param = ⟨file_tokens rows, false⟩ := by
    unfold read_gen_header ifstream_open
    simp only
    rw [htok, get_string_three _ _ (by omega),
      get_string_foldl _ _ (by simp [List.length_drop, hh])]
    simp only [List.length_range]
    rw [List.drop_append_of_le_length (by simp [List.length_drop, hh])]
    have : (header.tokens.drop 3).drop n_param = [] := by
      apply List.drop_eq_nil_of_le; simp [List.length_drop, hh]
    rw [this, List.nil_append]
  obtain ⟨r1, r2, r3⟩ := mat.resize_shape samples rows.length n_param
  obtain ⟨m, e, h1, h2, h3, h4⟩ := read_gen_rows_spec n_param rows hrows
    (samples.resize rows.length n_param) r3 r2 rows.length le_rfl (by rw [r1])
  refine ⟨m, ?_, h1.trans r1, h2.trans r2, h3, h4⟩
  have hne : ¬ (rows.length + 1 = 0) := by omega
  simp only [read_gen, hcount, if_neg hne, Nat.add_sub_cancel, hhead, e]


/-- On an artifact in the expected layout, entry `(i, j)` of the matrix read by
`read_gen` is the number written as token `3 + j` of data row `i`. -/
theorem read_gen_layout_some (f : List line) (header : line) (rows : List line)
    (samples : mat) (n_param : Nat)
    (hf : f.filter (fun l => !l.is_empty) = header :: rows)
    (hh : header.tokens.length = 3 + n_param)
    (hrows : ∀ r ∈ rows, row_layout n_param r) :
    ∃ m, read_gen (some f) samples n_param = Except.ok (rows.length, m) ∧
      ∀ i j, i < rows.length → j < n_param →
        ((rows.getD i ⟨[], false⟩).tokens.getD (3 + j) token.word).value
          = some (m.elem i j) := by
  obtain ⟨m, e, _, _, _, h4⟩ := read_gen_layout f header rows samples n_param hf hh hrows
  refine ⟨m, e, ?_⟩
  intro i j hi hj
  rw [h4 i j hi hj]
  have hr : rows.getD i ⟨[], false⟩ = rows[i] := by
    simp [List.getD_eq_getElem?_getD, List.getElem?_eq_getElem hi]
  obtain ⟨hlen, hnum⟩ := hrows rows[i] (List.getElem_mem hi)
  have hlt : 3 + j < (rows[i]).tokens.length := by omega
  have ht : (rows[i]).tokens.getD (3 + j) token.word = (rows[i]).tokens[3 + j] := by
    simp [List.getD_eq_getElem?_getD, List.getElem?_eq_getElem hlt]
  have hmem : (rows[i]).tokens[3 + j] ∈ (rows[i]).tokens.drop 3 := by
    rw [List.mem_iff_getElem]
    refine ⟨j, by rw [List.length_drop]; omega, ?_⟩
    simp
  have hv := hnum _ hmem
  rw [hr, ht]
  cases hval : ((rows[i]).tokens[3 + j]).value with
  | none => exact absurd hval hv
  | some x => simp

/-- C16, as stated, fails: on an artifact in the layout of the claim (a header
of two tokens, rows made of an identifier followed by `n_param = 1` value),
`read_gen` skips the header together with row 0, then three more tokens, and
stores the second token of row 2 as `samples(0,0)`: the second token of data
row 0 is `1/2` but `samples(0,0) = 9/10`, and the later rows stay at zero. -/
theorem C16_counterexample :
    read_gen (some [⟨[token.word, token.word], false⟩,
        ⟨[token.int 1, token.real (1 / 2)], false⟩,
        ⟨[token.int 2, token.real (7 / 10)], false⟩,
        ⟨[token.int 3, token.real (9 / 10)], false⟩]) ⟨0, 0, []⟩ 1
      = Except.ok (3, ⟨3, 1, [9 / 10, 0, 0]⟩) ∧
    ((⟨[token.int 1, token.real (1 / 2)], false⟩ : line).tokens.getD (0 + 1) token.word).value
      = some (1 / 2) ∧
    (⟨3, 1, [9 / 10, 0, 0]⟩ : mat).elem 0 0 = 9 / 10 ∧
    (⟨3, 1, [9 / 10, 0, 0]⟩ : mat).elem 0 0 ≠ 1 / 2 := by
  have h0 : (⟨3, 1, [9 / 10, 0, 0]⟩ : mat).elem 0 0 = 9 / 10 := rfl
  refine ⟨?_, rfl, h0, ?_⟩
  · simp [read_gen, read_gen_count, line.is_empty, read_gen_header, ifstream_open, file_tokens,
      ifstream.get_string, read_gen_row, read_gen_value, ifstream.get_double, mat.resize,
      mat.elem, mat.set, List.range_succ]
  · rw [h0]; norm_num

/-- C16 (amended). For an artifact whose header line carries `3 + n_param`
tokens and whose data rows carry three leading tokens followed by `n_param`
numbers, `read_gen` skips the three leading tokens of every data row and takes
the `n_param` tokens that follow as the parameter values in order:
`samples(i,j)` is the `(j+4)`-th token of data row `i`. -/
theorem C16_read_gen_row_layout (f : List line) (header : line) (rows : List line)
    (samples : mat) (n_param : Nat)
    (hf : f.filter (fun l => !l.is_empty) = header :: rows)
    (hh : header.tokens.length = 3 + n_param)
    (hrows : ∀ r ∈ rows, row_layout n_param r) :
    ∃ m, read_gen (some f) samples n_param = Except.ok (rows.length, m) ∧
      ∀ i j, i < rows.length → j < n_param →
        ((rows.getD i ⟨[], false⟩).tokens.getD (3 + j) token.word).value
          = some (m.elem i j) :=
  read_gen_layout_some f header rows samples n_param hf hh hrows

/-- Instance of the amended C16: a header of four tokens, two data rows with
one parameter each and an empty line between them. -/
theorem C16_read_gen_row_layout_witness :
    (([⟨[token.word, token.word, token.word, token.word], false⟩,
          ⟨[token.int 1, token.int 1, token.int 5, token.real (3 / 2)], false⟩,
          ⟨[], false⟩,
          ⟨[token.int 1, token.int 2, token.int 6, token.real (5 / 2)], false⟩]
          : List line).filter (fun l => !l.is_empty)
        = ⟨[token.word, token.word, token.word, token.word], false⟩ ::
          [⟨[token.int 1, token.int 1, token.int 5, token.real (3 / 2)], false⟩,
            ⟨[token.int 1, token.int 2, token.int 6, token.real (5 / 2)], false⟩] ∧
      (⟨[token.word, token.word, token.word, token.word], false⟩ : line).tokens.length = 3 + 1 ∧
      ∀ r ∈ ([⟨[token.int 1, token.int 1, token.int 5, token.real (3 / 2)], false⟩,
            ⟨[token.int 1, token.int 2, token.int 6, token.real (5 / 2)], false⟩] : List line),
        row_layout 1 r) ∧
    ∃ m, read_gen (some [⟨[token.word, token.word, token.word, token.word], false⟩,
          ⟨[token.int 1, token.int 1, token.int 5, token.real (3 / 2)], false⟩,
          ⟨[], false⟩,
          ⟨[token.int 1, token.int 2, token.int 6, token.real (5 / 2)], false⟩]) ⟨0, 0, []⟩ 1
        = Except.ok (([⟨[token.int 1, token.int 1, token.int 5, token.real (3 / 2)], false⟩,
            ⟨[token.int 1, token.int 2, token.int 6, token.real (5 / 2)], false⟩]
            : List line).length, m) ∧
      ∀ i j, i < ([⟨[token.int 1, token.int 1, token.int 5, token.real (3 / 2)], false⟩,
            ⟨[token.int 1, token.int 2, token.int 6, token.real (5 / 2)], false⟩]
            : List line).length → j < 1 →
        ((([⟨[token.int 1, token.int 1, token.int 5, token.real (3 / 2)], false⟩,
            ⟨[token.int 1, token.int 2, token.int 6, token.real (5 / 2)], false⟩]
            : List line).getD i ⟨[], false⟩).tokens.getD (3 + j) token.word).value
          = some (m.elem i j) :=
  ⟨⟨rfl, rfl, by simp [row_layout, token.value]⟩,
    C16_read_gen_row_layout _ _ _ ⟨0, 0, []⟩ 1 rfl rfl (by simp [row_layout, token.value])⟩

/-- C17, as stated, fails: on an artifact in the format of the data model (a
header line, then one row per candidate made of an identifier followed by the
`n_param = 1` parameter value), `gen_initialize` with `aleaspace = 3` returns
a generation of three candidates, but candidate 0 holds `9/10`, the value of
data row 2, where data row 0 stores `1/2`, and candidate 1 holds `0` where
data row 1 stores `7/10`. -/
theorem C17_counterexample :
    ∃ w, gen_initialize generation.construct
        (fun (a b : ℚ) (s : Nat) => ((a + b) / 2, s + 1))
        (some [⟨[token.word, token.word], false⟩,
          ⟨[token.int 1, token.real (1 / 2)], false⟩,
          ⟨[token.int 2, token.real (7 / 10)], false⟩,
          ⟨[token.int 3, token.real (9 / 10)], false⟩])
        (⟨⟨0, []⟩, 2, 9, 0, 0⟩ : gen_vars Nat) 3 1 [⟨0, 1⟩] = Except.ok w ∧
      w.apop = 3 ∧ w.geninit.nindividuals = 3 ∧
      ((⟨[token.int 1, token.real (1 / 2)], false⟩ : line).tokens.getD (0 + 1) token.word).value
        = some (1 / 2) ∧
      w.geninit.p_at 0 0 = 9 / 10 ∧ w.geninit.p_at 0 0 ≠ 1 / 2 ∧
      ((⟨[token.int 2, token.real (7 / 10)], false⟩ : line).tokens.getD (0 + 1)
        token.word).value = some (7 / 10) ∧
      w.geninit.p_at 1 0 = 0 ∧ w.geninit.p_at 1 0 ≠ 7 / 10 := by
  have hr : read_gen (some [⟨[token.word, token.word], false⟩,
        ⟨[token.int 1, token.real (1 / 2)], false⟩,
        ⟨[token.int 2, token.real (7 / 10)], false⟩,
        ⟨[token.int 3, token.real (9 / 10)], false⟩]) ⟨0, 0, []⟩ 1
      = Except.ok (3, ⟨3, 1, [9 / 10, 0, 0]⟩) := by
    simp [read_gen, read_gen_count, line.is_empty, read_gen_header, ifstream_open, file_tokens,
      ifstream.get_string, read_gen_row, read_gen_value, ifstream.get_double, mat.resize,
      mat.elem, mat.set, List.range_succ]
  have r1 : List.range 1 = [0] := rfl
  have h00 : (gen_fill 1 ⟨3, 1, [9 / 10, 0, 0]⟩
      ((⟨3, []⟩ : generation).construct 1 0).1).p_at 0 0 = 9 / 10 := by
    simp [gen_fill, generation.construct, generation.set_p, generation.p_at, mat.elem,
      List.range_succ, r1]
  have h10 : (gen_fill 1 ⟨3, 1, [9 / 10, 0, 0]⟩
      ((⟨3, []⟩ : generation).construct 1 0).1).p_at 1 0 = 0 := by
    simp [gen_fill, generation.construct, generation.set_p, generation.p_at, mat.elem,
      List.range_succ, r1]
  have hn : (gen_fill 1 ⟨3, 1, [9 / 10, 0, 0]⟩
      ((⟨3, []⟩ : generation).construct 1 0).1).nindividuals = 3 :=
    (gen_fill_spec _ 1 _ (construct_allocated ⟨3, []⟩ 1 0).2).1
  rw [gen_initialize_three]
  simp only [gen_branch_file, hr]
  refine ⟨_, rfl, rfl, hn, rfl, h00, ?_, rfl, h10, ?_⟩
  · rw [h00]; norm_num
  · rw [h10]; norm_num

/-- C17 (amended: the layout of the rows is stated). For an artifact made
of one header line followed by `m ≥ 1` non-empty data lines, empty lines
ignored, `read_gen` sets `apop = m` and returns an `m x n_param` matrix, and
`gen_initialize` with `aleaspace = 3` returns with `apop = m` and
`nindividuals = m` whatever `apop` was on entry (`construct` allocating the
population); when the header carries `3 + n_param` tokens and every data row
three leading tokens followed by its `n_param` parameter values, candidate `i`
holds exactly the parameter values stored in data row `i`. -/
theorem C17_from_file_verbatim {σ : Type}
    (construct : generation → Nat → Int → generation × Int)
    (alead : ℚ → ℚ → σ → ℚ × σ) (f : List line) (header : line) (rows : List line)
    (v : gen_vars σ) (n_param : Nat) (params : List parameters)
    (hc : ∀ g n id, (construct g n id).1.nindividuals = g.nindividuals ∧
      (construct g n id).1.allocated n)
    (hf : f.filter (fun l => !l.is_empty) = header :: rows)
    (_hm : 1 ≤ rows.length) :
    (∃ m, read_gen (some f) ⟨0, 0, []⟩ n_param = Except.ok (rows.length, m) ∧
      m.n_rows = rows.length ∧ m.n_cols = n_param) ∧
    (∃ w, gen_initialize construct alead (some f) v 3 n_param params = Except.ok w ∧
      w.apop = rows.length ∧ w.geninit.nindividuals = rows.length) ∧
    (header.tokens.length = 3 + n_param → (∀ r ∈ rows, row_layout n_param r) →
      ∃ w, gen_initialize construct alead (some f) v 3 n_param params = Except.ok w ∧
        ∀ i j, i < rows.length → j < n_param →
          ((rows.getD i ⟨[], false⟩).tokens.getD (3 + j) token.word).value
            = some (w.geninit.p_at i j)) := by
  have hcount : read_gen_count f = rows.length + 1 := by
    rw [read_gen_count_eq, hf]; simp
  obtain ⟨m, hm, g1, g2, _⟩ := (read_gen_returns (some f) ⟨0, 0, []⟩ n_param).2.2 f rfl
    (by omega)
  rw [hcount, Nat.add_sub_cancel] at hm g1
  obtain ⟨c1, c2⟩ := hc { v.geninit with nindividuals := rows.length } n_param v.idnumber
  have hres : gen_initialize construct alead (some f) v 3 n_param params
      = Except.ok { v with
          apop := rows.length,
          geninit := gen_fill n_param m
            (construct { v.geninit with nindividuals := rows.length } n_param v.idnumber).1,
          idnumber :=
            (construct { v.geninit with nindividuals := rows.length } n_param v.idnumber).2 } := by
    rw [gen_initialize_three]
    simp only [gen_branch_file, hm]
  obtain ⟨f1, _, f3⟩ := gen_fill_spec m n_param _ c2
  refine ⟨⟨m, hm, g1, g2⟩, ⟨_, hres, rfl, f1.trans c1⟩, ?_⟩
  intro hh hrows
  obtain ⟨m', hm', hv⟩ := read_gen_layout_some f header rows ⟨0, 0, []⟩ n_param hf hh hrows
  have hmm : m' = m := by
    rw [hm] at hm'
    injection hm' with h
    exact (Prod.mk.inj h).2.symm
  subst hmm
  refine ⟨_, hres, ?_⟩
  intro i j hi hj
  rw [hv i j hi hj]
  exact congrArg some (f3 i j (by rw [c1]; exact hi) hj).symm


/-- Instance of the amended C17: a header of four tokens, two data rows with one parameter
each and an empty line between them; `apop` is 9 on entry and 2 on return. -/
theorem C17_from_file_verbatim_witness :
    ((∀ (g : generation) (n : Nat) (id : Int),
        (g.construct n id).1.nindividuals = g.nindividuals ∧ (g.construct n id).1.allocated n) ∧
      ([⟨[token.word, token.word, token.word, token.word], false⟩,
          ⟨[token.int 1, token.int 1, token.int 5, token.real (3 / 2)], false⟩,
          ⟨[], false⟩,
          ⟨[token.int 1, token.int 2, token.int 6, token.real (5 / 2)], false⟩]
          : List line).filter (fun l => !l.is_empty)
        = ⟨[token.word, token.word, token.word, token.word], false⟩ ::
          [⟨[token.int 1, token.int 1, token.int 5, token.real (3 / 2)], false⟩,
            ⟨[token.int 1, token.int 2, token.int 6, token.real (5 / 2)], false⟩] ∧
      1 ≤ ([⟨[token.int 1, token.int 1, token.int 5, token.real (3 / 2)], false⟩,
            ⟨[token.int 1, token.int 2, token.int 6, token.real (5 / 2)], false⟩]
            : List line).length ∧
      (⟨[token.word, token.word, token.word, token.word], false⟩ : line).tokens.length = 3 + 1 ∧
      ∀ r ∈ ([⟨[token.int 1, token.int 1, token.int 5, token.real (3 / 2)], false⟩,
            ⟨[token.int 1, token.int 2, token.int 6, token.real (5 / 2)], false⟩] : List line),
        row_layout 1 r) ∧
    (∃ w, gen_initialize generation.construct
        (fun (a b : ℚ) (s : Nat) => ((a + b) / 2, s + 1))
        (some [⟨[token.word, token.word, token.word, token.word], false⟩,
          ⟨[token.int 1, token.int 1, token.int 5, token.real (3 / 2)], false⟩,
          ⟨[], false⟩,
          ⟨[token.int 1, token.int 2, token.int 6, token.real (5 / 2)], false⟩])
        (⟨⟨0, []⟩, 2, 9, 0, 0⟩ : gen_vars Nat) 3 1 [⟨0, 1⟩] = Except.ok w ∧
      w.apop = ([⟨[token.int 1, token.int 1, token.int 5, token.real (3 / 2)], false⟩,
            ⟨[token.int 1, token.int 2, token.int 6, token.real (5 / 2)], false⟩]
            : List line).length ∧
      w.geninit.nindividuals
        = ([⟨[token.int 1, token.int 1, token.int 5, token.real (3 / 2)], false⟩,
            ⟨[token.int 1, token.int 2, token.int 6, token.real (5 / 2)], false⟩]
            : List line).length) ∧
    (∃ w, gen_initialize generation.construct
        (fun (a b : ℚ) (s : Nat) => ((a + b) / 2, s + 1))
        (some [⟨[token.word, token.word, token.word, token.word], false⟩,
          ⟨[token.int 1, token.int 1, token.int 5, token.real (3 / 2)], false⟩,
          ⟨[], false⟩,
          ⟨[token.int 1, token.int 2, token.int 6, token.real (5 / 2)], false⟩])
        (⟨⟨0, []⟩, 2, 9, 0, 0⟩ : gen_vars Nat) 3 1 [⟨0, 1⟩] = Except.ok w ∧
      ∀ i j, i < ([⟨[token.int 1, token.int 1, token.int 5, token.real (3 / 2)], false⟩,
            ⟨[token.int 1, token.int 2, token.int 6, token.real (5 / 2)], false⟩]
            : List line).length → j < 1 →
        ((([⟨[token.int 1, token.int 1, token.int 5, token.real (3 / 2)], false⟩,
            ⟨[token.int 1, token.int 2, token.int 6, token.real (5 / 2)], false⟩]
            : List line).getD i ⟨[], false⟩).tokens.getD (3 + j) token.word).value
          = some (w.geninit.p_at i j)) :=
  ⟨⟨construct_allocated, rfl, by decide, rfl, by simp [row_layout, token.value]⟩,
    (C17_from_file_verbatim generation.construct
      (fun (a b : ℚ) (s : Nat) => ((a + b) / 2, s + 1))
      [⟨[token.word, token.word, token.word, token.word], false⟩,
        ⟨[token.int 1, token.int 1, token.int 5, token.real (3 / 2)], false⟩,
        ⟨[], false⟩,
        ⟨[token.int 1, token.int 2, token.int 6, token.real (5 / 2)], false⟩]
      ⟨[token.word, token.word, token.word, token.word], false⟩
      [⟨[token.int 1, token.int 1, token.int 5, token.real (3 / 2)], false⟩,
        ⟨[token.int 1, token.int 2, token.int 6, token.real (5 / 2)], false⟩]
      (⟨⟨0, []⟩, 2, 9, 0, 0⟩ : gen_vars Nat) 1 [⟨0, 1⟩] construct_allocated rfl
      (by decide)).2.1,
    (C17_from_file_verbatim generation.construct
      (fun (a b : ℚ) (s : Nat) => ((a + b) / 2, s + 1))
      [⟨[token.word, token.word, token.word, token.word], false⟩,
        ⟨[token.int 1, token.int 1, token.int 5, token.real (3 / 2)], false⟩,
        ⟨[], false⟩,
        ⟨[token.int 1, token.int 2, token.int 6, token.real (5 / 2)], false⟩]
      ⟨[token.word, token.word, token.word, token.word], false⟩
      [⟨[token.int 1, token.int 1, token.int 5, token.real (3 / 2)], false⟩,
        ⟨[token.int 1, token.int 2, token.int 6, token.real (5 / 2)], false⟩]
      (⟨⟨0, []⟩, 2, 9, 0, 0⟩ : gen_vars Nat) 1 [⟨0, 1⟩] construct_allocated rfl
      (by decide)).2.2 rfl (by simp [row_layout, token.value])⟩


/-! ## Selected columns of the data files -/

theorem foldlM_range_succ {α ε : Type} (f : α → Nat → Except ε α) (a : α) (k : Nat) :
    (List.range (k + 1)).foldlM f a = (List.range k).foldlM f a >>= fun a' => f a' k := by
  rw [List.range_succ, List.foldlM_append]
  simp

theorem c_data_set_length (datas : List opti_data) (i j : Nat) (x : Int) :
    (c_data_set datas i j x).length = datas.length := by
  simp [c_data_set]

theorem c_data_set_frame (datas : List opti_data) (i j : Nat) (x : Int) (i' : Nat) :
    ((c_data_set datas i j x).getD i' default).ninfo = (datas.getD i' default).ninfo ∧
    ((c_data_set datas i j x).getD i' default).ncolumns = (datas.getD i' default).ncolumns := by
  simp only [c_data_set, List.getD_eq_getElem?_getD, List.getElem?_set]
  by_cases h : i = i'
  · subst h
    by_cases hl : i < datas.length
    · simp [hl]
    · simp [hl, List.getElem?_eq_none (Nat.le_of_not_lt hl)]
  · simp [h]

theorem c_data_set_other (datas : List opti_data) (i j : Nat) (x : Int) (i' j' : Nat)
    (h : ¬ (i' = i ∧ j' = j)) :
    c_data_at (c_data_set datas i j x) i' j' = c_data_at datas i' j' := by
  simp only [c_data_at, c_data_set, List.getD_eq_getElem?_getD, List.getElem?_set]
  by_cases hi : i = i'
  · subst hi
    have hj : ¬ j = j' := fun e => h ⟨rfl, e.symm⟩
    by_cases hl : i < datas.length
    · simp [hl, List.getElem?_set, hj]
    · simp [hl, List.getElem?_eq_none (Nat.le_of_not_lt hl)]
  · simp [hi]

/-- What a successful `read_c_data` leaves behind. -/
theorem read_c_data_ok (D : List opti_data) (s : ifstream) (i j : Nat)
    (D' : List opti_data) (s' : ifstream) (h : read_c_data (D, s) i j = Except.ok (D', s')) :
    D'.length = D.length ∧
    (∀ i', (D'.getD i' default).ninfo = (D.getD i' default).ninfo ∧
      (D'.getD i' default).ncolumns = (D.getD i' default).ncolumns) ∧
    (∀ i' j', ¬ (i' = i ∧ j' = j) → c_data_at D' i' j' = c_data_at D i' j') ∧
    (1 ≤ c_data_at D' i j ∧ c_data_at D' i j ≤ (D'.getD i default).ncolumns) := by
  unfold read_c_data at h
  simp only at h
  split_ifs at h with h1 h2
  injection h with h
  have hD : D' = c_data_set D i j (s.get_int (c_data_at D i j)).1 := (Prod.mk.inj h).1.symm
  subst hD
  refine ⟨c_data_set_length _ _ _ _, fun i' => c_data_set_frame _ _ _ _ i',
    fun i' j' hne => c_data_set_other _ _ _ _ i' j' hne, ?_, ?_⟩
  · have := h1
    omega
  · exact h2

/-- The column loop of one file: a successful run has checked every selected
column of file `i` and touched nothing else. -/
theorem read_c_data_file_ok (i k : Nat) (D : List opti_data) (s : ifstream)
    (D' : List opti_data) (s' : ifstream)
    (h : (List.range k).foldlM (fun st j => read_c_data st i j) (D, s) = Except.ok (D', s')) :
    D'.length = D.length ∧
    (∀ i', (D'.getD i' default).ninfo = (D.getD i' default).ninfo ∧
      (D'.getD i' default).ncolumns = (D.getD i' default).ncolumns) ∧
    (∀ i' j', i' ≠ i → c_data_at D' i' j' = c_data_at D i' j') ∧
    (∀ j, j < k → 1 ≤ c_data_at D' i j ∧ c_data_at D' i j ≤ (D'.getD i default).ncolumns) := by
  induction k generalizing D' s' with
  | zero =>
    simp only [List.range_zero, List.foldlM_nil] at h
    injection h with h
    obtain ⟨rfl, rfl⟩ := Prod.mk.inj h
    exact ⟨rfl, fun _ => ⟨rfl, rfl⟩, fun _ _ _ => rfl, fun j hj => absurd hj (Nat.not_lt_zero j)⟩
  | succ k ih =>
    rw [foldlM_range_succ] at h
    cases hk : (List.range k).foldlM (fun st j => read_c_data st i j) (D, s) with
    | error e => rw [hk] at h; exact Except.noConfusion h
    | ok st1 =>
      obtain ⟨D1, s1⟩ := st1
      rw [hk] at h
      have h' : read_c_data (D1, s1) i k = Except.ok (D', s') := h
      obtain ⟨a1, a2, a3, a4⟩ := ih D1 s1 hk
      obtain ⟨b1, b2, b3, b4⟩ := read_c_data_ok D1 s1 i k D' s' h'
      refine ⟨b1.trans a1, fun i' => ⟨(b2 i').1.trans (a2 i').1, (b2 i').2.trans (a2 i').2⟩,
        fun i' j' hne => (b3 i' j' (fun hc => hne hc.1)).trans (a3 i' j' hne), ?_⟩
      intro j hj
      by_cases hjk : j = k
      · subst hjk; exact b4
      · have hlt : j < k := by omega
        rw [b3 i j (fun hc => hjk hc.2), (b2 i).2]
        exact a4 j hlt

/-- The loops over all files: a successful run has checked every selected
column of every file. -/
theorem read_c_data_all_ok (k : Nat) (D : List opti_data) (s : ifstream)
    (D' : List opti_data) (s' : ifstream)
    (h : read_c_data_all k (D, s) = Except.ok (D', s')) :
    D'.length = D.length ∧
    (∀ i', (D'.getD i' default).ninfo = (D.getD i' default).ninfo ∧
      (D'.getD i' default).ncolumns = (D.getD i' default).ncolumns) ∧
    (∀ i j, i < k → j < (D'.getD i default).ninfo.toNat →
      1 ≤ c_data_at D' i j ∧ c_data_at D' i j ≤ (D'.getD i default).ncolumns) := by
  unfold read_c_data_all at h
  induction k generalizing D' s' with
  | zero =>
    simp only [List.range_zero, List.foldlM_nil] at h
    injection h with h
    obtain ⟨rfl, rfl⟩ := Prod.mk.inj h
    exact ⟨rfl, fun _ => ⟨rfl, rfl⟩, fun i j hi => absurd hi (Nat.not_lt_zero i)⟩
  | succ k ih =>
    rw [foldlM_range_succ] at h
    cases hk : (List.range k).foldlM (fun st i =>
        (List.range (st.1.getD i default).ninfo.toNat).foldlM
          (fun st j => read_c_data st i j) st) (D, s) with
    | error e => rw [hk] at h; exact Except.noConfusion h
    | ok st1 =>
      obtain ⟨D1, s1⟩ := st1
      rw [hk] at h
      have h' : (List.range (D1.getD k default).ninfo.toNat).foldlM
          (fun st j => read_c_data st k j) (D1, s1) = Except.ok (D', s') := h
      obtain ⟨a1, a2, a3⟩ := ih D1 s1 hk
      obtain ⟨b1, b2, b3, b4⟩ := read_c_data_file_ok k _ D1 s1 D' s' h'
      refine ⟨b1.trans a1, fun i' => ⟨(b2 i').1.trans (a2 i').1, (b2 i').2.trans (a2 i').2⟩, ?_⟩
      intro i j hi hj
      by_cases hik : i = k
      · subst hik
        rw [(b2 i).1] at hj
        exact b4 j hj
      · have hlt : i < k := by omega
        rw [(b2 i).1] at hj
        rw [b3 i j hik, (b2 i).2]
        exact a3 i j hlt hj


theorem foldlM_error {α β ε : Type} (P : ε → Prop) (f : α → β → Except ε α)
    (hf : ∀ a b e, f a b = Except.error e → P e) (l : List β) (a : α) (e : ε)
    (h : l.foldlM f a = Except.error e) : P e := by
  induction l generalizing a with
  | nil => simp [List.foldlM_nil, pure, Except.pure] at h
  | cons b l ih =>
    rw [List.foldlM_cons] at h
    cases hb : f a b with
    | error e' =>
      rw [hb] at h
      have : e' = e := by injection h
      subst this
      exact hf a b e' hb
    | ok a' =>
      rw [hb] at h
      exact ih a' h

theorem read_c_data_error (st : List opti_data × ifstream) (i j : Nat) (e : abort)
    (h : read_c_data st i j = Except.error e) : e = abort.assert_failed := by
  unfold read_c_data at h
  simp only at h
  split_ifs at h <;> injection h with h <;> exact h.symm

theorem read_c_data_all_error (nfiles : Nat) (st : List opti_data × ifstream) (e : abort)
    (h : read_c_data_all nfiles st = Except.error e) : e = abort.assert_failed := by
  unfold read_c_data_all at h
  refine foldlM_error (fun e => e = abort.assert_failed) _ ?_ _ _ e h
  intro a i e' he
  refine foldlM_error (fun e => e = abort.assert_failed) _ ?_ _ _ e' he
  intro a' j e'' he'
  exact read_c_data_error a' i j e'' he'

/-- The reader `read_data_exp` ends with the checked column loops. -/
theorem read_data_exp_some (constructc_data : opti_data → opti_data) (f : List line)
    (nfiles : Nat) (datas : List opti_data) :
    ∃ st, read_data_exp constructc_data (some f) nfiles datas
      = (read_c_data_all nfiles st).map Prod.fst :=
  ⟨_, rfl⟩

/-- Outcome of `read_data_exp`: a successful load has every selected column in
range, and an opened file can only stop on an assertion. -/
theorem read_data_exp_spec (constructc_data : opti_data → opti_data)
    (file : Option (List line)) (nfiles : Nat) (datas : List opti_data) :
    (∀ datas', read_data_exp constructc_data file nfiles datas = Except.ok datas' →
      ∀ i j : Nat, i < nfiles → (j : Int) < (datas'.getD i default).ninfo →
        1 ≤ c_data_at datas' i j ∧ c_data_at datas' i j ≤ (datas'.getD i default).ncolumns) ∧
    (∀ e, read_data_exp constructc_data file nfiles datas = Except.error e →
      (file = none ∧ e = abort.exited) ∨ (file ≠ none ∧ e = abort.assert_failed)) := by
  cases file with
  | none =>
    refine ⟨?_, ?_⟩
    · intro datas' h
      exact Except.noConfusion h
    · intro e h
      left
      refine ⟨rfl, ?_⟩
      have : Except.error abort.exited = (Except.error e : Except abort (List opti_data)) := h
      injection this with h'
      exact h'.symm
  | some f =>
    obtain ⟨st, hst⟩ := read_data_exp_some constructc_data f nfiles datas
    rw [hst]
    refine ⟨?_, ?_⟩
    · intro datas' h i j hi hj
      cases hr : read_c_data_all nfiles st with
      | error e => rw [hr] at h; exact Except.noConfusion h
      | ok r =>
        obtain ⟨D', s'⟩ := r
        rw [hr] at h
        have hD : D' = datas' := by
          have : Except.ok D' = (Except.ok datas' : Except abort (List opti_data)) := h
          injection this
        subst hD
        obtain ⟨_, _, h3⟩ := read_c_data_all_ok nfiles st.1 st.2 D' s' hr
        exact h3 i j hi (by omega)
    · intro e h
      right
      refine ⟨by simp, ?_⟩
      cases hr : read_c_data_all nfiles st with
      | error e' =>
        rw [hr] at h
        have : Except.error e' = (Except.error e : Except abort (List opti_data)) := h
        injection this with h'
        subst h'
        exact read_c_data_all_error nfiles st e' hr
      | ok r => rw [hr] at h; exact Except.noConfusion h


/-- The check of one selected column stops on its assertion exactly when the
index just stored is outside `1 .. ncolumns`. -/
theorem read_c_data_fails_iff (st : List opti_data × ifstream) (i j : Nat) :
    read_c_data st i j = Except.error abort.assert_failed ↔
      ¬ (1 ≤ c_data_at (c_data_set st.1 i j (st.2.get_int (c_data_at st.1 i j)).1) i j ∧
        c_data_at (c_data_set st.1 i j (st.2.get_int (c_data_at st.1 i j)).1) i j
          ≤ ((c_data_set st.1 i j (st.2.get_int (c_data_at st.1 i j)).1).getD i default).ncolumns) := by
  unfold read_c_data
  simp only
  split_ifs with h1 h2
  · constructor
    · intro h; exact False.elim h
    · intro hc
      exact absurd ⟨by omega, h2⟩ hc
  · constructor
    · intro _ hc; exact h2 hc.2
    · intro _; rfl
  · constructor
    · intro _ hc; exact h1 (by omega)
    · intro _; rfl

/-- C19 (selected comparison columns are in range). Whenever `read_data_exp`
completes, for every file `i < nfiles` and every `j < ninfo_i` the selected
column index satisfies `1 ≤ c_data(j) ≤ ncolumns_i`; an index read outside that
range stops the load on its assertion, and on an opened file the assertion is
the only way the load stops. -/
theorem C19_selected_columns_in_range (constructc_data : opti_data → opti_data)
    (file : Option (List line)) (nfiles : Nat) (datas : List opti_data) :
    (∀ datas', read_data_exp constructc_data file nfiles datas = Except.ok datas' →
      ∀ i j : Nat, i < nfiles → (j : Int) < (datas'.getD i default).ninfo →
        1 ≤ c_data_at datas' i j ∧ c_data_at datas' i j ≤ (datas'.getD i default).ncolumns) ∧
    (∀ (st : List opti_data × ifstream) (i j : Nat),
      ¬ (1 ≤ c_data_at (c_data_set st.1 i j (st.2.get_int (c_data_at st.1 i j)).1) i j ∧
        c_data_at (c_data_set st.1 i j (st.2.get_int (c_data_at st.1 i j)).1) i j
          ≤ ((c_data_set st.1 i j (st.2.get_int (c_data_at st.1 i j)).1).getD i default).ncolumns) →
      read_c_data st i j = Except.error abort.assert_failed) ∧
    (∀ e, file ≠ none → read_data_exp constructc_data file nfiles datas = Except.error e →
      e = abort.assert_failed) := by
  obtain ⟨h1, h2⟩ := read_data_exp_spec constructc_data file nfiles datas
  refine ⟨h1, fun st i j hc => (read_c_data_fails_iff st i j).mpr hc, ?_⟩
  intro e hf he
  rcases h2 e he with ⟨hn, _⟩ | ⟨_, h⟩
  · exact absurd hn hf
  · exact h


/-- Instance of C19: one file of three columns with two selected columns. The
indices `1, 3` load; the indices `1, 4` stop the load on the assertion, and so
does a single index `4` read for a file of three columns. -/
theorem C19_selected_columns_in_range_witness :
    (read_data_exp (fun d => { d with c_data := List.replicate d.ninfo.toNat 0 })
        (some [⟨[token.word, token.word], false⟩, ⟨[token.word, token.int 3], false⟩,
          ⟨[token.word, token.int 2], false⟩, ⟨[token.word, token.int 1, token.int 3], false⟩])
        1 [] = Except.ok [⟨0, 0, 2, 3, [1, 3]⟩] ∧
      0 < 1 ∧ ((1 : Nat) : Int) < (([⟨0, 0, 2, 3, [1, 3]⟩] : List opti_data).getD 0 default).ninfo ∧
      (some [⟨[token.word, token.word], false⟩, ⟨[token.word, token.int 3], false⟩,
          ⟨[token.word, token.int 2], false⟩, ⟨[token.word, token.int 1, token.int 4], false⟩]
          : Option (List line)) ≠ none ∧
      read_data_exp (fun d => { d with c_data := List.replicate d.ninfo.toNat 0 })
        (some [⟨[token.word, token.word], false⟩, ⟨[token.word, token.int 3], false⟩,
          ⟨[token.word, token.int 2], false⟩, ⟨[token.word, token.int 1, token.int 4], false⟩])
        1 [] = Except.error abort.assert_failed) ∧
    (1 ≤ c_data_at [⟨0, 0, 2, 3, [1, 3]⟩] 0 1 ∧
      c_data_at [⟨0, 0, 2, 3, [1, 3]⟩] 0 1
        ≤ (([⟨0, 0, 2, 3, [1, 3]⟩] : List opti_data).getD 0 default).ncolumns) ∧
    read_c_data ([⟨0, 0, 1, 3, [0]⟩], ⟨[token.int 4], false⟩) 0 0
      = Except.error abort.assert_failed ∧
    abort.assert_failed = abort.assert_failed :=
  have h1 : read_data_exp (fun d => { d with c_data := List.replicate d.ninfo.toNat 0 })
        (some [⟨[token.word, token.word], false⟩, ⟨[token.word, token.int 3], false⟩,
          ⟨[token.word, token.int 2], false⟩, ⟨[token.word, token.int 1, token.int 3], false⟩])
        1 [] = Except.ok [⟨0, 0, 2, 3, [1, 3]⟩] := by
    simp [read_data_exp, read_c_data_all, read_c_data, c_data_at, c_data_set, vector_resize,
      ifstream_open, file_tokens, ifstream.get_string, ifstream.get_int, List.range_succ]
    rfl
  have h2 : read_data_exp (fun d => { d with c_data := List.replicate d.ninfo.toNat 0 })
        (some [⟨[token.word, token.word], false⟩, ⟨[token.word, token.int 3], false⟩,
          ⟨[token.word, token.int 2], false⟩, ⟨[token.word, token.int 1, token.int 4], false⟩])
        1 [] = Except.error abort.assert_failed := by
    simp [read_data_exp, read_c_data_all, read_c_data, c_data_at, c_data_set, vector_resize,
      ifstream_open, file_tokens, ifstream.get_string, ifstream.get_int, List.range_succ]
    rfl
  ⟨⟨h1, by decide, by decide, by simp, h2⟩,
    (C19_selected_columns_in_range (fun d => { d with c_data := List.replicate d.ninfo.toNat 0 })
      (some [⟨[token.word, token.word], false⟩, ⟨[token.word, token.int 3], false⟩,
          ⟨[token.word, token.int 2], false⟩, ⟨[token.word, token.int 1, token.int 3], false⟩])
      1 []).1 _ h1 0 1 (by decide) (by decide),
    (C19_selected_columns_in_range (fun d => d) none 1 []).2.1
      ([⟨0, 0, 1, 3, [0]⟩], ⟨[token.int 4], false⟩) 0 0 (by decide),
    (C19_selected_columns_in_range (fun d => { d with c_data := List.replicate d.ninfo.toNat 0 })
      (some [⟨[token.word, token.word], false⟩, ⟨[token.word, token.int 3], false⟩,
          ⟨[token.word, token.int 2], false⟩, ⟨[token.word, token.int 1, token.int 4], false⟩])
      1 []).2.2 _ (by simp) h2⟩


/-! ## Weight-mode selectors -/

theorem read_weights_type1_spec (nfiles : Nat) (v : weights_vars) :
    (∀ v1, read_weights_type1 nfiles v = Except.ok v1 →
      (∃ x, v1.weight_types = v.weight_types.set 0 x) ∧
      v1.weight_types.getD 0 0 = read_weights_selector 0 v ∧
      (read_weights_selector 0 v = 0 ∨ read_weights_selector 0 v = 1)) ∧
    (¬ (read_weights_selector 0 v = 0 ∨ read_weights_selector 0 v = 1) →
      read_weights_type1 nfiles v = Except.error abort.exited) := by
  unfold read_weights_type1 read_weights_selector
  simp only
  split_ifs with h0 h1
  · refine ⟨?_, fun hc => absurd (Or.inl h0) hc⟩
    intro v1 h
    injection h with h
    subst h
    exact ⟨⟨_, rfl⟩, rfl, Or.inl h0⟩
  · refine ⟨?_, fun hc => absurd (Or.inr h1) hc⟩
    intro v1 h
    injection h with h
    subst h
    exact ⟨⟨_, rfl⟩, rfl, Or.inr h1⟩
  · refine ⟨fun v1 h => absurd h (by simp), fun _ => rfl⟩


theorem read_weights_type2_spec (nfiles : Nat) (v : weights_vars) :
    (∀ v2, read_weights_type2 nfiles v = Except.ok v2 →
      (∃ x, v2.weight_types = v.weight_types.set 1 x) ∧
      v2.weight_types.getD 1 0 = read_weights_selector 1 v ∧
      (read_weights_selector 1 v = 0 ∨ read_weights_selector 1 v = 1 ∨
        read_weights_selector 1 v = 2 ∨ read_weights_selector 1 v = 3)) ∧
    (¬ (read_weights_selector 1 v = 0 ∨ read_weights_selector 1 v = 1 ∨
        read_weights_selector 1 v = 2 ∨ read_weights_selector 1 v = 3) →
      read_weights_type2 nfiles v = Except.error abort.exited) := by
  unfold read_weights_type2 read_weights_selector
  simp only
  split_ifs with h0 h1 h2
  · refine ⟨?_, fun hc => absurd (Or.inl h0) hc⟩
    intro v2 h
    injection h with h
    subst h
    exact ⟨⟨_, rfl⟩, rfl, Or.inl h0⟩
  · refine ⟨?_, fun hc => absurd (Or.inr (Or.inl h1)) hc⟩
    intro v2 h
    injection h with h
    subst h
    exact ⟨⟨_, rfl⟩, rfl, Or.inr (Or.inl h1)⟩
  · refine ⟨?_, fun hc => absurd (Or.inr (Or.inr h2)) hc⟩
    intro v2 h
    split at h
    · exact Except.noConfusion h
    · injection h with h
      subst h
      exact ⟨⟨_, rfl⟩, rfl, Or.inr (Or.inr h2)⟩
  · refine ⟨fun v2 h => absurd h (by simp), fun _ => rfl⟩

theorem read_weights_type3_spec (nfiles : Nat) (v : weights_vars) :
    (∀ v3, read_weights_type3 nfiles v = Except.ok v3 →
      (∃ x, v3.weight_types = v.weight_types.set 2 x) ∧
      v3.weight_types.getD 2 0 = read_weights_selector 2 v ∧
      (read_weights_selector 2 v = 0 ∨ read_weights_selector 2 v = 1)) ∧
    (¬ (read_weights_selector 2 v = 0 ∨ read_weights_selector 2 v = 1) →
      read_weights_type3 nfiles v = Except.error abort.exited) := by
  unfold read_weights_type3 read_weights_selector
  simp only
  split_ifs with h0 h1
  · refine ⟨?_, fun hc => absurd (Or.inl h0) hc⟩
    intro v3 h
    injection h with h
    subst h
    exact ⟨⟨_, rfl⟩, rfl, Or.inl h0⟩
  · refine ⟨?_, fun hc => absurd (Or.inr h1) hc⟩
    intro v3 h
    split at h
    · exact Except.noConfusion h
    · injection h with h
      subst h
      exact ⟨⟨_, rfl⟩, rfl, Or.inr h1⟩
  · refine ⟨fun v3 h => absurd h (by simp), fun _ => rfl⟩

theorem getD_set_ne_int (l : List Int) (i j : Nat) (x : Int) (h : i ≠ j) :
    (l.set i x).getD j 0 = l.getD j 0 := by
  simp [List.getD_eq_getElem?_getD, List.getElem?_set, h]


/-- The three blocks of `read_data_weights` in sequence. -/
theorem read_data_weights_some (constructc_data : opti_data → opti_data) (f : List line)
    (nfiles : Nat) (weight_types : List Int) (weights_file : List ℚ)
    (weights_cols : List (List ℚ)) (weights data_exp : List opti_data) :
    read_data_weights constructc_data (some f) nfiles weight_types weights_file weights_cols
        weights data_exp
      = match read_weights_type1 nfiles (read_weights_start constructc_data f nfiles
          weight_types weights_file weights_cols weights data_exp) with
        | Except.error e => Except.error e
        | Except.ok v1 =>
          match read_weights_type2 nfiles v1 with
          | Except.error e => Except.error e
          | Except.ok v2 => read_weights_type3 nfiles v2 :=
  rfl

/-- Outcome of `read_data_weights`: the selectors of a completed load are in
their sets, and the load exits at the first selector that is not. -/
theorem read_data_weights_spec (constructc_data : opti_data → opti_data)
    (file : Option (List line)) (nfiles : Nat) (weight_types : List Int)
    (weights_file : List ℚ) (weights_cols : List (List ℚ)) (weights data_exp : List opti_data) :
    (∀ r, read_data_weights constructc_data file nfiles weight_types weights_file weights_cols
        weights data_exp = Except.ok r →
      (r.weight_types.getD 0 0 = 0 ∨ r.weight_types.getD 0 0 = 1) ∧
      (r.weight_types.getD 1 0 = 0 ∨ r.weight_types.getD 1 0 = 1 ∨
        r.weight_types.getD 1 0 = 2 ∨ r.weight_types.getD 1 0 = 3) ∧
      (r.weight_types.getD 2 0 = 0 ∨ r.weight_types.getD 2 0 = 1)) ∧
    (∀ f, file = some f →
      ¬ (read_weights_selector 0 (read_weights_start constructc_data f nfiles weight_types
            weights_file weights_cols weights data_exp) = 0 ∨
         read_weights_selector 0 (read_weights_start constructc_data f nfiles weight_types
            weights_file weights_cols weights data_exp) = 1) →
      read_data_weights constructc_data file nfiles weight_types weights_file weights_cols
        weights data_exp = Except.error abort.exited) ∧
    (∀ f v1, file = some f →
      read_weights_type1 nfiles (read_weights_start constructc_data f nfiles weight_types
        weights_file weights_cols weights data_exp) = Except.ok v1 →
      ¬ (read_weights_selector 1 v1 = 0 ∨ read_weights_selector 1 v1 = 1 ∨
         read_weights_selector 1 v1 = 2 ∨ read_weights_selector 1 v1 = 3) →
      read_data_weights constructc_data file nfiles weight_types weights_file weights_cols
        weights data_exp = Except.error abort.exited) ∧
    (∀ f v1 v2, file = some f →
      read_weights_type1 nfiles (read_weights_start constructc_data f nfiles weight_types
        weights_file weights_cols weights data_exp) = Except.ok v1 →
      read_weights_type2 nfiles v1 = Except.ok v2 →
      ¬ (read_weights_selector 2 v2 = 0 ∨ read_weights_selector 2 v2 = 1) →
      read_data_weights constructc_data file nfiles weight_types weights_file weights_cols
        weights data_exp = Except.error abort.exited) := by
  refine ⟨?_, ?_, ?_, ?_⟩
  · intro r h
    cases file with
    | none => exact Except.noConfusion h
    | some f =>
      rw [read_data_weights_some] at h
      cases h1 : read_weights_type1 nfiles (read_weights_start constructc_data f nfiles
          weight_types weights_file weights_cols weights data_exp) with
      | error e => rw [h1] at h; exact Except.noConfusion h
      | ok v1 =>
        rw [h1] at h
        simp only at h
        cases h2 : read_weights_type2 nfiles v1 with
        | error e => rw [h2] at h; exact Except.noConfusion h
        | ok v2 =>
          rw [h2] at h
          simp only at h
          obtain ⟨⟨_, _⟩, a2, a3⟩ := (read_weights_type1_spec nfiles _).1 v1 h1
          obtain ⟨⟨x1, b1⟩, b2, b3⟩ := (read_weights_type2_spec nfiles v1).1 v2 h2
          obtain ⟨⟨x2, c1⟩, c2, c3⟩ := (read_weights_type3_spec nfiles v2).1 r h
          have e0 : r.weight_types.getD 0 0 = v1.weight_types.getD 0 0 := by
            rw [c1, getD_set_ne_int _ _ _ _ (by decide), b1, getD_set_ne_int _ _ _ _ (by decide)]
          have e1 : r.weight_types.getD 1 0 = v2.weight_types.getD 1 0 := by
            rw [c1, getD_set_ne_int _ _ _ _ (by decide)]
          refine ⟨?_, ?_, ?_⟩
          · rw [e0, a2]; exact a3
          · rw [e1, b2]; exact b3
          · rw [c2]; exact c3
  · intro f hf hsel
    subst hf
    rw [read_data_weights_some, (read_weights_type1_spec nfiles _).2 hsel]
  · intro f v1 hf h1 hsel
    subst hf
    rw [read_data_weights_some, h1]
    simp only
    rw [(read_weights_type2_spec nfiles v1).2 hsel]
  · intro f v1 v2 hf h1 h2 hsel
    subst hf
    rw [read_data_weights_some, h1]
    simp only
    rw [h2]
    simp only
    exact (read_weights_type3_spec nfiles v2).2 hsel


/-- C18 (weight-mode selectors are validated). If `read_data_weights` completes,
`weight_types(0)` is in `{0, 1}`, `weight_types(1)` in `{0, 1, 2, 3}` and
`weight_types(2)` in `{0, 1}`. On an opened file the load exits at the first
selector outside its set: at the first block if the value just read into
`weight_types(0)` is not 0 or 1; at the second block if the first completed and
`weight_types(1)` is not 0, 1, 2 or 3; at the third block if the first two
completed and `weight_types(2)` is not 0 or 1. -/
theorem C18_weight_selectors_validated (constructc_data : opti_data → opti_data)
    (file : Option (List line)) (nfiles : Nat) (weight_types : List Int)
    (weights_file : List ℚ) (weights_cols : List (List ℚ)) (weights data_exp : List opti_data) :
    (∀ r, read_data_weights constructc_data file nfiles weight_types weights_file weights_cols
        weights data_exp = Except.ok r →
      (r.weight_types.getD 0 0 = 0 ∨ r.weight_types.getD 0 0 = 1) ∧
      (r.weight_types.getD 1 0 = 0 ∨ r.weight_types.getD 1 0 = 1 ∨
        r.weight_types.getD 1 0 = 2 ∨ r.weight_types.getD 1 0 = 3) ∧
      (r.weight_types.getD 2 0 = 0 ∨ r.weight_types.getD 2 0 = 1)) ∧
    (∀ f, file = some f →
      ¬ (read_weights_selector 0 (read_weights_start constructc_data f nfiles weight_types
            weights_file weights_cols weights data_exp) = 0 ∨
         read_weights_selector 0 (read_weights_start constructc_data f nfiles weight_types
            weights_file weights_cols weights data_exp) = 1) →
      read_data_weights constructc_data file nfiles weight_types weights_file weights_cols
        weights data_exp = Except.error abort.exited) ∧
    (∀ f v1, file = some f →
      read_weights_type1 nfiles (read_weights_start constructc_data f nfiles weight_types
        weights_file weights_cols weights data_exp) = Except.ok v1 →
      ¬ (read_weights_selector 1 v1 = 0 ∨ read_weights_selector 1 v1 = 1 ∨
         read_weights_selector 1 v1 = 2 ∨ read_weights_selector 1 v1 = 3) →
      read_data_weights constructc_data file nfiles weight_types weights_file weights_cols
        weights data_exp = Except.error abort.exited) ∧
    (∀ f v1 v2, file = some f →
      read_weights_type1 nfiles (read_weights_start constructc_data f nfiles weight_types
        weights_file weights_cols weights data_exp) = Except.ok v1 →
      read_weights_type2 nfiles v1 = Except.ok v2 →
      ¬ (read_weights_selector 2 v2 = 0 ∨ read_weights_selector 2 v2 = 1) →
      read_data_weights constructc_data file nfiles weight_types weights_file weights_cols
        weights data_exp = Except.error abort.exited) :=
  read_data_weights_spec constructc_data file nfiles weight_types weights_file weights_cols
    weights data_exp

/-- Instance of C18, without data files: the selectors `0, 1, 0` load; a first
selector `5`, a second selector `7` and a third selector `2` each make the
load exit. -/
theorem C18_weight_selectors_validated_witness :
    (read_data_weights (fun d => d)
        (some [⟨[token.word, token.word, token.int 0, token.word,
          token.word, token.word, token.int 1, token.word,
          token.word, token.word, token.int 0, token.word], false⟩])
        0 [9, 9, 9] [] [] [] [] = Except.ok ⟨[0, 1, 0], [], [], [], ⟨[], false⟩⟩ ∧
      ¬ (read_weights_selector 0 (read_weights_start (fun d => d)
            [⟨[token.word, token.word, token.int 5], false⟩] 0 [9, 9, 9] [] [] [] []) = 0 ∨
         read_weights_selector 0 (read_weights_start (fun d => d)
            [⟨[token.word, token.word, token.int 5], false⟩] 0 [9, 9, 9] [] [] [] []) = 1) ∧
      (read_weights_type1 0 (read_weights_start (fun d => d)
          [⟨[token.word, token.word, token.int 0, token.word,
            token.word, token.word, token.int 7], false⟩] 0 [9, 9, 9] [] [] [] [])
        = Except.ok ⟨[0, 9, 9], [], [], [],
            ⟨[token.word, token.word, token.int 7], false⟩⟩ ∧
        ¬ (read_weights_selector 1 ⟨[0, 9, 9], [], [], [],
              ⟨[token.word, token.word, token.int 7], false⟩⟩ = 0 ∨
           read_weights_selector 1 ⟨[0, 9, 9], [], [], [],
              ⟨[token.word, token.word, token.int 7], false⟩⟩ = 1 ∨
           read_weights_selector 1 ⟨[0, 9, 9], [], [], [],
              ⟨[token.word, token.word, token.int 7], false⟩⟩ = 2 ∨
           read_weights_selector 1 ⟨[0, 9, 9], [], [], [],
              ⟨[token.word, token.word, token.int 7], false⟩⟩ = 3)) ∧
      (read_weights_type1 0 (read_weights_start (fun d => d)
          [⟨[token.word, token.word, token.int 0, token.word,
            token.word, token.word, token.int 1, token.word,
            token.word, token.word, token.int 2], false⟩] 0 [9, 9, 9] [] [] [] [])
        = Except.ok ⟨[0, 9, 9], [], [], [],
            ⟨[token.word, token.word, token.int 1, token.word,
              token.word, token.word, token.int 2], false⟩⟩ ∧
        read_weights_type2 0 ⟨[0, 9, 9], [], [], [],
            ⟨[token.word, token.word, token.int 1, token.word,
              token.word, token.word, token.int 2], false⟩⟩
          = Except.ok ⟨[0, 1, 9], [], [], [],
              ⟨[token.word, token.word, token.int 2], false⟩⟩ ∧
        ¬ (read_weights_selector 2 ⟨[0, 1, 9], [], [], [],
              ⟨[token.word, token.word, token.int 2], false⟩⟩ = 0 ∨
           read_weights_selector 2 ⟨[0, 1, 9], [], [], [],
              ⟨[token.word, token.word, token.int 2], false⟩⟩ = 1))) ∧
    (((⟨[0, 1, 0], [], [], [], ⟨[], false⟩⟩ : weights_vars).weight_types.getD 0 0 = 0 ∨
        (⟨[0, 1, 0], [], [], [], ⟨[], false⟩⟩ : weights_vars).weight_types.getD 0 0 = 1) ∧
      read_data_weights (fun d => d) (some [⟨[token.word, token.word, token.int 5], false⟩])
        0 [9, 9, 9] [] [] [] [] = Except.error abort.exited ∧
      read_data_weights (fun d => d)
        (some [⟨[token.word, token.word, token.int 0, token.word,
            token.word, token.word, token.int 7], false⟩])
        0 [9, 9, 9] [] [] [] [] = Except.error abort.exited ∧
      read_data_weights (fun d => d)
        (some [⟨[token.word, token.word, token.int 0, token.word,
            token.word, token.word, token.int 1, token.word,
            token.word, token.word, token.int 2], false⟩])
        0 [9, 9, 9] [] [] [] [] = Except.error abort.exited) :=
  ⟨⟨rfl, by decide, ⟨rfl, by decide⟩, ⟨rfl, rfl, by decide⟩⟩,
    ((C18_weight_selectors_validated (fun d => d)
      (some [⟨[token.word, token.word, token.int 0, token.word,
          token.word, token.word, token.int 1, token.word,
          token.word, token.word, token.int 0, token.word], false⟩])
      0 [9, 9, 9] [] [] [] []).1 _ rfl).1,
    (C18_weight_selectors_validated (fun d => d)
      (some [⟨[token.word, token.word, token.int 5], false⟩])
      0 [9, 9, 9] [] [] [] []).2.1 _ rfl (by decide),
    (C18_weight_selectors_validated (fun d => d)
      (some [⟨[token.word, token.word, token.int 0, token.word,
            token.word, token.word, token.int 7], false⟩])
      0 [9, 9, 9] [] [] [] []).2.2.1 _
      ⟨[0, 9, 9], [], [], [], ⟨[token.word, token.word, token.int 7], false⟩⟩
      rfl rfl (by decide),
    (C18_weight_selectors_validated (fun d => d)
      (some [⟨[token.word, token.word, token.int 0, token.word,
            token.word, token.word, token.int 1, token.word,
            token.word, token.word, token.int 2], false⟩])
      0 [9, 9, 9] [] [] [] []).2.2.2 _
      ⟨[0, 9, 9], [], [], [],
        ⟨[token.word, token.word, token.int 1, token.word,
          token.word, token.word, token.int 2], false⟩⟩
      ⟨[0, 1, 9], [], [], [], ⟨[token.word, token.word, token.int 2], false⟩⟩
      rfl rfl rfl (by decide)⟩


/-! ## Reading the registry of parameters -/

theorem getD_set_record (l : List parameters_record) (i j : Nat) (x : parameters_record) :
    (l.set i x).getD j default = if i = j ∧ i < l.length then x else l.getD j default := by
  simp only [List.getD_eq_getElem?_getD, List.getElem?_set]
  by_cases h : i = j
  · subst h
    by_cases hl : i < l.length
    · simp [hl]
    · simp [hl, List.getElem?_eq_none (Nat.le_of_not_lt hl)]
  · simp [h]

theorem skip_files (files later : List token) :
    (List.range files.length).foldl (fun (s : ifstream) _ => s.get_string)
      ⟨files ++ later, false⟩ = ⟨later, false⟩ := by
  rw [get_string_foldl _ _ (by simp)]
  simp

/-- First pass over one entry in the expected layout. -/
theorem read_parameters_count_spec (P : List parameters_record) (i : Nat)
    (e later : List token) (mn mx : ℚ) (k : Nat) (hl : entry_layout e mn mx k) :
    read_parameters_count (P, ⟨e ++ later, false⟩) i
      = Except.ok (P.set i { (P.getD i default) with ninput_files := (k : Int) },
          ⟨later, false⟩) := by
  obtain ⟨number, tmin, tmax, key, files, rfl, _, _, hk⟩ := hl
  subst hk
  have hn : ¬ ((files.length : Int) < 0) := by omega
  simp only [read_parameters_count, List.cons_append, get_string_cons, ifstream.get_int,
    Bool.false_eq_true, if_false, hn, Int.toNat_ofNat, skip_files]

/-- Second pass over one entry in the expected layout. -/
theorem read_parameters_values_spec (P : List parameters_record) (i : Nat)
    (e later : List token) (mn mx : ℚ) (k : Nat) (hl : entry_layout e mn mx k)
    (hk : (P.getD i default).ninput_files = (k : Int)) :
    ∃ number : Int, read_parameters_values (P, ⟨e ++ later, false⟩) i
      = (P.set i { (P.getD i default) with number := number, min_value := mn, max_value := mx },
          ⟨later, false⟩) := by
  obtain ⟨number, tmin, tmax, key, files, rfl, hmin, hmax, hf⟩ := hl
  subst hf
  refine ⟨number, ?_⟩
  have h1 : tmin.value ≠ none := by rw [hmin]; simp
  have h2 : tmax.value ≠ none := by rw [hmax]; simp
  simp only [read_parameters_values, List.cons_append, ifstream.get_int,
    Bool.false_eq_true, if_false, get_double_numeric _ _ _ h1, get_double_numeric _ _ _ h2,
    get_string_cons, hk, Int.toNat_ofNat, skip_files, hmin, hmax, Option.getD_some]


theorem drop_flatten_step (entries : List (List token)) (k : Nat) (hk : k < entries.length) :
    (entries.drop k).flatten = entries.getD k [] ++ (entries.drop (k + 1)).flatten := by
  rw [List.drop_eq_getElem_cons hk, List.flatten_cons]
  simp [List.getD_eq_getElem?_getD, List.getElem?_eq_getElem hk]

/-- First pass of `read_parameters` over entries in the expected layout. -/
theorem read_parameters_pass1 (entries : List (List token)) (rest : List token)
    (mn mx : Nat → ℚ) (ks : Nat → Nat)
    (hl : ∀ i, i < entries.length → entry_layout (entries.getD i []) (mn i) (mx i) (ks i))
    (P : List parameters_record) (hP : entries.length ≤ P.length)
    (k : Nat) (hk : k ≤ entries.length) :
    ∃ P', (List.range k).foldlM read_parameters_count (P, ⟨entries.flatten ++ rest, false⟩)
        = Except.ok (P', ⟨(entries.drop k).flatten ++ rest, false⟩) ∧
      P'.length = P.length ∧
      ∀ i, i < k → (P'.getD i default).ninput_files = (ks i : Int) := by
  induction k with
  | zero =>
    refine ⟨P, ?_, rfl, fun i hi => absurd hi (Nat.not_lt_zero i)⟩
    simp [pure, Except.pure]
  | succ k ih =>
    obtain ⟨P', e, h1, h2⟩ := ih (by omega)
    have hklt : k < entries.length := by omega
    refine ⟨P'.set k { (P'.getD k default) with ninput_files := (ks k : Int) }, ?_, ?_, ?_⟩
    · rw [foldlM_range_succ, e]
      show read_parameters_count (P', ⟨(entries.drop k).flatten ++ rest, false⟩) k = _
      rw [drop_flatten_step entries k hklt, List.append_assoc,
        read_parameters_count_spec P' k _ _ _ _ _ (hl k hklt)]
    · simp [h1]
    · intro i hi
      rw [getD_set_record]
      by_cases hik : k = i
      · subst hik
        rw [if_pos ⟨rfl, by rw [h1]; omega⟩]
      · have : ¬ (k = i ∧ k < P'.length) := fun h => hik h.1
        rw [if_neg this]
        exact h2 i (by omega)

/-- Second pass of `read_parameters` over entries in the expected layout. -/
theorem read_parameters_pass2 (entries : List (List token)) (rest : List token)
    (mn mx : Nat → ℚ) (ks : Nat → Nat)
    (hl : ∀ i, i < entries.length → entry_layout (entries.getD i []) (mn i) (mx i) (ks i))
    (P : List parameters_record) (hP : entries.length ≤ P.length)
    (hN : ∀ i, i < entries.length → (P.getD i default).ninput_files = (ks i : Int))
    (k : Nat) (hk : k ≤ entries.length) :
    ∃ Q, (List.range k).foldl read_parameters_values (P, ⟨entries.flatten ++ rest, false⟩)
        = (Q, ⟨(entries.drop k).flatten ++ rest, false⟩) ∧
      Q.length = P.length ∧
      (∀ i, (Q.getD i default).ninput_files = (P.getD i default).ninput_files) ∧
      ∀ i, i < k → (Q.getD i default).min_value = mn i ∧ (Q.getD i default).max_value = mx i := by
  induction k with
  | zero =>
    exact ⟨P, by simp, rfl, fun _ => rfl, fun i hi => absurd hi (Nat.not_lt_zero i)⟩
  | succ k ih =>
    obtain ⟨Q, e, h1, h2, h3⟩ := ih (by omega)
    have hklt : k < entries.length := by omega
    obtain ⟨number, hv⟩ := read_parameters_values_spec Q k (entries.getD k [])
      ((entries.drop (k + 1)).flatten ++ rest) (mn k) (mx k) (ks k) (hl k hklt)
      (by rw [h2 k]; exact hN k hklt)
    refine ⟨Q.set k { (Q.getD k default) with
      number := number, min_value := mn k, max_value := mx k }, ?_, ?_, ?_, ?_⟩
    · rw [List.range_succ, List.foldl_append, e]
      simp only [List.foldl_cons, List.foldl_nil]
      rw [drop_flatten_step entries k hklt, List.append_assoc, hv]
    · simp [h1]
    · intro i
      rw [getD_set_record]
      by_cases hik : k = i ∧ k < Q.length
      · rw [if_pos hik]
        obtain ⟨rfl, _⟩ := hik
        exact h2 k
      · rw [if_neg hik]
        exact h2 i
    · intro i hi
      rw [getD_set_record]
      by_cases hik : k = i
      · subst hik
        rw [if_pos ⟨rfl, by rw [h1]; omega⟩]
        exact ⟨rfl, rfl⟩
      · have : ¬ (k = i ∧ k < Q.length) := fun h => hik h.1
        rw [if_neg this]
        exact h3 i (by omega)

theorem read_parameters_header_eq (f : List line) (header later : List token)
    (hf : file_tokens f = header ++ later) (hh : header.length = 6) :
    read_parameters_header f = ⟨later, false⟩ := by
  unfold read_parameters_header ifstream_open
  rw [hf]
  match header, hh with
  | [a, b, c, d, e, g], _ => simp [get_string_cons]

/-- The reader `read_parameters` on a file in the layout it expects: a header
of six tokens, then one entry per parameter. Every record receives the two
bounds of its entry as they are written. -/
theorem read_parameters_layout (f : List line) (header : List token)
    (entries : List (List token)) (rest : List token)
    (mn mx : Nat → ℚ) (ks : Nat → Nat) (params : List parameters_record)
    (hf : file_tokens f = header ++ (entries.flatten ++ rest))
    (hh : header.length = 6) (hP : entries.length ≤ params.length)
    (hl : ∀ i, i < entries.length → entry_layout (entries.getD i []) (mn i) (mx i) (ks i)) :
    ∃ params', read_parameters (some f) entries.length params = Except.ok params' ∧
      params'.length = params.length ∧
      ∀ i, i < entries.length →
        (params'.getD i default).min_value = mn i ∧
        (params'.getD i default).max_value = mx i := by
  have hhead := read_parameters_header_eq f header _ hf hh
  obtain ⟨P', e1, a1, a2⟩ := read_parameters_pass1 entries rest mn mx ks hl params hP
    entries.length le_rfl
  obtain ⟨Q, e2, b1, _, b3⟩ := read_parameters_pass2 entries rest mn mx ks hl P'
    (by rw [a1]; exact hP) a2 entries.length le_rfl
  refine ⟨Q, ?_, b1.trans a1, b3⟩
  simp only [read_parameters, hhead, e1, e2]

/-- The reader `read_parameters` stops only on a file that cannot be opened
or on a negative number of input files. -/
theorem read_parameters_error (file : Option (List line)) (n_param : Nat)
    (params : List parameters_record) (e : abort)
    (h : read_parameters file n_param params = Except.error e) :
    (file = none ∧ e = abort.exited) ∨ (file ≠ none ∧ e = abort.bad_alloc) := by
  cases file with
  | none =>
    left
    refine ⟨rfl, ?_⟩
    have : Except.error abort.exited = (Except.error e : Except abort (List parameters_record)) := h
    injection this with h'
    exact h'.symm
  | some f =>
    right
    refine ⟨by simp, ?_⟩
    unfold read_parameters at h
    simp only at h
    split at h
    · rename_i e' he
      injection h with h
      subst h
      refine foldlM_error (fun e => e = abort.bad_alloc) _ ?_ _ _ e' he
      intro a i e'' hc
      unfold read_parameters_count at hc
      simp only at hc
      split_ifs at hc
      injection hc with hc
      exact hc.symm
    · exact Except.noConfusion h


/-- C20, as stated, fails: an entry of `parameters.inp` with lower bound 5 and
upper bound 1 is not rejected; `read_parameters` returns normally and the
record stored has `min_value = 5 > max_value = 1`. -/
theorem C20_counterexample :
    read_parameters
        (some [⟨[token.word, token.word, token.word, token.word, token.word, token.word], false⟩,
          ⟨[token.int 1, token.int 5, token.int 1, token.word, token.int 0], false⟩])
        1 [default]
      = Except.ok [⟨⟨5, 1⟩, 1, 0⟩] ∧
    ¬ ((⟨⟨5, 1⟩, 1, 0⟩ : parameters_record).min_value
        ≤ (⟨⟨5, 1⟩, 1, 0⟩ : parameters_record).max_value) := by
  constructor
  · simp [read_parameters, read_parameters_header, read_parameters_count,
      read_parameters_values, ifstream_open, file_tokens, ifstream.get_string,
      ifstream.get_int, ifstream.get_double, List.range_succ, pure, Except.pure]
    rfl
  · norm_num

/-- C20 (amended). The reader `read_parameters` makes no check of the bounds.
On a `parameters.inp` in its layout (a header of six tokens, then for each
parameter its number, lower bound, upper bound, key, number of input files and
the file names) it returns normally and every record stores the two bounds of
its entry as they are written, so that `min_value ≤ max_value` holds for a
record exactly when the entry was written that way. The reader stops only when
the file cannot be opened or when an entry announces a negative number of
input files. -/
theorem C20_read_parameters_stores_bounds (f : List line) (header : List token)
    (entries : List (List token)) (rest : List token)
    (mn mx : Nat → ℚ) (ks : Nat → Nat) (params : List parameters_record)
    (hf : file_tokens f = header ++ (entries.flatten ++ rest))
    (hh : header.length = 6) (hP : entries.length ≤ params.length)
    (hl : ∀ i, i < entries.length → entry_layout (entries.getD i []) (mn i) (mx i) (ks i)) :
    (∃ params', read_parameters (some f) entries.length params = Except.ok params' ∧
      ∀ i, i < entries.length →
        (params'.getD i default).min_value = mn i ∧
        (params'.getD i default).max_value = mx i ∧
        ((params'.getD i default).min_value ≤ (params'.getD i default).max_value
          ↔ mn i ≤ mx i)) ∧
    (∀ (file : Option (List line)) (n_param : Nat) (ps : List parameters_record) (e : abort),
      read_parameters file n_param ps = Except.error e →
        (file = none ∧ e = abort.exited) ∨ (file ≠ none ∧ e = abort.bad_alloc)) := by
  obtain ⟨params', h1, _, h3⟩ := read_parameters_layout f header entries rest mn mx ks params
    hf hh hP hl
  refine ⟨⟨params', h1, ?_⟩, read_parameters_error⟩
  intro i hi
  obtain ⟨a, b⟩ := h3 i hi
  exact ⟨a, b, by rw [a, b]⟩

/-- Instance of the amended C20: one entry written with lower bound 5 and
upper bound 1, and a file that cannot be opened. -/
theorem C20_read_parameters_stores_bounds_witness :
    (file_tokens
        [⟨[token.word, token.word, token.word, token.word, token.word, token.word], false⟩,
          ⟨[token.int 1, token.int 5, token.int 1, token.word, token.int 0], false⟩]
        = [token.word, token.word, token.word, token.word, token.word, token.word]
          ++ (([[token.int 1, token.int 5, token.int 1, token.word, token.int 0]]
                : List (List token)).flatten ++ []) ∧
      ([token.word, token.word, token.word, token.word, token.word, token.word]
        : List token).length = 6 ∧
      ([[token.int 1, token.int 5, token.int 1, token.word, token.int 0]]
        : List (List token)).length ≤ ([default] : List parameters_record).length ∧
      (∀ i, i < ([[token.int 1, token.int 5, token.int 1, token.word, token.int 0]]
            : List (List token)).length →
        entry_layout (([[token.int 1, token.int 5, token.int 1, token.word, token.int 0]]
            : List (List token)).getD i []) ((fun _ => 5) i) ((fun _ => 1) i) ((fun _ => 0) i)) ∧
      read_parameters none 1 [default] = Except.error abort.exited) ∧
    (∃ params', read_parameters
        (some [⟨[token.word, token.word, token.word, token.word, token.word, token.word], false⟩,
          ⟨[token.int 1, token.int 5, token.int 1, token.word, token.int 0], false⟩])
        ([[token.int 1, token.int 5, token.int 1, token.word, token.int 0]]
          : List (List token)).length [default] = Except.ok params' ∧
      ∀ i, i < ([[token.int 1, token.int 5, token.int 1, token.word, token.int 0]]
            : List (List token)).length →
        (params'.getD i default).min_value = (fun _ => 5) i ∧
        (params'.getD i default).max_value = (fun _ => 1) i ∧
        ((params'.getD i default).min_value ≤ (params'.getD i default).max_value
          ↔ (fun _ => (5 : ℚ)) i ≤ (fun _ => (1 : ℚ)) i)) ∧
    (((none : Option (List line)) = none ∧ abort.exited = abort.exited) ∨
      ((none : Option (List line)) ≠ none ∧ abort.exited = abort.bad_alloc)) :=
  have hl : ∀ i, i < ([[token.int 1, token.int 5, token.int 1, token.word, token.int 0]]
            : List (List token)).length →
        entry_layout (([[token.int 1, token.int 5, token.int 1, token.word, token.int 0]]
            : List (List token)).getD i []) ((fun _ => 5) i) ((fun _ => 1) i) ((fun _ => 0) i) := by
    intro i hi
    have h0 : i = 0 := by simpa using hi
    subst h0
    exact ⟨1, token.int 5, token.int 1, token.word, [], rfl, by simp [token.value],
      by simp [token.value], rfl⟩
  ⟨⟨rfl, rfl, by decide, hl, rfl⟩,
    (C20_read_parameters_stores_bounds
      [⟨[token.word, token.word, token.word, token.word, token.word, token.word], false⟩,
        ⟨[token.int 1, token.int 5, token.int 1, token.word, token.int 0], false⟩]
      [token.word, token.word, token.word, token.word, token.word, token.word]
      [[token.int 1, token.int 5, token.int 1, token.word, token.int 0]] []
      (fun _ => 5) (fun _ => 1) (fun _ => 0) [default] rfl rfl (by decide) hl).1,
    (C20_read_parameters_stores_bounds
      [⟨[token.word, token.word, token.word, token.word, token.word, token.word], false⟩,
        ⟨[token.int 1, token.int 5, token.int 1, token.word, token.int 0], false⟩]
      [token.word, token.word, token.word, token.word, token.word, token.word]
      [[token.int 1, token.int 5, token.int 1, token.word, token.int 0]] []
      (fun _ => 5) (fun _ => 1) (fun _ => 0) [default] rfl rfl (by decide) hl).2
      none 1 [default] abort.exited rfl⟩


/-! ## Deviators and invariants of Voigt vectors -/

/-- A vector of six entries, spelled out. -/
theorem length_six {v : List ℚ} (h : v.length = 6) :
    ∃ a b c d e f, v = [a, b, c, d, e, f] := by
  match v, h with
  | [a, b, c, d, e, f], _ => exact ⟨a, b, c, d, e, f, rfl⟩

/-- Closed form of `tr`. -/
theorem tr_six (a b c d e f : ℚ) : tr [a, b, c, d, e, f] = some (a + b + c) := rfl

/-- Closed form of `dev`: the spherical part is removed from the first three
entries, the last three are copied. -/
theorem dev_six (a b c d e f : ℚ) :
    dev [a, b, c, d, e, f]
      = some [a - 1 / 3 * (a + b + c), b - 1 / 3 * (a + b + c),
          c - 1 / 3 * (a + b + c), d, e, f] := rfl

/-- Closed form of the rescaling of the shear entries. -/
theorem scale_shear_six (k a b c d e f : ℚ) :
    scale_shear k [a, b, c, d, e, f] = [a, b, c, k * d, k * e, k * f] := rfl

/-- Closed form of `v2t_stress`, column by column. -/
theorem v2t_stress_six (a b c d e f : ℚ) :
    v2t_stress [a, b, c, d, e, f] = some ⟨3, 3, [a, d, e, d, b, f, e, f, c]⟩ := rfl

/-- Closed form of `v2t_strain`, column by column. -/
theorem v2t_strain_six (a b c d e f : ℚ) :
    v2t_strain [a, b, c, d, e, f]
      = some ⟨3, 3, [a, 1 / 2 * d, 1 / 2 * e, 1 / 2 * d, b, 1 / 2 * f,
          1 / 2 * e, 1 / 2 * f, c]⟩ := rfl

/-- The deviator of a six-entry vector: trace zero, shear entries kept, the
part removed is spherical, and a second application changes nothing. -/
theorem dev_spec (v : List ℚ) (hv : v.length = 6) :
    ∃ d t, dev v = some d ∧ tr v = some t ∧ d.length = 6 ∧ tr d = some 0 ∧
      (∀ i, 3 ≤ i → i < 6 → d.getD i 0 = v.getD i 0) ∧
      List.zipWith (fun x y => x - y) v d
        = List.map (fun e => t / 3 * e) [1, 1, 1, 0, 0, 0] ∧
      dev d = some d := by
  obtain ⟨a, b, c, d, e, f, rfl⟩ := length_six hv
  refine ⟨_, _, dev_six a b c d e f, tr_six a b c d e f, rfl, ?_, ?_, ?_, ?_⟩
  · rw [tr_six]; congr 1; ring
  · intro i h3 h6
    interval_cases i <;> rfl
  · simp only [List.zipWith_cons_cons, List.zipWith_nil_right, List.map_cons, List.map_nil]
    congr 1
    · ring
    congr 1
    · ring
    congr 1
    · ring
    simp
  · rw [dev_six]
    congr 2
    · ring
    congr 1
    · ring
    congr 1
    ring

/-- For a symmetric 3x3 matrix of trace zero, a third of the contraction of
the matrix with its square is its determinant. -/
theorem accu_cube_eq_det (a b d e f : ℚ) :
    (1 / 3 : ℚ) * accu ((⟨3, 3, [a, d, e, d, b, f, e, f, -a - b]⟩ : mat).schur
        ((⟨3, 3, [a, d, e, d, b, f, e, f, -a - b]⟩ : mat).mul
          ⟨3, 3, [a, d, e, d, b, f, e, f, -a - b]⟩))
      = det ⟨3, 3, [a, d, e, d, b, f, e, f, -a - b]⟩ := by
  simp [accu, mat.schur, mat.mul, det, mat.elem, List.range_succ]
  ring

/-- The third entry of a deviator is the opposite of the sum of the first two. -/
theorem dev_third (a b c : ℚ) :
    c - 1 / 3 * (a + b + c) = -(a - 1 / 3 * (a + b + c)) - (b - 1 / 3 * (a + b + c)) := by
  ring

/-- Value of `J3_stress`: the determinant of the deviatoric stress tensor,
also a third of the trace of its cube. -/
theorem J3_stress_spec (v : List ℚ) (hv : v.length = 6) :
    ∃ d s, dev v = some d ∧ v2t_stress d = some s ∧
      J3_stress v = some (det s) ∧ det s = 1 / 3 * trace (s.mul (s.mul s)) := by
  obtain ⟨a, b, c, d, e, f, rfl⟩ := length_six hv
  refine ⟨_, _, dev_six a b c d e f, v2t_stress_six _ _ _ _ _ _, ?_, ?_⟩
  · simp only [J3_stress, dev_six, Option.some_bind, v2t_stress_six, Option.map_some']
    rw [dev_third a b c, accu_cube_eq_det]
  · simp [trace, mat.mul, det, mat.elem, List.range_succ]
    ring

/-- Value of `J3_strain`: the determinant of the deviatoric strain tensor,
also a third of the trace of its cube. -/
theorem J3_strain_spec (v : List ℚ) (hv : v.length = 6) :
    ∃ d s, dev v = some d ∧ v2t_strain d = some s ∧
      J3_strain v = some (det s) ∧ det s = 1 / 3 * trace (s.mul (s.mul s)) := by
  obtain ⟨a, b, c, d, e, f, rfl⟩ := length_six hv
  refine ⟨_, _, dev_six a b c d e f, v2t_strain_six _ _ _ _ _ _, ?_, ?_⟩
  · simp only [J3_strain, dev_six, Option.some_bind, v2t_strain_six, Option.map_some']
    rw [dev_third a b c, accu_cube_eq_det]
  · simp [trace, mat.mul, det, mat.elem, List.range_succ]
    ring

/-! ## Mises equivalents, flow direction and unit normal

The square roots and the trigonometric functions take their values in an
ordered field `K`; the statements hold for every such field and every `sqrt`
that returns non-negative square roots, the real numbers with their square
root among them. -/


/-- The radicand shared by `Mises_stress`, `J2_stress` and `eta_stress`. -/
theorem stress_radicand (a b c d e f : ℚ) :
    arma_sum (vec_schur
        [a - 1 / 3 * (a + b + c), b - 1 / 3 * (a + b + c), c - 1 / 3 * (a + b + c), d, e, f]
        (scale_shear 2
          [a - 1 / 3 * (a + b + c), b - 1 / 3 * (a + b + c), c - 1 / 3 * (a + b + c), d, e, f]))
      = (a - 1 / 3 * (a + b + c)) ^ 2 + (b - 1 / 3 * (a + b + c)) ^ 2
          + (c - 1 / 3 * (a + b + c)) ^ 2 + 2 * d ^ 2 + 2 * e ^ 2 + 2 * f ^ 2 := by
  simp [scale_shear_six, vec_schur, arma_sum]
  ring


/-- The radicand of the strain functions: the loop halves the shear entries. -/
theorem strain_radicand (a b c d e f : ℚ) :
    arma_sum (vec_schur
        [a - 1 / 3 * (a + b + c), b - 1 / 3 * (a + b + c), c - 1 / 3 * (a + b + c), d, e, f]
        (scale_shear (1 / 2)
          [a - 1 / 3 * (a + b + c), b - 1 / 3 * (a + b + c), c - 1 / 3 * (a + b + c), d, e, f]))
      = (a - 1 / 3 * (a + b + c)) ^ 2 + (b - 1 / 3 * (a + b + c)) ^ 2
          + (c - 1 / 3 * (a + b + c)) ^ 2 + 1 / 2 * d ^ 2 + 1 / 2 * e ^ 2 + 1 / 2 * f ^ 2 := by
  simp [scale_shear_six, vec_schur, arma_sum]
  ring

/-- The square of a square root. -/
theorem is_sqrt_sq {K : Type} [LinearOrderedField K] {sqrt : K → K} (hs : is_sqrt sqrt)
    (q : ℚ) (hq : 0 ≤ q) : sqrt (q : K) ^ 2 = (q : K) ∧ 0 ≤ sqrt (q : K) := by
  have h := hs (q : K) (by exact_mod_cast hq)
  exact ⟨by rw [pow_two]; exact h.2, h.1⟩

/-- The Mises stress: its square is three times `J2_stress` and three halves
of the sum of the squares of the deviatoric stress tensor. -/
theorem mises_stress_spec {K : Type} [LinearOrderedField K] (sqrt : K → K)
    (hs : is_sqrt sqrt) (v : List ℚ) (hv : v.length = 6) :
    ∃ d s m j2, dev v = some d ∧ v2t_stress d = some s ∧
      Mises_stress sqrt v = some m ∧ J2_stress v = some j2 ∧
      m ^ 2 = ((3 / 2 * ∑ i in Finset.range 3, ∑ j in Finset.range 3, s.elem i j ^ 2 : ℚ) : K) ∧
      m ^ 2 = ((3 * j2 : ℚ) : K) ∧ 0 ≤ m := by
  obtain ⟨a, b, c, d, e, f, rfl⟩ := length_six hv
  have hrad := stress_radicand a b c d e f
  set S : ℚ := (a - 1 / 3 * (a + b + c)) ^ 2 + (b - 1 / 3 * (a + b + c)) ^ 2
          + (c - 1 / 3 * (a + b + c)) ^ 2 + 2 * d ^ 2 + 2 * e ^ 2 + 2 * f ^ 2 with hS
  have hpos : 0 ≤ 3 / 2 * S := by rw [hS]; positivity
  have hj : J2_stress [a, b, c, d, e, f] = some (1 / 2 * S) := by
    simp only [J2_stress, dev_six, List.length_cons, List.length_nil, if_true, Option.map_some',
      hrad]
  have hm : Mises_stress sqrt [a, b, c, d, e, f] = some (sqrt ((3 / 2 * S : ℚ) : K)) := by
    simp only [Mises_stress, dev_six, List.length_cons, List.length_nil, if_true,
      Option.map_some', hrad]
  obtain ⟨h1, h2⟩ := is_sqrt_sq hs (3 / 2 * S) hpos
  refine ⟨_, _, _, _, dev_six a b c d e f, v2t_stress_six _ _ _ _ _ _, hm, hj, ?_, ?_, h2⟩
  · rw [h1]
    congr 1
    simp [Finset.sum_range_succ, mat.elem]
    rw [hS]
    ring
  · rw [h1]
    congr 1
    ring

/-- The Mises strain: its square is four thirds of `J2_strain` and two thirds
of the sum of the squares of the deviatoric strain tensor. -/
theorem mises_strain_spec {K : Type} [LinearOrderedField K] (sqrt : K → K)
    (hs : is_sqrt sqrt) (v : List ℚ) (hv : v.length = 6) :
    ∃ d s m j2, dev v = some d ∧ v2t_strain d = some s ∧
      Mises_strain sqrt v = some m ∧ J2_strain v = some j2 ∧
      m ^ 2 = ((2 / 3 * ∑ i in Finset.range 3, ∑ j in Finset.range 3, s.elem i j ^ 2 : ℚ) : K) ∧
      m ^ 2 = ((4 / 3 * j2 : ℚ) : K) ∧ 0 ≤ m := by
  obtain ⟨a, b, c, d, e, f, rfl⟩ := length_six hv
  have hrad := strain_radicand a b c d e f
  set S : ℚ := (a - 1 / 3 * (a + b + c)) ^ 2 + (b - 1 / 3 * (a + b + c)) ^ 2
          + (c - 1 / 3 * (a + b + c)) ^ 2 + 1 / 2 * d ^ 2 + 1 / 2 * e ^ 2
          + 1 / 2 * f ^ 2 with hS
  have hpos : 0 ≤ 2 / 3 * S := by rw [hS]; positivity
  have hj : J2_strain [a, b, c, d, e, f] = some (1 / 2 * S) := by
    simp only [J2_strain, dev_six, List.length_cons, List.length_nil, if_true, Option.map_some',
      hrad]
  have hm : Mises_strain sqrt [a, b, c, d, e, f] = some (sqrt ((2 / 3 * S : ℚ) : K)) := by
    simp only [Mises_strain, dev_six, List.length_cons, List.length_nil, if_true,
      Option.map_some', hrad]
  obtain ⟨h1, h2⟩ := is_sqrt_sq hs (2 / 3 * S) hpos
  refine ⟨_, _, _, _, dev_six a b c d e f, v2t_strain_six _ _ _ _ _ _, hm, hj, ?_, ?_, h2⟩
  · rw [h1]
    congr 1
    simp [Finset.sum_range_succ, mat.elem]
    rw [hS]
    ring
  · rw [h1]
    congr 1
    ring

/-- The square root of the real numbers meets the contract of `sqrt`. -/
theorem real_sqrt_is_sqrt : is_sqrt Real.sqrt :=
  fun x hx => ⟨Real.sqrt_nonneg x, Real.mul_self_sqrt hx⟩


/-- The direction of the normal to an ellipsoid is not the zero vector: the
sum of the squares of its entries is positive. -/
theorem normal_dir_pos {K : Type} [LinearOrderedField K] (cu su cv sv a1 a2 a3 : K)
    (h1 : a1 ≠ 0) (h2 : a2 ≠ 0) (h3 : a3 ≠ 0)
    (hu : cu ^ 2 + su ^ 2 = 1) (hv : cv ^ 2 + sv ^ 2 = 1) :
    0 < (cu * sv / a1) ^ 2 + (su * sv / a2) ^ 2 + (cv / a3) ^ 2 := by
  have e1 := sq_nonneg (cu * sv / a1)
  have e2 := sq_nonneg (su * sv / a2)
  have e3 := sq_nonneg (cv / a3)
  by_contra hneg
  have z1 : (cu * sv / a1) ^ 2 = 0 := by linarith
  have z2 : (su * sv / a2) ^ 2 = 0 := by linarith
  have z3 : (cv / a3) ^ 2 = 0 := by linarith
  have c0 : cv = 0 := by
    rcases div_eq_zero_iff.mp (pow_eq_zero_iff (two_ne_zero) |>.mp z3) with h | h
    · exact h
    · exact absurd h h3
  have s1 : sv ^ 2 = 1 := by rw [c0] at hv; simpa using hv
  have svne : sv ≠ 0 := by
    intro h; rw [h] at s1; norm_num at s1
  have cu0 : cu = 0 := by
    rcases div_eq_zero_iff.mp (pow_eq_zero_iff (two_ne_zero) |>.mp z1) with h | h
    · rcases mul_eq_zero.mp h with h | h
      · exact h
      · exact absurd h svne
    · exact absurd h h1
  have su0 : su = 0 := by
    rcases div_eq_zero_iff.mp (pow_eq_zero_iff (two_ne_zero) |>.mp z2) with h | h
    · rcases mul_eq_zero.mp h with h | h
      · exact h
      · exact absurd h svne
    · exact absurd h h2
  rw [cu0, su0] at hu
  norm_num at hu

/-- A checked division by a non-zero divisor. -/
theorem div_checked_some {K : Type} [LinearOrderedField K] (a b : K) (hb : b ≠ 0) :
    div_checked a b = some (a / b) := by
  simp only [div_checked, if_neg hb]

/-- The normal to an ellipsoid with non-zero semi-axes: every division of the
call has a non-zero divisor, the result is the direction
`(cos u sin v / a1, sin u sin v / a2, cos v / a3)` divided by its positive
norm, and it has length one. -/
theorem normal_ellipsoid_spec {K : Type} [LinearOrderedField K] (sqrt cos sin : K → K)
    (hs : is_sqrt sqrt) (htrig : ∀ t, cos t ^ 2 + sin t ^ 2 = 1)
    (u v a1 a2 a3 : K) (h1 : a1 ≠ 0) (h2 : a2 ≠ 0) (h3 : a3 ≠ 0) :
    ∃ n r, 0 < n ∧
      n ^ 2 = (cos u * sin v / a1) ^ 2 + (sin u * sin v / a2) ^ 2 + (cos v / a3) ^ 2 ∧
      normal_ellipsoid sqrt cos sin u v a1 a2 a3 = some r ∧
      r = [cos u * sin v / a1 / n, sin u * sin v / a2 / n, cos v / a3 / n] ∧
      r.getD 0 0 ^ 2 + r.getD 1 0 ^ 2 + r.getD 2 0 ^ 2 = 1 ∧
      norm2 sqrt r = 1 := by
  have hN := normal_dir_pos (cos u) (sin u) (cos v) (sin v) a1 a2 a3 h1 h2 h3 (htrig u) (htrig v)
  have d1 : a1 * cos u * sin v / (a1 * a1) = cos u * sin v / a1 := by field_simp; ring
  have d2 : a2 * sin u * sin v / (a2 * a2) = sin u * sin v / a2 := by field_simp; ring
  have d3 : a3 * cos v / (a3 * a3) = cos v / a3 := by field_simp; ring
  generalize cos u * sin v / a1 = x at hN d1 ⊢
  generalize sin u * sin v / a2 = y at hN d2 ⊢
  generalize cos v / a3 = z at hN d3 ⊢
  have hsum : ([x, y, z].map (fun c => c * c)).sum = x ^ 2 + y ^ 2 + z ^ 2 := by
    simp only [List.map_cons, List.map_nil, List.sum_cons, List.sum_nil]
    ring
  obtain ⟨hn0, hnn⟩ := hs (x ^ 2 + y ^ 2 + z ^ 2) hN.le
  have hnpos : 0 < sqrt (x ^ 2 + y ^ 2 + z ^ 2) := by
    rcases lt_or_eq_of_le hn0 with h | h
    · exact h
    · exfalso
      rw [← h] at hnn
      simp at hnn
      linarith
  have hne : sqrt (x ^ 2 + y ^ 2 + z ^ 2) ≠ 0 := ne_of_gt hnpos
  have hrun : normal_ellipsoid sqrt cos sin u v a1 a2 a3
      = some [x / sqrt (x ^ 2 + y ^ 2 + z ^ 2), y / sqrt (x ^ 2 + y ^ 2 + z ^ 2),
          z / sqrt (x ^ 2 + y ^ 2 + z ^ 2)] := by
    unfold normal_ellipsoid
    simp only [div_checked_some _ _ (mul_ne_zero h1 h1), div_checked_some _ _ (mul_ne_zero h2 h2),
      div_checked_some _ _ (mul_ne_zero h3 h3), Option.some_bind, d1, d2, d3]
    have hl : ((List.replicate 3 (0 : K)).set 0 x |>.set 1 y |>.set 2 z) = [x, y, z] := rfl
    rw [hl]
    simp only [norm2, hsum]
    simp [List.range', div_checked_some _ _ hne]
  have hone : (x / sqrt (x ^ 2 + y ^ 2 + z ^ 2)) ^ 2 + (y / sqrt (x ^ 2 + y ^ 2 + z ^ 2)) ^ 2
      + (z / sqrt (x ^ 2 + y ^ 2 + z ^ 2)) ^ 2 = 1 := by
    rw [div_pow, div_pow, div_pow, ← add_div, ← add_div, pow_two (sqrt (x ^ 2 + y ^ 2 + z ^ 2)),
      hnn]
    exact div_self (ne_of_gt hN)
  refine ⟨sqrt (x ^ 2 + y ^ 2 + z ^ 2), _, hnpos, by rw [pow_two]; exact hnn, hrun, rfl, hone, ?_⟩
  have hsum2 : ([x / sqrt (x ^ 2 + y ^ 2 + z ^ 2), y / sqrt (x ^ 2 + y ^ 2 + z ^ 2),
      z / sqrt (x ^ 2 + y ^ 2 + z ^ 2)].map (fun c => c * c)).sum = 1 := by
    simp only [List.map_cons, List.map_nil, List.sum_cons, List.sum_nil]
    rw [← hone]
    ring
  simp only [norm2, hsum2]
  obtain ⟨q0, q1⟩ := hs 1 zero_le_one
  nlinarith

/-- The square of `2 ^ (-600)` underflows to zero in the arithmetic of
`double`, while `2 ^ (-600)` itself is a `double` other than zero. -/
theorem square_underflow :
    round64 ((2 : ℚ) ^ (-600 : Int)) = 2 ^ (-600 : Int) ∧ (2 : ℚ) ^ (-600 : Int) ≠ 0 ∧
      round64 ((2 : ℚ) ^ (-600 : Int) * 2 ^ (-600 : Int)) = 0 := by
  refine ⟨?_, (ulp_pos _).ne', ?_⟩
  · have := round64_fixed 1 (-600) (by norm_num) (by norm_num)
    simpa using this
  · have e : (2 : ℚ) ^ (-600 : Int) * 2 ^ (-600 : Int) = 2 ^ (-1200 : Int) := by
      rw [← zpow_add₀ (by norm_num)]
      norm_num
    have h := round64_eval_subnormal ((2 : ℚ) ^ (-1200 : Int)) 0 (ulp_pos _).ne'
      (by rw [abs_of_pos (ulp_pos _)]; exact zpow_lt_zpow_right₀ (by norm_num) (by norm_num))
      (by
        rw [Int.cast_zero, sub_zero, ← zpow_sub₀ (by norm_num), abs_of_pos (ulp_pos _)]
        calc (2 : ℚ) ^ ((-1200 : Int) - -1074) < 2 ^ (-1 : Int) :=
              zpow_lt_zpow_right₀ (by norm_num) (by norm_num)
          _ = 1 / 2 := by norm_num)
    rw [e, h]
    simp

/-- In the arithmetic of `double` the call of `normal_ellipsoid` returns no
vector when the square of a semi-axis is zero. -/
theorem normal_ellipsoid_double_none (cos sin : ℚ → ℚ) (norm : List ℚ → ℚ)
    (u v a1 a2 a3 : ℚ)
    (h : round64 (a1 * a1) = 0 ∨ round64 (a2 * a2) = 0 ∨ round64 (a3 * a3) = 0) :
    normal_ellipsoid_double cos sin norm u v a1 a2 a3 = none := by
  unfold normal_ellipsoid_double
  simp only
  rcases h with h | h | h
  · simp [div_checked, h]
  · cases div_checked (round64 (round64 (a1 * cos u) * sin v)) (round64 (a1 * a1)) with
    | none => rfl
    | some n0 => simp [div_checked, h]
  · cases div_checked (round64 (round64 (a1 * cos u) * sin v)) (round64 (a1 * a1)) with
    | none => rfl
    | some n0 =>
      cases div_checked (round64 (round64 (a2 * sin u) * sin v)) (round64 (a2 * a2)) with
      | none => rfl
      | some n1 => simp [div_checked, h]

/-- The vector returned by `Inv_X`. -/
theorem Inv_X_eq (X : mat) :
    Inv_X X = [trace X, trace X ^ 2 + trace (X.mul X), det X] := rfl

/-- Run of `Inv_X` on the identity tensor. -/
theorem Inv_X_identity : Inv_X ⟨3, 3, [1, 0, 0, 0, 1, 0, 0, 0, 1]⟩ = [3, 12, 1] := by
  simp [Inv_X_eq, trace, det, mat.mul, mat.elem, List.range_succ]
  norm_num

/-! ## Claims on the invariants of the continuum-mechanics library -/

/-- Claim C25. `Inv_X` stores `trace(X)` in `I(0)` and `det(X)` in `I(2)`, but
`I(1)` is `trace(X)^2 + trace(X*X)`, not the second principal invariant
`1/2 * (trace(X)^2 - trace(X*X))`: on the identity the result is `(3, 12, 1)`,
where the principal invariants are `(3, 3, 1)`. -/
theorem C25_Inv_X_second_invariant :
    (∀ X : mat, Inv_X X = [trace X, trace X ^ 2 + trace (X.mul X), det X]) ∧
      Inv_X ⟨3, 3, [1, 0, 0, 0, 1, 0, 0, 0, 1]⟩ = [3, 12, 1] ∧
      Inv_X ⟨3, 3, [1, 0, 0, 0, 1, 0, 0, 0, 1]⟩ ≠ [3, 3, 1] ∧
      (1 / 2 : ℚ) * (trace ⟨3, 3, [1, 0, 0, 0, 1, 0, 0, 0, 1]⟩ ^ 2
        - trace ((⟨3, 3, [1, 0, 0, 0, 1, 0, 0, 0, 1]⟩ : mat).mul
            ⟨3, 3, [1, 0, 0, 0, 1, 0, 0, 0, 1]⟩)) = 3 := by
  refine ⟨Inv_X_eq, Inv_X_identity, ?_, ?_⟩
  · rw [Inv_X_identity]
    intro h
    have h2 := congrArg (fun l : List ℚ => l.getD 1 0) h
    norm_num at h2
  · simp [trace, mat.mul, mat.elem, List.range_succ]
    norm_num

/-- Claim C26. For every Voigt vector `v` of six entries, `dev(v)` has trace
zero, its shear entries 3..5 are those of `v`, `v - dev(v)` is
`(tr(v)/3) * (1,1,1,0,0,0)`, and `dev(dev(v)) = dev(v)`. -/
theorem C26_dev_deviatoric (v : List ℚ) (hv : v.length = 6) :
    ∃ d t, dev v = some d ∧ tr v = some t ∧ d.length = 6 ∧ tr d = some 0 ∧
      (∀ i, 3 ≤ i → i < 6 → d.getD i 0 = v.getD i 0) ∧
      List.zipWith (fun x y => x - y) v d
        = List.map (fun e => t / 3 * e) [1, 1, 1, 0, 0, 0] ∧
      dev d = some d :=
  dev_spec v hv

/-- Deviator of the vector `(1, 2, 3, 4, 5, 6)`. -/
theorem C26_dev_deviatoric_witness :
    (([1, 2, 3, 4, 5, 6] : List ℚ).length = 6 ∧
      dev [1, 2, 3, 4, 5, 6] = some [-1, 0, 1, 4, 5, 6]) ∧
    ∃ d t, dev [1, 2, 3, 4, 5, 6] = some d ∧ tr [1, 2, 3, 4, 5, 6] = some t ∧
      d.length = 6 ∧ tr d = some 0 ∧
      (∀ i, 3 ≤ i → i < 6 → d.getD i 0 = ([1, 2, 3, 4, 5, 6] : List ℚ).getD i 0) ∧
      List.zipWith (fun x y => x - y) [1, 2, 3, 4, 5, 6] d
        = List.map (fun e => t / 3 * e) [1, 1, 1, 0, 0, 0] ∧
      dev d = some d :=
  ⟨⟨rfl, by rw [dev_six]; norm_num⟩, C26_dev_deviatoric [1, 2, 3, 4, 5, 6] rfl⟩

/-- Claim C27. For every stress Voigt vector `v` of six entries, with
`s = v2t_stress(dev(v))` the deviatoric stress tensor,
`Mises_stress(v)^2 = 3/2 * sum_{i,j} s_ij^2 = 3 * J2_stress(v)` and
`Mises_stress(v) >= 0`, for every `sqrt` that returns non-negative square
roots. -/
theorem C27_Mises_stress_equivalent {K : Type} [LinearOrderedField K] (sqrt : K → K)
    (hs : is_sqrt sqrt) (v : List ℚ) (hv : v.length = 6) :
    ∃ d s m j2, dev v = some d ∧ v2t_stress d = some s ∧
      Mises_stress sqrt v = some m ∧ J2_stress v = some j2 ∧
      m ^ 2 = ((3 / 2 * ∑ i in Finset.range 3, ∑ j in Finset.range 3, s.elem i j ^ 2 : ℚ) : K) ∧
      m ^ 2 = ((3 * j2 : ℚ) : K) ∧ 0 ≤ m :=
  mises_stress_spec sqrt hs v hv

/-- Pure shear `(0, 0, 0, 1, 0, 0)` over the real numbers: the radicand is 3,
not the square of a rational number, and the Mises stress is its real square
root. -/
theorem C27_Mises_stress_equivalent_witness :
    (is_sqrt Real.sqrt ∧ ([0, 0, 0, 1, 0, 0] : List ℚ).length = 6 ∧
      Mises_stress Real.sqrt [0, 0, 0, 1, 0, 0] = some (Real.sqrt 3) ∧
      J2_stress [0, 0, 0, 1, 0, 0] = some 1) ∧
    ∃ d s m j2, dev [0, 0, 0, 1, 0, 0] = some d ∧ v2t_stress d = some s ∧
      Mises_stress Real.sqrt [0, 0, 0, 1, 0, 0] = some m ∧
      J2_stress [0, 0, 0, 1, 0, 0] = some j2 ∧
      m ^ 2 = ((3 / 2 * ∑ i in Finset.range 3, ∑ j in Finset.range 3, s.elem i j ^ 2 : ℚ) : ℝ) ∧
      m ^ 2 = ((3 * j2 : ℚ) : ℝ) ∧ 0 ≤ m :=
  ⟨⟨real_sqrt_is_sqrt, rfl,
      by
        simp only [Mises_stress, dev_six, List.length_cons, List.length_nil, if_true,
          Option.map_some', stress_radicand]
        norm_num,
      by
        simp only [J2_stress, dev_six, List.length_cons, List.length_nil, if_true,
          Option.map_some', stress_radicand]
        norm_num⟩,
    C27_Mises_stress_equivalent Real.sqrt real_sqrt_is_sqrt [0, 0, 0, 1, 0, 0] rfl⟩

/-- Claim C28. For every strain Voigt vector `v` of six entries (engineering
shear), with `e = v2t_strain(dev(v))` the deviatoric strain tensor,
`Mises_strain(v)^2 = 2/3 * sum_{i,j} e_ij^2 = 4/3 * J2_strain(v)` (and
`Mises_strain(v) >= 0`), for every `sqrt` that returns non-negative square
roots. -/
theorem C28_Mises_strain_equivalent {K : Type} [LinearOrderedField K] (sqrt : K → K)
    (hs : is_sqrt sqrt) (v : List ℚ) (hv : v.length = 6) :
    ∃ d s m j2, dev v = some d ∧ v2t_strain d = some s ∧
      Mises_strain sqrt v = some m ∧ J2_strain v = some j2 ∧
      m ^ 2 = ((2 / 3 * ∑ i in Finset.range 3, ∑ j in Finset.range 3, s.elem i j ^ 2 : ℚ) : K) ∧
      m ^ 2 = ((4 / 3 * j2 : ℚ) : K) ∧ 0 ≤ m :=
  mises_strain_spec sqrt hs v hv

/-- Pure shear strain `(0, 0, 0, 1, 0, 0)` over the real numbers: the radicand
is `1/3` and the Mises strain is its real square root. -/
theorem C28_Mises_strain_equivalent_witness :
    (is_sqrt Real.sqrt ∧ ([0, 0, 0, 1, 0, 0] : List ℚ).length = 6 ∧
      Mises_strain Real.sqrt [0, 0, 0, 1, 0, 0] = some (Real.sqrt (1 / 3)) ∧
      J2_strain [0, 0, 0, 1, 0, 0] = some (1 / 4)) ∧
    ∃ d s m j2, dev [0, 0, 0, 1, 0, 0] = some d ∧ v2t_strain d = some s ∧
      Mises_strain Real.sqrt [0, 0, 0, 1, 0, 0] = some m ∧
      J2_strain [0, 0, 0, 1, 0, 0] = some j2 ∧
      m ^ 2 = ((2 / 3 * ∑ i in Finset.range 3, ∑ j in Finset.range 3, s.elem i j ^ 2 : ℚ) : ℝ) ∧
      m ^ 2 = ((4 / 3 * j2 : ℚ) : ℝ) ∧ 0 ≤ m :=
  ⟨⟨real_sqrt_is_sqrt, rfl,
      by
        simp only [Mises_strain, dev_six, List.length_cons, List.length_nil, if_true,
          Option.map_some', strain_radicand]
        norm_num,
      by
        simp only [J2_strain, dev_six, List.length_cons, List.length_nil, if_true,
          Option.map_some', strain_radicand]
        norm_num⟩,
    C28_Mises_strain_equivalent Real.sqrt real_sqrt_is_sqrt [0, 0, 0, 1, 0, 0] rfl⟩

/-- Claim C29. For every Voigt vector `v` of six entries, `J3_stress(v)` is the
determinant of `v2t_stress(dev(v))` and `J3_strain(v)` is the determinant of
`v2t_strain(dev(v))`; each determinant is a third of the trace of the cube of
the deviatoric tensor. -/
theorem C29_J3_determinant (v : List ℚ) (hv : v.length = 6) :
    (∃ d s, dev v = some d ∧ v2t_stress d = some s ∧
      J3_stress v = some (det s) ∧ det s = 1 / 3 * trace (s.mul (s.mul s))) ∧
    (∃ d e, dev v = some d ∧ v2t_strain d = some e ∧
      J3_strain v = some (det e) ∧ det e = 1 / 3 * trace (e.mul (e.mul e))) :=
  ⟨J3_stress_spec v hv, J3_strain_spec v hv⟩

/-- Third invariants of the vector `(1, 2, 3, 4, 5, 6)`. -/
theorem C29_J3_determinant_witness :
    ([1, 2, 3, 4, 5, 6] : List ℚ).length = 6 ∧
    (∃ d s, dev [1, 2, 3, 4, 5, 6] = some d ∧ v2t_stress d = some s ∧
      J3_stress [1, 2, 3, 4, 5, 6] = some (det s) ∧
      det s = 1 / 3 * trace (s.mul (s.mul s))) ∧
    (∃ d e, dev [1, 2, 3, 4, 5, 6] = some d ∧ v2t_strain d = some e ∧
      J3_strain [1, 2, 3, 4, 5, 6] = some (det e) ∧
      det e = 1 / 3 * trace (e.mul (e.mul e))) :=
  ⟨rfl, C29_J3_determinant [1, 2, 3, 4, 5, 6] rfl⟩

/-- C30, as stated, fails in the arithmetic of `double`: the semi-axes
`a1 = a2 = a3 = 2 ^ (-600)` are `double` values other than zero, but the
divisor `a1*a1` of the first division underflows to zero, so that for all
angles the call returns no vector (the source then divides by zero and the
normalisation yields NaN entries). -/
theorem C30_counterexample :
    round64 ((2 : ℚ) ^ (-600 : Int)) = 2 ^ (-600 : Int) ∧ (2 : ℚ) ^ (-600 : Int) ≠ 0 ∧
    round64 ((2 : ℚ) ^ (-600 : Int) * 2 ^ (-600 : Int)) = 0 ∧
    ∀ (cos sin : ℚ → ℚ) (norm : List ℚ → ℚ) (u v : ℚ),
      normal_ellipsoid_double cos sin norm u v (2 ^ (-600 : Int)) (2 ^ (-600 : Int))
        (2 ^ (-600 : Int)) = none :=
  ⟨square_underflow.1, square_underflow.2.1, square_underflow.2.2,
    fun cos sin norm u v => normal_ellipsoid_double_none cos sin norm u v _ _ _
      (Or.inl square_underflow.2.2)⟩

/-- C30 (amended). In exact arithmetic, for all angles `u`, `v` and all
non-zero semi-axes, for every `sqrt` that returns non-negative square roots
and every `cos`, `sin` with `cos^2 + sin^2 = 1`: the vector that
`normal_ellipsoid` builds before the normalisation is not zero (its norm `n`
is positive, so every division of the call has a non-zero divisor and the
call returns), and the result is
`(cos u sin v / a1, sin u sin v / a2, cos v / a3)` divided by `n`, a vector of
norm exactly 1 parallel to that direction. In the arithmetic of `double` the
call returns a vector only if none of the squares `a1*a1`, `a2*a2`, `a3*a3`
rounds to zero. -/
theorem C30_normal_ellipsoid_unit {K : Type} [LinearOrderedField K] (sqrt cos sin : K → K)
    (hs : is_sqrt sqrt) (htrig : ∀ t, cos t ^ 2 + sin t ^ 2 = 1)
    (u v a1 a2 a3 : K) (h1 : a1 ≠ 0) (h2 : a2 ≠ 0) (h3 : a3 ≠ 0) :
    (∃ n r, 0 < n ∧
      n ^ 2 = (cos u * sin v / a1) ^ 2 + (sin u * sin v / a2) ^ 2 + (cos v / a3) ^ 2 ∧
      normal_ellipsoid sqrt cos sin u v a1 a2 a3 = some r ∧
      r = [cos u * sin v / a1 / n, sin u * sin v / a2 / n, cos v / a3 / n] ∧
      r.getD 0 0 ^ 2 + r.getD 1 0 ^ 2 + r.getD 2 0 ^ 2 = 1 ∧
      norm2 sqrt r = 1) ∧
    ∀ (cosd sind : ℚ → ℚ) (normd : List ℚ → ℚ) (ud vd b1 b2 b3 : ℚ),
      normal_ellipsoid_double cosd sind normd ud vd b1 b2 b3 ≠ none →
      round64 (b1 * b1) ≠ 0 ∧ round64 (b2 * b2) ≠ 0 ∧ round64 (b3 * b3) ≠ 0 := by
  refine ⟨normal_ellipsoid_spec sqrt cos sin hs htrig u v a1 a2 a3 h1 h2 h3, ?_⟩
  intro cosd sind normd ud vd b1 b2 b3 hne
  refine ⟨fun h => hne ?_, fun h => hne ?_, fun h => hne ?_⟩
  · exact normal_ellipsoid_double_none _ _ _ _ _ _ _ _ (Or.inl h)
  · exact normal_ellipsoid_double_none _ _ _ _ _ _ _ _ (Or.inr (Or.inl h))
  · exact normal_ellipsoid_double_none _ _ _ _ _ _ _ _ (Or.inr (Or.inr h))

/-- The ellipsoid with semi-axes 1, 2 and 3 at the angles `u = 1`, `v = 1/2`,
with the square root, cosine and sine of the real numbers. -/
theorem C30_normal_ellipsoid_unit_witness :
    (is_sqrt Real.sqrt ∧ (∀ t : ℝ, Real.cos t ^ 2 + Real.sin t ^ 2 = 1) ∧
      (1 : ℝ) ≠ 0 ∧ (2 : ℝ) ≠ 0 ∧ (3 : ℝ) ≠ 0) ∧
    ∃ n r, 0 < n ∧
      n ^ 2 = (Real.cos 1 * Real.sin (1 / 2) / 1) ^ 2 + (Real.sin 1 * Real.sin (1 / 2) / 2) ^ 2
        + (Real.cos (1 / 2) / 3) ^ 2 ∧
      normal_ellipsoid Real.sqrt Real.cos Real.sin 1 (1 / 2) 1 2 3 = some r ∧
      r = [Real.cos 1 * Real.sin (1 / 2) / 1 / n, Real.sin 1 * Real.sin (1 / 2) / 2 / n,
        Real.cos (1 / 2) / 3 / n] ∧
      r.getD 0 0 ^ 2 + r.getD 1 0 ^ 2 + r.getD 2 0 ^ 2 = 1 ∧
      norm2 Real.sqrt r = 1 :=
  ⟨⟨real_sqrt_is_sqrt, Real.cos_sq_add_sin_sq, one_ne_zero, two_ne_zero, three_ne_zero⟩,
    (C30_normal_ellipsoid_unit Real.sqrt Real.cos Real.sin real_sqrt_is_sqrt
      Real.cos_sq_add_sin_sq 1 (1 / 2) 1 2 3 one_ne_zero two_ne_zero three_ne_zero).1⟩

/-! ## Ranking, cost and refinement step: properties -/

/-- The ranking is a stable sort by cost: sorted, a permutation, the
candidates of any one cost keep their order, and ranking twice is ranking
once. -/
theorem classify_spec (g : generation) :
    List.Sorted (fun a b => a.cout ≤ b.cout) g.classify.pop ∧
      List.Perm g.classify.pop g.pop ∧
      (∀ c : ℚ, g.classify.pop.filter (fun a => decide (a.cout = c))
        = g.pop.filter (fun a => decide (a.cout = c))) ∧
      g.classify.classify = g.classify ∧
      g.classify.nindividuals = g.nindividuals := by
  haveI : IsTotal individual (fun a b => a.cout ≤ b.cout) := ⟨fun a b => le_total _ _⟩
  haveI : IsTrans individual (fun a b => a.cout ≤ b.cout) :=
    ⟨fun a b c h1 h2 => le_trans h1 h2⟩
  have hs : List.Sorted (fun a b => a.cout ≤ b.cout) g.classify.pop :=
    List.sorted_insertionSort _ _
  have hp : List.Perm g.classify.pop g.pop := List.perm_insertionSort _ _
  refine ⟨hs, hp, ?_, ?_, rfl⟩
  · intro c
    have hpw : (g.pop.filter (fun a => decide (a.cout = c))).Pairwise
        (fun a b => a.cout ≤ b.cout) := by
      rw [List.pairwise_iff_forall_sublist]
      intro a b hab
      have ha : a ∈ g.pop.filter (fun a => decide (a.cout = c)) :=
        hab.subset (by simp)
      have hb : b ∈ g.pop.filter (fun a => decide (a.cout = c)) :=
        hab.subset (by simp)
      simp only [List.mem_filter, decide_eq_true_eq] at ha hb
      rw [ha.2, hb.2]
    have hsub : List.Sublist (g.pop.filter (fun a => decide (a.cout = c)))
        g.classify.pop :=
      List.sublist_insertionSort hpw (List.filter_sublist _)
    have hsub2 := hsub.filter (fun a => decide (a.cout = c))
    rw [List.filter_filter] at hsub2
    simp only [Bool.and_self] at hsub2
    have hlen := (hp.filter (fun a => decide (a.cout = c))).length_eq
    exact (hsub2.eq_of_length hlen.symm).symm
  · show ({ g.classify with pop := _ } : generation) = _
    have := List.Sorted.insertionSort_eq hs
    cases g
    simp only [generation.classify] at this ⊢
    rw [this]

/-- The flags of `checkS`: one per column, `0` exactly for the columns whose
entries all have a magnitude below the tolerance, `1` for the others. -/
theorem checkS_spec (tol : ℚ) (S : mat) (k : Nat) (hk : k < S.n_cols) :
    (checkS tol S).length = S.n_cols ∧
      ((checkS tol S).getD k 1 = 0 ↔ ∀ i, i < S.n_rows → |S.elem i k| < tol) ∧
      ((checkS tol S).getD k 0 = 1 ↔ ∃ i, i < S.n_rows ∧ tol ≤ |S.elem i k|) := by
  have hlen : (checkS tol S).length = S.n_cols := by simp [checkS]
  have hget : ∀ d : Int, (checkS tol S).getD k d
      = if (List.range S.n_rows).all (fun i => decide (|S.elem i k| < tol)) then 0 else 1 := by
    intro d
    rw [List.getD_eq_getElem _ _ (by rw [hlen]; exact hk)]
    simp [checkS]
  have hall : (List.range S.n_rows).all (fun i => decide (|S.elem i k| < tol)) = true
      ↔ ∀ i, i < S.n_rows → |S.elem i k| < tol := by
    simp [List.all_eq_true]
  refine ⟨hlen, ?_, ?_⟩
  · rw [hget, ← hall]
    split_ifs with h
    · simp [h]
    · simp [h]
  · rw [hget]
    split_ifs with h
    · have h2 := hall.mp h
      constructor
      · intro h0; exact absurd h0 (by decide)
      · rintro ⟨i, hi, hge⟩
        exact absurd (h2 i hi) (not_lt.mpr hge)
    · constructor
      · intro _
        by_contra hne
        apply h
        rw [hall]
        intro i hi
        by_contra hlt
        exact hne ⟨i, hi, not_lt.mp hlt⟩
      · intro _; rfl

/-- The cost of three vectors given by their entries is the sum of the terms
of the comparison points. -/
theorem calcC_ofFn (eps : ℚ) (n : Nat) (vexp vnum W : Fin n → ℚ) :
    calcC eps (List.ofFn vexp) (List.ofFn vnum) (List.ofFn W)
      = (List.ofFn (fun i => calcC_term eps (vexp i) (vnum i) (W i))).sum := by
  unfold calcC
  have e : List.ofFn (fun i => calcC_term eps (vexp i) (vnum i) (W i))
      = (List.finRange n).map (fun i => calcC_term eps (vexp i) (vnum i) (W i)) :=
    List.ofFn_eq_map
  rw [List.length_ofFn, e, ← List.map_coe_finRange, List.map_map]
  congr 1
  apply List.map_congr_left
  intro i _
  have hi := i.isLt
  simp only [Function.comp]
  rw [List.getD_eq_getElem _ _ (by simp [hi]), List.getD_eq_getElem _ _ (by simp [hi]),
    List.getD_eq_getElem _ _ (by simp [hi])]
  simp

/-- The cost does not depend on the order of the comparison points. -/
theorem calcC_perm (eps : ℚ) (n : Nat) (vexp vnum W : Fin n → ℚ)
    (σ : Equiv.Perm (Fin n)) :
    calcC eps (List.ofFn (fun i => vexp (σ i))) (List.ofFn (fun i => vnum (σ i)))
        (List.ofFn (fun i => W (σ i)))
      = calcC eps (List.ofFn vexp) (List.ofFn vnum) (List.ofFn W) := by
  rw [calcC_ofFn, calcC_ofFn]
  exact (Equiv.Perm.ofFn_comp_perm σ
    (fun i => calcC_term eps (vexp i) (vnum i) (W i))).sum_eq

/-- The projection on the interval of a parameter stays in the interval, and
leaves the points of the interval where they are. -/
theorem clip_spec (p : parameters) (x : ℚ) (h : p.min_value ≤ p.max_value) :
    p.min_value ≤ clip p x ∧ clip p x ≤ p.max_value ∧
      (p.min_value ≤ x → x ≤ p.max_value → clip p x = x) := by
  unfold clip
  refine ⟨le_max_left _ _, max_le h (min_le_left _ _), ?_⟩
  intro h1 h2
  rw [min_eq_right h2, max_eq_right h1]

/-- Entry `k` of the increment returned by `calcDp`. -/
theorem calcDp_getD (solve : mat → List ℚ → List ℚ) (S : mat) (W Dv p : List ℚ)
    (params : List parameters) (lambdaLM : ℚ) (n_param k : Nat) (hk : k < n_param) :
    (calcDp solve S W Dv p params lambdaLM n_param).getD k 0
      = clip (param_at params k)
          (p.getD k 0 + (solve (LevMarq (Hessian n_param S W) lambdaLM)
            ((G_cost n_param S W Dv).map (fun x => -x))).getD k 0) - p.getD k 0 := by
  unfold calcDp
  rw [List.getD_eq_getElem _ _ (by simpa using hk)]
  simp

/-! ## Claims on the ranking, the cost and the refinement step -/

/-- Claim C21. `generation.classify()` leaves the candidates in non-decreasing
cost order, as a permutation of the input population; the candidates of any
one cost keep their original relative order; and classifying twice gives the
same population as classifying once. The number of candidates is unchanged. -/
theorem C21_classify_stable_sort (g : generation) :
    List.Sorted (fun a b => a.cout ≤ b.cout) g.classify.pop ∧
      List.Perm g.classify.pop g.pop ∧
      (∀ c : ℚ, g.classify.pop.filter (fun a => decide (a.cout = c))
        = g.pop.filter (fun a => decide (a.cout = c))) ∧
      g.classify.classify = g.classify ∧
      g.classify.nindividuals = g.nindividuals :=
  classify_spec g

/-- Claim C22. Whatever the solver returns for the damped system, hence
however large the unconstrained step is, the increment `Dp` of `calcDp` keeps
every parameter `k` whose current value lies in `[min_k, max_k]` inside these
bounds: `min_k <= p_k + Dp_k <= max_k`. Where the unconstrained step already
stays inside the bounds it is returned unchanged. -/
theorem C22_calcDp_within_bounds (solve : mat → List ℚ → List ℚ) (S : mat)
    (W Dv p : List ℚ) (params : List parameters) (lambdaLM : ℚ) (n_param k : Nat)
    (hk : k < n_param)
    (hmin : (param_at params k).min_value ≤ p.getD k 0)
    (hmax : p.getD k 0 ≤ (param_at params k).max_value) :
    (calcDp solve S W Dv p params lambdaLM n_param).length = n_param ∧
      (param_at params k).min_value
        ≤ p.getD k 0 + (calcDp solve S W Dv p params lambdaLM n_param).getD k 0 ∧
      p.getD k 0 + (calcDp solve S W Dv p params lambdaLM n_param).getD k 0
        ≤ (param_at params k).max_value ∧
      ((param_at params k).min_value
          ≤ p.getD k 0 + (solve (LevMarq (Hessian n_param S W) lambdaLM)
              ((G_cost n_param S W Dv).map (fun x => -x))).getD k 0 →
        p.getD k 0 + (solve (LevMarq (Hessian n_param S W) lambdaLM)
              ((G_cost n_param S W Dv).map (fun x => -x))).getD k 0
          ≤ (param_at params k).max_value →
        (calcDp solve S W Dv p params lambdaLM n_param).getD k 0
          = (solve (LevMarq (Hessian n_param S W) lambdaLM)
              ((G_cost n_param S W Dv).map (fun x => -x))).getD k 0) := by
  have hb := clip_spec (param_at params k)
    (p.getD k 0 + (solve (LevMarq (Hessian n_param S W) lambdaLM)
      ((G_cost n_param S W Dv).map (fun x => -x))).getD k 0) (le_trans hmin hmax)
  rw [calcDp_getD solve S W Dv p params lambdaLM n_param k hk]
  refine ⟨by simp [calcDp], by linarith [hb.1], by linarith [hb.2.1], ?_⟩
  intro h1 h2
  rw [hb.2.2 h1 h2]
  ring

/-- Run of `calcDp` with one parameter in `[0, 1]` at `p = 0` and a solver that
proposes the step `100`: the increment is cut down to `1`. -/
theorem C22_calcDp_within_bounds_witness :
    (0 < 1 ∧ (param_at [⟨0, 1⟩] 0).min_value ≤ ([0] : List ℚ).getD 0 0 ∧
      ([0] : List ℚ).getD 0 0 ≤ (param_at [⟨0, 1⟩] 0).max_value ∧
      calcDp (fun _ _ => [100]) ⟨1, 1, [1]⟩ [1] [1] [0] [⟨0, 1⟩] 0 1 = [1]) ∧
    (param_at [⟨0, 1⟩] 0).min_value
      ≤ ([0] : List ℚ).getD 0 0
        + (calcDp (fun _ _ => [100]) ⟨1, 1, [1]⟩ [1] [1] [0] [⟨0, 1⟩] 0 1).getD 0 0 ∧
    ([0] : List ℚ).getD 0 0
        + (calcDp (fun _ _ => [100]) ⟨1, 1, [1]⟩ [1] [1] [0] [⟨0, 1⟩] 0 1).getD 0 0
      ≤ (param_at [⟨0, 1⟩] 0).max_value :=
  ⟨⟨by decide, by simp [param_at], by simp [param_at],
      by norm_num [calcDp, clip, param_at, List.range_succ]⟩,
    (C22_calcDp_within_bounds (fun _ _ => [100]) ⟨1, 1, [1]⟩ [1] [1] [0] [⟨0, 1⟩] 0 1 0
      (by decide) (by simp [param_at]) (by simp [param_at])).2.1,
    (C22_calcDp_within_bounds (fun _ _ => [100]) ⟨1, 1, [1]⟩ [1] [1] [0] [⟨0, 1⟩] 0 1 0
      (by decide) (by simp [param_at]) (by simp [param_at])).2.2.1⟩

/-- Claim C23. `checkS` flags column `k` of the sensitivity matrix as
degenerate (flag `0`) if and only if every entry of the column has a
magnitude below the tolerance; a column with an entry whose magnitude is at
or above the tolerance is never flagged (flag `1`). -/
theorem C23_checkS_degenerate_iff (tol : ℚ) (S : mat) (k : Nat) (hk : k < S.n_cols) :
    (checkS tol S).length = S.n_cols ∧
      ((checkS tol S).getD k 1 = 0 ↔ ∀ i, i < S.n_rows → |S.elem i k| < tol) ∧
      ((checkS tol S).getD k 0 = 1 ↔ ∃ i, i < S.n_rows ∧ tol ≤ |S.elem i k|) :=
  checkS_spec tol S k hk

/-- Run of `checkS` on a matrix whose first column is zero and whose second
column has one entry equal to the tolerance. -/
theorem C23_checkS_degenerate_iff_witness :
    (1 < (⟨2, 2, [0, 0, 0, 1 / 1000]⟩ : mat).n_cols ∧
      checkS (1 / 1000) ⟨2, 2, [0, 0, 0, 1 / 1000]⟩ = [0, 1]) ∧
    ((checkS (1 / 1000) ⟨2, 2, [0, 0, 0, 1 / 1000]⟩).getD 1 0 = 1 ↔
      ∃ i, i < (⟨2, 2, [0, 0, 0, 1 / 1000]⟩ : mat).n_rows ∧
        (1 / 1000 : ℚ) ≤ |(⟨2, 2, [0, 0, 0, 1 / 1000]⟩ : mat).elem i 1|) :=
  ⟨⟨by decide, by
      norm_num [checkS, mat.elem, List.range_succ, abs_of_pos]⟩,
    (C23_checkS_degenerate_iff (1 / 1000) ⟨2, 2, [0, 0, 0, 1 / 1000]⟩ 1 (by decide)).2.2⟩

/-- Claim C24. `calcC` is permutation invariant: for three vectors of the same
length `n` (experimental, numerical, weight) and every permutation `σ` of the
indices, the cost of the three vectors permuted by `σ` is the cost of the
original vectors. -/
theorem C24_calcC_permutation_invariant (eps : ℚ) (n : Nat)
    (vexp vnum W : Fin n → ℚ) (σ : Equiv.Perm (Fin n)) :
    calcC eps (List.ofFn (fun i => vexp (σ i))) (List.ofFn (fun i => vnum (σ i)))
        (List.ofFn (fun i => W (σ i)))
      = calcC eps (List.ofFn vexp) (List.ofFn vnum) (List.ofFn W) :=
  calcC_perm eps n vexp vnum W σ

/-- Closed form of `t2v_stress` on a 3x3 matrix given column by column. -/
theorem t2v_stress_nine (a b c d e f g h k : ℚ) :
    t2v_stress ⟨3, 3, [a, b, c, d, e, f, g, h, k]⟩
      = some [a, e, k, 1 / 2 * (d + b), 1 / 2 * (g + c), 1 / 2 * (h + f)] := rfl

/-- Closed form of `t2v_strain` on a 3x3 matrix given column by column. -/
theorem t2v_strain_nine (a b c d e f g h k : ℚ) :
    t2v_strain ⟨3, 3, [a, b, c, d, e, f, g, h, k]⟩
      = some [a, e, k, d + b, g + c, h + f] := rfl

/-- With three entries `p_ikjl` reaches an access out of bounds. -/
theorem p_ikjl_three (x y z : ℚ) : p_ikjl [x, y, z] = none := rfl

/-- The nine entries of the table `Id`, column by column, as indices. -/
theorem p_ikjl_Id_values :
    (List.range 9).map (fun t => trunc (p_ikjl_Id.elem (t % 3) (t / 3)))
      = [0, 3, 4, 3, 1, 5, 4, 5, 2] := rfl

/-- With six entries every access of `p_ikjl` is within bounds and the result
is a 6x6 matrix. -/
theorem p_ikjl_six (a0 a1 a2 a3 a4 a5 : ℚ) :
    ∃ F, p_ikjl [a0, a1, a2, a3, a4, a5] = some F ∧ F.n_rows = 6 ∧ F.n_cols = 6 :=
  ⟨_, rfl, rfl, rfl⟩

/-- A well-formed 3x3 matrix, spelled out. -/
theorem mat_nine {M : mat} (hr : M.n_rows = 3) (hc : M.n_cols = 3) (hw : M.wf) :
    ∃ a b c d e f g h k, M = ⟨3, 3, [a, b, c, d, e, f, g, h, k]⟩ := by
  obtain ⟨r, c, mem⟩ := M
  simp only at hr hc
  subst hr hc
  have hl : mem.length = 9 := hw
  match mem, hl with
  | [a, b, c, d, e, f, g, h, k], _ => exact ⟨a, b, c, d, e, f, g, h, k, rfl⟩

/-- Round trips through the Voigt notation, starting from a vector. -/
theorem voigt_round_trip_vec (v : List ℚ) (hv : v.length = 6) :
    (∃ s, v2t_stress v = some s ∧ s.n_rows = 3 ∧ s.n_cols = 3 ∧ s.wf ∧
        (∀ i j, i < 3 → j < 3 → s.elem i j = s.elem j i) ∧ t2v_stress s = some v) ∧
      (∃ e, v2t_strain v = some e ∧ e.n_rows = 3 ∧ e.n_cols = 3 ∧ e.wf ∧
        (∀ i j, i < 3 → j < 3 → e.elem i j = e.elem j i) ∧ t2v_strain e = some v) := by
  obtain ⟨a, b, c, d, e, f, rfl⟩ := length_six hv
  refine ⟨⟨_, v2t_stress_six a b c d e f, rfl, rfl, rfl, ?_, ?_⟩,
    ⟨_, v2t_strain_six a b c d e f, rfl, rfl, rfl, ?_, ?_⟩⟩
  · intro i j hi hj
    interval_cases i <;> interval_cases j <;> rfl
  · rw [t2v_stress_nine]
    have e1 : (1 / 2 : ℚ) * (d + d) = d := by ring
    have e2 : (1 / 2 : ℚ) * (e + e) = e := by ring
    have e3 : (1 / 2 : ℚ) * (f + f) = f := by ring
    rw [e1, e2, e3]
  · intro i j hi hj
    interval_cases i <;> interval_cases j <;> rfl
  · rw [t2v_strain_nine]
    have e1 : (1 / 2 : ℚ) * d + 1 / 2 * d = d := by ring
    have e2 : (1 / 2 : ℚ) * e + 1 / 2 * e = e := by ring
    have e3 : (1 / 2 : ℚ) * f + 1 / 2 * f = f := by ring
    rw [e1, e2, e3]

/-- Round trips through the Voigt notation, starting from a symmetric matrix. -/
theorem voigt_round_trip_mat (M : mat) (hr : M.n_rows = 3) (hc : M.n_cols = 3)
    (hw : M.wf) (hsym : ∀ i j, i < 3 → j < 3 → M.elem i j = M.elem j i) :
    (∃ v, t2v_stress M = some v ∧ v.length = 6 ∧ v2t_stress v = some M) ∧
      (∃ v, t2v_strain M = some v ∧ v.length = 6 ∧ v2t_strain v = some M) := by
  obtain ⟨a, b, c, d, e, f, g, h, k, rfl⟩ := mat_nine hr hc hw
  have h01 : d = b := hsym 0 1 (by decide) (by decide)
  have h02 : g = c := hsym 0 2 (by decide) (by decide)
  have h12 : h = f := hsym 1 2 (by decide) (by decide)
  subst h01 h02 h12
  refine ⟨⟨_, t2v_stress_nine _ _ _ _ _ _ _ _ _, rfl, ?_⟩,
    ⟨_, t2v_strain_nine _ _ _ _ _ _ _ _ _, rfl, ?_⟩⟩
  · rw [v2t_stress_six]
    have e1 : (1 / 2 : ℚ) * (d + d) = d := by ring
    have e2 : (1 / 2 : ℚ) * (g + g) = g := by ring
    have e3 : (1 / 2 : ℚ) * (h + h) = h := by ring
    rw [e1, e2, e3]
  · rw [v2t_strain_six]
    have e1 : (1 / 2 : ℚ) * (d + d) = d := by ring
    have e2 : (1 / 2 : ℚ) * (g + g) = g := by ring
    have e3 : (1 / 2 : ℚ) * (h + h) = h := by ring
    rw [e1, e2, e3]

/-- Conversion of the indices `0`, `1`, `2` held in a `double`. -/
theorem trunc_small : trunc 0 = 0 ∧ trunc 1 = 1 ∧ trunc 2 = 2 := by
  refine ⟨?_, ?_, ?_⟩ <;> simp [trunc]

/-- A vector of eight entries, spelled out. -/
theorem length_eight {v : List ℚ} (h : v.length = 8) :
    ∃ a b c d e f g k, v = [a, b, c, d, e, f, g, k] := by
  match v, h with
  | [a, b, c, d, e, f, g, k], _ => exact ⟨a, b, c, d, e, f, g, k, rfl⟩

/-- The 3D branch of the law once the thermal expansion vector is built: the
four size checks in the order in which the code meets them. -/
theorem umat_3d_axis (L_isotrans : ℚ → ℚ → ℚ → ℚ → ℚ → ℚ → mat)
    (DEtot : List ℚ) (DT : ℚ) (ndi : Int) (start : Bool) (s : umat_vars)
    (axis : Nat) (EL ET nuTL nuTT GLT alphaL alphaT : ℚ)
    (hax : axis = 1 ∨ axis = 2 ∨ axis = 3) (h1 : ndi ≠ 1) (h2 : ndi ≠ 2) :
    umat_elasticity_trans_iso L_isotrans [1, 1, 1, 0, 0, 0] DEtot
        [(axis : ℚ), EL, ET, nuTL, nuTT, GLT, alphaL, alphaT] DT ndi start s
      = (vec_sub DEtot ((cte_vector axis alphaL alphaT).map (fun x => x * DT))).bind
          (fun DEel =>
            (((L_isotrans EL ET nuTL nuTT GLT (axis : ℚ)).mul_vec DEel).bind
              (fun t => vec_add (if start then List.replicate 6 0 else s.sigma) t)).bind
              (fun sigma =>
                (vec_add (if start then List.replicate 6 0 else s.sigma) sigma).bind
                  (fun ss => (vec_mul ss DEtot).map (fun prod =>
                    ⟨sigma, L_isotrans EL ET nuTL nuTT GLT (axis : ℚ),
                      s.Wm + 1 / 2 * arma_sum prod, s.Wm_r + 1 / 2 * arma_sum prod,
                      s.Wm_ir + 0, s.Wm_d + 0⟩)))) := by
  obtain ⟨t0, t1, t2⟩ := trunc_small
  rcases hax with h | h | h
  · subst h
    simp [umat_elasticity_trans_iso, vec_get, vec_put, t0, h1, h2, cte_vector,
      List.range_succ]
  · subst h
    have e : trunc ((2 : ℚ) - 1) = 1 := by norm_num [t1]
    simp [umat_elasticity_trans_iso, vec_get, vec_put, e, h1, h2, cte_vector,
      List.range_succ]
  · subst h
    have e : trunc ((3 : ℚ) - 1) = 2 := by norm_num [t2]
    simp [umat_elasticity_trans_iso, vec_get, vec_put, e, h1, h2, cte_vector,
      List.range_succ]

/-- The chain of vector operations of the 3D branch: it goes through exactly
when the operands have the sizes of Voigt vectors and of a 6x6 stiffness, and
then the new stress is entry by entry the old one plus the stiffness applied
to the elastic strain increment. -/
theorem umat_3d_chain (Lt : mat) (σ0 DEtot α : List ℚ) (DT : ℚ) (hα : α.length = 6)
    (F : List ℚ → List ℚ → umat_vars) :
    ((DEtot.length = 6 ∧ Lt.n_rows = 6 ∧ Lt.n_cols = 6 ∧ σ0.length = 6) →
      ∃ σ prod, (vec_sub DEtot (α.map (fun x => x * DT))).bind (fun DEel =>
          ((Lt.mul_vec DEel).bind (fun t => vec_add σ0 t)).bind (fun sigma =>
            (vec_add σ0 sigma).bind (fun ss =>
              (vec_mul ss DEtot).map (fun prod => F sigma prod)))) = some (F σ prod) ∧
        σ.length = 6 ∧
        ∀ i, i < 6 → σ.getD i 0 = σ0.getD i 0
          + ∑ k in Finset.range 6, Lt.elem i k * (DEtot.getD k 0 - α.getD k 0 * DT)) ∧
    (¬ (DEtot.length = 6 ∧ Lt.n_rows = 6 ∧ Lt.n_cols = 6 ∧ σ0.length = 6) →
      (vec_sub DEtot (α.map (fun x => x * DT))).bind (fun DEel =>
          ((Lt.mul_vec DEel).bind (fun t => vec_add σ0 t)).bind (fun sigma =>
            (vec_add σ0 sigma).bind (fun ss =>
              (vec_mul ss DEtot).map (fun prod => F sigma prod)))) = none) := by
  constructor
  · rintro ⟨hD, hr, hc, hσ⟩
    obtain ⟨e0, e1, e2, e3, e4, e5, rfl⟩ := length_six hD
    obtain ⟨s0, s1, s2, s3, s4, s5, rfl⟩ := length_six hσ
    obtain ⟨a0, a1, a2, a3, a4, a5, rfl⟩ := length_six hα
    obtain ⟨r, c, mem⟩ := Lt
    simp only at hr hc
    subst hr hc
    have hsub : vec_sub [e0, e1, e2, e3, e4, e5]
          ([a0, a1, a2, a3, a4, a5].map (fun x => x * DT))
        = some [e0 - a0 * DT, e1 - a1 * DT, e2 - a2 * DT, e3 - a3 * DT, e4 - a4 * DT,
            e5 - a5 * DT] := rfl
    have hmul : (⟨6, 6, mem⟩ : mat).mul_vec [e0 - a0 * DT, e1 - a1 * DT, e2 - a2 * DT,
          e3 - a3 * DT, e4 - a4 * DT, e5 - a5 * DT]
        = some ((List.range 6).map (fun i => ((List.range 6).map (fun k =>
            (⟨6, 6, mem⟩ : mat).elem i k * [e0 - a0 * DT, e1 - a1 * DT, e2 - a2 * DT,
              e3 - a3 * DT, e4 - a4 * DT, e5 - a5 * DT].getD k 0)).sum)) := rfl
    have hadd : ∀ t : List ℚ, t.length = 6 → vec_add [s0, s1, s2, s3, s4, s5] t
        = some (List.zipWith (fun x y => x + y) [s0, s1, s2, s3, s4, s5] t) := by
      intro t ht
      simp [vec_add, ht]
    have hmulv : ∀ t : List ℚ, t.length = 6 → vec_mul t [e0, e1, e2, e3, e4, e5]
        = some (List.zipWith (fun x y => x * y) t [e0, e1, e2, e3, e4, e5]) := by
      intro t ht
      simp [vec_mul, ht]
    refine ⟨List.zipWith (fun x y => x + y) [s0, s1, s2, s3, s4, s5]
        ((List.range 6).map (fun i => ((List.range 6).map (fun k =>
            (⟨6, 6, mem⟩ : mat).elem i k * [e0 - a0 * DT, e1 - a1 * DT, e2 - a2 * DT,
              e3 - a3 * DT, e4 - a4 * DT, e5 - a5 * DT].getD k 0)).sum)),
      List.zipWith (fun x y => x * y) (List.zipWith (fun x y => x + y) [s0, s1, s2, s3, s4, s5]
        (List.zipWith (fun x y => x + y) [s0, s1, s2, s3, s4, s5]
        ((List.range 6).map (fun i => ((List.range 6).map (fun k =>
            (⟨6, 6, mem⟩ : mat).elem i k * [e0 - a0 * DT, e1 - a1 * DT, e2 - a2 * DT,
              e3 - a3 * DT, e4 - a4 * DT, e5 - a5 * DT].getD k 0)).sum))))
        [e0, e1, e2, e3, e4, e5], ?_, ?_, ?_⟩
    · rw [hsub, Option.some_bind, hmul, Option.some_bind, hadd _ (by simp), Option.some_bind,
        hadd _ (by simp), Option.some_bind, hmulv _ (by simp), Option.map_some']
    · simp
    · intro i hi
      interval_cases i <;>
        simp [Finset.sum_range_succ, List.range_succ] <;> ring
  · intro hneg
    by_cases hD : DEtot.length = 6
    · have hsub : vec_sub DEtot (α.map (fun x => x * DT))
          = some (List.zipWith (fun x y => x - y) DEtot (α.map (fun x => x * DT))) := by
        simp [vec_sub, hD, hα]
      have hlen : (List.zipWith (fun x y => x - y) DEtot (α.map (fun x => x * DT))).length = 6 := by
        simp [hD, hα]
      rw [hsub, Option.some_bind]
      by_cases hc : Lt.n_cols = 6
      · have hmul : ∃ t, Lt.mul_vec (List.zipWith (fun x y => x - y) DEtot
              (α.map (fun x => x * DT))) = some t ∧ t.length = Lt.n_rows := by
          refine ⟨(List.range Lt.n_rows).map (fun i => ((List.range Lt.n_cols).map (fun k =>
            Lt.elem i k * (List.zipWith (fun x y => x - y) DEtot
              (α.map (fun x => x * DT))).getD k 0)).sum), ?_, by simp⟩
          simp only [mat.mul_vec, hc, hlen, if_true]
        obtain ⟨t, ht, htl⟩ := hmul
        rw [ht, Option.some_bind]
        by_cases hs : σ0.length = Lt.n_rows
        · have hadd : vec_add σ0 t = some (List.zipWith (fun x y => x + y) σ0 t) := by
            simp [vec_add, hs, htl]
          rw [hadd, Option.some_bind]
          have hadd2 : vec_add σ0 (List.zipWith (fun x y => x + y) σ0 t)
              = some (List.zipWith (fun x y => x + y) σ0 (List.zipWith (fun x y => x + y) σ0 t)) := by
            simp [vec_add, hs, htl]
          rw [hadd2, Option.some_bind]
          have hr : Lt.n_rows ≠ 6 := fun h => hneg ⟨hD, h, hc, hs.trans h⟩
          have hm : vec_mul (List.zipWith (fun x y => x + y) σ0
              (List.zipWith (fun x y => x + y) σ0 t)) DEtot = none := by
            simp [vec_mul, hs, htl, hD, hr]
          rw [hm]
          rfl
        · have hadd : vec_add σ0 t = none := by simp [vec_add, htl, hs]
          rw [hadd]
          rfl
      · have hmul : Lt.mul_vec (List.zipWith (fun x y => x - y) DEtot
            (α.map (fun x => x * DT))) = none := by
          simp [mat.mul_vec, hlen, hc]
        rw [hmul]
        rfl
    · have hsub : vec_sub DEtot (α.map (fun x => x * DT)) = none := by
        simp [vec_sub, hα, hD]
      rw [hsub]
      rfl

/-- Entry `k` of the thermal expansion vector. -/
theorem cte_vector_getD (axis : Nat) (alphaL alphaT : ℚ) (k : Nat) (hk : k < 6) :
    (cte_vector axis alphaL alphaT).getD k 0
      = if k + 1 = axis then alphaL else if k < 3 then alphaT else 0 := by
  unfold cte_vector
  rw [List.getD_eq_getElem _ _ (by simpa using hk)]
  simp

/-- The 3D update of the thermoelastic law: the call returns exactly when the
operands have the sizes of Voigt vectors and of a 6x6 stiffness, with the
tangent modulus of `L_isotrans` and the stress given entry by entry. -/
theorem umat_3d_spec (L_isotrans : ℚ → ℚ → ℚ → ℚ → ℚ → ℚ → mat) (Ith DEtot props : List ℚ)
    (DT : ℚ) (ndi : Int) (start : Bool) (s : umat_vars)
    (hp : props.length = 8)
    (hax : props.getD 0 0 = 1 ∨ props.getD 0 0 = 2 ∨ props.getD 0 0 = 3)
    (h1 : ndi ≠ 1) (h2 : ndi ≠ 2) (hI : Ith = [1, 1, 1, 0, 0, 0]) :
    ∃ axis : Nat, (axis = 1 ∨ axis = 2 ∨ axis = 3) ∧ props.getD 0 0 = (axis : ℚ) ∧
      ((DEtot.length = 6 ∧
          (L_isotrans (props.getD 1 0) (props.getD 2 0) (props.getD 3 0) (props.getD 4 0)
            (props.getD 5 0) (props.getD 0 0)).n_rows = 6 ∧
          (L_isotrans (props.getD 1 0) (props.getD 2 0) (props.getD 3 0) (props.getD 4 0)
            (props.getD 5 0) (props.getD 0 0)).n_cols = 6 ∧
          (if start then List.replicate 6 0 else s.sigma).length = 6) →
        ∃ out, umat_elasticity_trans_iso L_isotrans Ith DEtot props DT ndi start s = some out ∧
          out.Lt = L_isotrans (props.getD 1 0) (props.getD 2 0) (props.getD 3 0)
            (props.getD 4 0) (props.getD 5 0) (props.getD 0 0) ∧
          out.sigma.length = 6 ∧
          ∀ i, i < 6 → out.sigma.getD i 0
            = (if start then List.replicate 6 0 else s.sigma).getD i 0
              + ∑ k in Finset.range 6, out.Lt.elem i k * (DEtot.getD k 0
                - (if k + 1 = axis then props.getD 6 0
                    else if k < 3 then props.getD 7 0 else 0) * DT)) ∧
      (¬ (DEtot.length = 6 ∧
          (L_isotrans (props.getD 1 0) (props.getD 2 0) (props.getD 3 0) (props.getD 4 0)
            (props.getD 5 0) (props.getD 0 0)).n_rows = 6 ∧
          (L_isotrans (props.getD 1 0) (props.getD 2 0) (props.getD 3 0) (props.getD 4 0)
            (props.getD 5 0) (props.getD 0 0)).n_cols = 6 ∧
          (if start then List.replicate 6 0 else s.sigma).length = 6) →
        umat_elasticity_trans_iso L_isotrans Ith DEtot props DT ndi start s = none) := by
  obtain ⟨p0, EL, ET, nuTL, nuTT, GLT, alphaL, alphaT, rfl⟩ := length_eight hp
  subst hI
  have hex : ∃ axis : Nat, (axis = 1 ∨ axis = 2 ∨ axis = 3) ∧ p0 = (axis : ℚ) := by
    rcases hax with h | h | h
    · exact ⟨1, Or.inl rfl, by simpa using h⟩
    · exact ⟨2, Or.inr (Or.inl rfl), by simpa using h⟩
    · exact ⟨3, Or.inr (Or.inr rfl), by simpa using h⟩
  obtain ⟨axis, ha, rfl⟩ := hex
  refine ⟨axis, ha, rfl, ?_⟩
  have hrun := umat_3d_axis L_isotrans DEtot DT ndi start s axis EL ET nuTL nuTT GLT
    alphaL alphaT ha h1 h2
  have hlen : (cte_vector axis alphaL alphaT).length = 6 := by simp [cte_vector]
  obtain ⟨hpos, hneg⟩ := umat_3d_chain (L_isotrans EL ET nuTL nuTT GLT (axis : ℚ))
    (if start then List.replicate 6 0 else s.sigma) DEtot (cte_vector axis alphaL alphaT) DT hlen
    (fun sigma prod => ⟨sigma, L_isotrans EL ET nuTL nuTT GLT (axis : ℚ),
      s.Wm + 1 / 2 * arma_sum prod, s.Wm_r + 1 / 2 * arma_sum prod, s.Wm_ir + 0, s.Wm_d + 0⟩)
  simp only [List.getD_cons_zero, List.getD_cons_succ]
  constructor
  · intro hsz
    obtain ⟨σ, prod, hσ, hl, hv⟩ := hpos hsz
    refine ⟨_, hrun.trans hσ, rfl, hl, ?_⟩
    intro i hi
    rw [hv i hi]
    refine congrArg (fun t => _ + t) (Finset.sum_congr rfl ?_)
    intro k hk
    rw [cte_vector_getD axis alphaL alphaT k (Finset.mem_range.mp hk)]
  · intro hsz
    exact hrun.trans (hneg hsz)

/-! ## Control file of the identification: what is accepted -/

/-- The last reads of `ident_control` leave the integer settings alone. -/
theorem ident_control_tail_ints (v : ident_vars) (s : ifstream) :
    (ident_control_tail v s).aleaspace = v.aleaspace ∧
      (ident_control_tail v s).spop = v.spop ∧
      (ident_control_tail v s).n_param = v.n_param ∧
      (ident_control_tail v s).maxpop = v.maxpop ∧
      (ident_control_tail v s).ngboys = v.ngboys :=
  ⟨rfl, rfl, rfl, rfl, rfl⟩

/-- The checks of `ident_control`: what holds of the settings that pass. -/
theorem ident_control_sizes_ok (v : ident_vars) (s : ifstream)
    (sz : ident_vars × ifstream) (h : ident_control_sizes v s = Except.ok sz) :
    ((sz.1.aleaspace = 0 ∨ sz.1.aleaspace = 1) → sz.1.maxpop ≤ sz.1.spop * sz.1.n_param) ∧
      sz.1.ngboys ≤ sz.1.maxpop := by
  unfold ident_control_sizes at h
  simp only at h
  split_ifs at h with c1 c2 c3
  · have e := Except.ok.inj h
    subst e
    refine ⟨fun hm => ?_, not_lt.mp c3⟩
    by_contra hgt
    exact c1 ⟨hm, not_le.mp hgt⟩

/-- Every configuration accepted by `ident_control` in the modes 0 and 1
satisfies `maxpop <= spop * n_param` and `ngboys <= maxpop`. -/
theorem ident_control_accepted (file : Option (List line)) (v w : ident_vars)
    (h : ident_control file v = Except.ok w) (hm : w.aleaspace = 0 ∨ w.aleaspace = 1) :
    w.maxpop ≤ w.spop * w.n_param ∧ w.ngboys ≤ w.maxpop := by
  unfold ident_control at h
  cases file with
  | none => exact absurd h (by simp)
  | some f =>
    simp only at h
    cases hsp : ident_control_space (ident_control_head v (ifstream_open f)).1
        (ident_control_head v (ifstream_open f)).2 with
    | error e => rw [hsp] at h; exact absurd h (by simp)
    | ok sp =>
      rw [hsp] at h
      simp only at h
      cases hsz : ident_control_sizes sp.1 sp.2 with
      | error e => rw [hsz] at h; exact absurd h (by simp)
      | ok sz =>
        rw [hsz] at h
        simp only at h
        have e := Except.ok.inj h
        subst e
        obtain ⟨t1, t2, t3, t4, t5⟩ := ident_control_tail_ints sz.1 sz.2
        obtain ⟨k1, k2⟩ := ident_control_sizes_ok sp.1 sp.2 sz hsz
        rw [t1] at hm
        rw [t2, t3, t4, t5]
        exact ⟨k1 hm, k2⟩

/-- A control file with two parameters, mode 0, one level per parameter,
`ngboys = 1` and `maxpop = 2` is accepted. -/
theorem ident_control_small_grid :
    ident_control (some [⟨[token.word, token.int 2], false⟩, ⟨[token.word, token.int 0], false⟩,
        ⟨[token.word, token.int 1], false⟩, ⟨[token.word, token.int 1], false⟩,
        ⟨[token.word, token.int 0], false⟩, ⟨[token.word, token.int 1], false⟩,
        ⟨[token.word, token.int 1], false⟩, ⟨[token.word, token.int 2], false⟩,
        ⟨[token.word, token.real (1 / 100)], false⟩, ⟨[token.word, token.real (1 / 1000)], false⟩,
        ⟨[token.word, token.int 1, token.int 1], false⟩, ⟨[token.word, token.int 1], false⟩,
        ⟨[token.word, token.real (1 / 1000)], false⟩])
        ⟨0, 0, 0, 0, 0, 0, 0, 0, 0, 0, 0, 0, 0, 0, 0⟩
      = Except.ok ⟨2, 0, 1, 1, 0, 0, 1, 1, 2, 1 / 100, 1 / 1000, 1, 1, 1, 1 / 1000⟩ := by
  rfl

/-- The first generation built by `gen_initialize` in mode 0 with one level
and two parameters holds a single candidate. -/
theorem gen_initialize_small_grid {σ : Type} (alead : ℚ → ℚ → σ → ℚ × σ)
    (gen0 : Option (List line)) (rng : σ) :
    gen_initialize generation.construct alead gen0
        (⟨⟨0, []⟩, 1, 0, 0, rng⟩ : gen_vars σ) 0 2 [⟨0, 1⟩, ⟨0, 1⟩]
      = Except.ok ⟨⟨1, [⟨[1 / 2, 1 / 2], 0, 0⟩]⟩, 1, 0, 1, rng⟩ := by
  rw [gen_initialize_zero]
  have r1 : List.range 1 = [0] := rfl
  have hm : doe_uniform 1 2 [⟨0, 1⟩, ⟨0, 1⟩] = ⟨1, 2, [1 / 2, 1 / 2]⟩ := by
    simp [doe_uniform, doe_uniform_col, doe_uniform_row, doe_uniform_next,
      doe_uniform_value, zeros, mat.set, param_at, List.range_succ, r1]
  simp only [gen_branch_uniform, hm]
  simp [gen_fill, generation.construct, generation.set_p, mat.elem, List.range_succ, r1]

/-! ## Claims on the Hill operator, the thermoelastic law, the control file,
the Voigt round trips and the flow direction -/

/-- Claim C31. For a vector `a` of three entries the matrix `A = a*trans(a)` of
`p_ikjl` is 3x3, while the table `Id` sends the pair `(0,1)` to the index 3:
the access `A(ik,jl)` of the iteration `i = j = k = 0`, `l = 1` is `A(0,3)`,
out of bounds, and the call has no result. For a vector of six entries every
access is within bounds and the result is a 6x6 matrix. -/
theorem C31_p_ikjl_bounds (a : List ℚ) :
    (a.length = 3 →
      (outer a).n_rows = 3 ∧ (outer a).n_cols = 3 ∧
      trunc (p_ikjl_Id.elem 0 0) = 0 ∧ trunc (p_ikjl_Id.elem 0 1) = 3 ∧
      (outer a).get 0 3 = none ∧
      (∀ F, p_ikjl_step (outer a) p_ikjl_Id 0 0 0 1 F = none) ∧
      p_ikjl a = none) ∧
    (a.length = 6 → ∃ F, p_ikjl a = some F ∧ F.n_rows = 6 ∧ F.n_cols = 6) := by
  constructor
  · intro h
    match a, h with
    | [x, y, z], _ =>
      exact ⟨rfl, rfl, rfl, rfl, rfl, fun _ => rfl, p_ikjl_three x y z⟩
  · intro h
    obtain ⟨a0, a1, a2, a3, a4, a5, rfl⟩ := length_six h
    exact p_ikjl_six a0 a1 a2 a3 a4 a5

/-- Run of `p_ikjl` on the normal `(1, 0, 0)` and on a vector of six entries. -/
theorem C31_p_ikjl_bounds_witness :
    (([1, 0, 0] : List ℚ).length = 3 ∧ p_ikjl [1, 0, 0] = none) ∧
    (([1, 0, 0, 0, 0, 0] : List ℚ).length = 6 ∧
      ∃ F, p_ikjl [1, 0, 0, 0, 0, 0] = some F ∧ F.n_rows = 6 ∧ F.n_cols = 6) :=
  ⟨⟨rfl, ((C31_p_ikjl_bounds [1, 0, 0]).1 rfl).2.2.2.2.2.2⟩,
    ⟨rfl, (C31_p_ikjl_bounds [1, 0, 0, 0, 0, 0]).2 rfl⟩⟩

/-- Claim C32. For every call of `umat_elasticity_trans_iso` with `ndi` other
than 1 and 2, eight material constants and `axis = props(0)` equal to 1, 2 or
3 (and `Ith()` the vector `(1,1,1,0,0,0)`): when `DEtot` and the starting
stress have six entries and `L_isotrans` returns a 6x6 matrix, the call
returns with `Lt = L_isotrans(EL, ET, nuTL, nuTT, GLT, axis)` and, for each
`i < 6`, `sigma(i) = sigma_start(i) + sum_k Lt(i,k) * (DEtot(k) - alpha(k)*DT)`,
where `alpha(k)` is `props(6)` for `k = axis-1`, `props(7)` for the two other
normal components and zero for the shear components, and `sigma_start` is the
incoming stress, or zero when `start` is true; with operands of other sizes
the sum, difference or product of the code is not defined and the call has
no result. -/
theorem C32_umat_trans_iso_3d (L_isotrans : ℚ → ℚ → ℚ → ℚ → ℚ → ℚ → mat)
    (Ith DEtot props : List ℚ) (DT : ℚ) (ndi : Int) (start : Bool) (s : umat_vars)
    (hp : props.length = 8)
    (hax : props.getD 0 0 = 1 ∨ props.getD 0 0 = 2 ∨ props.getD 0 0 = 3)
    (h1 : ndi ≠ 1) (h2 : ndi ≠ 2) (hI : Ith = [1, 1, 1, 0, 0, 0]) :
    ∃ axis : Nat, (axis = 1 ∨ axis = 2 ∨ axis = 3) ∧ props.getD 0 0 = (axis : ℚ) ∧
      ((DEtot.length = 6 ∧
          (L_isotrans (props.getD 1 0) (props.getD 2 0) (props.getD 3 0) (props.getD 4 0)
            (props.getD 5 0) (props.getD 0 0)).n_rows = 6 ∧
          (L_isotrans (props.getD 1 0) (props.getD 2 0) (props.getD 3 0) (props.getD 4 0)
            (props.getD 5 0) (props.getD 0 0)).n_cols = 6 ∧
          (if start then List.replicate 6 0 else s.sigma).length = 6) →
        ∃ out, umat_elasticity_trans_iso L_isotrans Ith DEtot props DT ndi start s = some out ∧
          out.Lt = L_isotrans (props.getD 1 0) (props.getD 2 0) (props.getD 3 0)
            (props.getD 4 0) (props.getD 5 0) (props.getD 0 0) ∧
          out.sigma.length = 6 ∧
          ∀ i, i < 6 → out.sigma.getD i 0
            = (if start then List.replicate 6 0 else s.sigma).getD i 0
              + ∑ k in Finset.range 6, out.Lt.elem i k * (DEtot.getD k 0
                - (if k + 1 = axis then props.getD 6 0
                    else if k < 3 then props.getD 7 0 else 0) * DT)) ∧
      (¬ (DEtot.length = 6 ∧
          (L_isotrans (props.getD 1 0) (props.getD 2 0) (props.getD 3 0) (props.getD 4 0)
            (props.getD 5 0) (props.getD 0 0)).n_rows = 6 ∧
          (L_isotrans (props.getD 1 0) (props.getD 2 0) (props.getD 3 0) (props.getD 4 0)
            (props.getD 5 0) (props.getD 0 0)).n_cols = 6 ∧
          (if start then List.replicate 6 0 else s.sigma).length = 6) →
        umat_elasticity_trans_iso L_isotrans Ith DEtot props DT ndi start s = none) :=
  umat_3d_spec L_isotrans Ith DEtot props DT ndi start s hp hax h1 h2 hI

/-- A 3D call with the axis 2, a stiffness equal to twice the identity plus the
entry `L(0,1) = 1`, a strain increment `(1, 1, 0, 0, 0, 0)`, expansion
coefficients `1/10` along the axis and `1/5` across, and a temperature
increment of 1: the elastic strain increment is `(4/5, 9/10, -1/5, 0, 0, 0)`
and the stress is `(2 * 4/5 + 9/10, 2 * 9/10, -2/5, 0, 0, 0)`. -/
theorem C32_umat_trans_iso_3d_witness :
    (([2, 1, 1, 0, 0, 1, 1 / 10, 1 / 5] : List ℚ).length = 8 ∧
      ([2, 1, 1, 0, 0, 1, 1 / 10, 1 / 5] : List ℚ).getD 0 0 = 2 ∧
      (3 : Int) ≠ 1 ∧ (3 : Int) ≠ 2 ∧
      umat_elasticity_trans_iso stiffness_example [1, 1, 1, 0, 0, 0] [1, 1, 0, 0, 0, 0]
          [2, 1, 1, 0, 0, 1, 1 / 10, 1 / 5] 1 3 true ⟨[], ⟨0, 0, []⟩, 0, 0, 0, 0⟩
        = some ⟨[5 / 2, 9 / 5, -2 / 5, 0, 0, 0], stiffness_example 1 1 0 0 1 2,
            43 / 20, 43 / 20, 0, 0⟩) ∧
    ∃ axis : Nat, (axis = 1 ∨ axis = 2 ∨ axis = 3) ∧ ([2, 1, 1, 0, 0, 1, 1 / 10, 1 / 5] : List ℚ).getD 0 0 = (axis : ℚ) ∧
      ((([1, 1, 0, 0, 0, 0] : List ℚ).length = 6 ∧
          (stiffness_example (([2, 1, 1, 0, 0, 1, 1 / 10, 1 / 5] : List ℚ).getD 1 0) (([2, 1, 1, 0, 0, 1, 1 / 10, 1 / 5] : List ℚ).getD 2 0) (([2, 1, 1, 0, 0, 1, 1 / 10, 1 / 5] : List ℚ).getD 3 0) (([2, 1, 1, 0, 0, 1, 1 / 10, 1 / 5] : List ℚ).getD 4 0)
            (([2, 1, 1, 0, 0, 1, 1 / 10, 1 / 5] : List ℚ).getD 5 0) (([2, 1, 1, 0, 0, 1, 1 / 10, 1 / 5] : List ℚ).getD 0 0)).n_rows = 6 ∧
          (stiffness_example (([2, 1, 1, 0, 0, 1, 1 / 10, 1 / 5] : List ℚ).getD 1 0) (([2, 1, 1, 0, 0, 1, 1 / 10, 1 / 5] : List ℚ).getD 2 0) (([2, 1, 1, 0, 0, 1, 1 / 10, 1 / 5] : List ℚ).getD 3 0) (([2, 1, 1, 0, 0, 1, 1 / 10, 1 / 5] : List ℚ).getD 4 0)
            (([2, 1, 1, 0, 0, 1, 1 / 10, 1 / 5] : List ℚ).getD 5 0) (([2, 1, 1, 0, 0, 1, 1 / 10, 1 / 5] : List ℚ).getD 0 0)).n_cols = 6 ∧
          (if true then List.replicate 6 0 else (⟨[], ⟨0, 0, []⟩, 0, 0, 0, 0⟩ : umat_vars).sigma).length = 6) →
        ∃ out, umat_elasticity_trans_iso stiffness_example [1, 1, 1, 0, 0, 0] ([1, 1, 0, 0, 0, 0] : List ℚ) ([2, 1, 1, 0, 0, 1, 1 / 10, 1 / 5] : List ℚ) 1 3 true (⟨[], ⟨0, 0, []⟩, 0, 0, 0, 0⟩ : umat_vars) = some out ∧
          out.Lt = stiffness_example (([2, 1, 1, 0, 0, 1, 1 / 10, 1 / 5] : List ℚ).getD 1 0) (([2, 1, 1, 0, 0, 1, 1 / 10, 1 / 5] : List ℚ).getD 2 0) (([2, 1, 1, 0, 0, 1, 1 / 10, 1 / 5] : List ℚ).getD 3 0)
            (([2, 1, 1, 0, 0, 1, 1 / 10, 1 / 5] : List ℚ).getD 4 0) (([2, 1, 1, 0, 0, 1, 1 / 10, 1 / 5] : List ℚ).getD 5 0) (([2, 1, 1, 0, 0, 1, 1 / 10, 1 / 5] : List ℚ).getD 0 0) ∧
          out.sigma.length = 6 ∧
          ∀ i, i < 6 → out.sigma.getD i 0
            = (if true then List.replicate 6 0 else (⟨[], ⟨0, 0, []⟩, 0, 0, 0, 0⟩ : umat_vars).sigma).getD i 0
              + ∑ k in Finset.range 6, out.Lt.elem i k * (([1, 1, 0, 0, 0, 0] : List ℚ).getD k 0
                - (if k + 1 = axis then ([2, 1, 1, 0, 0, 1, 1 / 10, 1 / 5] : List ℚ).getD 6 0
                    else if k < 3 then ([2, 1, 1, 0, 0, 1, 1 / 10, 1 / 5] : List ℚ).getD 7 0 else 0) * 1)) ∧
      (¬ (([1, 1, 0, 0, 0, 0] : List ℚ).length = 6 ∧
          (stiffness_example (([2, 1, 1, 0, 0, 1, 1 / 10, 1 / 5] : List ℚ).getD 1 0) (([2, 1, 1, 0, 0, 1, 1 / 10, 1 / 5] : List ℚ).getD 2 0) (([2, 1, 1, 0, 0, 1, 1 / 10, 1 / 5] : List ℚ).getD 3 0) (([2, 1, 1, 0, 0, 1, 1 / 10, 1 / 5] : List ℚ).getD 4 0)
            (([2, 1, 1, 0, 0, 1, 1 / 10, 1 / 5] : List ℚ).getD 5 0) (([2, 1, 1, 0, 0, 1, 1 / 10, 1 / 5] : List ℚ).getD 0 0)).n_rows = 6 ∧
          (stiffness_example (([2, 1, 1, 0, 0, 1, 1 / 10, 1 / 5] : List ℚ).getD 1 0) (([2, 1, 1, 0, 0, 1, 1 / 10, 1 / 5] : List ℚ).getD 2 0) (([2, 1, 1, 0, 0, 1, 1 / 10, 1 / 5] : List ℚ).getD 3 0) (([2, 1, 1, 0, 0, 1, 1 / 10, 1 / 5] : List ℚ).getD 4 0)
            (([2, 1, 1, 0, 0, 1, 1 / 10, 1 / 5] : List ℚ).getD 5 0) (([2, 1, 1, 0, 0, 1, 1 / 10, 1 / 5] : List ℚ).getD 0 0)).n_cols = 6 ∧
          (if true then List.replicate 6 0 else (⟨[], ⟨0, 0, []⟩, 0, 0, 0, 0⟩ : umat_vars).sigma).length = 6) →
        umat_elasticity_trans_iso stiffness_example [1, 1, 1, 0, 0, 0] ([1, 1, 0, 0, 0, 0] : List ℚ) ([2, 1, 1, 0, 0, 1, 1 / 10, 1 / 5] : List ℚ) 1 3 true (⟨[], ⟨0, 0, []⟩, 0, 0, 0, 0⟩ : umat_vars) = none) :=
  ⟨⟨rfl, rfl, by decide, by decide, by
      have e : trunc ((2 : ℚ) - 1) = 1 := by norm_num [trunc_small.2.1]
      simp [umat_elasticity_trans_iso, vec_get, vec_put, e, vec_sub, vec_add, vec_mul,
        mat.mul_vec, stiffness_example, mat.elem, arma_sum, List.range_succ]
      norm_num⟩,
    C32_umat_trans_iso_3d stiffness_example [1, 1, 1, 0, 0, 0] [1, 1, 0, 0, 0, 0]
      [2, 1, 1, 0, 0, 1, 1 / 10, 1 / 5] 1 3 true ⟨[], ⟨0, 0, []⟩, 0, 0, 0, 0⟩
      rfl (Or.inr (Or.inl rfl)) (by decide) (by decide) rfl⟩

/-- Claim C33. Every configuration accepted by `ident_control` with
`aleaspace` 0 or 1 satisfies `maxpop <= spop * n_param` and
`ngboys <= maxpop`, a product where the first generation of `gen_initialize`
has `spop ^ n_param` candidates. The control file with `n_param = 2`,
`aleaspace = 0`, `spop = 1`, `ngboys = 1` and `maxpop = 2` is accepted, and
`gen_initialize` then builds a single candidate: `maxpop` exceeds the size of
the first generation. -/
theorem C33_ident_control_first_generation {σ : Type} (alead : ℚ → ℚ → σ → ℚ × σ)
    (gen0 : Option (List line)) (rng : σ) :
    (∀ (file : Option (List line)) (v w : ident_vars),
      ident_control file v = Except.ok w → (w.aleaspace = 0 ∨ w.aleaspace = 1) →
      w.maxpop ≤ w.spop * w.n_param ∧ w.ngboys ≤ w.maxpop) ∧
    ident_control (some [⟨[token.word, token.int 2], false⟩, ⟨[token.word, token.int 0], false⟩,
        ⟨[token.word, token.int 1], false⟩, ⟨[token.word, token.int 1], false⟩,
        ⟨[token.word, token.int 0], false⟩, ⟨[token.word, token.int 1], false⟩,
        ⟨[token.word, token.int 1], false⟩, ⟨[token.word, token.int 2], false⟩,
        ⟨[token.word, token.real (1 / 100)], false⟩, ⟨[token.word, token.real (1 / 1000)], false⟩,
        ⟨[token.word, token.int 1, token.int 1], false⟩, ⟨[token.word, token.int 1], false⟩,
        ⟨[token.word, token.real (1 / 1000)], false⟩])
        ⟨0, 0, 0, 0, 0, 0, 0, 0, 0, 0, 0, 0, 0, 0, 0⟩
      = Except.ok ⟨2, 0, 1, 1, 0, 0, 1, 1, 2, 1 / 100, 1 / 1000, 1, 1, 1, 1 / 1000⟩ ∧
    gen_initialize generation.construct alead gen0
        (⟨⟨0, []⟩, 1, 0, 0, rng⟩ : gen_vars σ) 0 2 [⟨0, 1⟩, ⟨0, 1⟩]
      = Except.ok ⟨⟨1, [⟨[1 / 2, 1 / 2], 0, 0⟩]⟩, 1, 0, 1, rng⟩ ∧
    (1 : Nat) ^ 2 = 1 ∧ ¬ ((2 : Int) ≤ ((1 ^ 2 : Nat) : Int)) :=
  ⟨ident_control_accepted, ident_control_small_grid,
    gen_initialize_small_grid alead gen0 rng, by decide, by decide⟩

/-- The accepted control file with `spop = 1`, `n_param = 2` and `maxpop = 2`
meets the bound on the product, `2 <= 1 * 2`. -/
theorem C33_ident_control_first_generation_witness :
    (2 : Int) ≤ 1 * 2 ∧ (1 : Int) ≤ 2 :=
  (C33_ident_control_first_generation (fun (a b : ℚ) (s : Nat) => ((a + b) / 2, s + 1))
    none 0).1 _ ⟨0, 0, 0, 0, 0, 0, 0, 0, 0, 0, 0, 0, 0, 0, 0⟩
    ⟨2, 0, 1, 1, 0, 0, 1, 1, 2, 1 / 100, 1 / 1000, 1, 1, 1, 1 / 1000⟩
    ident_control_small_grid (Or.inl rfl)

/-- Claim C34. For every vector `v` of six entries, `v2t_stress(v)` and
`v2t_strain(v)` are symmetric 3x3 matrices with `t2v_stress(v2t_stress(v)) = v`
and `t2v_strain(v2t_strain(v)) = v`; and for every symmetric 3x3 matrix `M`,
`v2t_stress(t2v_stress(M)) = M` and `v2t_strain(t2v_strain(M)) = M`. -/
theorem C34_voigt_round_trips (v : List ℚ) (M : mat) (hv : v.length = 6)
    (hr : M.n_rows = 3) (hc : M.n_cols = 3) (hw : M.wf)
    (hsym : ∀ i j, i < 3 → j < 3 → M.elem i j = M.elem j i) :
    ((∃ s, v2t_stress v = some s ∧ s.n_rows = 3 ∧ s.n_cols = 3 ∧ s.wf ∧
        (∀ i j, i < 3 → j < 3 → s.elem i j = s.elem j i) ∧ t2v_stress s = some v) ∧
      (∃ e, v2t_strain v = some e ∧ e.n_rows = 3 ∧ e.n_cols = 3 ∧ e.wf ∧
        (∀ i j, i < 3 → j < 3 → e.elem i j = e.elem j i) ∧ t2v_strain e = some v)) ∧
    ((∃ u, t2v_stress M = some u ∧ u.length = 6 ∧ v2t_stress u = some M) ∧
      (∃ u, t2v_strain M = some u ∧ u.length = 6 ∧ v2t_strain u = some M)) :=
  ⟨voigt_round_trip_vec v hv, voigt_round_trip_mat M hr hc hw hsym⟩

/-- Round trips of the vector `(1, 2, 3, 4, 5, 6)` and of the symmetric matrix
with rows `(1, 4, 5)`, `(4, 2, 6)`, `(5, 6, 3)`. -/
theorem C34_voigt_round_trips_witness :
    (([1, 2, 3, 4, 5, 6] : List ℚ).length = 6 ∧
      (⟨3, 3, [1, 4, 5, 4, 2, 6, 5, 6, 3]⟩ : mat).wf ∧
      v2t_stress [1, 2, 3, 4, 5, 6] = some ⟨3, 3, [1, 4, 5, 4, 2, 6, 5, 6, 3]⟩) ∧
    (∃ s, v2t_stress [1, 2, 3, 4, 5, 6] = some s ∧ s.n_rows = 3 ∧ s.n_cols = 3 ∧ s.wf ∧
        (∀ i j, i < 3 → j < 3 → s.elem i j = s.elem j i) ∧
        t2v_stress s = some [1, 2, 3, 4, 5, 6]) ∧
    (∃ u, t2v_strain ⟨3, 3, [1, 4, 5, 4, 2, 6, 5, 6, 3]⟩ = some u ∧ u.length = 6 ∧
        v2t_strain u = some ⟨3, 3, [1, 4, 5, 4, 2, 6, 5, 6, 3]⟩) :=
  ⟨⟨rfl, rfl, rfl⟩,
    (C34_voigt_round_trips [1, 2, 3, 4, 5, 6] ⟨3, 3, [1, 4, 5, 4, 2, 6, 5, 6, 3]⟩ rfl rfl rfl rfl
      (fun i j hi hj => by interval_cases i <;> interval_cases j <;> rfl)).1.1,
    (C34_voigt_round_trips [1, 2, 3, 4, 5, 6] ⟨3, 3, [1, 4, 5, 4, 2, 6, 5, 6, 3]⟩ rfl rfl rfl rfl
      (fun i j hi hj => by interval_cases i <;> interval_cases j <;> rfl)).2.2⟩

end smart
